import Mathlib

/-!
# Sylverant ship server: enemy translation and per-session enemy lists

A shallow embedding of `src/mapdata.c`: the enemy translator `parse_map`, and
the two session assemblers `bb_load_game_enemies` and `v2_load_game_enemies`.

Conventions of the embedding.

* C unsigned 32-bit counters (`count`, `enemies`, `index`) are natural numbers
  reduced modulo `2^32` after every addition.
* A C buffer is a list of the slots whose content is defined.  A function
  that would read or write outside a buffer returns `none` (undefined
  behaviour); otherwise it returns `some` of its return code and its outputs.
* `malloc` outcomes are explicit boolean inputs.
* The header files are not among the sources: the record types are modelled
  with the fields this file uses, and the constants of `lobby.h` are
  parameters (`lobby_consts`).

The definitions come first (the embedding, then the notions used to state
the properties), the lemmas and the claims follow.
-/

namespace mapdata

/-! ## Data model (declared in `mapdata.h` and `lobby.h`) -/

/-- Modelled from the spec: `map_enemy_t` (RawEnemyRecord) is declared in
`mapdata.h`, which is not among the sources.  The four fields that
`parse_map` reads: the species code `base` (32 bits), the clone count
`num_clones` (16 bits), the word `reserved[10]` holding the rarity bit
`0x800000` (32 bits) and the subtype `skin` (32 bits). -/
structure map_enemy_t where
  base : Nat
  num_clones : Nat
  reserved10 : Nat
  skin : Nat
deriving DecidableEq

/-- Modelled from the spec: `game_enemy_t` (TranslatedEnemy) is declared in
`mapdata.h`.  The two fields this file writes: the combat-parameter row
`bp_entry` and the loot row `rt_index` (8 bits, `0xFF` being `(uint8_t)-1`). -/
structure game_enemy_t where
  bp_entry : Nat
  rt_index : Nat
deriving DecidableEq

/-- Modelled from the spec: `game_enemies_t` (MapVariantEntry, SessionEnemySet)
is declared in `mapdata.h`: a `count` and a pointer `enemies`.  Here `enemies`
lists the slots of the pointed-to buffer whose content is defined. -/
structure game_enemies_t where
  count : Nat
  enemies : List game_enemy_t
deriving DecidableEq

/-- Reduction of an unsigned 32-bit value. -/
def u32 (n : Nat) : Nat := n % 4294967296

/-! ## `parse_map` (mapdata.c, lines 166-642) -/

/-- The local state of `parse_map`: the scratch buffer `gen` and the slot
counter `count`.  `gen k` is meaningful for `k < 0xB50` only; every write is
bounds-checked against that capacity. -/
structure scratch where
  gen : Nat → game_enemy_t
  count : Nat

/-- The state after `malloc` and `memset(gen, 0, ...)`, with `count = 0`. -/
def scratch.init : scratch := ⟨fun _ => ⟨0, 0⟩, 0⟩

/-- The assignment `gen[idx].bp_entry = v`. -/
def set_bp_entry (s : scratch) (idx v : Nat) : Option scratch :=
  if idx < 0xB50 then
    some { s with gen := fun k => if k = idx then { s.gen k with bp_entry := v } else s.gen k }
  else none

/-- The assignment `gen[idx].rt_index = v`. -/
def set_rt_index (s : scratch) (idx v : Nat) : Option scratch :=
  if idx < 0xB50 then
    some { s with gen := fun k => if k = idx then { s.gen k with rt_index := v } else s.gen k }
  else none

/-- The pair of assignments `gen[count + off].bp_entry = bp;
gen[count + off].rt_index = rt;`. -/
def put (s : scratch) (off bp rt : Nat) : Option scratch :=
  (set_bp_entry s (u32 (s.count + off)) bp).bind fun s1 =>
    set_rt_index s1 (u32 (s.count + off)) rt

/-- The statement `count += n` (with `++count` for `n = 1`). -/
def bump (s : scratch) (n : Nat) : scratch := { s with count := u32 (s.count + n) }

/-- The loop `for(j = 0; j < n; ++j) { ++count; gen[count].bp_entry = bp;
gen[count].rt_index = rt; }` of the species with fixed companions. -/
def companions (bp rt : Nat) : Nat → scratch → Option scratch
  | 0, s => some s
  | n + 1, s => (put (bump s 1) 0 bp rt).bind (companions bp rt n)

/-- The loop `for(j = 0; j < n; ++j) { ++count; gen[count].bp_entry = bp; }`
of Dark Falz (species 0x00C8). -/
def helpers (bp : Nat) : Nat → scratch → Option scratch
  | 0, s => some s
  | n + 1, s => (set_bp_entry (bump s 1) (u32 (s.count + 1)) bp).bind (helpers bp n)

/-- The loop `for(j = 1; j <= num_clones; ++j) { gen[count + j].bp_entry =
0x42; gen[count + j].rt_index = 0x44; }` of species 0x00DF, entered at `j`
with `n` iterations left. -/
def recons : Nat → Nat → scratch → Option scratch
  | 0, _, s => some s
  | n + 1, j, s => (put s j 0x42 0x44).bind (recons n (j + 1))

/-- The rarity test `(en[i].reserved[10] & 0x800000) ? 1 : 0`. -/
def rare (r : map_enemy_t) : Nat := if r.reserved10 &&& 0x800000 ≠ 0 then 1 else 0

/-- The body of the `switch(en[i].base)` of `parse_map` for one record: the
writes to `gen` and the changes of `count` made inside the switch. -/
def parse_enemy (ep alt : Int) (r : map_enemy_t) (s : scratch) : Option scratch :=
  match r.base with
  | 0x0040 =>    /- Hildebear & Hildetorr -/
    let acc := r.skin &&& 0x01
    put s 0 (0x49 + acc) (0x01 + acc)
  | 0x0041 =>    /- Rappies -/
    let acc := r.skin &&& 0x01
    if ep = 3 then
      if alt ≠ 0 then put s 0 (0x17 + acc) (0x11 + acc)
      else put s 0 (0x05 + acc) (0x11 + acc)
    else
      if acc ≠ 0 then
        if ep = 1 then put s 0 0x19 0x06
        else put s 0 0x19 0xFF
      else put s 0 0x18 0x05
  | 0x0042 =>    /- Monest + 30 Mothmants -/
    (put s 0 0x01 0x04).bind (companions 0x00 0x03 30)
  | 0x0043 =>    /- Savage Wolf & Barbarous Wolf -/
    let acc := rare r
    put s 0 (0x02 + acc) (0x07 + acc)
  | 0x0044 =>    /- Booma family -/
    let acc := r.skin % 3
    put s 0 (0x4B + acc) (0x09 + acc)
  | 0x0060 =>    /- Grass Assassin -/
    put s 0 0x4E 0x0C
  | 0x0061 =>    /- Del Lily, Poison Lily, Nar Lily -/
    if ep = 2 ∧ alt ≠ 0 then put s 0 0x25 0x53
    else
      let acc := rare r
      put s 0 (0x04 + acc) (0x0D + acc)
  | 0x0062 =>    /- Nano Dragon -/
    put s 0 0x1A 0x0E
  | 0x0063 =>    /- Shark Family -/
    let acc := r.skin % 3
    put s 0 (0x4F + acc) (0x10 + acc)
  | 0x0064 =>    /- Slime + 4 clones -/
    let acc := rare r
    (put s 0 (0x30 - acc) (0x13 + acc)).bind (companions 0x30 0x13 4)
  | 0x0065 =>    /- Pan Arms, Migium, Hidoom -/
    ((put s 0 (0x31 + 0) (0x15 + 0)).bind fun s0 =>
      (put s0 1 (0x31 + 1) (0x15 + 1)).bind fun s1 =>
        put s1 2 (0x31 + 2) (0x15 + 2)).map fun s2 => bump s2 2
  | 0x0080 =>    /- Dubchic & Gilchic -/
    let acc := r.skin &&& 0x01
    put s 0 (0x1B + acc) ((0x18 + acc) <<< acc)
  | 0x0081 =>    /- Garanz -/
    put s 0 0x1D 0x19
  | 0x0082 =>    /- Sinow Beat & Sinow Gold -/
    if rare r ≠ 0 then put s 0 0x13 0x1B
    else put s 0 0x06 0x1A
  | 0x0083 =>    /- Canadine -/
    put s 0 0x07 0x1C
  | 0x0084 =>    /- Canadine Group -/
    (put s 0 0x09 0x1D).bind (companions 0x08 0x1C 8)
  | 0x0085 =>    /- Dubwitch -/
    some s
  | 0x00A0 =>    /- Delsaber -/
    put s 0 0x52 0x1E
  | 0x00A1 =>    /- Chaos Sorcerer + 2 Bits -/
    (put s 0 0x0A 0x1F).map fun s1 => bump s1 2
  | 0x00A2 =>    /- Dark Gunner -/
    put s 0 0x1E 0x22
  | 0x00A3 =>    /- Death Gunner? -/
    some s
  | 0x00A4 =>    /- Chaos Bringer -/
    put s 0 0x0D 0x24
  | 0x00A5 =>    /- Dark Belra -/
    put s 0 0x0E 0x25
  | 0x00A6 =>    /- Dimenian Family -/
    let acc := r.skin % 3
    put s 0 (0x53 + acc) (0x29 + acc)
  | 0x00A7 =>    /- Bulclaw + 4 Claws -/
    (put s 0 0x1F 0x28).bind (companions 0x20 0x26 4)
  | 0x00A8 =>    /- Claw -/
    put s 0 0x20 0x26
  | 0x00C0 =>    /- Dragon or Gal Gryphon -/
    if ep = 1 then put s 0 0x12 0x2C
    else put s 0 0x1E 0x4D
  | 0x00C1 =>    /- De Rol Le -/
    put s 0 0x0F 0x2D
  | 0x00C2 =>    /- Vol Opt (form 1) -/
    some s
  | 0x00C5 =>    /- Vol Opt (form 2) -/
    put s 0 0x25 0x2E
  | 0x00C8 =>    /- Dark Falz + 510 Helpers -/
    ((put s 0 0x37 0x2F).bind (helpers 0x35 510)).map fun s1 => bump s1 1
  | 0x00CA =>    /- Olga Flow -/
    (put s 0 0x2C 0x4E).map fun s1 => bump s1 512
  | 0x00CB =>    /- Barba Ray -/
    (put s 0 0x0F 0x49).map fun s1 => bump s1 47
  | 0x00CC =>    /- Gol Dragon -/
    (put s 0 0x12 0x4C).map fun s1 => bump s1 5
  | 0x00D4 =>    /- Sinow Berill & Spigell -/
    (if r.skin ≥ 0x01 then put s 0 0x13 0x3F
     else put s 0 0x06 0x3E).map fun s1 => bump s1 4
  | 0x00D5 =>    /- Merillia & Meriltas -/
    let acc := r.skin &&& 0x01
    put s 0 (0x4B + acc) (0x34 + acc)
  | 0x00D6 =>    /- Mericus, Merikle, or Mericarol -/
    let acc := r.skin % 3
    if acc ≠ 0 then put s 0 (0x44 + acc) (0x38 + acc)
    else put s 0 0x3A (0x38 + acc)
  | 0x00D7 =>    /- Ul Gibbon & Zol Gibbon -/
    let acc := r.skin &&& 0x01
    put s 0 (0x3B + acc) (0x3B + acc)
  | 0x00D8 =>    /- Gibbles -/
    put s 0 0x3D 0x3D
  | 0x00D9 =>    /- Gee -/
    put s 0 0x07 0x36
  | 0x00DA =>    /- Gi Gue -/
    put s 0 0x1A 0x37
  | 0x00DB =>    /- Deldepth -/
    put s 0 0x30 0x47
  | 0x00DC =>    /- Delbiter -/
    put s 0 0x0D 0x48
  | 0x00DD =>    /- Dolmolm & Dolmdarl -/
    let acc := r.skin &&& 0x01
    put s 0 (0x4F + acc) (0x40 + acc)
  | 0x00DE =>    /- Morfos -/
    put s 0 0x41 0x42
  | 0x00DF =>    /- Recobox & Recons -/
    (put s 0 0x41 0x43).bind (recons r.num_clones 1)
  | 0x00E0 =>    /- Epsilon, Sinow Zoa & Zele -/
    if ep = 2 ∧ alt ≠ 0 then (put s 0 0x23 0x54).map fun s1 => bump s1 4
    else
      let acc := r.skin &&& 0x01
      put s 0 (0x43 + acc) (0x45 + acc)
  | 0x00E1 =>    /- Ill Gill -/
    put s 0 0x26 0x52
  | 0x0110 =>    /- Astark -/
    put s 0 0x09 0x01
  | 0x0111 =>    /- Satellite Lizard & Yowie -/
    let acc := rare r
    if alt ≠ 0 then put s 0 (0x0D + acc + 0x10) (0x02 + acc)
    else put s 0 (0x0D + acc) (0x02 + acc)
  | 0x0112 =>    /- Merissa A/AA -/
    let acc := r.skin &&& 0x01
    put s 0 (0x19 + acc) (0x04 + acc)
  | 0x0113 =>    /- Girtablulu -/
    put s 0 0x1F 0x06
  | 0x0114 =>    /- Zu & Pazuzu -/
    let acc := r.skin &&& 0x01
    if alt ≠ 0 then put s 0 (0x07 + acc + 0x14) (7 + acc)
    else put s 0 (0x07 + acc) (7 + acc)
  | 0x0115 =>    /- Boota Family -/
    let acc := r.skin % 3
    if r.skin &&& 0x02 ≠ 0 then put s 0 0x03 (0x09 + acc)
    else put s 0 (0x00 + acc) (0x09 + acc)
  | 0x0116 =>    /- Dorphon & Eclair -/
    let acc := r.skin &&& 0x01
    put s 0 (0x0F + acc) (0x0C + acc)
  | 0x0117 =>    /- Goran Family -/
    let acc := r.skin % 3
    if r.skin &&& 0x02 ≠ 0 then put s 0 (0x11 + acc) 0x0F
    else if r.skin &&& 0x01 ≠ 0 then put s 0 (0x11 + acc) 0x10
    else put s 0 (0x11 + acc) 0x0E
  | 0x0119 =>    /- Saint Million, Shambertin, & Kondrieu -/
    let acc := r.skin &&& 0x01
    if r.reserved10 &&& 0x800000 ≠ 0 then put s 0 0x22 0x15
    else put s 0 0x22 (0x13 + acc)
  | _ => some s

/-- The value of `en[i].num_clones` after the switch: case 0x0082 stores the
default 4 into a zero clone count (lines 318-319). -/
def clones_after (r : map_enemy_t) : Nat :=
  if r.base = 0x0082 ∧ r.num_clones = 0 then 4 else r.num_clones

/-- The tail of the loop body (lines 626-629): `if(en[i].num_clones) count +=
en[i].num_clones; ++count;`. -/
def advance (r : map_enemy_t) (s : scratch) : scratch :=
  bump (if clones_after r ≠ 0 then bump s (clones_after r) else s) 1

/-- The loop `for(i = 0; i < en_ct; ++i)` over the records. -/
def parse_records (ep alt : Int) : List map_enemy_t → scratch → Option scratch
  | [], s => some s
  | r :: rs, s => (parse_enemy ep alt r s).bind fun s1 => parse_records ep alt rs (advance r s1)

/-- The function `parse_map(en, en_ct, game, ep, alt)`.  `alloc_ok` tells
whether the `malloc` of the scratch buffer succeeds.  The result is `none`
when a write falls outside the scratch buffer; otherwise it is the return
code and the value of `*game`.  The final `realloc` to `count` slots keeps
the first `count` slots of the scratch buffer; slots at or beyond `0xB50`,
which the buffer never had, are not defined and are not listed. -/
def parse_map (alloc_ok : Bool) (en : List map_enemy_t) (game : game_enemies_t)
    (ep alt : Int) : Option (Int × game_enemies_t) :=
  if alloc_ok = false then some (-1, game)
  else
    (parse_records ep alt en scratch.init).map fun s =>
      (0, { count := s.count, enemies := (List.range (min s.count 0xB50)).map s.gen })

/-! ## The map catalog and the lobby (declared in `mapdata.h`, `lobby.h`) -/

/-- Modelled from the spec: `map_object_t` (RawObjectRecord) is declared in
`mapdata.h`; a placed object of the legacy data set, an uninterpreted payload
of 0x44 bytes. -/
structure map_object_t where
  bytes : List Nat
deriving DecidableEq

/-- Modelled from the spec: `game_objs_t` (SessionObjectSet) is declared in
`mapdata.h`: a `count` and a pointer `objs`, here the defined records. -/
structure game_objs_t where
  count : Nat
  objs : List map_object_t
deriving DecidableEq

/-- Modelled from the spec: `parsed_map_t` (AreaCatalog) is declared in
`mapdata.h`: the declared counts of one area and the pointer `data` to its
grid of enemy sets, here the list of the grid entries that exist. -/
structure parsed_map_t where
  map_count : Nat
  variation_count : Nat
  data : List game_enemies_t
deriving DecidableEq

/-- Modelled from the spec: `parsed_objs_t` is declared in `mapdata.h`: the
object counterpart of `parsed_map_t` in the legacy data set. -/
structure parsed_objs_t where
  map_count : Nat
  variation_count : Nat
  data : List game_objs_t
deriving DecidableEq

/-- The address `battle_params[solo][episode][difficulty]` stored into
`l->bb_params`: the three indices of the row table pointed to.  The pointer
is formed by `bb_load_game_enemies`, never dereferenced there. -/
structure bb_params_ref where
  solo : Nat
  episode : Int
  difficulty : Nat
deriving DecidableEq

/-- Modelled from the spec: `lobby_t` is declared in `lobby.h`; the fields of a
session that this file reads or writes.  `maps` is the selection vector
`uint32_t maps[0x20]`: `maps (2k)` is the map number and `maps (2k+1)` the
variation number of area `k`.  A null pointer is `none`. -/
structure lobby_t where
  flags : Nat
  episode : Nat
  difficulty : Nat
  event : Nat
  maps : Nat → Nat
  bb_params : Option bb_params_ref
  map_enemies : Option game_enemies_t
  map_objs : Option game_objs_t

/-- Modelled from the spec: the constants of `lobby.h` that this file names,
taken as parameters: the single-player flag bit and the event codes.
`LOBBY_EVENT_NONE` is the code of a session without an active event. -/
structure lobby_consts where
  LOBBY_FLAG_SINGLEPLAYER : Nat
  LOBBY_EVENT_NONE : Nat
  LOBBY_EVENT_CHRISTMAS : Nat
  LOBBY_EVENT_EASTER : Nat
  LOBBY_EVENT_HALLOWEEN : Nat
deriving DecidableEq

/-- The event codes are different values: the three `case` labels of the
`switch(l->event)` differ from each other (C demands it), and none of them
is the code of "no event". -/
def lobby_consts.distinct (K : lobby_consts) : Prop :=
  K.LOBBY_EVENT_CHRISTMAS ≠ K.LOBBY_EVENT_EASTER ∧
  K.LOBBY_EVENT_CHRISTMAS ≠ K.LOBBY_EVENT_HALLOWEEN ∧
  K.LOBBY_EVENT_EASTER ≠ K.LOBBY_EVENT_HALLOWEEN ∧
  K.LOBBY_EVENT_NONE ≠ K.LOBBY_EVENT_CHRISTMAS ∧
  K.LOBBY_EVENT_NONE ≠ K.LOBBY_EVENT_EASTER ∧
  K.LOBBY_EVENT_NONE ≠ K.LOBBY_EVENT_HALLOWEEN

instance (K : lobby_consts) : Decidable K.distinct := by
  unfold lobby_consts.distinct; infer_instance

/-! ## `bb_load_game_enemies` (mapdata.c, lines 1139-1225) -/

/-- The outcome of the first loop of an assembler (lines 1150-1170). -/
inductive scan_t where
  /-- `maps->data[index]` was read outside the grid. -/
  | undefined
  /-- The sanity check failed: the assembler returns -1. -/
  | invalid
  /-- The loop ended: the 32-bit total `enemies` and the entries `sets[0..]`
  stored before the terminating null. -/
  | done (enemies : Nat) (sets : List game_enemies_t)
deriving DecidableEq

/-- The loop `for(i = 0; i < 0x20; i += 2)` of `bb_load_game_enemies`, at
index `i`, over the areas `i >> 1, ...` still to visit. -/
def bb_scan (maps : Nat → Nat) : List parsed_map_t → Nat → Nat → List game_enemies_t → scan_t
  | [], _, enemies, sets => .done enemies sets
  | m :: rest, i, enemies, sets =>
    if m.map_count = 0 ∧ m.variation_count = 0 then .done enemies sets
    else if maps i > m.map_count ∨ maps (i + 1) > m.variation_count then .invalid
    else
      match m.data[u32 (maps i * m.variation_count + maps (i + 1))]? with
      | none => .undefined
      | some set => bb_scan maps rest (i + 2) (u32 (enemies + set.count)) (sets ++ [set])

/-- The call `memcpy(&dst[index], src, sizeof(*src) * n)`; a slot of `dst`
that nothing was stored into yet is `none`. -/
def memcpy {α : Type} (dst : List (Option α)) (index : Nat) (src : List α) (n : Nat) :
    Option (List (Option α)) :=
  if n ≤ src.length ∧ index + n ≤ dst.length then
    some (dst.take index ++ (src.take n).map some ++ dst.drop (index + n))
  else none

/-- The loop `for(i = 0; i < 0x10; ++i)` that copies the entries into
`en->enemies` at the running `index` (lines 1189-1196). -/
def copy_sets : List game_enemies_t → Nat → List (Option game_enemy_t) →
    Option (List (Option game_enemy_t))
  | [], _, dst => some dst
  | set :: rest, index, dst =>
    (memcpy dst index set.enemies set.count).bind (copy_sets rest (u32 (index + set.count)))

/-- Reading every slot of a buffer: `none` if some slot was never stored. -/
def read_slots {α : Type} : List (Option α) → Option (List α)
  | [] => some []
  | none :: _ => none
  | some a :: rest => (read_slots rest).map (a :: ·)

/-- The state of an assembler before its fixup loop. -/
inductive assembled (α : Type) where
  /-- A read or write outside a buffer. -/
  | undefined
  /-- The assembler returned early with code `rv`. -/
  | failed (rv : Int)
  /-- The session data were allocated and filled. -/
  | built (v : α)
deriving DecidableEq

/-- The `solo` index of `bb_load_game_enemies`. -/
def solo_of (K : lobby_consts) (l : lobby_t) : Nat :=
  if l.flags &&& K.LOBBY_FLAG_SINGLEPLAYER ≠ 0 then 1 else 0

/-- The sixteen areas `bb_parsed_maps[solo][episode - 1][0..15]`. -/
def bb_areas (bb_parsed_maps : Nat → Nat → Nat → parsed_map_t) (K : lobby_consts)
    (l : lobby_t) : List parsed_map_t :=
  (List.range 0x10).map (bb_parsed_maps (solo_of K l) (l.episode - 1))

/-- Lines 1149-1196 of `bb_load_game_enemies`: the scan of the areas, the two
allocations and the copy; the result is `*en` before the fixup loop.  The
catalog `bb_parsed_maps[2][3][0x10]` is a function of its three indices; an
episode outside 1..3 indexes outside it. -/
def bb_assemble (K : lobby_consts) (bb_parsed_maps : Nat → Nat → Nat → parsed_map_t)
    (alloc_set alloc_enemies : Bool) (l : lobby_t) : assembled game_enemies_t :=
  if ¬ (1 ≤ l.episode ∧ l.episode ≤ 3) then .undefined
  else
    match bb_scan l.maps (bb_areas bb_parsed_maps K l) 0 0 [] with
    | .undefined => .undefined
    | .invalid => .failed (-1)
    | .done enemies sets =>
      if alloc_set = false then .failed (-2)
      else if alloc_enemies = false then .failed (-3)
      else
        match (copy_sets sets 0 (List.replicate enemies none)).bind read_slots with
        | none => .undefined
        | some slots => .built { count := enemies, enemies := slots }

/-- The body of the fixup loop of `bb_load_game_enemies` (lines 1200-1220)
for one slot. -/
def bb_fixup (K : lobby_consts) (difficulty event : Nat) (e : game_enemy_t) : game_enemy_t :=
  if e.bp_entry = 0x37 ∧ difficulty ≠ 0 then { e with bp_entry := 0x38 }
  else if e.rt_index = 0xFF then
    if event = K.LOBBY_EVENT_CHRISTMAS then { e with rt_index := 79 }
    else if event = K.LOBBY_EVENT_EASTER then { e with rt_index := 81 }
    else if event = K.LOBBY_EVENT_HALLOWEEN then { e with rt_index := 80 }
    else { e with rt_index := 51 }
  else e

/-- The function `bb_load_game_enemies(l)`: `none` on undefined behaviour,
otherwise the return code and the lobby after the call.  `l->bb_params` is
assigned before anything can fail. -/
def bb_load_game_enemies (K : lobby_consts) (bb_parsed_maps : Nat → Nat → Nat → parsed_map_t)
    (alloc_set alloc_enemies : Bool) (l : lobby_t) : Option (Int × lobby_t) :=
  let l1 : lobby_t :=
    { l with bb_params := some ⟨solo_of K l, (l.episode : Int) - 1, l.difficulty⟩ }
  match bb_assemble K bb_parsed_maps alloc_set alloc_enemies l with
  | .undefined => none
  | .failed rv => some (rv, l1)
  | .built en =>
    some (0, { l1 with
      map_enemies := some { en with enemies := en.enemies.map (bb_fixup K l.difficulty l.event) } })

/-! ## `v2_load_game_enemies` (mapdata.c, lines 1227-1321) -/

/-- The outcome of the first loop of `v2_load_game_enemies`. -/
inductive v2_scan_t where
  | undefined
  | invalid
  | done (enemies objects : Nat) (sets : List game_enemies_t) (osets : List game_objs_t)
deriving DecidableEq

/-- The loop `for(i = 0; i < 0x20; i += 2)` of `v2_load_game_enemies`
(lines 1238-1261) over the paired areas of the two legacy catalogs. -/
def v2_scan (maps : Nat → Nat) : List (parsed_map_t × parsed_objs_t) → Nat → Nat → Nat →
    List game_enemies_t → List game_objs_t → v2_scan_t
  | [], _, enemies, objects, sets, osets => .done enemies objects sets osets
  | (m, o) :: rest, i, enemies, objects, sets, osets =>
    if m.map_count = 0 ∧ m.variation_count = 0 then .done enemies objects sets osets
    else if maps i > m.map_count ∨ maps (i + 1) > m.variation_count then .invalid
    else
      match m.data[u32 (maps i * m.variation_count + maps (i + 1))]?,
            o.data[u32 (maps i * m.variation_count + maps (i + 1))]? with
      | some set, some oset =>
        v2_scan maps rest (i + 2) (u32 (enemies + set.count)) (u32 (objects + oset.count))
          (sets ++ [set]) (osets ++ [oset])
      | _, _ => .undefined

/-- The copy loop of `v2_load_game_enemies` (lines 1297-1308). -/
def v2_copy_sets : List game_enemies_t → List game_objs_t → Nat → Nat →
    List (Option game_enemy_t) → List (Option map_object_t) →
    Option (List (Option game_enemy_t) × List (Option map_object_t))
  | set :: rest, oset :: orest, index, index2, dst, odst =>
    (memcpy dst index set.enemies set.count).bind fun dst1 =>
      (memcpy odst index2 oset.objs oset.count).bind fun odst1 =>
        v2_copy_sets rest orest (u32 (index + set.count)) (u32 (index2 + oset.count)) dst1 odst1
  | _, _, _, _, dst, odst => some (dst, odst)

/-- The body of the fixup loop of `v2_load_game_enemies` (lines 1311-1315). -/
def v2_fixup (difficulty : Nat) (e : game_enemy_t) : game_enemy_t :=
  if e.bp_entry = 0x37 ∧ difficulty ≠ 0 then { e with bp_entry := 0x38 } else e

/-- The sixteen paired areas `v2_parsed_maps[k]`, `v2_parsed_objs[k]`. -/
def v2_areas (v2_parsed_maps : Nat → parsed_map_t) (v2_parsed_objs : Nat → parsed_objs_t) :
    List (parsed_map_t × parsed_objs_t) :=
  (List.range 0x10).map fun k => (v2_parsed_maps k, v2_parsed_objs k)

/-- The function `v2_load_game_enemies(l)`; the four booleans are the
outcomes of its four `malloc` calls, in order. -/
def v2_load_game_enemies (v2_parsed_maps : Nat → parsed_map_t)
    (v2_parsed_objs : Nat → parsed_objs_t)
    (alloc_set alloc_enemies alloc_oset alloc_objs : Bool) (l : lobby_t) :
    Option (Int × lobby_t) :=
  match v2_scan l.maps (v2_areas v2_parsed_maps v2_parsed_objs) 0 0 0 [] [] with
  | .undefined => none
  | .invalid => some (-1, l)
  | .done enemies objects sets osets =>
    if alloc_set = false then some (-2, l)
    else if alloc_enemies = false then some (-3, l)
    else if alloc_oset = false then some (-4, l)
    else if alloc_objs = false then some (-5, l)
    else
      match v2_copy_sets sets osets 0 0 (List.replicate enemies none)
          (List.replicate objects none) with
      | none => none
      | some (dst, odst) =>
        match read_slots dst, read_slots odst with
        | some slots, some objs =>
          some (0, { l with
            map_enemies := some { count := enemies, enemies := slots.map (v2_fixup l.difficulty) }
            map_objs := some { count := objects, objs := objs } })
        | _, _ => none

/-! ## Auxiliary definitions for the statements -/

/-- The zero slot left by `memset`. -/
def zero_slot : game_enemy_t := ⟨0, 0⟩

/-- The scratch buffer whose first slots are `xs` and whose other slots are zero. -/
def pad (xs : List game_enemy_t) : Nat → game_enemy_t := fun k => xs[k]?.getD zero_slot

/-- The slots that the switch of `parse_map` fills or skips for one record,
read off the code case by case: the written slots with their values, and a
zero slot for each position the switch steps over without writing. -/
def switch_slots (ep alt : Int) (r : map_enemy_t) : List game_enemy_t :=
  match r.base with
  | 0x0040 => [⟨0x49 + (r.skin &&& 0x01), 0x01 + (r.skin &&& 0x01)⟩]
  | 0x0041 =>
    if ep = 3 then
      if alt ≠ 0 then [⟨0x17 + (r.skin &&& 0x01), 0x11 + (r.skin &&& 0x01)⟩]
      else [⟨0x05 + (r.skin &&& 0x01), 0x11 + (r.skin &&& 0x01)⟩]
    else if r.skin &&& 0x01 ≠ 0 then
      if ep = 1 then [⟨0x19, 0x06⟩] else [⟨0x19, 0xFF⟩]
    else [⟨0x18, 0x05⟩]
  | 0x0042 => ⟨0x01, 0x04⟩ :: List.replicate 30 ⟨0x00, 0x03⟩
  | 0x0043 => [⟨0x02 + rare r, 0x07 + rare r⟩]
  | 0x0044 => [⟨0x4B + r.skin % 3, 0x09 + r.skin % 3⟩]
  | 0x0060 => [⟨0x4E, 0x0C⟩]
  | 0x0061 =>
    if ep = 2 ∧ alt ≠ 0 then [⟨0x25, 0x53⟩]
    else [⟨0x04 + rare r, 0x0D + rare r⟩]
  | 0x0062 => [⟨0x1A, 0x0E⟩]
  | 0x0063 => [⟨0x4F + r.skin % 3, 0x10 + r.skin % 3⟩]
  | 0x0064 => ⟨0x30 - rare r, 0x13 + rare r⟩ :: List.replicate 4 ⟨0x30, 0x13⟩
  | 0x0065 => [⟨0x31, 0x15⟩, ⟨0x32, 0x16⟩, ⟨0x33, 0x17⟩]
  | 0x0080 => [⟨0x1B + (r.skin &&& 0x01), (0x18 + (r.skin &&& 0x01)) <<< (r.skin &&& 0x01)⟩]
  | 0x0081 => [⟨0x1D, 0x19⟩]
  | 0x0082 => if rare r ≠ 0 then [⟨0x13, 0x1B⟩] else [⟨0x06, 0x1A⟩]
  | 0x0083 => [⟨0x07, 0x1C⟩]
  | 0x0084 => ⟨0x09, 0x1D⟩ :: List.replicate 8 ⟨0x08, 0x1C⟩
  | 0x0085 => [zero_slot]
  | 0x00A0 => [⟨0x52, 0x1E⟩]
  | 0x00A1 => ⟨0x0A, 0x1F⟩ :: List.replicate 2 zero_slot
  | 0x00A2 => [⟨0x1E, 0x22⟩]
  | 0x00A3 => [zero_slot]
  | 0x00A4 => [⟨0x0D, 0x24⟩]
  | 0x00A5 => [⟨0x0E, 0x25⟩]
  | 0x00A6 => [⟨0x53 + r.skin % 3, 0x29 + r.skin % 3⟩]
  | 0x00A7 => ⟨0x1F, 0x28⟩ :: List.replicate 4 ⟨0x20, 0x26⟩
  | 0x00A8 => [⟨0x20, 0x26⟩]
  | 0x00C0 => if ep = 1 then [⟨0x12, 0x2C⟩] else [⟨0x1E, 0x4D⟩]
  | 0x00C1 => [⟨0x0F, 0x2D⟩]
  | 0x00C2 => [zero_slot]
  | 0x00C5 => [⟨0x25, 0x2E⟩]
  | 0x00C8 => ⟨0x37, 0x2F⟩ :: (List.replicate 510 ⟨0x35, 0⟩ ++ List.replicate 1 zero_slot)
  | 0x00CA => ⟨0x2C, 0x4E⟩ :: List.replicate 512 zero_slot
  | 0x00CB => ⟨0x0F, 0x49⟩ :: List.replicate 47 zero_slot
  | 0x00CC => ⟨0x12, 0x4C⟩ :: List.replicate 5 zero_slot
  | 0x00D4 =>
    if r.skin ≥ 0x01 then ⟨0x13, 0x3F⟩ :: List.replicate 4 zero_slot
    else ⟨0x06, 0x3E⟩ :: List.replicate 4 zero_slot
  | 0x00D5 => [⟨0x4B + (r.skin &&& 0x01), 0x34 + (r.skin &&& 0x01)⟩]
  | 0x00D6 =>
    if r.skin % 3 ≠ 0 then [⟨0x44 + r.skin % 3, 0x38 + r.skin % 3⟩]
    else [⟨0x3A, 0x38 + r.skin % 3⟩]
  | 0x00D7 => [⟨0x3B + (r.skin &&& 0x01), 0x3B + (r.skin &&& 0x01)⟩]
  | 0x00D8 => [⟨0x3D, 0x3D⟩]
  | 0x00D9 => [⟨0x07, 0x36⟩]
  | 0x00DA => [⟨0x1A, 0x37⟩]
  | 0x00DB => [⟨0x30, 0x47⟩]
  | 0x00DC => [⟨0x0D, 0x48⟩]
  | 0x00DD => [⟨0x4F + (r.skin &&& 0x01), 0x40 + (r.skin &&& 0x01)⟩]
  | 0x00DE => [⟨0x41, 0x42⟩]
  | 0x00DF => [⟨0x41, 0x43⟩]
  | 0x00E0 =>
    if ep = 2 ∧ alt ≠ 0 then ⟨0x23, 0x54⟩ :: List.replicate 4 zero_slot
    else [⟨0x43 + (r.skin &&& 0x01), 0x45 + (r.skin &&& 0x01)⟩]
  | 0x00E1 => [⟨0x26, 0x52⟩]
  | 0x0110 => [⟨0x09, 0x01⟩]
  | 0x0111 =>
    if alt ≠ 0 then [⟨0x0D + rare r + 0x10, 0x02 + rare r⟩]
    else [⟨0x0D + rare r, 0x02 + rare r⟩]
  | 0x0112 => [⟨0x19 + (r.skin &&& 0x01), 0x04 + (r.skin &&& 0x01)⟩]
  | 0x0113 => [⟨0x1F, 0x06⟩]
  | 0x0114 =>
    if alt ≠ 0 then [⟨0x07 + (r.skin &&& 0x01) + 0x14, 7 + (r.skin &&& 0x01)⟩]
    else [⟨0x07 + (r.skin &&& 0x01), 7 + (r.skin &&& 0x01)⟩]
  | 0x0115 =>
    if r.skin &&& 0x02 ≠ 0 then [⟨0x03, 0x09 + r.skin % 3⟩]
    else [⟨0x00 + r.skin % 3, 0x09 + r.skin % 3⟩]
  | 0x0116 => [⟨0x0F + (r.skin &&& 0x01), 0x0C + (r.skin &&& 0x01)⟩]
  | 0x0117 =>
    if r.skin &&& 0x02 ≠ 0 then [⟨0x11 + r.skin % 3, 0x0F⟩]
    else if r.skin &&& 0x01 ≠ 0 then [⟨0x11 + r.skin % 3, 0x10⟩]
    else [⟨0x11 + r.skin % 3, 0x0E⟩]
  | 0x0119 =>
    if r.reserved10 &&& 0x800000 ≠ 0 then [⟨0x22, 0x15⟩]
    else [⟨0x22, 0x13 + (r.skin &&& 0x01)⟩]
  | _ => [zero_slot]

/-- The slots that one record occupies in the output of `parse_map`: the
slots of the switch followed by one slot for each clone; the clone slots of
species 0x00DF are the ones its loop wrote, the others stay zero. -/
def record_slots (ep alt : Int) (r : map_enemy_t) : List game_enemy_t :=
  switch_slots ep alt r ++
    List.replicate (clones_after r) (if r.base = 0x00DF then ⟨0x42, 0x44⟩ else zero_slot)

/-- The slots of a list of records, in record order. -/
def map_slots (ep alt : Int) (en : List map_enemy_t) : List game_enemy_t :=
  en.flatMap (record_slots ep alt)

/-- The species codes that the switch of `parse_map` has a case for. -/
def handled : List Nat :=
  [0x0040, 0x0041, 0x0042, 0x0043, 0x0044, 0x0060, 0x0061, 0x0062, 0x0063, 0x0064, 0x0065,
   0x0080, 0x0081, 0x0082, 0x0083, 0x0084, 0x0085, 0x00A0, 0x00A1, 0x00A2, 0x00A3, 0x00A4,
   0x00A5, 0x00A6, 0x00A7, 0x00A8, 0x00C0, 0x00C1, 0x00C2, 0x00C5, 0x00C8, 0x00CA, 0x00CB,
   0x00CC, 0x00D4, 0x00D5, 0x00D6, 0x00D7, 0x00D8, 0x00D9, 0x00DA, 0x00DB, 0x00DC, 0x00DD,
   0x00DE, 0x00DF, 0x00E0, 0x00E1, 0x0110, 0x0111, 0x0112, 0x0113, 0x0114, 0x0115, 0x0116,
   0x0117, 0x0119]

/-- The end-of-topology test of the assemblers: both declared counts of the
area are zero. -/
def is_end (m : parsed_map_t) : Bool := m.map_count == 0 && m.variation_count == 0

/-- The populated areas: the indices `0, 1, ...` of the sixteen areas that
precede the first area whose counts are both zero (all sixteen when there is
none), in increasing order. -/
def populated (area : Nat → parsed_map_t) : List Nat :=
  (List.range 0x10).takeWhile fun k => !is_end (area k)

/-- The grid of an area matches its declared counts: `data` holds
`map_count * variation_count` entries (a number that fits 32 bits), and each
entry holds `count` slots. -/
def grid_ok (m : parsed_map_t) : Prop :=
  m.data.length = m.map_count * m.variation_count ∧ m.data.length < 4294967296 ∧
    ∀ e ∈ m.data, e.enemies.length = e.count

/-- The selection of a session is strictly inside the declared bounds of
area `k`. -/
def in_bounds (maps : Nat → Nat) (m : parsed_map_t) (k : Nat) : Prop :=
  maps (2 * k) < m.map_count ∧ maps (2 * k + 1) < m.variation_count

/-- The entry `data[map * variation_count + variation]` that the selection
vector picks in area `k` (an empty entry if the grid has no such index). -/
def selected_entry (maps : Nat → Nat) (m : parsed_map_t) (k : Nat) : game_enemies_t :=
  m.data.getD (maps (2 * k) * m.variation_count + maps (2 * k + 1)) ⟨0, []⟩

/-- The selected entries of the populated areas, in increasing area order. -/
def selected_entries (maps : Nat → Nat) (area : Nat → parsed_map_t) : List game_enemies_t :=
  (populated area).map fun k => selected_entry maps (area k) k

/-- The concatenation, in increasing area order, of the slots of the selected
entries of the populated areas. -/
def selected_slots (maps : Nat → Nat) (area : Nat → parsed_map_t) : List game_enemy_t :=
  ((selected_entries maps area).map fun e => e.enemies).flatten

/-- The sum of the counts of the selected entries of the populated areas. -/
def selected_total (maps : Nat → Nat) (area : Nat → parsed_map_t) : Nat :=
  ((selected_entries maps area).map fun e => e.count).sum

/-- The areas `bb_parsed_maps[solo][episode - 1][k]` that a session reads. -/
def bb_area (K : lobby_consts) (bb_parsed_maps : Nat → Nat → Nat → parsed_map_t)
    (l : lobby_t) : Nat → parsed_map_t :=
  bb_parsed_maps (solo_of K l) (l.episode - 1)

/-- The hypotheses on a selection vector and a slice of the catalog under
which an assembler runs to completion: in every populated area the selection
is strictly inside the declared bounds and the grid matches its counts. -/
def selection_ok (maps : Nat → Nat) (area : Nat → parsed_map_t) : Prop :=
  ∀ k ∈ populated area, in_bounds maps (area k) k ∧ grid_ok (area k)

instance (m : parsed_map_t) : Decidable (grid_ok m) := by
  unfold grid_ok; infer_instance

instance (maps : Nat → Nat) (m : parsed_map_t) (k : Nat) : Decidable (in_bounds maps m k) := by
  unfold in_bounds; infer_instance

instance (maps : Nat → Nat) (area : Nat → parsed_map_t) : Decidable (selection_ok maps area) := by
  unfold selection_ok; infer_instance

/-! ## Concrete catalogs and sessions for the instances -/

/-- A valuation of the constants of `lobby.h`, for the concrete instances
below: flag bit 0x04 and the event codes 0 (none), 1, 4 and 5. -/
def demo_consts : lobby_consts :=
  { LOBBY_FLAG_SINGLEPLAYER := 0x04, LOBBY_EVENT_NONE := 0, LOBBY_EVENT_CHRISTMAS := 1,
    LOBBY_EVENT_EASTER := 4, LOBBY_EVENT_HALLOWEEN := 5 }

/-- A catalog for the concrete instances: in every mode and episode, area 0
has 2 maps of 1 variation, area 1 has 1 map of 2 variations, and the other
areas are empty. -/
def demo_catalog : Nat → Nat → Nat → parsed_map_t := fun _ _ k =>
  if k = 0 then
    { map_count := 2, variation_count := 1,
      data := [⟨2, [⟨0x49, 0x01⟩, ⟨0x37, 0x2F⟩]⟩, ⟨1, [⟨0x19, 0xFF⟩]⟩] }
  else if k = 1 then
    { map_count := 1, variation_count := 2,
      data := [⟨1, [⟨0x18, 0x05⟩]⟩, ⟨2, [⟨0x19, 0xFF⟩, ⟨0x4E, 0x0C⟩]⟩] }
  else { map_count := 0, variation_count := 0, data := [] }

/-- A selection vector that picks `(a, b)` in area 0 and `(c, d)` in area 1. -/
def demo_maps (a b c d : Nat) : Nat → Nat := fun i =>
  if i = 0 then a else if i = 1 then b else if i = 2 then c else if i = 3 then d else 0

/-- A session of episode 1 with the given difficulty, event and selection,
multi-player, holding no session data yet. -/
def demo_lobby (difficulty event : Nat) (maps : Nat → Nat) : lobby_t :=
  { flags := 0, episode := 1, difficulty := difficulty, event := event, maps := maps,
    bb_params := none, map_enemies := none, map_objs := none }

/-- The enemy list that `bb_load_game_enemies` installs, with its return
code, when the call is defined. -/
def bb_installed (K : lobby_consts) (bb_parsed_maps : Nat → Nat → Nat → parsed_map_t)
    (l : lobby_t) : Option (Int × Option game_enemies_t) :=
  (bb_load_game_enemies K bb_parsed_maps true true l).map fun r => (r.1, r.2.map_enemies)

/-- The slot `i` of the enemy list that `bb_load_game_enemies` installs. -/
def bb_slot (K : lobby_consts) (bb_parsed_maps : Nat → Nat → Nat → parsed_map_t)
    (l : lobby_t) (i : Nat) : Option game_enemy_t :=
  (bb_load_game_enemies K bb_parsed_maps true true l).bind fun r =>
    r.2.map_enemies.bind fun en => en.enemies[i]?

/-- The object catalog that goes with `demo_catalog 0 0` as legacy catalog:
one object record per grid entry, tagged by its position. -/
def demo_objs : Nat → parsed_objs_t := fun k =>
  if k = 0 then
    { map_count := 2, variation_count := 1, data := [⟨1, [⟨[0x00]⟩]⟩, ⟨1, [⟨[0x10]⟩]⟩] }
  else if k = 1 then
    { map_count := 1, variation_count := 2, data := [⟨1, [⟨[0x01]⟩]⟩, ⟨1, [⟨[0x11]⟩]⟩] }
  else { map_count := 0, variation_count := 0, data := [] }

/-- The session data that `v2_load_game_enemies` installs, with its return
code, when the call is defined. -/
def v2_installed (v2_parsed_maps : Nat → parsed_map_t) (v2_parsed_objs : Nat → parsed_objs_t)
    (l : lobby_t) : Option (Int × Option game_enemies_t × Option game_objs_t) :=
  (v2_load_game_enemies v2_parsed_maps v2_parsed_objs true true true true l).map fun r =>
    (r.1, r.2.map_enemies, r.2.map_objs)

/-- A catalog whose only entry, in area 0, holds a slot that `parse_map`
never produces: the end-boss parameter row 0x37 with the loot sentinel 0xFF. -/
def odd_catalog : Nat → Nat → Nat → parsed_map_t := fun _ _ k =>
  if k = 0 then { map_count := 1, variation_count := 1, data := [⟨1, [⟨0x37, 0xFF⟩]⟩] }
  else { map_count := 0, variation_count := 0, data := [] }

/-! ## Notions for the loot indices (claim C11) -/

/-- The effect of a run of the translator on the loot indices of the scratch
buffer, from state `s` to state `s'`: every slot keeps its `rt_index`, or
holds a concrete index (at most 0x54), or holds the sentinel 0xFF, the
latter only when `P` holds. -/
def rt_effect (P : Prop) (s s' : scratch) : Prop :=
  ∀ k, (s'.gen k).rt_index = (s.gen k).rt_index ∨ (s'.gen k).rt_index ≤ 0x54 ∨
    ((s'.gen k).rt_index = 0xFF ∧ P)

/-- The one situation in which the switch stores the sentinel: a record of
species 0x0041 with odd skin, translated for an episode other than 1 and 3. -/
def deferred (ep : Int) (r : map_enemy_t) : Prop :=
  r.base = 0x0041 ∧ r.skin &&& 0x01 ≠ 0 ∧ ep ≠ 1 ∧ ep ≠ 3

instance (ep : Int) (r : map_enemy_t) : Decidable (deferred ep r) := by
  unfold deferred; infer_instance

/-- The effect of a write of the loot index `v`: every slot keeps its
`rt_index` or holds `v`. -/
def rt_written (v : Nat) (s s' : scratch) : Prop :=
  ∀ k, (s'.gen k).rt_index = (s.gen k).rt_index ∨ (s'.gen k).rt_index = v

/-! ## The tables of the file as state (claim C13) -/

/-- Modelled from the spec: `bb_battle_param_t` (a CombatParameterRow) is
declared in `mapdata.h`: one row of a parameter table, uninterpreted here. -/
structure bb_battle_param_t where
  bytes : List Nat
deriving DecidableEq

/-- The file-scope tables that `bb_load_game_enemies` can reach:
`battle_params[2][3][4][0x60]` and `bb_parsed_maps[2][3][0x10]`, functions
of their indices. -/
structure tables where
  battle_params : Nat → Nat → Nat → Nat → bb_battle_param_t
  bb_parsed_maps : Nat → Nat → Nat → parsed_map_t

/-- The function `bb_load_game_enemies(l)` as a step on the state of the
file: from the tables before the call to the return code, the tables after
the call and the lobby after the call.  The statements of the function that
store anything are `l->bb_params = ...` (an address is formed, line 1146),
the `memcpy` into and the fixup loop over `en->enemies`, the block that the
call allocated (lines 1190-1220), and `l->map_enemies = en`; the catalog is
the source of the `memcpy` only. -/
def bb_load_game_enemies_step (K : lobby_consts) (t : tables) (alloc_set alloc_enemies : Bool)
    (l : lobby_t) : Option (Int × tables × lobby_t) :=
  (bb_load_game_enemies K t.bb_parsed_maps alloc_set alloc_enemies l).map fun r => (r.1, t, r.2)

/-- A state of the tables for the concrete instances: the sample catalog and
parameter rows tagged by their indices. -/
def demo_tables : tables :=
  { battle_params := fun s e d r => ⟨[s, e, d, r]⟩, bb_parsed_maps := demo_catalog }

/-! ## Notions for the legacy assembler (claim C14) -/

/-- The object grid of a legacy area matches the enemy grid of the area (the
same number of entries), and each entry holds `count` records. -/
def objs_ok (m : parsed_map_t) (o : parsed_objs_t) : Prop :=
  o.data.length = m.data.length ∧ ∀ e ∈ o.data, e.objs.length = e.count

instance (m : parsed_map_t) (o : parsed_objs_t) : Decidable (objs_ok m o) := by
  unfold objs_ok; infer_instance

/-- The object entry that the selection vector picks in area `k`: the entry
of the object grid at the index `map * variation_count + variation` of the
enemy entry, `variation_count` being the one of the enemy catalog. -/
def selected_obj_entry (maps : Nat → Nat) (m : parsed_map_t) (o : parsed_objs_t) (k : Nat) :
    game_objs_t :=
  o.data.getD (maps (2 * k) * m.variation_count + maps (2 * k + 1)) ⟨0, []⟩

/-- The selected object entries of the populated areas, in increasing area
order. -/
def selected_obj_entries (maps : Nat → Nat) (area : Nat → parsed_map_t)
    (oarea : Nat → parsed_objs_t) : List game_objs_t :=
  (populated area).map fun k => selected_obj_entry maps (area k) (oarea k) k

/-- The concatenation, in increasing area order, of the records of the
selected object entries of the populated areas. -/
def selected_objs (maps : Nat → Nat) (area : Nat → parsed_map_t)
    (oarea : Nat → parsed_objs_t) : List map_object_t :=
  ((selected_obj_entries maps area oarea).map fun e => e.objs).flatten

/-- The sum of the counts of the selected object entries. -/
def selected_obj_total (maps : Nat → Nat) (area : Nat → parsed_map_t)
    (oarea : Nat → parsed_objs_t) : Nat :=
  ((selected_obj_entries maps area oarea).map fun e => e.count).sum

/-- The hypotheses under which the legacy assembler runs to completion: the
ones of `selection_ok` and, in every populated area, an object grid that
matches the enemy grid. -/
def v2_selection_ok (maps : Nat → Nat) (area : Nat → parsed_map_t)
    (oarea : Nat → parsed_objs_t) : Prop :=
  selection_ok maps area ∧ ∀ k ∈ populated area, objs_ok (area k) (oarea k)

instance (maps : Nat → Nat) (area : Nat → parsed_map_t) (oarea : Nat → parsed_objs_t) :
    Decidable (v2_selection_ok maps area oarea) := by
  unfold v2_selection_ok; infer_instance

/-! ## `free_game_enemies` (mapdata.c, lines 1323-1336) -/

/-- The four blocks that `free_game_enemies` can pass to `free`, named by the
C expressions that denote them. -/
inductive freed_t where
  /-- The block `l->map_enemies->enemies`. -/
  | map_enemies_enemies
  /-- The block `l->map_enemies`. -/
  | map_enemies
  /-- The block `l->map_objs->objs`. -/
  | map_objs_objs
  /-- The block `l->map_objs`. -/
  | map_objs
deriving DecidableEq

/-- The function `free_game_enemies(l)`: the blocks passed to `free`, in
order, and the lobby after the call.  The two assignments at the end are
`l->map_enemies = NULL` and `l->bb_params = NULL`; a pointer that was passed
to `free` and not assigned keeps its (now dangling) value. -/
def free_game_enemies (l : lobby_t) : List freed_t × lobby_t :=
  ((if l.map_enemies.isSome then [freed_t.map_enemies_enemies, freed_t.map_enemies] else []) ++
    (if l.map_objs.isSome then [freed_t.map_objs_objs, freed_t.map_objs] else []),
   { l with map_enemies := none, bb_params := none })

/-- The session that `v2_load_game_enemies` leaves for the sample legacy
catalog, the selection (0, 0) in both areas and difficulty 0. -/
def demo_v2_session : lobby_t :=
  { demo_lobby 0 0 (demo_maps 0 0 0 0) with
    map_enemies := some ⟨3, [⟨0x49, 0x01⟩, ⟨0x37, 0x2F⟩, ⟨0x18, 0x05⟩]⟩
    map_objs := some ⟨2, [⟨[0x00]⟩, ⟨[0x01]⟩]⟩ }

/-! ## The catalog loaders `read_bb_map_set` and `read_v2_map_set` (mapdata.c, lines 152-162 and 644-922) -/

/-- The table `maps[3][0x20]` (lines 152-156): for each episode, the number
of maps and the number of variations of each of the sixteen areas. -/
def maps : List (List Nat) :=
  [[1,1,1,5,1,5,3,2,3,2,3,2,3,2,3,2,3,2,3,2,3,2,1,1,1,1,1,1,1,1,1,1],
   [1,1,2,1,2,1,2,1,2,1,1,3,1,3,1,3,2,2,1,3,2,2,2,2,1,1,1,1,1,1,1,1],
   [1,1,1,3,1,3,1,3,1,3,1,3,3,1,1,3,3,1,1,1,1,1,1,1,1,1,1,1,1,1,1,1]]

/-- The table `sp_maps[3][0x20]` (lines 158-162), the single-player
counterpart of `maps`. -/
def sp_maps : List (List Nat) :=
  [[1,1,1,3,1,3,3,1,3,1,3,1,3,2,3,2,3,2,3,2,3,2,1,1,1,1,1,1,1,1,1,1],
   [1,1,2,1,2,1,2,1,2,1,1,3,1,3,1,3,2,2,1,3,2,1,2,1,1,1,1,1,1,1,1,1],
   [1,1,1,3,1,3,1,3,1,3,1,3,3,1,1,3,3,1,1,1,1,1,1,1,1,1,1,1,1,1,1,1]]

/-- A file as the C library presents it to the loaders: its content, and the
outcomes of the library calls made between its `fopen` and the end of its
processing: `fseek(fp, 0, SEEK_END)`, `ftell(fp)` (which answers the length of
the content), `fseek(fp, 0, SEEK_SET)`, `malloc(sz)`, `fread(.., 1, sz, fp)`
and, for an enemy file, the `malloc` of the scratch buffer in `parse_map`. -/
structure file_t where
  bytes : List Nat
  seek_end_ok : Bool
  tell_ok : Bool
  seek_set_ok : Bool
  alloc_ok : Bool
  read_ok : Bool
  parse_alloc_ok : Bool
deriving DecidableEq

/-- The conversion `%d` of `snprintf` for a non-negative argument. -/
def fmt_d (n : Nat) : String := toString n

/-- The conversion `%X` of `snprintf`: upper-case hexadecimal. -/
def fmt_X (n : Nat) : String := String.mk ((Nat.toDigits 16 n).map Char.toUpper)

/-- The name `"s%d%X%d%d.dat"` or `"m%d%X%d%d.dat"` (lines 683, 692) that
`read_bb_map_set` prints for `i + 1, j, k, l`; `c` is the first letter. -/
def bb_name (c : String) (i j k l : Nat) : String :=
  c ++ fmt_d (i + 1) ++ fmt_X j ++ fmt_d k ++ fmt_d l ++ ".dat"

/-- The name `"m%X%d%d.dat"` of a legacy enemy file (line 798). -/
def v2_name (j k l : Nat) : String := "m" ++ fmt_X j ++ fmt_d k ++ fmt_d l ++ ".dat"

/-- The name `"m%X%d%d_o.dat"` of a legacy object file (line 852). -/
def v2_obj_name (j k l : Nat) : String := "m" ++ fmt_X j ++ fmt_d k ++ fmt_d l ++ "_o.dat"

/-- The statements from the first `fseek` to the `fread` (lines 706-741, and
again 813-848 and 867-902 with the stride 0x44 for objects): the error code
of the first failing step, or the buffer that `fread` filled. -/
def read_file (stride : Nat) (fp : file_t) : Except Int (List Nat) :=
  if fp.seek_end_ok = false then .error 3
  else if fp.tell_ok = false then .error 4
  else if fp.seek_set_ok = false then .error 5
  else if fp.bytes.length % stride ≠ 0 then .error 6
  else if fp.alloc_ok = false then .error 7
  else if fp.read_ok = false then .error 8
  else .ok fp.bytes

/-- The first `n` records of `stride` bytes of a buffer, in order. -/
def chunks (stride : Nat) : Nat → List Nat → List (List Nat)
  | 0, _ => []
  | n + 1, bs => bs.take stride :: chunks stride n (bs.drop stride)

/-- The array `en` of `sz / 0x48` records that a buffer of `sz` bytes is read
as.  The layout of `map_enemy_t` is declared in `mapdata.h`; `decode` is the
reading of one record of 0x48 bytes. -/
def records (decode : List Nat → map_enemy_t) (buf : List Nat) : List map_enemy_t :=
  (chunks 0x48 (buf.length / 0x48) buf).map decode

/-- The array `obj` of `sz / 0x44` object records of a buffer. -/
def objects (buf : List Nat) : List map_object_t :=
  (chunks 0x44 (buf.length / 0x44) buf).map map_object_t.mk

/-- The outcome of the loop body for one slot (map `k`, variation `l`). -/
inductive slot_t (α : Type) where
  /-- A write outside the scratch buffer of `parse_map`. -/
  | undefined
  /-- The loader returns `rv`; the entry of the slot is left as `g`. -/
  | failed (rv : Int) (g : α)
  /-- The slot is loaded with `g` and the loop goes on. -/
  | loaded (g : α)
deriving DecidableEq

/-- The choice of the file of a slot in `read_bb_map_set` (lines 677-701): in
single-player mode the name with `s` is tried first, then, and in the other
mode at once, the name with `m`.  `fs name` is the outcome of
`fopen(name, "rb")`, `none` for a null pointer. -/
def bb_open (fs : String → Option file_t) (solo i j k l : Nat) : Except Int file_t :=
  if solo ≠ 0 ∧ (bb_name "s" i j k l).length ≥ 256 then .error 1
  else
    match (if solo ≠ 0 then fs (bb_name "s" i j k l) else none) with
    | some fp => .ok fp
    | none =>
      if (bb_name "m" i j k l).length ≥ 256 then .error 1
      else
        match fs (bb_name "m" i j k l) with
        | some fp => .ok fp
        | none => .error 2

/-- The loop body of `read_bb_map_set` for the slot (k, l) (lines 676-755);
`cur` is the content of `tmp[k * nvars + l]` before it. -/
def read_bb_slot (fs : String → Option file_t) (decode : List Nat → map_enemy_t)
    (solo i j k l : Nat) (cur : game_enemies_t) : slot_t game_enemies_t :=
  let g0 : game_enemies_t := { cur with count := 0 }
  match bb_open fs solo i j k l with
  | .error rv => .failed rv g0
  | .ok fp =>
    match read_file 0x48 fp with
    | .error rv => .failed rv g0
    | .ok buf =>
      match parse_map fp.parse_alloc_ok (records decode buf) g0 ((i : Int) + 1) 0 with
      | none => .undefined
      | some (rv, g) => if rv ≠ 0 then .failed 9 g else .loaded g

/-- The slots in the order of the two nested loops `for(k = 0; k < nmaps;
++k) for(l = 0; l < nvars; ++l)`. -/
def slots (nmaps nvars : Nat) : List (Nat × Nat) :=
  (List.range nmaps).flatMap fun k => (List.range nvars).map fun l => (k, l)

/-- The nested loops of a loader over the slots still to visit; `tmp` is the
grid, the entry of slot (k, l) being `tmp[k * nvars + l]`.  The result is the
return code and the grid at the return. -/
def slot_loop {α : Type} (step : Nat → Nat → α → slot_t α) (nvars : Nat) :
    List (Nat × Nat) → List α → Option (Int × List α)
  | [], tmp => some (0, tmp)
  | (k, l) :: rest, tmp =>
    match tmp[k * nvars + l]? with
    | none => none
    | some cur =>
      match step k l cur with
      | .undefined => none
      | .failed rv g => some (rv, tmp.set (k * nvars + l) g)
      | .loaded g => slot_loop step nvars rest (tmp.set (k * nvars + l) g)

/-- The function `read_bb_map_set(solo, i, j)` on the catalog entry
`bb_parsed_maps[solo][i][j]`, whose value before the call is `m`: `none` on
undefined behaviour (an index outside the tables, a write outside the scratch
buffer), otherwise the return code and the entry at the return.  `alloc_grid`
is the outcome of the `malloc` of the grid and `junk n` the indeterminate
content of entry `n` of the block it returns. -/
def read_bb_map_set (fs : String → Option file_t) (decode : List Nat → map_enemy_t)
    (alloc_grid : Bool) (junk : Nat → game_enemies_t) (solo i j : Nat) (m : parsed_map_t) :
    Option (Int × parsed_map_t) :=
  match (if solo = 0 then maps else sp_maps)[i]? with
  | none => none
  | some row =>
    match row[j * 2]?, row[j * 2 + 1]? with
    | some nmaps, some nvars =>
      let m1 : parsed_map_t := { m with map_count := nmaps, variation_count := nvars }
      if alloc_grid = false then some (10, m1)
      else
        (slot_loop (read_bb_slot fs decode solo i j) nvars (slots nmaps nvars)
          ((List.range (nmaps * nvars)).map junk)).map fun r => (r.1, { m1 with data := r.2 })
    | _, _ => none

/-- The loop body of `read_v2_map_set` for the slot (k, l) (lines 795-906);
`cur` is the content of `tmp[k * nvars + l]` and of `tmp2[k * nvars + l]`
before it. -/
def read_v2_slot (fs : String → Option file_t) (decode : List Nat → map_enemy_t)
    (j k l : Nat) (cur : game_enemies_t × game_objs_t) :
    slot_t (game_enemies_t × game_objs_t) :=
  let g0 : game_enemies_t := { cur.1 with count := 0 }
  if (v2_name j k l).length ≥ 256 then .failed 1 (g0, cur.2)
  else
    match fs (v2_name j k l) with
    | none => .failed 2 (g0, cur.2)
    | some fp =>
      match read_file 0x48 fp with
      | .error rv => .failed rv (g0, cur.2)
      | .ok buf =>
        match parse_map fp.parse_alloc_ok (records decode buf) g0 1 0 with
        | none => .undefined
        | some (rv, g) =>
          if rv ≠ 0 then .failed 9 (g, cur.2)
          else if (v2_obj_name j k l).length ≥ 256 then .failed 1 (g, cur.2)
          else
            match fs (v2_obj_name j k l) with
            | none => .failed 2 (g, cur.2)
            | some fp2 =>
              match read_file 0x44 fp2 with
              | .error rv => .failed rv (g, cur.2)
              | .ok obuf => .loaded (g, ⟨obuf.length / 0x44, objects obuf⟩)

/-- The function `read_v2_map_set(j)` on the catalog entries
`v2_parsed_maps[j]` and `v2_parsed_objs[j]`, whose values before the call are
`m` and `o`.  The two grids `tmp` and `tmp2` are indexed alike and run
through the loop as one list of pairs. -/
def read_v2_map_set (fs : String → Option file_t) (decode : List Nat → map_enemy_t)
    (alloc_grid alloc_ogrid : Bool) (junk : Nat → game_enemies_t) (ojunk : Nat → game_objs_t)
    (j : Nat) (m : parsed_map_t) (o : parsed_objs_t) :
    Option (Int × parsed_map_t × parsed_objs_t) :=
  match maps[0]? with
  | none => none
  | some row =>
    match row[j * 2]?, row[j * 2 + 1]? with
    | some nmaps, some nvars =>
      let m1 : parsed_map_t := { m with map_count := nmaps, variation_count := nvars }
      let o1 : parsed_objs_t := { o with map_count := nmaps, variation_count := nvars }
      if alloc_grid = false then some (10, m1, o1)
      else
        let m2 : parsed_map_t := { m1 with data := (List.range (nmaps * nvars)).map junk }
        if alloc_ogrid = false then some (11, m2, o1)
        else
          (slot_loop (read_v2_slot fs decode j) nvars (slots nmaps nvars)
            ((List.range (nmaps * nvars)).map fun n => (junk n, ojunk n))).map fun r =>
              (r.1, { m1 with data := r.2.map Prod.fst }, { o1 with data := r.2.map Prod.snd })
    | _, _ => none

/-- A reading of a record for the concrete instances: the species code in
the first two bytes, then the clone count, the rarity word and the subtype,
one byte each. -/
def demo_decode (bs : List Nat) : map_enemy_t :=
  ⟨bs.getD 0 0 + 256 * bs.getD 1 0, bs.getD 2 0, bs.getD 3 0, bs.getD 4 0⟩

/-- A file of the given content on which every library call succeeds. -/
def plain_file (bytes : List Nat) : file_t :=
  { bytes := bytes, seek_end_ok := true, tell_ok := true, seek_set_ok := true,
    alloc_ok := true, read_ok := true, parse_alloc_ok := true }

/-- An enemy record of 0x48 bytes, as `demo_decode` reads it. -/
def demo_record (base num_clones skin : Nat) : List Nat :=
  [base % 256, base / 256, num_clones, 0, skin] ++ List.replicate 0x43 0

/-! ## Notions for the claims on the catalog loaders (claims C16 to C18) -/

/-- The slot was loaded: the loop goes on to the next slot. -/
def slot_t.is_loaded {α : Type} : slot_t α → Bool
  | .loaded _ => true
  | _ => false

/-- The length of the file is obtained (both `fseek` calls and `ftell`
succeed) and is not a multiple of `stride`. -/
def bad_length (stride : Nat) (fp : file_t) : Prop :=
  fp.seek_end_ok = true ∧ fp.tell_ok = true ∧ fp.seek_set_ok = true ∧
    fp.bytes.length % stride ≠ 0

instance (stride : Nat) (fp : file_t) : Decidable (bad_length stride fp) := by
  unfold bad_length; infer_instance

/-- The loop of `read_bb_map_set` reaches the slot (k, l): every slot that
precedes it in the order of the two loops is loaded. -/
def bb_reaches (fs : String → Option file_t) (decode : List Nat → map_enemy_t)
    (junk : Nat → game_enemies_t) (solo i j nvars k l : Nat) : Prop :=
  ∀ k1 < k + 1, ∀ l1 < nvars, k1 * nvars + l1 < k * nvars + l →
    (read_bb_slot fs decode solo i j k1 l1 (junk (k1 * nvars + l1))).is_loaded = true

instance (fs : String → Option file_t) (decode : List Nat → map_enemy_t)
    (junk : Nat → game_enemies_t) (solo i j nvars k l : Nat) :
    Decidable (bb_reaches fs decode junk solo i j nvars k l) := by
  unfold bb_reaches; infer_instance

/-- The loop of `read_v2_map_set` reaches the slot (k, l). -/
def v2_reaches (fs : String → Option file_t) (decode : List Nat → map_enemy_t)
    (junk : Nat → game_enemies_t) (ojunk : Nat → game_objs_t) (j nvars k l : Nat) : Prop :=
  ∀ k1 < k + 1, ∀ l1 < nvars, k1 * nvars + l1 < k * nvars + l →
    (read_v2_slot fs decode j k1 l1
      (junk (k1 * nvars + l1), ojunk (k1 * nvars + l1))).is_loaded = true

instance (fs : String → Option file_t) (decode : List Nat → map_enemy_t)
    (junk : Nat → game_enemies_t) (ojunk : Nat → game_objs_t) (j nvars k l : Nat) :
    Decidable (v2_reaches fs decode junk ojunk j nvars k l) := by
  unfold v2_reaches; infer_instance

/-- The file that the claim on `read_bb_map_set` names for the slot (k, l):
in single-player mode the file `s...` when it can be opened and otherwise the
file `m...`; in the other mode always the file `m...`. -/
def chosen_file (fs : String → Option file_t) (solo i j k l : Nat) : Option file_t :=
  if solo ≠ 0 then
    match fs (bb_name "s" i j k l) with
    | some fp => some fp
    | none => fs (bb_name "m" i j k l)
  else fs (bb_name "m" i j k l)

/-- A directory for the concrete instances, holding multi-player files of
episode 1: for area 0 (a grid of 1 map and 1 variation) a file of one record;
for area 1 (1 map and 5 variations) a file of two records for variation 0 and
a file of one record and one more byte for variation 1.  There are no other
files. -/
def demo_fs (name : String) : Option file_t :=
  if name = "m1000.dat" then some (plain_file (demo_record 0x40 0 0))
  else if name = "m1100.dat" then
    some (plain_file (demo_record 0x40 0 0 ++ demo_record 0x41 1 1))
  else if name = "m1101.dat" then some (plain_file (demo_record 0x40 0 0 ++ [1]))
  else none

/-- Indeterminate content for the entries of a freshly allocated grid. -/
def demo_junk : Nat → game_enemies_t := fun _ => ⟨7, []⟩

/-- The entry of area 1 that `read_bb_map_set` leaves when it fails at the
slot of variation 1 in the directory `demo_fs`. -/
def partial_area : parsed_map_t :=
  ⟨1, 5, [⟨3, [⟨0x49, 0x01⟩, ⟨0x19, 0x06⟩, ⟨0, 0⟩]⟩, ⟨0, []⟩, ⟨7, []⟩, ⟨7, []⟩, ⟨7, []⟩]⟩

/-- The catalog after the loading of the directory `demo_fs` stopped at
area 1: area 0 is loaded, area 1 is as the failed call left it, and the
other areas were never loaded. -/
def partial_catalog : Nat → Nat → Nat → parsed_map_t := fun _ _ k =>
  if k = 0 then ⟨1, 1, [⟨1, [⟨0x49, 0x01⟩]⟩]⟩
  else if k = 1 then partial_area
  else ⟨0, 0, []⟩

/-! ## `read_param_file` and `read_level_data` (mapdata.c, lines 52-150) -/

/-- The call `fread(dst[n], 1, sz, fp)` on the table `dst[4][0x60]`, a
contiguous block of bytes in which `dst[n]` starts at offset `n * sz`: the
bytes that the stream still holds, at most `sz` of them, replace the bytes of
the table from that offset on. -/
def fread_at (sz n : Nat) (stream dst : List Nat) : List Nat :=
  dst.take (n * sz) ++ stream.take sz ++ dst.drop (n * sz + (stream.take sz).length)

/-- The four reads of `read_param_file` (lines 63-81) for the blocks still to
read; a read that delivers fewer than `sz` bytes makes the function return 1
at once.  A short read is the end of the file. -/
def read_blocks (sz : Nat) : List Nat → List Nat → List Nat → Int × List Nat
  | [], _, dst => (0, dst)
  | n :: rest, stream, dst =>
    if (stream.take sz).length ≠ sz then (1, fread_at sz n stream dst)
    else read_blocks sz rest (stream.drop sz) (fread_at sz n stream dst)

/-- The function `read_param_file(dst, fn)`: the return code and the bytes of
`dst` at the return.  `ROW` is `sizeof(bb_battle_param_t)`, declared in
`mapdata.h`, and `file` the content of the file `fn`, `none` when `fopen`
fails. -/
def read_param_file (ROW : Nat) (dst : List Nat) (file : Option (List Nat)) : Int × List Nat :=
  match file with
  | none => (1, dst)
  | some bytes => read_blocks (0x60 * ROW) [0, 1, 2, 3] bytes dst

/-- The block `dst[n]` of a table of blocks of `sz` bytes. -/
def block (sz : Nat) (dst : List Nat) (n : Nat) : List Nat := (dst.drop (n * sz)).take sz

/-- A file that is read in one piece by `read_level_data`: its content and
the outcomes of `malloc(size)` and of the `fread` of the whole content.  The
results of `fseek` and `ftell`, which the function does not check, are taken
to be the successful ones: `size` is the length of the content. -/
structure raw_file_t where
  bytes : List Nat
  alloc_ok : Bool
  read_ok : Bool
deriving DecidableEq

/-- The two functions of `sylverant/prs.h` that `read_level_data` calls,
taken as parameters: the size that `prs_decompress_size` reports for a
compressed buffer and the bytes that `prs_decompress` writes for it. -/
structure prs_t where
  prs_decompress_size : List Nat → Nat
  prs_decompress : List Nat → List Nat

/-- The function `read_level_data(fn)` on a little-endian host: the return
code and the bytes of `char_stats` at the return.  `SIZE` is
`sizeof(bb_level_table_t)`, declared in a header; `alloc_buf2` is the outcome
of `malloc(decsize)` and `junk` the indeterminate content of the block it
returns.  The result is `none` when `prs_decompress` writes, or `memcpy`
reads, beyond the `decsize` bytes of that block. -/
def read_level_data (SIZE : Nat) (prs : prs_t) (junk : Nat → Nat) (file : Option raw_file_t)
    (alloc_buf2 : Bool) (char_stats : List Nat) : Option (Int × List Nat) :=
  match file with
  | none => some (1, char_stats)
  | some fp =>
    if fp.alloc_ok = false then some (-200, char_stats)
    else if fp.read_ok = false then some (1, char_stats)
    else
      let decsize := u32 (prs.prs_decompress_size fp.bytes)
      if alloc_buf2 = false then some (-200, char_stats)
      else
        let out := prs.prs_decompress fp.bytes
        if out.length > decsize then none
        else if SIZE > decsize then none
        else
          let buf2 := out ++ (List.range (decsize - out.length)).map fun n => junk (out.length + n)
          some (0, buf2.take SIZE ++ char_stats.drop SIZE)

/-- A decompressor for the concrete instances: it reports 6 bytes and writes
the bytes 1 to 6, whatever the input. -/
def demo_prs : prs_t :=
  { prs_decompress_size := fun _ => 6, prs_decompress := fun _ => [1, 2, 3, 4, 5, 6] }

/-! ## Notions for the slot counts and the written slots (claims C22, C26, C28) -/

/-- The fixed companion constant that the claim on the slot counts gives for
each species: the number of slots that a record occupies besides its primary
slot and its clone slots. -/
def extra (ep alt : Int) (r : map_enemy_t) : Nat :=
  match r.base with
  | 0x0042 => 30
  | 0x0064 => 4
  | 0x0065 => 2
  | 0x0084 => 8
  | 0x00A1 => 2
  | 0x00A7 => 4
  | 0x00C8 => 511
  | 0x00CA => 512
  | 0x00CB => 47
  | 0x00CC => 5
  | 0x00D4 => 4
  | 0x00E0 => if ep = 2 ∧ alt ≠ 0 then 4 else 0
  | _ => 0

/-- The number of slots of a record according to the claim: `1 + n + extra`,
`n` being the clone count with 4 substituted for a zero clone count of
species 0x0082. -/
def slots_of (ep alt : Int) (r : map_enemy_t) : Nat := 1 + clones_after r + extra ep alt r

/-- The effect of a run of the translator on the slots of parameter row
0x37, from state `s` to state `s'`: every slot is as it was, or holds a row
other than 0x37, or is the slot (0x37, 0x2F), the latter only when `P`
holds. -/
def bp_effect (P : Prop) (s s' : scratch) : Prop :=
  ∀ k, s'.gen k = s.gen k ∨ (s'.gen k).bp_entry ≠ 0x37 ∨ (s'.gen k = ⟨0x37, 0x2F⟩ ∧ P)

/-- The writes of a run of the translator from state `s` to state `s'` are
confined to the slots `lo, ..., hi - 1`, all of them inside the scratch
buffer: every slot that differs has its index in that range and below the
capacity 0xB50. -/
def confined (lo hi : Nat) (s s' : scratch) : Prop :=
  ∀ k, s'.gen k ≠ s.gen k → lo ≤ k ∧ k < hi ∧ k < 0xB50

/-! ## The legacy catalog as state: `read_v2_map_files`, `v2_read_params`, `v2_free_params`, `map_have_v2_maps` -/

/-- The table `max_area[3]` (line 164): the last area of each episode. -/
def max_area : List Nat := [0x0E, 0x0F, 0x09]

/-- The file-scope state of the legacy data set: the two catalogs
`v2_parsed_maps[0x10]` and `v2_parsed_objs[0x10]`, functions of the area
index, and the flag `have_v2_maps`. -/
structure v2_state where
  v2_parsed_maps : Nat → parsed_map_t
  v2_parsed_objs : Nat → parsed_objs_t
  have_v2_maps : Int

/-- The blocks that `v2_free_params` passes to `free`: `m->data[l].enemies`
and `m->data` for `m = &v2_parsed_maps[k]`. -/
inductive v2_freed_t where
  /-- The block `v2_parsed_maps[k].data[l].enemies`. -/
  | enemies (k l : Nat)
  /-- The block `v2_parsed_maps[k].data`. -/
  | data (k : Nat)
deriving DecidableEq

/-- The loop body of `v2_free_params` for area `k` (lines 1125-1135): the
blocks freed and the entry afterwards; `none` when `m->data[l]` is read
beyond the grid. -/
def v2_free_area (k : Nat) (m : parsed_map_t) : Option (List v2_freed_t × parsed_map_t) :=
  if u32 (m.map_count * m.variation_count) ≤ m.data.length then
    some ((List.range (u32 (m.map_count * m.variation_count))).map (v2_freed_t.enemies k)
      ++ [v2_freed_t.data k], ⟨0, 0, []⟩)
  else none

/-- The loop `for(k = 0; k < 0x10; ++k)` of `v2_free_params` over the areas
still to visit. -/
def v2_free_loop : List Nat → (Nat → parsed_map_t) →
    Option (List v2_freed_t × (Nat → parsed_map_t))
  | [], vm => some ([], vm)
  | k :: rest, vm =>
    (v2_free_area k (vm k)).bind fun r =>
      (v2_free_loop rest (fun x => if x = k then r.2 else vm x)).map fun r2 =>
        (r.1 ++ r2.1, r2.2)

/-- The function `v2_free_params()`: the blocks freed, in order, and the
state afterwards.  No statement of the function names `v2_parsed_objs` or
`have_v2_maps`. -/
def v2_free_params (st : v2_state) : Option (List v2_freed_t × v2_state) :=
  (v2_free_loop (List.range 0x10) st.v2_parsed_maps).map fun r =>
    (r.1, { st with v2_parsed_maps := r.2 })

/-- The function `map_have_v2_maps()`. -/
def map_have_v2_maps (st : v2_state) : Int := st.have_v2_maps

/-- What the calls of `read_v2_map_set` get from their environment, besides
the state: the directory in effect after `chdir(cfg->v2_map_dir)`, the
reading of enemy records, and for each area `j` the outcomes of the two grid
allocations and the indeterminate content of the blocks they return. -/
structure v2_env where
  fs : String → Option file_t
  decode : List Nat → map_enemy_t
  alloc_grid : Nat → Bool
  alloc_ogrid : Nat → Bool
  junk : Nat → Nat → game_enemies_t
  ojunk : Nat → Nat → game_objs_t

/-- The loop of `read_v2_map_files` (lines 940-943) over the areas still to
load: each call of `read_v2_map_set(j)` acts on the entries of area `j`, and
the first non-zero code is returned at once. -/
def read_v2_map_loop (E : v2_env) : List Nat → v2_state → Option (Int × v2_state)
  | [], st => some (0, st)
  | j :: rest, st =>
    match read_v2_map_set E.fs E.decode (E.alloc_grid j) (E.alloc_ogrid j) (E.junk j)
        (E.ojunk j) j (st.v2_parsed_maps j) (st.v2_parsed_objs j) with
    | none => none
    | some (srv, m1, o1) =>
      let st1 : v2_state :=
        { st with
          v2_parsed_maps := fun x => if x = j then m1 else st.v2_parsed_maps x
          v2_parsed_objs := fun x => if x = j then o1 else st.v2_parsed_objs x }
      if srv ≠ 0 then some (srv, st1) else read_v2_map_loop E rest st1

/-- The function `read_v2_map_files()`: the areas `j` with `j < 16` and
`j <= max_area[0]`, in increasing order. -/
def read_v2_map_files (E : v2_env) (st : v2_state) : Option (Int × v2_state) :=
  match max_area[0]? with
  | none => none
  | some last => read_v2_map_loop E ((List.range 16).takeWhile fun j => j ≤ last) st

/-- The outcomes of the system calls of `v2_read_params` and of
`bb_read_params`: whether the configuration names the directories, and the
results of `malloc`, `getcwd` and the calls of `chdir`, in program order. -/
structure sys_t where
  has_dirs : Bool
  alloc_buf : Bool
  getcwd_ok : Bool
  chdir_ok : Bool
  chdir_back_ok : Bool
  chdir_maps_ok : Bool
  chdir_back2_ok : Bool
deriving DecidableEq

/-- The function `v2_read_params(cfg)` (lines 1039-1095): the return code and
the state afterwards.  The flag is set in the `else` branch of `if(rv)` at
the label `bail`, which the two early `return -1` and `return 1` and the
`return -1` after the loading do not reach. -/
def v2_read_params (S : sys_t) (E : v2_env) (st : v2_state) : Option (Int × v2_state) :=
  if S.has_dirs = false then some (1, st)
  else if S.alloc_buf = false then some (-1, st)
  else if S.getcwd_ok = false then some (-1, st)
  else if S.chdir_ok = false then some (1, st)
  else
    match read_v2_map_files E st with
    | none => none
    | some (rv, st1) =>
      if S.chdir_back_ok = false then some (-1, st1)
      else if rv ≠ 0 then some (rv, st1)
      else some (rv, { st1 with have_v2_maps := 1 })

/-- The state of the legacy data set before anything is loaded. -/
def v2_state.init : v2_state :=
  { v2_parsed_maps := fun _ => ⟨0, 0, []⟩, v2_parsed_objs := fun _ => ⟨0, 0, []⟩,
    have_v2_maps := 0 }

/-- An environment for the concrete instances: every file exists and is
empty, every allocation succeeds. -/
def demo_v2_env : v2_env :=
  { fs := fun _ => some (plain_file []), decode := demo_decode, alloc_grid := fun _ => true,
    alloc_ogrid := fun _ => true, junk := fun _ _ => ⟨7, []⟩, ojunk := fun _ _ => ⟨7, []⟩ }

/-- System calls that all succeed. -/
def demo_sys : sys_t := ⟨true, true, true, true, true, true, true⟩

/-- A state of the legacy data set for the concrete instances, as
`read_v2_map_set(0)` leaves it for an enemy file of one Hildebear and an
object file of one record: area 0 is loaded, the other areas are not. -/
def demo_v2_loaded : v2_state :=
  { v2_parsed_maps := fun k => if k = 0 then ⟨1, 1, [⟨1, [⟨0x49, 0x01⟩]⟩]⟩ else ⟨0, 0, []⟩,
    v2_parsed_objs := fun k =>
      if k = 0 then ⟨1, 1, [⟨1, [⟨List.replicate 0x44 0⟩]⟩]⟩ else ⟨0, 0, []⟩,
    have_v2_maps := 1 }

/-- The directory that goes with `demo_v2_loaded`: the enemy file and the
object file of the only slot of area 0. -/
def demo_v2_fs (name : String) : Option file_t :=
  if name = "m000.dat" then some (plain_file (demo_record 0x40 0 0))
  else if name = "m000_o.dat" then some (plain_file (List.replicate 0x44 0))
  else none

/-- The state that `v2_read_params` leaves in the environment `demo_v2_env`
when every system call succeeds. -/
def demo_v2_result : v2_state :=
  ((v2_read_params demo_sys demo_v2_env v2_state.init).map Prod.snd).getD v2_state.init

/-! ## `read_bb_map_files` and `bb_read_params` (mapdata.c, lines 924-1037) -/

/-- The file-scope state that `bb_read_params` acts on: the bytes of each
table `battle_params[solo][episode]`, the bytes of `char_stats`, the catalog
`bb_parsed_maps`, and the messages that `bb_read_params` itself passes to
`debug(DBG_LOG, ...)`, in order. -/
structure bb_state where
  battle_params : Nat → Nat → List Nat
  char_stats : List Nat
  bb_parsed_maps : Nat → Nat → Nat → parsed_map_t
  log : List String

/-- What `bb_read_params` gets from its environment, besides the state and
the system calls: the sizes `sizeof(bb_battle_param_t)` and
`sizeof(bb_level_table_t)`, the decompressor, the files of the parameter
directory, the outcome of the second allocation of `read_level_data` and the
content of its block, the files of the map directory, the reading of enemy
records, and for each call `read_bb_map_set(solo, i, j)` the outcome of the
grid allocation and the content of its block. -/
structure bb_env where
  ROW : Nat
  SIZE : Nat
  prs : prs_t
  param_files : String → Option (List Nat)
  level_files : String → Option raw_file_t
  alloc_buf2 : Bool
  level_junk : Nat → Nat
  fs : String → Option file_t
  decode : List Nat → map_enemy_t
  alloc_grid : Nat → Nat → Nat → Bool
  junk : Nat → Nat → Nat → Nat → game_enemies_t

/-- The six calls of `read_param_file` in `bb_read_params` (lines 986-991):
the indices `[solo][episode]` of the destination table and the file name. -/
def param_jobs : List (Nat × Nat × String) :=
  [(0, 0, "BattleParamEntry_on.dat"), (0, 1, "BattleParamEntry_lab_on.dat"),
   (0, 2, "BattleParamEntry_ep4_on.dat"), (1, 0, "BattleParamEntry.dat"),
   (1, 1, "BattleParamEntry_lab.dat"), (1, 2, "BattleParamEntry_ep4.dat")]

/-- The statements `rv = read_param_file(...); rv += read_param_file(...);
...` for the calls still to make: every call is made, whatever the earlier
ones returned, and its code is added to `rv`. -/
def read_param_files (E : bb_env) : List (Nat × Nat × String) → Int → bb_state → Int × bb_state
  | [], rv, st => (rv, st)
  | (s, e, fn) :: rest, rv, st =>
    read_param_files E rest
      (rv + (read_param_file E.ROW (st.battle_params s e) (E.param_files fn)).1)
      { st with battle_params := fun a b =>
          if a = s ∧ b = e then
            (read_param_file E.ROW (st.battle_params s e) (E.param_files fn)).2
          else st.battle_params a b }

/-- The calls `read_bb_map_set(0, i, j)` and `read_bb_map_set(1, i, j)` of
`read_bb_map_files` (lines 927-935), as triples `(solo, i, j)` in program
order: `i < 3`, and `j < 16` with `j <= max_area[i]`. -/
def bb_map_jobs : List (Nat × Nat × Nat) :=
  (List.range 3).flatMap fun i =>
    ((List.range 16).takeWhile fun j => j ≤ max_area.getD i 0).flatMap fun j =>
      [(0, i, j), (1, i, j)]

/-- The loop of `read_bb_map_files` over the calls still to make; the first
non-zero code is returned at once. -/
def read_bb_map_loop (E : bb_env) : List (Nat × Nat × Nat) → bb_state → Option (Int × bb_state)
  | [], st => some (0, st)
  | (solo, i, j) :: rest, st =>
    match read_bb_map_set E.fs E.decode (E.alloc_grid solo i j) (E.junk solo i j) solo i j
        (st.bb_parsed_maps solo i j) with
    | none => none
    | some (srv, m1) =>
      let st1 : bb_state :=
        { st with bb_parsed_maps := fun a b c =>
            if a = solo ∧ b = i ∧ c = j then m1 else st.bb_parsed_maps a b c }
      if srv ≠ 0 then some (srv, st1) else read_bb_map_loop E rest st1

/-- The function `read_bb_map_files()`. -/
def read_bb_map_files (E : bb_env) (st : bb_state) : Option (Int × bb_state) :=
  read_bb_map_loop E bb_map_jobs st

/-- The statement `debug(DBG_LOG, msg)` of `bb_read_params`. -/
def bb_state.logged (st : bb_state) (msg : String) : bb_state :=
  { st with log := st.log ++ [msg] }

/-- The message logged before the six calls of `read_param_file`. -/
def msg_params : String := "Loading Blue Burst battle parameter data...\n"

/-- The message logged before the call of `read_level_data`. -/
def msg_level : String := "Loading Blue Burst levelup table...\n"

/-- The message logged before the call of `read_bb_map_files`. -/
def msg_maps : String := "Loading Blue Burst Map Enemy Data...\n"

/-- The function `bb_read_params(cfg)` (lines 951-1037): the return code and
the state afterwards; `none` when `read_level_data` or a call of `parse_map`
is undefined. -/
def bb_read_params (S : sys_t) (E : bb_env) (st : bb_state) : Option (Int × bb_state) :=
  if S.has_dirs = false then some (1, st)
  else if S.alloc_buf = false then some (-1, st)
  else if S.getcwd_ok = false then some (-1, st)
  else if S.chdir_ok = false then some (1, st)
  else
    let p := read_param_files E param_jobs 0 (st.logged msg_params)
    let st2 := p.2.logged msg_level
    match read_level_data E.SIZE E.prs E.level_junk (E.level_files "PlyLevelTbl.prs")
        E.alloc_buf2 st2.char_stats with
    | none => none
    | some (c, cs) =>
      let st3 : bb_state := { st2 with char_stats := cs }
      if S.chdir_back_ok = false then some (-1, st3)
      else if p.1 + c ≠ 0 then some (p.1 + c, st3)
      else if S.chdir_maps_ok = false then some (1, st3)
      else
        match read_bb_map_files E (st3.logged msg_maps) with
        | none => none
        | some (rv, st4) =>
          if S.chdir_back2_ok = false then some (-1, st4) else some (rv, st4)

/-- The return codes of the six calls of `read_param_file`, in program
order. -/
def param_codes (E : bb_env) (st : bb_state) : List Int :=
  param_jobs.map fun job =>
    (read_param_file E.ROW (st.battle_params job.1 job.2.1) (E.param_files job.2.2)).1

/-- The return code of the call of `read_level_data`, when it is defined. -/
def level_code (E : bb_env) (st : bb_state) : Option Int :=
  (read_level_data E.SIZE E.prs E.level_junk (E.level_files "PlyLevelTbl.prs") E.alloc_buf2
    st.char_stats).map Prod.fst

/-- An environment for the concrete instances: rows of 1 byte and a table
of 4 bytes, the decompressor `demo_prs`, parameter files of four blocks of
ones except for `BattleParamEntry_lab.dat`, which is missing, a level file,
and no map file. -/
def demo_bb_env : bb_env :=
  { ROW := 1, SIZE := 4, prs := demo_prs,
    param_files := fun fn =>
      if fn = "BattleParamEntry_lab.dat" then none else some (List.replicate 384 1),
    level_files := fun _ => some ⟨[0], true, true⟩, alloc_buf2 := true,
    level_junk := fun _ => 0, fs := fun _ => none, decode := demo_decode,
    alloc_grid := fun _ _ _ => true, junk := fun _ _ _ _ => ⟨7, []⟩ }

/-- The state before `bb_read_params`: tables of zeros, an empty catalog and
no message. -/
def bb_state.init : bb_state :=
  { battle_params := fun _ _ => List.replicate 384 0, char_stats := [0, 0, 0, 0],
    bb_parsed_maps := fun _ _ _ => ⟨0, 0, []⟩, log := [] }

/-- The environment `demo_bb_env` with the file `BattleParamEntry_lab.dat`
present as well. -/
def demo_bb_env_ok : bb_env :=
  { demo_bb_env with param_files := fun _ => some (List.replicate 384 1) }

/-- The state after `bb_read_params` in the environment `demo_bb_env_ok`. -/
def demo_bb_result : bb_state :=
  ((bb_read_params demo_sys demo_bb_env_ok bb_state.init).map Prod.snd).getD bb_state.init

/-! ## The scratch buffer as a list of slots -/

theorem u32_of_lt {n : Nat} (h : n < 4294967296) : u32 n = n := Nat.mod_eq_of_lt h

theorem pad_append_zeros (xs : List game_enemy_t) (n : Nat) :
    pad (xs ++ List.replicate n zero_slot) = pad xs := by
  funext k
  simp only [pad, List.getElem?_append, List.getElem?_replicate]
  split_ifs with h1 h2
  · rfl
  · rw [List.getElem?_eq_none (by omega)]; rfl
  · rw [List.getElem?_eq_none (by omega)]

theorem put_pad (ys : List game_enemy_t) (c off bp rt : Nat)
    (h1 : ys.length = c + off) (h2 : c + off < 0xB50) :
    put ⟨pad ys, c⟩ off bp rt = some ⟨pad (ys ++ [⟨bp, rt⟩]), c⟩ := by
  have hu : u32 (c + off) = c + off := u32_of_lt (by omega)
  simp only [put, set_bp_entry, set_rt_index, hu, h2, if_true, Option.some_bind]
  congr 2
  funext k
  simp only [pad, List.getElem?_append]
  by_cases hk : k = c + off
  · subst hk
    simp [h1]
  · simp only [hk, if_false]
    split_ifs with h3
    · rfl
    · rw [List.getElem?_eq_none (by omega)]
      have : k - ys.length ≠ 0 := by omega
      obtain ⟨j, hj⟩ := Nat.exists_eq_succ_of_ne_zero this
      rw [hj]; simp

theorem set_bp_entry_pad (ys : List game_enemy_t) (c i bp : Nat)
    (h1 : ys.length = i) (h2 : i < 0xB50) :
    set_bp_entry ⟨pad ys, c⟩ i bp = some ⟨pad (ys ++ [⟨bp, 0⟩]), c⟩ := by
  simp only [set_bp_entry, h2, if_true]
  congr 2
  funext k
  simp only [pad, List.getElem?_append]
  by_cases hk : k = i
  · subst hk
    rw [List.getElem?_eq_none (by omega)]
    simp [h1, zero_slot]
  · simp only [hk, if_false]
    split_ifs with h3
    · rfl
    · rw [List.getElem?_eq_none (by omega)]
      have : k - ys.length ≠ 0 := by omega
      obtain ⟨j, hj⟩ := Nat.exists_eq_succ_of_ne_zero this
      rw [hj]; simp

theorem bump_eq (g : Nat → game_enemy_t) (c n : Nat) (h : c + n < 4294967296) :
    bump ⟨g, c⟩ n = ⟨g, c + n⟩ := by
  simp [bump, u32_of_lt h]

theorem companions_pad (bp rt n : Nat) : ∀ (ys : List game_enemy_t) (c : Nat),
    ys.length = c + 1 → c + n < 0xB50 →
    companions bp rt n ⟨pad ys, c⟩ = some ⟨pad (ys ++ List.replicate n ⟨bp, rt⟩), c + n⟩ := by
  induction n with
  | zero => intro ys c _ _; simp [companions]
  | succ n ih =>
    intro ys c h1 h2
    rw [companions, bump_eq _ _ _ (by omega), put_pad ys (c + 1) 0 bp rt (by omega) (by omega)]
    rw [Option.some_bind, ih _ _ (by simp; omega) (by omega)]
    simp [List.replicate_succ, Nat.add_assoc, Nat.add_comm 1 n]

theorem helpers_pad (bp n : Nat) : ∀ (ys : List game_enemy_t) (c : Nat),
    ys.length = c + 1 → c + n < 0xB50 →
    helpers bp n ⟨pad ys, c⟩ = some ⟨pad (ys ++ List.replicate n ⟨bp, 0⟩), c + n⟩ := by
  induction n with
  | zero => intro ys c _ _; simp [helpers]
  | succ n ih =>
    intro ys c h1 h2
    rw [helpers, bump_eq _ _ _ (by omega), u32_of_lt (by simp only []; omega),
      set_bp_entry_pad ys (c + 1) (c + 1) bp (by omega) (by omega)]
    rw [Option.some_bind, ih _ _ (by simp; omega) (by omega)]
    simp [List.replicate_succ, Nat.add_assoc, Nat.add_comm 1 n]

theorem recons_pad (n : Nat) : ∀ (ys : List game_enemy_t) (c j : Nat),
    ys.length = c + j → c + j + n ≤ 0xB50 →
    recons n j ⟨pad ys, c⟩ = some ⟨pad (ys ++ List.replicate n ⟨0x42, 0x44⟩), c⟩ := by
  induction n with
  | zero => intro ys c j _ _; simp [recons]
  | succ n ih =>
    intro ys c j h1 h2
    rw [recons, put_pad ys c j _ _ h1 (by omega)]
    rw [Option.some_bind, ih _ _ _ (by simp; omega) (by omega)]
    simp [List.replicate_succ]

theorem advance_eq (r : map_enemy_t) (g : Nat → game_enemy_t) (c : Nat)
    (h : c + clones_after r + 1 < 4294967296) :
    advance r ⟨g, c⟩ = ⟨g, c + clones_after r + 1⟩ := by
  unfold advance
  split_ifs with h0
  · rw [bump_eq g c _ (by omega), bump_eq _ _ _ (by omega)]
  · have : clones_after r = 0 := by simpa using h0
    rw [bump_eq g c _ (by omega), this]

/-! Shapes of the switch cases, from a state whose buffer holds `xs`. -/

theorem shape_put (xs : List game_enemy_t) (bp rt : Nat) (h : xs.length + 1 ≤ 0xB50) :
    put ⟨pad xs, xs.length⟩ 0 bp rt = some ⟨pad (xs ++ [⟨bp, rt⟩]), xs.length + 1 - 1⟩ :=
  put_pad xs xs.length 0 bp rt rfl (by omega)

theorem shape_skip (xs : List game_enemy_t) :
    (some ⟨pad xs, xs.length⟩ : Option scratch)
      = some ⟨pad (xs ++ [zero_slot]), xs.length + 1 - 1⟩ := by
  have := pad_append_zeros xs 1
  simp only [List.replicate_one] at this
  rw [this]; rfl

theorem shape_put_bump (xs : List game_enemy_t) (bp rt m : Nat)
    (h : xs.length + (m + 1) ≤ 0xB50) :
    ((put ⟨pad xs, xs.length⟩ 0 bp rt).map fun s1 => bump s1 m)
      = some ⟨pad (xs ++ ⟨bp, rt⟩ :: List.replicate m zero_slot), xs.length + (m + 1) - 1⟩ := by
  rw [put_pad xs xs.length 0 bp rt rfl (by omega), Option.map_some', bump_eq _ _ _ (by omega)]
  have := pad_append_zeros (xs ++ [⟨bp, rt⟩]) m
  simp only [List.append_assoc, List.singleton_append] at this
  rw [this]; rfl

theorem shape_companions (xs : List game_enemy_t) (bp rt cbp crt n : Nat)
    (h : xs.length + (n + 1) ≤ 0xB50) :
    (put ⟨pad xs, xs.length⟩ 0 bp rt).bind (companions cbp crt n)
      = some ⟨pad (xs ++ ⟨bp, rt⟩ :: List.replicate n ⟨cbp, crt⟩), xs.length + (n + 1) - 1⟩ := by
  rw [put_pad xs xs.length 0 bp rt rfl (by omega), Option.some_bind,
    companions_pad _ _ _ _ _ (by simp) (by omega)]
  simp

theorem shape_three (xs : List game_enemy_t) (a b c d e f : Nat)
    (h : xs.length + 3 ≤ 0xB50) :
    (((put ⟨pad xs, xs.length⟩ 0 a b).bind fun s0 =>
      (put s0 1 c d).bind fun s1 => put s1 2 e f).map fun s2 => bump s2 2)
      = some ⟨pad (xs ++ [⟨a, b⟩, ⟨c, d⟩, ⟨e, f⟩]), xs.length + 3 - 1⟩ := by
  rw [put_pad xs xs.length 0 a b rfl (by omega), Option.some_bind,
    put_pad _ xs.length 1 c d (by simp) (by omega), Option.some_bind,
    put_pad _ xs.length 2 e f (by simp) (by omega), Option.map_some',
    bump_eq _ _ _ (by omega)]
  simp

theorem shape_falz (xs : List game_enemy_t) (bp rt hbp n : Nat)
    (h : xs.length + (n + 1 + 1) ≤ 0xB50) :
    (((put ⟨pad xs, xs.length⟩ 0 bp rt).bind (helpers hbp n)).map fun s1 => bump s1 1)
      = some ⟨pad (xs ++ ⟨bp, rt⟩ :: (List.replicate n ⟨hbp, 0⟩ ++ List.replicate 1 zero_slot)),
          xs.length + (n + 1 + 1) - 1⟩ := by
  rw [put_pad xs xs.length 0 bp rt rfl (by omega), Option.some_bind,
    helpers_pad _ _ _ _ (by simp) (by omega), Option.map_some', bump_eq _ _ _ (by omega)]
  have := pad_append_zeros (xs ++ ⟨bp, rt⟩ :: List.replicate n ⟨hbp, 0⟩) 1
  simp only [List.append_assoc, List.cons_append] at this
  rw [this]
  simp
  omega

set_option maxHeartbeats 4000000 in
theorem parse_enemy_default (ep alt : Int) (r : map_enemy_t) (s : scratch)
    (h : r.base ∉ handled) : parse_enemy ep alt r s = some s := by
  simp only [handled, List.mem_cons, List.mem_singleton, not_or, List.not_mem_nil, not_false_eq_true, and_true] at h
  unfold parse_enemy
  split <;> first | rfl | omega

set_option maxHeartbeats 4000000 in
theorem switch_slots_default (ep alt : Int) (r : map_enemy_t)
    (h : r.base ∉ handled) : switch_slots ep alt r = [zero_slot] := by
  simp only [handled, List.mem_cons, List.mem_singleton, not_or, List.not_mem_nil, not_false_eq_true, and_true] at h
  unfold switch_slots
  split <;> first | rfl | omega

set_option maxRecDepth 8000 in
set_option maxHeartbeats 4000000 in
theorem switch_pad_handled (ep alt : Int) (nc rsv skin : Nat) (xs : List game_enemy_t) :
    ∀ base ∈ handled, base ≠ 0x00DF →
    xs.length + (switch_slots ep alt ⟨base, nc, rsv, skin⟩).length ≤ 0xB50 →
    parse_enemy ep alt ⟨base, nc, rsv, skin⟩ ⟨pad xs, xs.length⟩
      = some ⟨pad (xs ++ switch_slots ep alt ⟨base, nc, rsv, skin⟩),
          xs.length + (switch_slots ep alt ⟨base, nc, rsv, skin⟩).length - 1⟩ := by
  intro base hm hb h
  simp only [handled, List.mem_cons, List.mem_singleton, List.not_mem_nil, or_false] at hm
  rcases hm with rfl | rfl | rfl | rfl | rfl | rfl | rfl | rfl | rfl | rfl | rfl | rfl | rfl | rfl | rfl | rfl | rfl | rfl | rfl | rfl | rfl | rfl | rfl | rfl | rfl | rfl | rfl | rfl | rfl | rfl | rfl | rfl | rfl | rfl | rfl | rfl | rfl | rfl | rfl | rfl | rfl | rfl | rfl | rfl | rfl | rfl | rfl | rfl | rfl | rfl | rfl | rfl | rfl | rfl | rfl | rfl | rfl
  all_goals first
    | exact absurd rfl hb
    | (simp only [parse_enemy, switch_slots] at h ⊢
       (try split_ifs at h ⊢) <;> first
        | exact shape_put _ _ _ (by simpa using h)
        | exact shape_skip _
        | exact shape_put_bump _ _ _ _ (by simpa using h)
        | exact shape_companions _ _ _ _ _ _ (by simpa using h)
        | exact shape_three _ _ _ _ _ _ _ (by simpa using h)
        | exact shape_falz _ _ _ _ _ (by simpa using h))

theorem clones_after_of_ne {r : map_enemy_t} (h : r.base ≠ 0x0082) :
    clones_after r = r.num_clones := by
  simp [clones_after, h]

set_option maxHeartbeats 4000000 in
theorem switch_slots_pos (ep alt : Int) (r : map_enemy_t) :
    1 ≤ (switch_slots ep alt r).length := by
  unfold switch_slots
  split <;> (try split_ifs) <;>
    (simp only [List.length_cons, List.length_append, List.length_replicate, List.length_nil]
     omega)

theorem record_pad (ep alt : Int) (r : map_enemy_t) (xs : List game_enemy_t)
    (h : xs.length + (record_slots ep alt r).length ≤ 0xB50) :
    (parse_enemy ep alt r ⟨pad xs, xs.length⟩).map (advance r)
      = some ⟨pad (xs ++ record_slots ep alt r), (xs ++ record_slots ep alt r).length⟩ := by
  by_cases hdf : r.base = 0x00DF
  · -- species 0x00DF: the clone slots are written by the loop of the switch
    obtain ⟨base, nc, rsv, skin⟩ := r
    simp only at hdf
    subst hdf
    have hc : clones_after ⟨0x00DF, nc, rsv, skin⟩ = nc := clones_after_of_ne (by simp)
    have hs : switch_slots ep alt ⟨0x00DF, nc, rsv, skin⟩ = [⟨0x41, 0x43⟩] := by
      simp [switch_slots]
    have hr : record_slots ep alt ⟨0x00DF, nc, rsv, skin⟩
        = ⟨0x41, 0x43⟩ :: List.replicate nc ⟨0x42, 0x44⟩ := by
      simp [record_slots, hs, hc]
    rw [hr] at h ⊢
    simp only [List.length_cons, List.length_replicate] at h
    have hp : parse_enemy ep alt ⟨0x00DF, nc, rsv, skin⟩ ⟨pad xs, xs.length⟩
        = (put ⟨pad xs, xs.length⟩ 0 0x41 0x43).bind (recons nc 1) := by
      simp [parse_enemy]
    rw [hp, put_pad xs xs.length 0 _ _ rfl (by omega), Option.some_bind,
      recons_pad nc _ xs.length 1 (by simp) (by omega), Option.map_some',
      advance_eq _ _ _ (by rw [hc]; omega), hc]
    simp
    omega
  · have hlen : (record_slots ep alt r).length
        = (switch_slots ep alt r).length + clones_after r := by
      simp [record_slots]
    have hsw : parse_enemy ep alt r ⟨pad xs, xs.length⟩
        = some ⟨pad (xs ++ switch_slots ep alt r),
            xs.length + (switch_slots ep alt r).length - 1⟩ ∧
          1 ≤ (switch_slots ep alt r).length := by
      by_cases hm : r.base ∈ handled
      · obtain ⟨base, nc, rsv, skin⟩ := r
        have := switch_pad_handled ep alt nc rsv skin xs base hm hdf (by omega)
        exact ⟨this, switch_slots_pos ep alt _⟩
      · rw [parse_enemy_default ep alt r _ hm, switch_slots_default ep alt r hm]
        exact ⟨shape_skip xs, by simp⟩
    obtain ⟨hsw, hpos⟩ := hsw
    rw [hsw, Option.map_some', advance_eq _ _ _ (by omega)]
    have hz : record_slots ep alt r
        = switch_slots ep alt r ++ List.replicate (clones_after r) zero_slot := by
      simp [record_slots, hdf]
    rw [hz, ← List.append_assoc, pad_append_zeros]
    congr 1
    simp
    omega

theorem parse_records_pad (ep alt : Int) : ∀ (en : List map_enemy_t) (xs : List game_enemy_t),
    xs.length + (map_slots ep alt en).length ≤ 0xB50 →
    parse_records ep alt en ⟨pad xs, xs.length⟩
      = some ⟨pad (xs ++ map_slots ep alt en), (xs ++ map_slots ep alt en).length⟩ := by
  intro en
  induction en with
  | nil => intro xs _; simp [parse_records, map_slots]
  | cons r rs ih =>
    intro xs h
    have hcons : map_slots ep alt (r :: rs) = record_slots ep alt r ++ map_slots ep alt rs := by
      simp [map_slots]
    rw [hcons] at h ⊢
    simp only [List.length_append] at h
    have hstep := record_pad ep alt r xs (by omega)
    have hrw : parse_records ep alt (r :: rs) ⟨pad xs, xs.length⟩
        = ((parse_enemy ep alt r ⟨pad xs, xs.length⟩).map (advance r)).bind
            (parse_records ep alt rs) := by
      rw [parse_records]
      cases parse_enemy ep alt r ⟨pad xs, xs.length⟩ <;> rfl
    rw [hrw, hstep, Option.some_bind, ih _ (by simp only [List.length_append]; omega),
      List.append_assoc]

theorem pad_nil : pad [] = scratch.init.gen := by
  funext k; simp [pad, scratch.init, zero_slot]

theorem range_map_pad (xs : List game_enemy_t) :
    (List.range xs.length).map (pad xs) = xs := by
  apply List.ext_getElem (by simp)
  intro n h1 h2
  simp [pad, List.getElem?_eq_getElem h2]

/-- Within the scratch capacity, `parse_map` returns 0 and stores the slots
of the records, in record order, with their number as `count`. -/
theorem parse_map_eq (en : List map_enemy_t) (game : game_enemies_t) (ep alt : Int)
    (h : (map_slots ep alt en).length ≤ 0xB50) :
    parse_map true en game ep alt
      = some (0, ⟨(map_slots ep alt en).length, map_slots ep alt en⟩) := by
  have h0 : scratch.init = ⟨pad [], ([] : List game_enemy_t).length⟩ := by
    rw [pad_nil]; rfl
  have := parse_records_pad ep alt en [] (by simpa using h)
  rw [← h0] at this
  simp only [parse_map, Bool.true_eq_false, if_false, this, Option.map_some', List.nil_append]
  rw [Nat.min_eq_left h, range_map_pad]

/-! ## The assemblers: scan and copy -/

theorem u32_add_u32 (a b : Nat) : u32 (u32 a + b) = u32 (a + b) := by
  simp [u32, Nat.add_mod]

theorem u32_acc (a b c : Nat) : u32 (u32 (a + b) + c) = u32 (a + (b + c)) := by
  rw [u32_add_u32, Nat.add_assoc]

theorem selected_lookup (maps : Nat → Nat) (m : parsed_map_t) (k : Nat)
    (hb : in_bounds maps m k) (hg : grid_ok m) :
    m.data[u32 (maps (2 * k) * m.variation_count + maps (2 * k + 1))]?
      = some (selected_entry maps m k) ∧ selected_entry maps m k ∈ m.data := by
  obtain ⟨h1, h2⟩ := hb
  obtain ⟨g1, g2, _⟩ := hg
  have hlt : maps (2 * k) * m.variation_count + maps (2 * k + 1) < m.data.length := by
    rw [g1]
    calc maps (2 * k) * m.variation_count + maps (2 * k + 1)
        < maps (2 * k) * m.variation_count + m.variation_count := by omega
      _ = (maps (2 * k) + 1) * m.variation_count := by ring
      _ ≤ m.map_count * m.variation_count := Nat.mul_le_mul_right _ h1
  rw [u32_of_lt (by omega), selected_entry, List.getD_eq_getElem?_getD,
    List.getElem?_eq_getElem hlt]
  exact ⟨rfl, List.getElem_mem _⟩

theorem bb_scan_range (maps : Nat → Nat) (area : Nat → parsed_map_t) :
    ∀ (n k acc : Nat) (sets : List game_enemies_t), acc < 4294967296 →
    (∀ j ∈ (List.range' k n).takeWhile (fun j => !is_end (area j)),
        in_bounds maps (area j) j ∧ grid_ok (area j)) →
    bb_scan maps ((List.range' k n).map area) (2 * k) acc sets
      = .done
          (u32 (acc + (List.map (fun j => (selected_entry maps (area j) j).count)
              ((List.range' k n).takeWhile fun j => !is_end (area j))).sum))
          (sets ++ List.map (fun j => selected_entry maps (area j) j)
              ((List.range' k n).takeWhile fun j => !is_end (area j))) := by
  intro n
  induction n with
  | zero => intro k acc sets ha _; simp [bb_scan, u32_of_lt ha]
  | succ n ih =>
    intro k acc sets ha h
    rw [List.range'_succ] at h ⊢
    simp only [List.map_cons, bb_scan, List.takeWhile_cons] at h ⊢
    by_cases he : is_end (area k) = true
    · have he' : (area k).map_count = 0 ∧ (area k).variation_count = 0 := by
        simpa [is_end] using he
      simp [he, he', u32_of_lt ha]
    · have he' : ¬ ((area k).map_count = 0 ∧ (area k).variation_count = 0) := by
        simpa [is_end] using he
      simp only [he, Bool.not_false, if_true, he', if_false, List.mem_cons, forall_eq_or_imp,
        Bool.false_eq_true, not_false_eq_true, Bool.not_eq_true] at h ⊢
      obtain ⟨⟨hb, hg⟩, hrest⟩ := h
      have hnot : ¬ (maps (2 * k) > (area k).map_count ∨
          maps (2 * k + 1) > (area k).variation_count) := by
        have := hb.1; have := hb.2; omega
      rw [if_neg hnot, (selected_lookup maps _ k hb hg).1]
      simp only
      have := ih (k + 1) (u32 (acc + (selected_entry maps (area k) k).count))
        (sets ++ [selected_entry maps (area k) k]) (Nat.mod_lt _ (by norm_num)) hrest
      rw [show 2 * k + 2 = 2 * (k + 1) by ring, this, u32_acc]
      simp

theorem read_slots_map_some {α : Type} (xs : List α) : read_slots (xs.map some) = some xs := by
  induction xs with
  | nil => rfl
  | cons x xs ih => simp [read_slots, ih]

theorem memcpy_fill {α : Type} (filled src : List α) (rest : Nat) (h : src.length ≤ rest) :
    memcpy (filled.map some ++ List.replicate rest none) filled.length src src.length
      = some ((filled ++ src).map some ++ List.replicate (rest - src.length) none) := by
  unfold memcpy
  rw [if_pos (by simp; omega)]
  congr 1
  have h1 : List.take filled.length (filled.map some ++ List.replicate rest (none : Option α))
      = filled.map some := by
    rw [List.take_append_of_le_length (by simp), List.take_of_length_le (by simp)]
  have h2 : List.drop (filled.length + src.length)
      (filled.map some ++ List.replicate rest (none : Option α))
      = List.replicate (rest - src.length) none := by
    have := @List.drop_append _ (filled.map some) (List.replicate rest (none : Option α)) src.length
    rw [List.length_map] at this
    rw [this, List.drop_replicate]
  rw [h1, h2, List.take_of_length_le (Nat.le_refl _), List.map_append]

theorem copy_sets_fill : ∀ (sets : List game_enemies_t) (filled : List game_enemy_t),
    (∀ e ∈ sets, e.enemies.length = e.count) →
    filled.length + (sets.map fun e => e.count).sum < 4294967296 →
    copy_sets sets filled.length
        (filled.map some ++ List.replicate (sets.map fun e => e.count).sum none)
      = some ((filled ++ (sets.map fun e => e.enemies).flatten).map some) := by
  intro sets
  induction sets with
  | nil => intro filled _ _; simp [copy_sets]
  | cons e rest ih =>
    intro filled hwf hsum
    have he : e.enemies.length = e.count := hwf e (List.mem_cons_self _ _)
    simp only [List.map_cons, List.sum_cons] at hsum ⊢
    rw [copy_sets, ← he, memcpy_fill filled e.enemies _ (by omega), Option.some_bind,
      Nat.add_sub_cancel_left, u32_of_lt (by omega)]
    have := ih (filled ++ e.enemies) (fun x hx => hwf x (List.mem_cons_of_mem _ hx))
      (by simp only [List.length_append]; omega)
    rw [List.length_append] at this
    rw [this]
    simp


theorem bb_assemble_ok (K : lobby_consts) (cat : Nat → Nat → Nat → parsed_map_t) (l : lobby_t)
    (hep : 1 ≤ l.episode ∧ l.episode ≤ 3)
    (hsel : selection_ok l.maps (bb_area K cat l))
    (hsum : selected_total l.maps (bb_area K cat l) < 4294967296) :
    bb_assemble K cat true true l
      = .built ⟨selected_total l.maps (bb_area K cat l), selected_slots l.maps (bb_area K cat l)⟩ := by
  have hscan := bb_scan_range l.maps (bb_area K cat l) 0x10 0 0 [] (by norm_num)
    (by
      intro j hj
      have : j ∈ populated (bb_area K cat l) := by
        simpa [populated, List.range_eq_range'] using hj
      exact hsel j this)
  have hareas : bb_areas cat K l = (List.range' 0 0x10).map (bb_area K cat l) := by
    simp [bb_areas, bb_area, List.range_eq_range']
  have hent : List.map (fun j => selected_entry l.maps (bb_area K cat l j) j)
      ((List.range' 0 0x10).takeWhile fun j => !is_end (bb_area K cat l j))
      = selected_entries l.maps (bb_area K cat l) := by
    simp [selected_entries, populated, List.range_eq_range']
  have hcnt : (List.map (fun j => (selected_entry l.maps (bb_area K cat l j) j).count)
      ((List.range' 0 0x10).takeWhile fun j => !is_end (bb_area K cat l j))).sum
      = selected_total l.maps (bb_area K cat l) := by
    simp [selected_total, selected_entries, populated, List.range_eq_range', Function.comp_def]
  rw [hent, hcnt] at hscan
  simp only [Nat.mul_zero, Nat.zero_add, List.nil_append] at hscan
  rw [u32_of_lt hsum] at hscan
  have hwf : ∀ e ∈ selected_entries l.maps (bb_area K cat l), e.enemies.length = e.count := by
    intro e he
    simp only [selected_entries, List.mem_map] at he
    obtain ⟨k, hk, rfl⟩ := he
    obtain ⟨hb, hg⟩ := hsel k hk
    exact hg.2.2 _ (selected_lookup l.maps _ k hb hg).2
  have hcopy := copy_sets_fill (selected_entries l.maps (bb_area K cat l)) [] hwf
    (by simpa [selected_total] using hsum)
  simp only [List.length_nil, List.map_nil, List.nil_append] at hcopy
  unfold bb_assemble
  rw [if_neg (by simp [hep]), hareas, hscan]
  simp only [Bool.true_eq_false, if_false]
  have htot : selected_total l.maps (bb_area K cat l)
      = (List.map (fun e => e.count) (selected_entries l.maps (bb_area K cat l))).sum := rfl
  rw [htot, hcopy, Option.some_bind, read_slots_map_some]
  rfl

/-! ## Lemmas shared by the claims -/

theorem bb_load_ok (K : lobby_consts) (cat : Nat → Nat → Nat → parsed_map_t) (l : lobby_t)
    (hep : 1 ≤ l.episode ∧ l.episode ≤ 3)
    (hsel : selection_ok l.maps (bb_area K cat l))
    (hsum : selected_total l.maps (bb_area K cat l) < 4294967296) :
    bb_load_game_enemies K cat true true l
      = some (0, { l with
          bb_params := some ⟨solo_of K l, (l.episode : Int) - 1, l.difficulty⟩
          map_enemies := some
            ⟨selected_total l.maps (bb_area K cat l),
             (selected_slots l.maps (bb_area K cat l)).map (bb_fixup K l.difficulty l.event)⟩ }) := by
  simp only [bb_load_game_enemies, bb_assemble_ok K cat l hep hsel hsum]

theorem bb_slot_ok (K : lobby_consts) (cat : Nat → Nat → Nat → parsed_map_t) (l : lobby_t)
    (hep : 1 ≤ l.episode ∧ l.episode ≤ 3)
    (hsel : selection_ok l.maps (bb_area K cat l))
    (hsum : selected_total l.maps (bb_area K cat l) < 4294967296) (i : Nat) :
    bb_slot K cat l i
      = (selected_slots l.maps (bb_area K cat l))[i]?.map (bb_fixup K l.difficulty l.event) := by
  simp [bb_slot, bb_load_ok K cat l hep hsel hsum]

theorem bb_fixup_sentinel (K : lobby_consts) (d ev : Nat) (e : game_enemy_t)
    (hrt : e.rt_index = 0xFF) (hbp : e.bp_entry ≠ 0x37 ∨ d = 0) :
    bb_fixup K d ev e =
      { e with rt_index :=
          if ev = K.LOBBY_EVENT_CHRISTMAS then 79
          else if ev = K.LOBBY_EVENT_EASTER then 81
          else if ev = K.LOBBY_EVENT_HALLOWEEN then 80
          else 51 } := by
  have h1 : ¬ (e.bp_entry = 0x37 ∧ d ≠ 0) := by
    rcases hbp with h | h
    · exact fun hh => h hh.1
    · exact fun hh => hh.2 h
  simp only [bb_fixup, h1, if_false, hrt, if_true]
  split_ifs <;> rfl

theorem spare_event (a b c d : Nat) : ∃ e, e ≤ 4 ∧ e ≠ a ∧ e ≠ b ∧ e ≠ c ∧ e ≠ d := by
  by_contra h
  push_neg at h
  have h0 := h 0 (by omega)
  have h1 := h 1 (by omega)
  have h2 := h 2 (by omega)
  have h3 := h 3 (by omega)
  have h4 := h 4 (by omega)
  omega

theorem switch_pad (ep alt : Int) (r : map_enemy_t) (xs : List game_enemy_t)
    (hdf : r.base ≠ 0x00DF) (h : xs.length + (switch_slots ep alt r).length ≤ 0xB50) :
    parse_enemy ep alt r ⟨pad xs, xs.length⟩
      = some ⟨pad (xs ++ switch_slots ep alt r),
          xs.length + (switch_slots ep alt r).length - 1⟩ := by
  by_cases hm : r.base ∈ handled
  · obtain ⟨base, nc, rsv, skin⟩ := r
    exact switch_pad_handled ep alt nc rsv skin xs base hm hdf h
  · rw [parse_enemy_default ep alt r _ hm, switch_slots_default ep alt r hm]
    exact shape_skip xs

theorem range_map_pad_take (xs : List game_enemy_t) (n : Nat) (h : xs.length ≤ n) :
    (List.range (min n 0xB50)).map (pad xs)
      = (xs ++ List.replicate (n - xs.length) zero_slot).take 0xB50 := by
  apply List.ext_getElem?
  intro i
  rw [List.getElem?_map, List.getElem?_take]
  by_cases h1 : i < min n 0xB50
  · rw [List.getElem?_range h1, Option.map_some', if_pos (by omega), List.getElem?_append]
    by_cases h2 : i < xs.length
    · simp [pad, h2, List.getElem?_eq_getElem h2]
    · rw [if_neg h2, List.getElem?_replicate, if_pos (by omega)]
      simp [pad, List.getElem?_eq_none (Nat.le_of_not_lt h2)]
  · rw [List.getElem?_eq_none (by simpa using Nat.le_of_not_lt h1), Option.map_none']
    split_ifs with h3
    · rw [List.getElem?_eq_none (by simp; omega)]
    · rfl

/-- One record alone, of a species other than 0x00DF: `parse_map` returns 0,
the count is the number of switch slots plus the clone count, and the output
holds these slots as far as they lie inside the scratch buffer. -/
theorem parse_map_single (ep alt : Int) (r : map_enemy_t) (g : game_enemies_t)
    (hdf : r.base ≠ 0x00DF) (hsw : (switch_slots ep alt r).length ≤ 0xB50)
    (hc : clones_after r < 65536) :
    parse_map true [r] g ep alt
      = some (0, ⟨(switch_slots ep alt r).length + clones_after r,
          (switch_slots ep alt r ++ List.replicate (clones_after r) zero_slot).take 0xB50⟩) := by
  have h0 : scratch.init = ⟨pad [], ([] : List game_enemy_t).length⟩ := by
    rw [pad_nil]; rfl
  have hpos := switch_slots_pos ep alt r
  have hsw' := switch_pad ep alt r [] hdf (by simpa using hsw)
  rw [← h0] at hsw'
  simp only [List.nil_append, List.length_nil, Nat.zero_add] at hsw'
  simp only [parse_map, Bool.true_eq_false, if_false, parse_records, hsw', Option.some_bind,
    Option.map_some']
  rw [advance_eq _ _ _ (by omega)]
  simp only
  have hcount : (switch_slots ep alt r).length - 1 + clones_after r + 1
      = (switch_slots ep alt r).length + clones_after r := by omega
  rw [hcount, range_map_pad_take _ _ (by omega), Nat.add_sub_cancel_left]

theorem take_all {α : Type} (xs : List α) (n : Nat) (h : xs.length ≤ n) : xs.take n = xs :=
  List.take_of_length_le h

/-- Species 0x0042 alone: the output of `parse_map`. -/
theorem monest_eq (nc rsv skin : Nat) (g : game_enemies_t) (ep alt : Int) (hc : nc < 65536) :
    parse_map true [⟨0x0042, nc, rsv, skin⟩] g ep alt
      = some (0, ⟨31 + nc,
          (⟨0x01, 0x04⟩ :: (List.replicate 30 ⟨0x00, 0x03⟩ ++
            List.replicate nc ⟨0, 0⟩)).take 0xB50⟩) := by
  have hca : clones_after ⟨0x0042, nc, rsv, skin⟩ = nc := clones_after_of_ne (by simp)
  have hs : switch_slots ep alt ⟨0x0042, nc, rsv, skin⟩
      = ⟨0x01, 0x04⟩ :: List.replicate 30 ⟨0x00, 0x03⟩ := by
    simp only [switch_slots]
  have := parse_map_single ep alt ⟨0x0042, nc, rsv, skin⟩ g (by simp)
    (by rw [hs]; simp) (by rw [hca]; exact hc)
  rw [this, hs, hca]
  simp [zero_slot]

theorem map_slots_append (ep alt : Int) (a b : List map_enemy_t) :
    map_slots ep alt (a ++ b) = map_slots ep alt a ++ map_slots ep alt b := by
  simp [map_slots]

theorem map_slots_cons (ep alt : Int) (r : map_enemy_t) (rs : List map_enemy_t) :
    map_slots ep alt (r :: rs) = record_slots ep alt r ++ map_slots ep alt rs := by
  simp [map_slots]

theorem record_slots_recobox (ep alt : Int) (nc rsv skin : Nat) :
    record_slots ep alt ⟨0x00DF, nc, rsv, skin⟩
      = ⟨0x41, 0x43⟩ :: List.replicate nc ⟨0x42, 0x44⟩ := by
  have hc : clones_after ⟨0x00DF, nc, rsv, skin⟩ = nc := clones_after_of_ne (by simp)
  have hs : switch_slots ep alt ⟨0x00DF, nc, rsv, skin⟩ = [⟨0x41, 0x43⟩] := by
    simp only [switch_slots]
  simp [record_slots, hs, hc]

theorem record_slots_unknown (ep alt : Int) (r : map_enemy_t) (h : r.base ∉ handled) :
    record_slots ep alt r = List.replicate (1 + r.num_clones) zero_slot := by
  have h82 : r.base ≠ 0x0082 := fun hh => h (by rw [hh]; decide)
  have hdf : r.base ≠ 0x00DF := fun hh => h (by rw [hh]; decide)
  rw [record_slots, switch_slots_default ep alt r h, clones_after_of_ne h82, if_neg hdf,
    Nat.add_comm, List.replicate_succ]
  rfl

theorem parse_records_congr (ep alt : Int) (r1 r2 : map_enemy_t)
    (h1 : ∀ s, parse_enemy ep alt r1 s = parse_enemy ep alt r2 s)
    (h2 : ∀ s, advance r1 s = advance r2 s) (post : List map_enemy_t) :
    ∀ (pre : List map_enemy_t) (s : scratch),
      parse_records ep alt (pre ++ r1 :: post) s = parse_records ep alt (pre ++ r2 :: post) s := by
  intro pre
  induction pre with
  | nil => intro s; simp only [List.nil_append, parse_records, h1, h2]
  | cons r rs ih =>
    intro s
    simp only [List.cons_append, parse_records]
    cases parse_enemy ep alt r s with
    | none => rfl
    | some s1 => exact ih _


/-! ## Claims C1 to C10 -/

/-- Claim C1. For a session of episode 1..3 whose selected (map, variation)
pair is strictly inside the declared bounds of every populated area (the
grids of those areas holding `map_count * variation_count` entries of `count`
slots each, and the 32-bit total of the selected counts not wrapping),
`bb_load_game_enemies` returns 0 when its allocations succeed.  Before the
fixup loop its enemy list is exactly the concatenation, in increasing area
order, of the selected entries `data[map * variation_count + variation]` of
the areas that precede the first area whose counts are both zero, and its
count is the sum of their counts; the installed list is that list with the
fixups applied slot by slot.  Nothing is assumed of the areas at or after the
first all-zero area: they contribute nothing and cause no error. -/
theorem bb_load_concatenates (K : lobby_consts) (cat : Nat → Nat → Nat → parsed_map_t)
    (l : lobby_t)
    (hep : 1 ≤ l.episode ∧ l.episode ≤ 3)
    (hsel : selection_ok l.maps (bb_area K cat l))
    (hsum : selected_total l.maps (bb_area K cat l) < 4294967296) :
    bb_assemble K cat true true l
        = .built ⟨selected_total l.maps (bb_area K cat l),
                  selected_slots l.maps (bb_area K cat l)⟩ ∧
      bb_installed K cat l
        = some (0, some ⟨selected_total l.maps (bb_area K cat l),
            (selected_slots l.maps (bb_area K cat l)).map (bb_fixup K l.difficulty l.event)⟩) := by
  refine ⟨bb_assemble_ok K cat l hep hsel hsum, ?_⟩
  simp only [bb_installed, bb_load_ok K cat l hep hsel hsum, Option.map_some']

/-- Instance of C1: in the sample catalog the selection (1, 0) in area 0 and
(0, 1) in area 1 assembles the one slot of the first entry followed by the
two slots of the second; the areas from 2 on are empty. -/
theorem bb_load_concatenates_witness :
    (1 ≤ (demo_lobby 2 1 (demo_maps 1 0 0 1)).episode ∧
        (demo_lobby 2 1 (demo_maps 1 0 0 1)).episode ≤ 3) ∧
      selection_ok (demo_maps 1 0 0 1)
        (bb_area demo_consts demo_catalog (demo_lobby 2 1 (demo_maps 1 0 0 1))) ∧
      bb_assemble demo_consts demo_catalog true true (demo_lobby 2 1 (demo_maps 1 0 0 1))
        = .built ⟨3, [⟨0x19, 0xFF⟩, ⟨0x19, 0xFF⟩, ⟨0x4E, 0x0C⟩]⟩ ∧
      bb_installed demo_consts demo_catalog (demo_lobby 2 1 (demo_maps 1 0 0 1))
        = some (0, some ⟨3, [⟨0x19, 79⟩, ⟨0x19, 79⟩, ⟨0x4E, 0x0C⟩]⟩) :=
  ⟨by decide, by decide,
    bb_load_concatenates demo_consts demo_catalog (demo_lobby 2 1 (demo_maps 1 0 0 1))
      (by decide) (by decide) (by decide)⟩

/-- Claim C2, the code at a failing input.  Area 0 of the sample catalog
declares 2 maps of 1 variation.  With the selection (map 0, variation 1),
whose variation number equals `variation_count`, both assemblers pass the
sanity check (it tests `>`), read `data[0 * 1 + 1]`, the entry of (map 1,
variation 0), return 0 and install session data.  With the selection (map 2,
variation 0), whose map number equals `map_count`, they pass the check too
and read `data[2]`, outside the grid of 2 entries. -/
theorem selection_check_off_by_one :
    bb_installed demo_consts demo_catalog (demo_lobby 0 0 (demo_maps 0 1 0 0))
        = some (0, some ⟨2, [⟨0x19, 51⟩, ⟨0x18, 0x05⟩]⟩) ∧
      v2_installed (demo_catalog 0 0) demo_objs (demo_lobby 0 0 (demo_maps 0 1 0 0))
        = some (0, some ⟨2, [⟨0x19, 0xFF⟩, ⟨0x18, 0x05⟩]⟩, some ⟨2, [⟨[0x10]⟩, ⟨[0x01]⟩]⟩) ∧
      bb_installed demo_consts demo_catalog (demo_lobby 0 0 (demo_maps 2 0 0 0)) = none ∧
      v2_installed (demo_catalog 0 0) demo_objs (demo_lobby 0 0 (demo_maps 2 0 0 0)) = none := by
  decide

/-- Claim C3. For a catalog and an in-bounds selection as in C1, and all
inputs but the difficulty `d` fixed: the list before the fixups is the same
at every difficulty, the installed list has the same length, and for every
slot `i` with pre-fixup value `e`: if `e.bp_entry` is 0x37 the installed slot
has `bp_entry` 0x37 at difficulty 0 and 0x38 at every non-zero difficulty;
otherwise its `bp_entry` is `e.bp_entry` at all difficulties. -/
theorem end_boss_row_follows_difficulty (K : lobby_consts)
    (cat : Nat → Nat → Nat → parsed_map_t) (l : lobby_t) (d : Nat)
    (hep : 1 ≤ l.episode ∧ l.episode ≤ 3)
    (hsel : selection_ok l.maps (bb_area K cat l))
    (hsum : selected_total l.maps (bb_area K cat l) < 4294967296) :
    bb_assemble K cat true true { l with difficulty := d }
        = .built ⟨selected_total l.maps (bb_area K cat l),
                  selected_slots l.maps (bb_area K cat l)⟩ ∧
      (∃ en, bb_installed K cat { l with difficulty := d } = some (0, some en) ∧
        en.enemies.length = (selected_slots l.maps (bb_area K cat l)).length) ∧
      ∀ i e, (selected_slots l.maps (bb_area K cat l))[i]? = some e →
        ∃ e', bb_slot K cat { l with difficulty := d } i = some e' ∧
          (e.bp_entry = 0x37 → d = 0 → e'.bp_entry = 0x37) ∧
          (e.bp_entry = 0x37 → d ≠ 0 → e'.bp_entry = 0x38) ∧
          (e.bp_entry ≠ 0x37 → e'.bp_entry = e.bp_entry) := by
  have hok := bb_load_ok K cat { l with difficulty := d } hep hsel hsum
  refine ⟨bb_assemble_ok K cat { l with difficulty := d } hep hsel hsum, ?_, ?_⟩
  · exact ⟨_, by simp only [bb_installed, hok, Option.map_some']; rfl, by simp [bb_area, solo_of]⟩
  · intro i e hi
    have hs := bb_slot_ok K cat { l with difficulty := d } hep hsel hsum i
    have hi' : (selected_slots l.maps (bb_area K cat { l with difficulty := d }))[i]? = some e := hi
    simp only [hi', Option.map_some'] at hs
    refine ⟨_, hs, ?_, ?_, ?_⟩
    · intro h1 h2; subst h2; simp [bb_fixup]; split_ifs <;> simp [h1]
    · intro h1 h2; simp [bb_fixup, h1, h2]
    · intro h1; simp only [bb_fixup, h1, false_and, if_false]; split_ifs <;> rfl

/-- Instance of C3: slot 1 of the entry (map 0, variation 0) of area 0 of the
sample catalog is the end-boss row 0x37; at difficulty 2 it is installed
with row 0x38. -/
theorem end_boss_row_follows_difficulty_witness :
    ∃ e', bb_slot demo_consts demo_catalog
        { demo_lobby 0 0 (demo_maps 0 0 0 0) with difficulty := 2 } 1 = some e' ∧
      e'.bp_entry = 0x38 := by
  obtain ⟨_, _, h⟩ := end_boss_row_follows_difficulty demo_consts demo_catalog
    (demo_lobby 0 0 (demo_maps 0 0 0 0)) 2 (by decide) (by decide) (by decide)
  obtain ⟨e', h1, _, h2, _⟩ := h 1 ⟨0x37, 0x2F⟩ (by decide)
  exact ⟨e', h1, h2 rfl (by decide)⟩

/-- Claim C4. Let the event codes of `lobby.h` be different values.  For a
catalog and an in-bounds selection as in C1 and a slot `i` whose pre-fixup
value carries the sentinel (`rt_index` 0xFF) and a `bp_entry` other than
0x37: there are four pairwise different event values `e1 .. e4`, none of
them the code of "no event", under which `bb_load_game_enemies` with the same
selection installs slot `i` with the four pairwise different loot indices
79, 81, 80 and 51 (Christmas, Easter, Halloween, and a fourth event that the
switch has no case for and that takes the default index); with no active
event the slot gets the default index 51. -/
theorem sentinel_resolved_by_event (K : lobby_consts)
    (cat : Nat → Nat → Nat → parsed_map_t) (l : lobby_t) (i : Nat) (e : game_enemy_t)
    (hK : K.distinct)
    (hep : 1 ≤ l.episode ∧ l.episode ≤ 3)
    (hsel : selection_ok l.maps (bb_area K cat l))
    (hsum : selected_total l.maps (bb_area K cat l) < 4294967296)
    (hi : (selected_slots l.maps (bb_area K cat l))[i]? = some e)
    (hrt : e.rt_index = 0xFF) (hbp : e.bp_entry ≠ 0x37) :
    ∃ e1 e2 e3 e4 r1 r2 r3 r4 : Nat,
      (e1 ≠ e2 ∧ e1 ≠ e3 ∧ e1 ≠ e4 ∧ e2 ≠ e3 ∧ e2 ≠ e4 ∧ e3 ≠ e4) ∧
      (e1 ≠ K.LOBBY_EVENT_NONE ∧ e2 ≠ K.LOBBY_EVENT_NONE ∧ e3 ≠ K.LOBBY_EVENT_NONE ∧
        e4 ≠ K.LOBBY_EVENT_NONE) ∧
      (bb_slot K cat { l with event := e1 } i).map (fun x => x.rt_index) = some r1 ∧
      (bb_slot K cat { l with event := e2 } i).map (fun x => x.rt_index) = some r2 ∧
      (bb_slot K cat { l with event := e3 } i).map (fun x => x.rt_index) = some r3 ∧
      (bb_slot K cat { l with event := e4 } i).map (fun x => x.rt_index) = some r4 ∧
      (r1 ≠ r2 ∧ r1 ≠ r3 ∧ r1 ≠ r4 ∧ r2 ≠ r3 ∧ r2 ≠ r4 ∧ r3 ≠ r4) ∧
      (r1 = 79 ∧ r2 = 81 ∧ r3 = 80 ∧ r4 = 51) ∧
      (bb_slot K cat { l with event := K.LOBBY_EVENT_NONE } i).map (fun x => x.rt_index)
        = some 51 := by
  obtain ⟨hce, hch, heh, hnc, hne, hnh⟩ := hK
  obtain ⟨e4, _, h4n, h4c, h4e, h4h⟩ := spare_event K.LOBBY_EVENT_NONE
    K.LOBBY_EVENT_CHRISTMAS K.LOBBY_EVENT_EASTER K.LOBBY_EVENT_HALLOWEEN
  have slot : ∀ ev, (bb_slot K cat { l with event := ev } i).map (fun x => x.rt_index)
      = some (if ev = K.LOBBY_EVENT_CHRISTMAS then 79
          else if ev = K.LOBBY_EVENT_EASTER then 81
          else if ev = K.LOBBY_EVENT_HALLOWEEN then 80
          else 51) := by
    intro ev
    have hs := bb_slot_ok K cat { l with event := ev } hep hsel hsum i
    have hi' : (selected_slots l.maps (bb_area K cat { l with event := ev }))[i]? = some e := hi
    rw [hs, hi', Option.map_some', Option.map_some', bb_fixup_sentinel K _ _ e hrt (Or.inl hbp)]
  refine ⟨K.LOBBY_EVENT_CHRISTMAS, K.LOBBY_EVENT_EASTER, K.LOBBY_EVENT_HALLOWEEN, e4,
    79, 81, 80, 51, ⟨hce, hch, Ne.symm h4c, heh, Ne.symm h4e, Ne.symm h4h⟩,
    ⟨Ne.symm hnc, Ne.symm hne, Ne.symm hnh, h4n⟩, ?_, ?_, ?_, ?_, by decide,
    ⟨rfl, rfl, rfl, rfl⟩, ?_⟩
  · rw [slot]; simp
  · rw [slot]; simp [Ne.symm hce]
  · rw [slot]; simp [Ne.symm hch, Ne.symm heh]
  · rw [slot]; simp [h4c, h4e, h4h]
  · rw [slot]; simp [hnc, hne, hnh]

/-- Instance of C4: slot 0 of the list assembled from the sample catalog with
the selection (1, 0), (0, 1) carries the sentinel. -/
theorem sentinel_resolved_by_event_witness :
    ∃ e1 e2 e3 e4 r1 r2 r3 r4 : Nat,
      (e1 ≠ e2 ∧ e1 ≠ e3 ∧ e1 ≠ e4 ∧ e2 ≠ e3 ∧ e2 ≠ e4 ∧ e3 ≠ e4) ∧
      (e1 ≠ demo_consts.LOBBY_EVENT_NONE ∧ e2 ≠ demo_consts.LOBBY_EVENT_NONE ∧
        e3 ≠ demo_consts.LOBBY_EVENT_NONE ∧ e4 ≠ demo_consts.LOBBY_EVENT_NONE) ∧
      (bb_slot demo_consts demo_catalog
        { demo_lobby 1 0 (demo_maps 1 0 0 1) with event := e1 } 0).map
          (fun x => x.rt_index) = some r1 ∧
      (bb_slot demo_consts demo_catalog
        { demo_lobby 1 0 (demo_maps 1 0 0 1) with event := e2 } 0).map
          (fun x => x.rt_index) = some r2 ∧
      (bb_slot demo_consts demo_catalog
        { demo_lobby 1 0 (demo_maps 1 0 0 1) with event := e3 } 0).map
          (fun x => x.rt_index) = some r3 ∧
      (bb_slot demo_consts demo_catalog
        { demo_lobby 1 0 (demo_maps 1 0 0 1) with event := e4 } 0).map
          (fun x => x.rt_index) = some r4 ∧
      (r1 ≠ r2 ∧ r1 ≠ r3 ∧ r1 ≠ r4 ∧ r2 ≠ r3 ∧ r2 ≠ r4 ∧ r3 ≠ r4) ∧
      (r1 = 79 ∧ r2 = 81 ∧ r3 = 80 ∧ r4 = 51) ∧
      (bb_slot demo_consts demo_catalog
        { demo_lobby 1 0 (demo_maps 1 0 0 1) with event := demo_consts.LOBBY_EVENT_NONE } 0).map
          (fun x => x.rt_index) = some 51 :=
  sentinel_resolved_by_event demo_consts demo_catalog (demo_lobby 1 0 (demo_maps 1 0 0 1))
    0 ⟨0x19, 0xFF⟩ (by decide) (by decide) (by decide) (by decide) (by decide) (by decide)
    (by decide)

/-- Claim C5 fails as stated: a catalog entry holding the slot (bp_entry
0x37, rt_index 0xFF) is assembled unchanged, and at difficulty 1 the fixup
loop rewrites its `bp_entry` to 0x38 and, the event branch being an `else
if`, leaves its `rt_index` at the sentinel 0xFF. -/
theorem sentinel_survives_on_end_boss_row :
    bb_assemble demo_consts odd_catalog true true (demo_lobby 1 0 (demo_maps 0 0 0 0))
        = .built ⟨1, [⟨0x37, 0xFF⟩]⟩ ∧
      bb_installed demo_consts odd_catalog (demo_lobby 1 0 (demo_maps 0 0 0 0))
        = some (0, some ⟨1, [⟨0x38, 0xFF⟩]⟩) := by
  decide

/-- Claim C5, amended. For every catalog content and in-bounds selection as
in C1, every slot of the assembled list whose pre-fixup `rt_index` is the
sentinel 0xFF and that the difficulty fixup does not rewrite (its `bp_entry`
is not 0x37, or the difficulty is 0) is installed with a resolved loot index
(79, 81, 80 or 51, never 0xFF) and an unchanged `bp_entry`. -/
theorem sentinel_resolved_unless_end_boss (K : lobby_consts)
    (cat : Nat → Nat → Nat → parsed_map_t) (l : lobby_t) (i : Nat) (e : game_enemy_t)
    (hep : 1 ≤ l.episode ∧ l.episode ≤ 3)
    (hsel : selection_ok l.maps (bb_area K cat l))
    (hsum : selected_total l.maps (bb_area K cat l) < 4294967296)
    (hi : (selected_slots l.maps (bb_area K cat l))[i]? = some e)
    (hrt : e.rt_index = 0xFF) (hbp : e.bp_entry ≠ 0x37 ∨ l.difficulty = 0) :
    ∃ e', bb_slot K cat l i = some e' ∧ e'.rt_index ≠ 0xFF ∧
      (e'.rt_index = 79 ∨ e'.rt_index = 81 ∨ e'.rt_index = 80 ∨ e'.rt_index = 51) ∧
      e'.bp_entry = e.bp_entry := by
  have hs := bb_slot_ok K cat l hep hsel hsum i
  rw [hi, Option.map_some', bb_fixup_sentinel K _ _ e hrt hbp] at hs
  refine ⟨_, hs, ?_, ?_, rfl⟩
  · simp only; split_ifs <;> decide
  · simp only; split_ifs <;> simp

/-- Instance of C5 amended: slot 1 of the list assembled from the sample
catalog with the selection (1, 0), (0, 1), at difficulty 2 under event 5. -/
theorem sentinel_resolved_unless_end_boss_witness :
    ∃ e', bb_slot demo_consts demo_catalog (demo_lobby 2 5 (demo_maps 1 0 0 1)) 1 = some e' ∧
      e'.rt_index ≠ 0xFF ∧
      (e'.rt_index = 79 ∨ e'.rt_index = 81 ∨ e'.rt_index = 80 ∨ e'.rt_index = 51) ∧
      e'.bp_entry = 0x19 :=
  sentinel_resolved_unless_end_boss demo_consts demo_catalog (demo_lobby 2 5 (demo_maps 1 0 0 1))
    1 ⟨0x19, 0xFF⟩ (by decide) (by decide) (by decide) (by decide) (by decide) (by decide)

/-- Claim C6, amended. For every record of species 0x0042 with (16-bit)
clone count `c`, every `ep` and `alt`, `parse_map` on that single record
returns 0 with `count = 31 + c`; its output holds the slots (0x01, 0x04),
thirty times (0x00, 0x03) and `c` zero slots as far as they lie inside the
scratch buffer of 0xB50 slots.  When `31 + c ≤ 0xB50` these are all `31 + c`
slots; with `c = 0` exactly 31 slots. -/
theorem monest_slots (r : map_enemy_t) (g : game_enemies_t) (ep alt : Int)
    (hb : r.base = 0x0042) (hc : r.num_clones < 65536) :
    parse_map true [r] g ep alt
        = some (0, ⟨31 + r.num_clones,
            (⟨0x01, 0x04⟩ :: (List.replicate 30 ⟨0x00, 0x03⟩ ++
              List.replicate r.num_clones ⟨0, 0⟩)).take 0xB50⟩) ∧
      (31 + r.num_clones ≤ 0xB50 →
        parse_map true [r] g ep alt
          = some (0, ⟨31 + r.num_clones,
              ⟨0x01, 0x04⟩ :: (List.replicate 30 ⟨0x00, 0x03⟩ ++
                List.replicate r.num_clones ⟨0, 0⟩)⟩)) := by
  obtain ⟨base, nc, rsv, skin⟩ := r
  simp only at hb hc
  subst hb
  refine ⟨monest_eq nc rsv skin g ep alt hc, fun h => ?_⟩
  simp only at h
  rw [monest_eq nc rsv skin g ep alt hc, take_all _ _ (by simp; omega)]

/-- Instance of C6 amended: a Monest record with clone count 0 yields exactly
the 31 slots. -/
theorem monest_slots_witness :
    parse_map true [⟨0x0042, 0, 0, 0⟩] ⟨0, []⟩ 1 0
      = some (0, ⟨31, ⟨0x01, 0x04⟩ :: (List.replicate 30 ⟨0x00, 0x03⟩ ++
          List.replicate 0 ⟨0, 0⟩)⟩) :=
  (monest_slots ⟨0x0042, 0, 0, 0⟩ ⟨0, []⟩ 1 0 rfl (by decide)).2 (by decide)

/-- Claim C6 fails as stated: with clone count 2866 the count is 2897, one
more than the 0xB50 = 2896 slots of the zeroed scratch buffer, so slot 2896,
one of the "remaining c slots", is not among the slots that hold zero. -/
theorem monest_clone_slot_outside_scratch :
    ∃ out, parse_map true [⟨0x0042, 2866, 0, 0⟩] ⟨0, []⟩ 1 0 = some (0, out) ∧
      out.count = 31 + 2866 ∧ out.enemies.length = 0xB50 ∧
      ¬ (∀ i, 31 ≤ i → i < 31 + 2866 → out.enemies[i]? = some ⟨0, 0⟩) := by
  have hlen : ((⟨0x01, 0x04⟩ : game_enemy_t) :: (List.replicate 30 ⟨0x00, 0x03⟩ ++
      List.replicate 2866 ⟨0, 0⟩)).length = 2897 := by
    simp only [List.length_cons, List.length_append, List.length_replicate]
  refine ⟨_, monest_eq 2866 0 0 ⟨0, []⟩ 1 0 (by decide), rfl, ?_, ?_⟩
  · simp only [List.length_take, hlen]; decide
  · intro h
    have := h 2896 (by decide) (by decide)
    rw [List.getElem?_eq_none (by simp only [List.length_take, hlen]; decide)] at this
    exact Option.noConfusion this

/-- Claim C7. For every record of species 0x0082 with (16-bit) clone count
`n`, `parse_map` on that single record returns 0.  With `n = 0` the default
4 is substituted: `count = 5`, the primary slot, (0x06, 0x1A) or with the
rarity bit (0x13, 0x1B), followed by 4 clone slots.  With `n ≠ 0`,
`count = n + 1`: the primary slot followed by `n` clone slots (listed as far
as they lie inside the scratch buffer). -/
theorem sinow_default_clones (r : map_enemy_t) (g : game_enemies_t) (ep alt : Int)
    (hb : r.base = 0x0082) (hc : r.num_clones < 65536) :
    (r.num_clones = 0 →
      parse_map true [r] g ep alt
        = some (0, ⟨5,
            (if r.reserved10 &&& 0x800000 ≠ 0 then ⟨0x13, 0x1B⟩ else ⟨0x06, 0x1A⟩) ::
              List.replicate 4 ⟨0, 0⟩⟩)) ∧
    (r.num_clones ≠ 0 →
      parse_map true [r] g ep alt
        = some (0, ⟨r.num_clones + 1,
            ((if r.reserved10 &&& 0x800000 ≠ 0 then ⟨0x13, 0x1B⟩ else ⟨0x06, 0x1A⟩) ::
              List.replicate r.num_clones ⟨0, 0⟩).take 0xB50⟩)) := by
  obtain ⟨base, nc, rsv, skin⟩ := r
  simp only at hb hc
  subst hb
  have hs : switch_slots ep alt ⟨0x0082, nc, rsv, skin⟩
      = [if rsv &&& 0x800000 ≠ 0 then ⟨0x13, 0x1B⟩ else ⟨0x06, 0x1A⟩] := by
    simp only [switch_slots, rare]
    split_ifs <;> simp_all
  have hca : clones_after ⟨0x0082, nc, rsv, skin⟩ = if nc = 0 then 4 else nc := by
    simp [clones_after]
  have := parse_map_single ep alt ⟨0x0082, nc, rsv, skin⟩ g (by simp)
    (by rw [hs]; simp) (by rw [hca]; split_ifs <;> omega)
  rw [this, hs, hca]
  constructor
  · intro h0
    simp only at h0
    subst h0
    simp [zero_slot]
  · intro h0
    simp only at h0
    simp [h0, zero_slot, Nat.add_comm]

/-- Instance of C7: a Sinow Gold record (rarity bit set) with clone count 0
yields 5 slots. -/
theorem sinow_default_clones_witness :
    parse_map true [⟨0x0082, 0, 0x800000, 0⟩] ⟨0, []⟩ 1 0
      = some (0, ⟨5, ⟨0x13, 0x1B⟩ :: List.replicate 4 ⟨0, 0⟩⟩) :=
  (sinow_default_clones ⟨0x0082, 0, 0x800000, 0⟩ ⟨0, []⟩ 1 0 rfl (by decide)).1 rfl

/-- Claim C8 fails as stated: a record of species 0x00DF whose clone count is
zero yields the primary slot (0x41, 0x43) alone, `count = 1`: no default is
substituted and no companion slot is written. -/
theorem recobox_zero_clones_no_companion :
    parse_map true [⟨0x00DF, 0, 0, 0⟩] ⟨0, []⟩ 2 0 = some (0, ⟨1, [⟨0x41, 0x43⟩]⟩) := by
  decide

/-- Claim C8, amended. For species 0x00DF the companion slots are written
from the clone count of the record, with no default: a record with clone
count `n` (the `1 + n` slots fitting the scratch buffer) yields the primary
slot (0x41, 0x43) followed by exactly `n` companion slots (0x42, 0x44), and
`count = 1 + n`; with `n = 0` that is the primary slot alone. -/
theorem recobox_companions (r : map_enemy_t) (g : game_enemies_t) (ep alt : Int)
    (hb : r.base = 0x00DF) (hc : 1 + r.num_clones ≤ 0xB50) :
    parse_map true [r] g ep alt
      = some (0, ⟨1 + r.num_clones,
          ⟨0x41, 0x43⟩ :: List.replicate r.num_clones ⟨0x42, 0x44⟩⟩) := by
  obtain ⟨base, nc, rsv, skin⟩ := r
  simp only at hb hc
  subst hb
  have hm : map_slots ep alt [⟨0x00DF, nc, rsv, skin⟩]
      = ⟨0x41, 0x43⟩ :: List.replicate nc ⟨0x42, 0x44⟩ := by
    rw [map_slots_cons, record_slots_recobox]; simp [map_slots]
  rw [parse_map_eq _ g ep alt (by rw [hm]; simp; omega), hm]
  simp [Nat.add_comm]

/-- Instance of C8 amended: clone count 3 gives the primary slot and three
companions. -/
theorem recobox_companions_witness :
    parse_map true [⟨0x00DF, 3, 0, 0⟩] ⟨0, []⟩ 2 0
      = some (0, ⟨1 + 3, ⟨0x41, 0x43⟩ :: List.replicate 3 ⟨0x42, 0x44⟩⟩) :=
  recobox_companions ⟨0x00DF, 3, 0, 0⟩ ⟨0, []⟩ 2 0 rfl (by decide)

/-- Claim C9 fails as stated: the code 0x0999 has no case in the switch; a
record of that code with clone count 2895 advances the slot counter to 2896,
and the record that follows it, which alone translates to the slot
(0x49, 0x01), is then written at index 2896, outside the scratch buffer
of 0xB50 = 2896 slots. -/
theorem unknown_record_pushes_next_outside_scratch :
    0x0999 ∉ handled ∧
      parse_map true [⟨0x0040, 0, 0, 0⟩] ⟨0, []⟩ 1 0 = some (0, ⟨1, [⟨0x49, 0x01⟩]⟩) ∧
      parse_map true [⟨0x0999, 2895, 0, 0⟩, ⟨0x0040, 0, 0, 0⟩] ⟨0, []⟩ 1 0 = none := by
  decide

/-- Claim C9, amended. Let `u` be a record whose species code has no case in
the switch, among records `pre` before it and `post` after it, the slots of
the whole list fitting the scratch buffer of 0xB50 slots.  Then `parse_map`
returns 0 on every list involved; `u` alone yields `1 + num_clones` zero
slots (no parameter or loot index is written, the counter advances by
`1 + num_clones`); and the output for `pre ++ u :: post` is the output `A`
for `pre`, then `1 + num_clones` zero slots, then the output `B` for `post`:
the slots of the other records are those of `pre ++ post`, the later ones
shifted by `1 + num_clones` positions. -/
theorem unknown_record_skipped (u : map_enemy_t) (pre post : List map_enemy_t)
    (g : game_enemies_t) (ep alt : Int)
    (hu : u.base ∉ handled)
    (hcap : (map_slots ep alt (pre ++ u :: post)).length ≤ 0xB50) :
    ∃ A B : List game_enemy_t,
      parse_map true pre g ep alt = some (0, ⟨A.length, A⟩) ∧
      parse_map true post g ep alt = some (0, ⟨B.length, B⟩) ∧
      parse_map true (pre ++ post) g ep alt = some (0, ⟨A.length + B.length, A ++ B⟩) ∧
      parse_map true [u] g ep alt
        = some (0, ⟨1 + u.num_clones, List.replicate (1 + u.num_clones) ⟨0, 0⟩⟩) ∧
      parse_map true (pre ++ u :: post) g ep alt
        = some (0, ⟨A.length + (1 + u.num_clones) + B.length,
            A ++ List.replicate (1 + u.num_clones) ⟨0, 0⟩ ++ B⟩) := by
  have hrec := record_slots_unknown ep alt u hu
  rw [map_slots_append, map_slots_cons, hrec] at hcap
  simp only [List.length_append, List.length_replicate] at hcap
  refine ⟨map_slots ep alt pre, map_slots ep alt post,
    parse_map_eq pre g ep alt (by omega), parse_map_eq post g ep alt (by omega), ?_, ?_, ?_⟩
  · rw [parse_map_eq _ g ep alt (by rw [map_slots_append, List.length_append]; omega),
      map_slots_append, List.length_append]
  · have hm : map_slots ep alt [u] = List.replicate (1 + u.num_clones) zero_slot := by
      rw [map_slots_cons, hrec]; simp [map_slots]
    rw [parse_map_eq _ g ep alt (by rw [hm, List.length_replicate]; omega), hm,
      List.length_replicate]
    rfl
  · have hm : map_slots ep alt (pre ++ u :: post)
        = map_slots ep alt pre ++ List.replicate (1 + u.num_clones) zero_slot
            ++ map_slots ep alt post := by
      rw [map_slots_append, map_slots_cons, hrec, List.append_assoc]
    rw [parse_map_eq _ g ep alt (by
      rw [hm]; simp only [List.length_append, List.length_replicate]; omega), hm]
    simp only [List.length_append, List.length_replicate]
    rfl

/-- Instance of C9 amended: the unknown code 0x0999 with clone count 2
between a Hildebear record and a Grass Assassin record. -/
theorem unknown_record_skipped_witness :
    ∃ A B : List game_enemy_t,
      parse_map true [⟨0x0040, 1, 0, 0⟩] ⟨0, []⟩ 1 0 = some (0, ⟨A.length, A⟩) ∧
      parse_map true [⟨0x0060, 0, 0, 0⟩] ⟨0, []⟩ 1 0 = some (0, ⟨B.length, B⟩) ∧
      parse_map true ([⟨0x0040, 1, 0, 0⟩] ++ [⟨0x0060, 0, 0, 0⟩]) ⟨0, []⟩ 1 0
        = some (0, ⟨A.length + B.length, A ++ B⟩) ∧
      parse_map true [⟨0x0999, 2, 0, 0⟩] ⟨0, []⟩ 1 0
        = some (0, ⟨1 + 2, List.replicate (1 + 2) ⟨0, 0⟩⟩) ∧
      parse_map true ([⟨0x0040, 1, 0, 0⟩] ++ ⟨0x0999, 2, 0, 0⟩ :: [⟨0x0060, 0, 0, 0⟩]) ⟨0, []⟩ 1 0
        = some (0, ⟨A.length + (1 + 2) + B.length, A ++ List.replicate (1 + 2) ⟨0, 0⟩ ++ B⟩) :=
  unknown_record_skipped ⟨0x0999, 2, 0, 0⟩ [⟨0x0040, 1, 0, 0⟩] [⟨0x0060, 0, 0, 0⟩] ⟨0, []⟩ 1 0
    (by decide) (by decide)

/-- Claim C10 fails as stated: the skins 0 and 3 are congruent modulo 3, yet
a Boota record (0x0115) translates to `bp_entry` 0x00 with skin 0 and 0x03
with skin 3, and a Goran record (0x0117) to `rt_index` 0x0E with skin 0 and
0x0F with skin 3: both species also test bit 0x02 of the skin. -/
theorem boota_goran_not_mod_three :
    (0 % 3 = 3 % 3) ∧
      parse_map true [⟨0x0115, 0, 0, 0⟩] ⟨0, []⟩ 1 0 = some (0, ⟨1, [⟨0x00, 0x09⟩]⟩) ∧
      parse_map true [⟨0x0115, 0, 0, 3⟩] ⟨0, []⟩ 1 0 = some (0, ⟨1, [⟨0x03, 0x09⟩]⟩) ∧
      parse_map true [⟨0x0117, 0, 0, 0⟩] ⟨0, []⟩ 1 0 = some (0, ⟨1, [⟨0x11, 0x0E⟩]⟩) ∧
      parse_map true [⟨0x0117, 0, 0, 3⟩] ⟨0, []⟩ 1 0 = some (0, ⟨1, [⟨0x11, 0x0F⟩]⟩) := by
  decide

/-- Claim C10, amended. For the species 0x0044, 0x0063, 0x00A6 and 0x00D6 the
emitted slot is selected by `skin mod 3` only; for 0x0115 and 0x0117 it is
selected by `skin mod 3` together with the bits 0x02 and 0x01 of the skin.
Two records of one of these species that differ only in skin, with skins
congruent modulo 3 (and, for 0x0115 and 0x0117, equal in those two bits),
give the same output of `parse_map`, for every `ep` and `alt` and among any
other records. -/
theorem family_slot_by_skin (r1 r2 : map_enemy_t) (pre post : List map_enemy_t)
    (g : game_enemies_t) (ep alt : Int)
    (hb : r1.base = 0x0044 ∨ r1.base = 0x0063 ∨ r1.base = 0x00A6 ∨ r1.base = 0x00D6 ∨
      r1.base = 0x0115 ∨ r1.base = 0x0117)
    (hsame : r2.base = r1.base ∧ r2.num_clones = r1.num_clones ∧
      r2.reserved10 = r1.reserved10)
    (hmod : r1.skin % 3 = r2.skin % 3)
    (hbits : r1.base = 0x0115 ∨ r1.base = 0x0117 →
      r1.skin &&& 0x02 = r2.skin &&& 0x02 ∧ r1.skin &&& 0x01 = r2.skin &&& 0x01) :
    parse_map true (pre ++ r1 :: post) g ep alt = parse_map true (pre ++ r2 :: post) g ep alt := by
  obtain ⟨b1, n1, v1, s1⟩ := r1
  obtain ⟨b2, n2, v2, s2⟩ := r2
  simp only at hb hsame hmod hbits
  obtain ⟨e1, e2, e3⟩ := hsame
  subst e1 e2 e3
  have hadv : ∀ s, advance ⟨b2, n2, v2, s1⟩ s = advance ⟨b2, n2, v2, s2⟩ s := fun s => rfl
  have hpe : ∀ s, parse_enemy ep alt ⟨b2, n2, v2, s1⟩ s = parse_enemy ep alt ⟨b2, n2, v2, s2⟩ s := by
    intro s
    rcases hb with h | h | h | h | h | h
    · subst h; simp only [parse_enemy, hmod]
    · subst h; simp only [parse_enemy, hmod]
    · subst h; simp only [parse_enemy, hmod]
    · subst h; simp only [parse_enemy, hmod]
    · obtain ⟨h2, _⟩ := hbits (Or.inl h)
      subst h; simp only [parse_enemy, hmod, h2]
    · obtain ⟨h2, h1⟩ := hbits (Or.inr h)
      subst h; simp only [parse_enemy, hmod, h2, h1]
  simp only [parse_map, parse_records_congr ep alt _ _ hpe hadv post pre]

/-- Instance of C10 amended: Goran records with skins 1 and 13 (congruent
modulo 3, equal in bits 0x02 and 0x01) between two other records. -/
theorem family_slot_by_skin_witness :
    parse_map true ([⟨0x0040, 0, 0, 0⟩] ++ ⟨0x0117, 0, 0, 1⟩ :: [⟨0x0060, 1, 0, 0⟩]) ⟨0, []⟩ 2 1
      = parse_map true ([⟨0x0040, 0, 0, 0⟩] ++ ⟨0x0117, 0, 0, 13⟩ :: [⟨0x0060, 1, 0, 0⟩])
          ⟨0, []⟩ 2 1 :=
  family_slot_by_skin ⟨0x0117, 0, 0, 1⟩ ⟨0x0117, 0, 0, 13⟩ [⟨0x0040, 0, 0, 0⟩]
    [⟨0x0060, 1, 0, 0⟩] ⟨0, []⟩ 2 1 (by decide) (by decide) (by decide) (by decide)

/-! ## The loot indices written by the translator -/


theorem set_bp_entry_rt {s s' : scratch} {i v : Nat} (h : set_bp_entry s i v = some s') :
    ∀ k, (s'.gen k).rt_index = (s.gen k).rt_index := by
  unfold set_bp_entry at h
  split_ifs at h
  cases h
  intro k
  simp only
  split_ifs <;> rfl

theorem set_rt_index_rt {s s' : scratch} {i v : Nat} (h : set_rt_index s i v = some s') :
    rt_written v s s' := by
  unfold set_rt_index at h
  split_ifs at h
  cases h
  intro k
  simp only
  split_ifs
  · right; rfl
  · left; rfl

theorem put_rt {s s' : scratch} {off bp rt : Nat} (h : put s off bp rt = some s') :
    rt_written rt s s' := by
  unfold put at h
  obtain ⟨s1, h1, h2⟩ := Option.bind_eq_some.mp h
  intro k
  rcases set_rt_index_rt h2 k with hk | hk
  · left; rw [hk, set_bp_entry_rt h1 k]
  · right; exact hk

theorem rt_written_refl (v : Nat) (s : scratch) : rt_written v s s := fun _ => Or.inl rfl

theorem rt_written_trans {v : Nat} {s s1 s2 : scratch} (h1 : rt_written v s s1)
    (h2 : rt_written v s1 s2) : rt_written v s s2 := by
  intro k
  rcases h2 k with hk | hk
  · rcases h1 k with hj | hj
    · left; rw [hk, hj]
    · right; rw [hk, hj]
  · right; exact hk

theorem rt_written_bump {v : Nat} {s s' : scratch} (n : Nat) (h : rt_written v s s') :
    rt_written v s (bump s' n) := h

theorem companions_rt (bp rt n : Nat) : ∀ {s s' : scratch},
    companions bp rt n s = some s' → rt_written rt s s' := by
  induction n with
  | zero => intro s s' h; simp only [companions] at h; cases h; exact rt_written_refl _ _
  | succ n ih =>
    intro s s' h
    rw [companions] at h
    obtain ⟨s1, h1, h2⟩ := Option.bind_eq_some.mp h
    have h1' : rt_written rt s s1 := fun k => put_rt h1 k
    exact rt_written_trans h1' (ih h2)

theorem helpers_rt (bp n : Nat) : ∀ {s s' : scratch},
    helpers bp n s = some s' → ∀ k, (s'.gen k).rt_index = (s.gen k).rt_index := by
  induction n with
  | zero => intro s s' h; simp only [helpers] at h; cases h; intro k; rfl
  | succ n ih =>
    intro s s' h k
    rw [helpers] at h
    obtain ⟨s1, h1, h2⟩ := Option.bind_eq_some.mp h
    rw [ih h2 k, set_bp_entry_rt h1 k]
    rfl

theorem recons_rt (n : Nat) : ∀ {j : Nat} {s s' : scratch},
    recons n j s = some s' → rt_written 0x44 s s' := by
  induction n with
  | zero => intro j s s' h; simp only [recons] at h; cases h; exact rt_written_refl _ _
  | succ n ih =>
    intro j s s' h
    rw [recons] at h
    obtain ⟨s1, h1, h2⟩ := Option.bind_eq_some.mp h
    exact @rt_written_trans 0x44 s s1 s' (put_rt h1) (ih h2)

theorem rt_effect_of_written {P : Prop} {v : Nat} {s s' : scratch} (hv : v ≤ 0x54)
    (h : rt_written v s s') : rt_effect P s s' := by
  intro k
  rcases h k with hk | hk
  · left; exact hk
  · right; left; rw [hk]; exact hv

theorem rt_effect_refl (P : Prop) (s : scratch) : rt_effect P s s := fun _ => Or.inl rfl

theorem rt_effect_trans {P : Prop} {s s1 s2 : scratch} (h1 : rt_effect P s s1)
    (h2 : rt_effect P s1 s2) : rt_effect P s s2 := by
  intro k
  rcases h2 k with hk | hk | hk
  · rcases h1 k with hj | hj | hj
    · left; rw [hk, hj]
    · right; left; rw [hk]; exact hj
    · right; right; rw [hk]; exact hj
  · right; left; exact hk
  · right; right; exact hk

theorem rt_effect_mono {P Q : Prop} {s s' : scratch} (hPQ : P → Q) (h : rt_effect P s s') :
    rt_effect Q s s' := by
  intro k
  rcases h k with hk | hk | ⟨hk, hp⟩
  · left; exact hk
  · right; left; exact hk
  · right; right; exact ⟨hk, hPQ hp⟩

/-! Shapes of the switch cases, as effects on the loot indices. -/

theorem eff_put {P : Prop} {s s' : scratch} {bp rt : Nat}
    (h : put s 0 bp rt = some s') (hv : rt ≤ 0x54) : rt_effect P s s' :=
  rt_effect_of_written hv (put_rt h)

theorem eff_sentinel {P : Prop} {s s' : scratch} {bp : Nat}
    (h : put s 0 bp 0xFF = some s') (hP : P) : rt_effect P s s' := by
  intro k
  rcases put_rt h k with hk | hk
  · left; exact hk
  · right; right; exact ⟨hk, hP⟩

theorem eff_skip {P : Prop} {s s' : scratch} (h : some s = some s') : rt_effect P s s' := by
  cases h; exact rt_effect_refl P s

theorem eff_put_bump {P : Prop} {s s' : scratch} {bp rt m : Nat}
    (h : ((put s 0 bp rt).map fun s1 => bump s1 m) = some s') (hv : rt ≤ 0x54) :
    rt_effect P s s' := by
  obtain ⟨s1, h1, h2⟩ := Option.map_eq_some'.mp h
  subst h2
  exact rt_effect_of_written hv (fun k => put_rt h1 k)

theorem eff_companions {P : Prop} {s s' : scratch} {bp rt cbp crt n : Nat}
    (h : (put s 0 bp rt).bind (companions cbp crt n) = some s') (hv : rt ≤ 0x54)
    (hc : crt ≤ 0x54) : rt_effect P s s' := by
  obtain ⟨s1, h1, h2⟩ := Option.bind_eq_some.mp h
  exact rt_effect_trans (rt_effect_of_written hv (put_rt h1))
    (rt_effect_of_written hc (companions_rt _ _ _ h2))

theorem eff_three {P : Prop} {s s' : scratch} {a b c d e f : Nat}
    (h : (((put s 0 a b).bind fun s0 => (put s0 1 c d).bind fun s1 => put s1 2 e f).map
      fun s2 => bump s2 2) = some s')
    (hb : b ≤ 0x54) (hd : d ≤ 0x54) (hf : f ≤ 0x54) : rt_effect P s s' := by
  obtain ⟨s2, h2, hs⟩ := Option.map_eq_some'.mp h
  subst hs
  obtain ⟨s0, h0, h3⟩ := Option.bind_eq_some.mp h2
  obtain ⟨s1, h1, h4⟩ := Option.bind_eq_some.mp h3
  exact rt_effect_trans (rt_effect_of_written hb (put_rt h0))
    (rt_effect_trans (rt_effect_of_written hd (put_rt h1))
      (rt_effect_of_written hf (fun k => put_rt h4 k)))

theorem eff_falz {P : Prop} {s s' : scratch} {bp rt hbp n : Nat}
    (h : (((put s 0 bp rt).bind (helpers hbp n)).map fun s1 => bump s1 1) = some s')
    (hv : rt ≤ 0x54) : rt_effect P s s' := by
  obtain ⟨s2, h2, hs⟩ := Option.map_eq_some'.mp h
  subst hs
  obtain ⟨s1, h1, h3⟩ := Option.bind_eq_some.mp h2
  refine rt_effect_trans (rt_effect_of_written hv (put_rt h1)) ?_
  intro k
  left
  exact helpers_rt _ _ h3 k

theorem eff_recons {P : Prop} {s s' : scratch} {bp rt n : Nat}
    (h : (put s 0 bp rt).bind (recons n 1) = some s') (hv : rt ≤ 0x54) :
    rt_effect P s s' := by
  obtain ⟨s1, h1, h2⟩ := Option.bind_eq_some.mp h
  exact rt_effect_trans (rt_effect_of_written hv (put_rt h1))
    (rt_effect_of_written (by decide) (recons_rt _ h2))

theorem rare_le (r : map_enemy_t) : rare r ≤ 1 := by
  unfold rare; split_ifs <;> omega

theorem and_one_le (n : Nat) : n &&& 1 ≤ 1 := Nat.and_le_right

theorem shl_acc_le (a : Nat) (h : a ≤ 1) : (0x18 + a) <<< a ≤ 0x32 := by
  interval_cases a <;> decide

set_option maxHeartbeats 4000000 in
theorem parse_enemy_rt (ep alt : Int) (r : map_enemy_t) (s s' : scratch)
    (h : parse_enemy ep alt r s = some s') : rt_effect (deferred ep r) s s' := by
  have h1 := and_one_le r.skin
  have h3 := Nat.mod_lt r.skin (by norm_num : 3 > 0)
  have hr := rare_le r
  have hsh := shl_acc_le _ h1
  unfold parse_enemy at h
  split at h <;> (try dsimp only at h) <;> (try split_ifs at h) <;>
    first
      | exact eff_put h (by omega)
      | exact eff_skip h
      | exact eff_put_bump h (by omega)
      | exact eff_companions h (by omega) (by omega)
      | exact eff_three h (by omega) (by omega) (by omega)
      | exact eff_falz h (by omega)
      | exact eff_recons h (by omega)
      | exact eff_sentinel h ⟨by assumption, by assumption, by assumption, by assumption⟩


theorem advance_gen (r : map_enemy_t) (s : scratch) : (advance r s).gen = s.gen := by
  unfold advance
  split_ifs <;> rfl

theorem parse_records_rt (ep alt : Int) : ∀ (en : List map_enemy_t) (s s' : scratch),
    parse_records ep alt en s = some s' → rt_effect (∃ r ∈ en, deferred ep r) s s' := by
  intro en
  induction en with
  | nil => intro s s' h; simp only [parse_records] at h; cases h; exact rt_effect_refl _ _
  | cons r rs ih =>
    intro s s' h
    rw [parse_records] at h
    obtain ⟨s1, h1, h2⟩ := Option.bind_eq_some.mp h
    have e1 : rt_effect (∃ x ∈ r :: rs, deferred ep x) s s1 :=
      rt_effect_mono (fun hd => ⟨r, List.mem_cons_self _ _, hd⟩) (parse_enemy_rt ep alt r s s1 h1)
    have e2 : rt_effect (∃ x ∈ r :: rs, deferred ep x) s1 s' := by
      have := ih (advance r s1) s' h2
      refine rt_effect_mono (P := ∃ x ∈ rs, deferred ep x)
        (fun ⟨x, hx, hd⟩ => ⟨x, List.mem_cons_of_mem _ hx, hd⟩) ?_
      intro k
      have hk := this k
      rw [advance_gen] at hk
      exact hk
    exact rt_effect_trans e1 e2

set_option maxHeartbeats 4000000 in
theorem switch_slots_rt (ep alt : Int) (r : map_enemy_t) :
    ∀ e ∈ switch_slots ep alt r,
      e.rt_index ≤ 0x54 ∨ (e = ⟨0x19, 0xFF⟩ ∧ deferred ep r) := by
  have h1 := and_one_le r.skin
  have h3 := Nat.mod_lt r.skin (by norm_num : 3 > 0)
  have hr := rare_le r
  have hsh := shl_acc_le _ h1
  unfold switch_slots deferred
  split <;> (try split_ifs) <;>
    simp only [List.forall_mem_cons, List.mem_replicate, List.mem_append, List.not_mem_nil,
      forall_eq_or_imp, List.mem_cons, List.mem_singleton, forall_eq, zero_slot,
      IsEmpty.forall_iff, implies_true, and_true, and_imp] <;>
    first
      | omega
      | (refine ⟨?_, ?_⟩ <;> first | omega | (intro e he; rcases he with ⟨_, rfl⟩ | ⟨_, rfl⟩ <;> simp) | (intro e _ he; subst he; simp))
      | (right; simp_all)

theorem switch_slots_deferred (ep alt : Int) (r : map_enemy_t) (h : deferred ep r) :
    switch_slots ep alt r = [⟨0x19, 0xFF⟩] := by
  obtain ⟨base, nc, rsv, skin⟩ := r
  obtain ⟨hb, hs, h1, h3⟩ := h
  simp only at hb hs
  subst hb
  simp only [switch_slots, h3, if_false, hs, ne_eq, not_false_eq_true, if_true, h1]

theorem record_slots_deferred (ep alt : Int) (r : map_enemy_t) (h : deferred ep r) :
    record_slots ep alt r = ⟨0x19, 0xFF⟩ :: List.replicate r.num_clones zero_slot := by
  have hb : r.base = 0x0041 := h.1
  rw [record_slots, switch_slots_deferred ep alt r h, clones_after_of_ne (by rw [hb]; decide),
    if_neg (by rw [hb]; decide)]
  rfl

theorem record_slots_rt (ep alt : Int) (r : map_enemy_t) :
    ∀ e ∈ record_slots ep alt r,
      e.rt_index ≤ 0x54 ∨ (e = ⟨0x19, 0xFF⟩ ∧ deferred ep r) := by
  intro e he
  rw [record_slots, List.mem_append] at he
  rcases he with he | he
  · exact switch_slots_rt ep alt r e he
  · left
    rw [List.mem_replicate] at he
    rw [he.2]
    split_ifs <;> decide

theorem record_slots_pos (ep alt : Int) (r : map_enemy_t) :
    1 ≤ (record_slots ep alt r).length := by
  rw [record_slots, List.length_append]
  have := switch_slots_pos ep alt r
  omega

/-- A slot of the slots of a record list carries the sentinel only if it is
the first slot of a record in the deferred situation, and then it is
(0x19, 0xFF). -/
theorem map_slots_sentinel (ep alt : Int) : ∀ (en : List map_enemy_t) (i : Nat) (e : game_enemy_t),
    (map_slots ep alt en)[i]? = some e → e.rt_index = 0xFF →
    e = ⟨0x19, 0xFF⟩ ∧ ∃ pre r post, en = pre ++ r :: post ∧ deferred ep r ∧
      (map_slots ep alt pre).length = i := by
  intro en
  induction en with
  | nil => intro i e h; simp [map_slots] at h
  | cons r rs ih =>
    intro i e h hff
    rw [map_slots_cons, List.getElem?_append] at h
    split_ifs at h with hi
    · have hmem : e ∈ record_slots ep alt r := List.getElem?_mem h
      rcases record_slots_rt ep alt r e hmem with hle | ⟨he, hd⟩
      · rw [hff] at hle; exact absurd hle (by decide)
      · refine ⟨he, [], r, rs, rfl, hd, ?_⟩
        rw [record_slots_deferred ep alt r hd] at h
        cases i with
        | zero => simp [map_slots]
        | succ j =>
          rw [List.getElem?_cons_succ, List.getElem?_replicate] at h
          split_ifs at h
          cases h
          simp [zero_slot] at hff
    · obtain ⟨he, pre, r0, post, hen, hd, hlen⟩ := ih _ e h hff
      refine ⟨he, r :: pre, r0, post, by rw [hen]; rfl, hd, ?_⟩
      rw [map_slots_cons, List.length_append, hlen]
      omega

theorem map_slots_deferred (ep alt : Int) (pre post : List map_enemy_t) (r : map_enemy_t)
    (h : deferred ep r) :
    (map_slots ep alt (pre ++ r :: post))[(map_slots ep alt pre).length]?
      = some ⟨0x19, 0xFF⟩ := by
  rw [map_slots_append, map_slots_cons, record_slots_deferred ep alt r h,
    List.getElem?_append_right (Nat.le_refl _)]
  simp


/-! ## Claims C11 to C20 -/

/-- Claim C11. The translator stores the sentinel (rt_index 0xFF) in exactly
one situation, a species-0x0041 record with odd skin translated for an
episode other than 1 and 3.
(1) Whatever the scratch buffer holds before the loop over the records, each
slot afterwards either keeps its `rt_index` (it is not written: 0 after the
`memset`), or holds a concrete index, at most 0x54, or holds 0xFF, and then
the list has a record in that situation.
(2) Hence every slot of an output of `parse_map` has an `rt_index` of at most
0x54, or 0xFF with such a record in the list.
(3) When the slots fit the scratch buffer, `parse_map` returns 0 and the
slots of its output that hold 0xFF are exactly the primary slots of the
records in that situation, each with `bp_entry` 0x19.
(4) A species-0x0041 record alone translates to the primary slot
(0x05 + (skin & 1), 0x11 + (skin & 1)) in episode 3 (0x17 for 0x05 when `alt`
is set), and in the other episodes to (0x18, 0x05) with even skin, to
(0x19, 0x06) with odd skin in episode 1 and to (0x19, 0xFF) with odd skin
otherwise; its clone slots are zero. -/
theorem sentinel_only_for_event_rappy (en : List map_enemy_t) (g : game_enemies_t)
    (ep alt : Int) :
    (∀ s s', parse_records ep alt en s = some s' →
      ∀ k, (s'.gen k).rt_index = (s.gen k).rt_index ∨ (s'.gen k).rt_index ≤ 0x54 ∨
        ((s'.gen k).rt_index = 0xFF ∧ ∃ r ∈ en, deferred ep r)) ∧
    (∀ out, parse_map true en g ep alt = some (0, out) →
      ∀ e ∈ out.enemies, e.rt_index ≤ 0x54 ∨ (e.rt_index = 0xFF ∧ ∃ r ∈ en, deferred ep r)) ∧
    ((map_slots ep alt en).length ≤ 0xB50 →
      ∃ out, parse_map true en g ep alt = some (0, out) ∧
        (∀ i e, out.enemies[i]? = some e → e.rt_index = 0xFF →
          e.bp_entry = 0x19 ∧ ∃ pre r post, en = pre ++ r :: post ∧ deferred ep r ∧
            (parse_map true pre g ep alt).map (fun o => o.2.count) = some i) ∧
        (∀ pre r post, en = pre ++ r :: post → deferred ep r →
          ∃ i, (parse_map true pre g ep alt).map (fun o => o.2.count) = some i ∧
            out.enemies[i]? = some ⟨0x19, 0xFF⟩)) ∧
    (∀ r : map_enemy_t, r.base = 0x0041 → r.num_clones < 65536 →
      parse_map true [r] g ep alt
        = some (0, ⟨1 + r.num_clones,
            ((if ep = 3 then
                (if alt ≠ 0 then ⟨0x17 + (r.skin &&& 0x01), 0x11 + (r.skin &&& 0x01)⟩
                 else ⟨0x05 + (r.skin &&& 0x01), 0x11 + (r.skin &&& 0x01)⟩)
              else if r.skin &&& 0x01 ≠ 0 then
                (if ep = 1 then ⟨0x19, 0x06⟩ else ⟨0x19, 0xFF⟩)
              else ⟨0x18, 0x05⟩) ::
              List.replicate r.num_clones ⟨0, 0⟩).take 0xB50⟩)) := by
  refine ⟨fun s s' h => parse_records_rt ep alt en s s' h, ?_, ?_, ?_⟩
  · intro out h e he
    simp only [parse_map, Bool.true_eq_false, if_false] at h
    obtain ⟨s', hs, hout⟩ := Option.map_eq_some'.mp h
    have hout' : out = ⟨s'.count, (List.range (min s'.count 0xB50)).map s'.gen⟩ :=
      (congrArg Prod.snd hout).symm
    subst hout'
    obtain ⟨k, _, rfl⟩ := List.mem_map.mp he
    rcases parse_records_rt ep alt en _ _ hs k with hk | hk | hk
    · left; rw [hk]; simp [scratch.init]
    · left; exact hk
    · right; exact hk
  · intro hcap
    refine ⟨_, parse_map_eq en g ep alt hcap, ?_, ?_⟩
    · intro i e hi hff
      obtain ⟨he, pre, r, post, hen, hd, hlen⟩ := map_slots_sentinel ep alt en i e hi hff
      refine ⟨by rw [he], pre, r, post, hen, hd, ?_⟩
      have hpre : (map_slots ep alt pre).length ≤ 0xB50 := by
        rw [hen, map_slots_append, List.length_append] at hcap
        omega
      rw [parse_map_eq pre g ep alt hpre, Option.map_some', hlen]
    · intro pre r post hen hd
      have hpre : (map_slots ep alt pre).length ≤ 0xB50 := by
        rw [hen, map_slots_append, List.length_append] at hcap
        omega
      refine ⟨(map_slots ep alt pre).length, ?_, ?_⟩
      · rw [parse_map_eq pre g ep alt hpre, Option.map_some']
      · simp only
        rw [hen]
        exact map_slots_deferred ep alt pre post r hd
  · intro r hb hc
    obtain ⟨base, nc, rsv, skin⟩ := r
    simp only at hb hc
    subst hb
    have hca : clones_after ⟨0x0041, nc, rsv, skin⟩ = nc := clones_after_of_ne (by simp)
    have hs : switch_slots ep alt ⟨0x0041, nc, rsv, skin⟩
        = [if ep = 3 then
            (if alt ≠ 0 then ⟨0x17 + (skin &&& 0x01), 0x11 + (skin &&& 0x01)⟩
             else ⟨0x05 + (skin &&& 0x01), 0x11 + (skin &&& 0x01)⟩)
          else if skin &&& 0x01 ≠ 0 then
            (if ep = 1 then ⟨0x19, 0x06⟩ else ⟨0x19, 0xFF⟩)
          else ⟨0x18, 0x05⟩] := by
      simp only [switch_slots]
      split_ifs <;> rfl
    have := parse_map_single ep alt ⟨0x0041, nc, rsv, skin⟩ g (by simp)
      (by rw [hs]; simp) (by rw [hca]; exact hc)
    rw [this, hs, hca]
    simp [zero_slot, Nat.add_comm]

/-- Instance of C11: between a Hildebear and a Grass Assassin record, an odd
skin Rappy record translated for episode 2 yields the one sentinel slot of
the output, at index 1. -/
theorem sentinel_only_for_event_rappy_witness :
    ∃ out, parse_map true [⟨0x0040, 0, 0, 0⟩, ⟨0x0041, 1, 0, 1⟩, ⟨0x0060, 0, 0, 0⟩]
        ⟨0, []⟩ 2 0 = some (0, out) ∧
      (∀ i e, out.enemies[i]? = some e → e.rt_index = 0xFF →
        e.bp_entry = 0x19 ∧ ∃ pre r post,
          [⟨0x0040, 0, 0, 0⟩, ⟨0x0041, 1, 0, 1⟩, ⟨0x0060, 0, 0, 0⟩] = pre ++ r :: post ∧
          deferred 2 r ∧
          (parse_map true pre ⟨0, []⟩ 2 0).map (fun o => o.2.count) = some i) ∧
      (∀ pre r post,
        [⟨0x0040, 0, 0, 0⟩, ⟨0x0041, 1, 0, 1⟩, ⟨0x0060, 0, 0, 0⟩] = pre ++ r :: post →
        deferred 2 r →
          ∃ i, (parse_map true pre ⟨0, []⟩ 2 0).map (fun o => o.2.count) = some i ∧
            out.enemies[i]? = some ⟨0x19, 0xFF⟩) :=
  (sentinel_only_for_event_rappy [⟨0x0040, 0, 0, 0⟩, ⟨0x0041, 1, 0, 1⟩, ⟨0x0060, 0, 0, 0⟩]
    ⟨0, []⟩ 2 0).2.2.1 (by decide)

/-- Claim C12. For a record with (16-bit) clone count `n`, alone in the list:
a species-0x0061 record translates to the primary slot (0x25, 0x53) when
`ep = 2` and `alt` is set, whatever its rarity bit, and otherwise to
(0x04 + r, 0x0D + r), where `r` is 1 if bit 0x800000 of `reserved[10]` is set
and 0 if not; a species-0x00E0 record translates to (0x23, 0x54) followed by
4 extra slots when `ep = 2` and `alt` is set, and otherwise to the single
primary slot (0x43 + (skin & 1), 0x45 + (skin & 1)); a species-0x00C0 record
translates to (0x12, 0x2C) when `ep = 1` and to (0x1E, 0x4D) for every other
episode.  In each case `n` zero clone slots follow (listed as far as they lie
inside the scratch buffer) and the count is the number of these slots. -/
theorem context_dependent_remap (r : map_enemy_t) (g : game_enemies_t) (ep alt : Int)
    (hc : r.num_clones < 65536) :
    (r.base = 0x0061 →
      parse_map true [r] g ep alt
        = some (0, ⟨1 + r.num_clones,
            ((if ep = 2 ∧ alt ≠ 0 then ⟨0x25, 0x53⟩
              else ⟨0x04 + (if r.reserved10 &&& 0x800000 ≠ 0 then 1 else 0),
                    0x0D + (if r.reserved10 &&& 0x800000 ≠ 0 then 1 else 0)⟩) ::
              List.replicate r.num_clones ⟨0, 0⟩).take 0xB50⟩)) ∧
    (r.base = 0x00E0 →
      parse_map true [r] g ep alt
        = some (0,
            if ep = 2 ∧ alt ≠ 0 then
              ⟨5 + r.num_clones,
                (⟨0x23, 0x54⟩ :: (List.replicate 4 ⟨0, 0⟩ ++
                  List.replicate r.num_clones ⟨0, 0⟩)).take 0xB50⟩
            else
              ⟨1 + r.num_clones,
                (⟨0x43 + (r.skin &&& 0x01), 0x45 + (r.skin &&& 0x01)⟩ ::
                  List.replicate r.num_clones ⟨0, 0⟩).take 0xB50⟩)) ∧
    (r.base = 0x00C0 →
      parse_map true [r] g ep alt
        = some (0, ⟨1 + r.num_clones,
            ((if ep = 1 then ⟨0x12, 0x2C⟩ else ⟨0x1E, 0x4D⟩) ::
              List.replicate r.num_clones ⟨0, 0⟩).take 0xB50⟩)) := by
  obtain ⟨base, nc, rsv, skin⟩ := r
  simp only at hc
  refine ⟨fun hb => ?_, fun hb => ?_, fun hb => ?_⟩ <;> simp only at hb <;> subst hb
  · have hca : clones_after ⟨0x0061, nc, rsv, skin⟩ = nc := clones_after_of_ne (by simp)
    have hs : switch_slots ep alt ⟨0x0061, nc, rsv, skin⟩
        = [if ep = 2 ∧ alt ≠ 0 then ⟨0x25, 0x53⟩
           else ⟨0x04 + (if rsv &&& 0x800000 ≠ 0 then 1 else 0),
                 0x0D + (if rsv &&& 0x800000 ≠ 0 then 1 else 0)⟩] := by
      simp only [switch_slots, rare]
      split_ifs <;> rfl
    rw [parse_map_single ep alt _ g (by simp) (by rw [hs]; simp) (by rw [hca]; exact hc),
      hs, hca]
    simp [zero_slot, Nat.add_comm]
  · have hca : clones_after ⟨0x00E0, nc, rsv, skin⟩ = nc := clones_after_of_ne (by simp)
    have hs : switch_slots ep alt ⟨0x00E0, nc, rsv, skin⟩
        = if ep = 2 ∧ alt ≠ 0 then ⟨0x23, 0x54⟩ :: List.replicate 4 zero_slot
          else [⟨0x43 + (skin &&& 0x01), 0x45 + (skin &&& 0x01)⟩] := by
      simp only [switch_slots]
    rw [parse_map_single ep alt _ g (by simp) (by rw [hs]; split_ifs <;> simp)
      (by rw [hca]; exact hc), hs, hca]
    split_ifs <;> simp [zero_slot, Nat.add_comm]
  · have hca : clones_after ⟨0x00C0, nc, rsv, skin⟩ = nc := clones_after_of_ne (by simp)
    have hs : switch_slots ep alt ⟨0x00C0, nc, rsv, skin⟩
        = [if ep = 1 then ⟨0x12, 0x2C⟩ else ⟨0x1E, 0x4D⟩] := by
      simp only [switch_slots]
      split_ifs <;> rfl
    rw [parse_map_single ep alt _ g (by simp) (by rw [hs]; simp) (by rw [hca]; exact hc),
      hs, hca]
    simp [zero_slot, Nat.add_comm]

/-- Instance of C12: an Epsilon record (0x00E0) translated for episode 2 with
`alt` set yields (0x23, 0x54) and 4 extra slots. -/
theorem context_dependent_remap_witness :
    parse_map true [⟨0x00E0, 0, 0, 1⟩] ⟨0, []⟩ 2 1
      = some (0, ⟨5, [⟨0x23, 0x54⟩, ⟨0, 0⟩, ⟨0, 0⟩, ⟨0, 0⟩, ⟨0, 0⟩]⟩) :=
  (context_dependent_remap ⟨0x00E0, 0, 0, 1⟩ ⟨0, []⟩ 2 1 (by decide)).2.1 rfl

/-! ## The assemblers read the catalog only -/

theorem bb_scan_congr (maps maps' : Nat → Nat) :
    ∀ (ms : List parsed_map_t) (i acc : Nat) (sets : List game_enemies_t),
    (∀ j, i ≤ j → j < i + 2 * ms.length → maps' j = maps j) →
    bb_scan maps' ms i acc sets = bb_scan maps ms i acc sets := by
  intro ms
  induction ms with
  | nil => intro i acc sets _; rfl
  | cons m rest ih =>
    intro i acc sets h
    have h0 : maps' i = maps i := h i (le_refl _) (by simp only [List.length_cons]; omega)
    have h1 : maps' (i + 1) = maps (i + 1) :=
      h (i + 1) (by omega) (by simp only [List.length_cons]; omega)
    have hrest : ∀ acc sets, bb_scan maps' rest (i + 2) acc sets
        = bb_scan maps rest (i + 2) acc sets := fun acc sets =>
      ih (i + 2) acc sets (fun j hj1 hj2 => h j (by omega)
        (by simp only [List.length_cons]; omega))
    simp only [bb_scan, h0, h1, hrest]

theorem bb_assemble_congr (K : lobby_consts) (cat : Nat → Nat → Nat → parsed_map_t)
    (a1 a2 : Bool) (l1 l2 : lobby_t)
    (hmode : solo_of K l2 = solo_of K l1) (hep : l2.episode = l1.episode)
    (hmaps : ∀ i, i < 0x20 → l2.maps i = l1.maps i) :
    bb_assemble K cat a1 a2 l2 = bb_assemble K cat a1 a2 l1 := by
  have hs : bb_scan l2.maps (bb_areas cat K l2) 0 0 []
      = bb_scan l1.maps (bb_areas cat K l1) 0 0 [] := by
    have : bb_areas cat K l2 = bb_areas cat K l1 := by simp only [bb_areas, hmode, hep]
    rw [this]
    exact bb_scan_congr _ _ _ 0 0 [] (fun j _ hj => hmaps j (by
      simp only [bb_areas, List.length_map, List.length_range] at hj; omega))
  simp only [bb_assemble, hep, hs]

theorem bb_assemble_built (K : lobby_consts) (cat : Nat → Nat → Nat → parsed_map_t)
    (a1 a2 : Bool) (l : lobby_t) (en : game_enemies_t)
    (h : bb_assemble K cat a1 a2 l = .built en) :
    bb_assemble K cat true true l = .built en := by
  unfold bb_assemble at h ⊢
  by_cases hep : ¬ (1 ≤ l.episode ∧ l.episode ≤ 3)
  · rw [if_pos hep] at h; cases h
  · rw [if_neg hep] at h ⊢
    cases hs : bb_scan l.maps (bb_areas cat K l) 0 0 [] with
    | undefined => rw [hs] at h; cases h
    | invalid => rw [hs] at h; cases h
    | done enemies sets =>
      rw [hs] at h
      cases a1 <;> cases a2 <;> first | cases h | exact h

theorem bb_load_zero (K : lobby_consts) (cat : Nat → Nat → Nat → parsed_map_t)
    (a1 a2 : Bool) (l l' : lobby_t) (h : bb_load_game_enemies K cat a1 a2 l = some (0, l')) :
    ∃ en, bb_assemble K cat true true l = .built en ∧
      l'.map_enemies = some { en with enemies := en.enemies.map (bb_fixup K l.difficulty l.event) } := by
  unfold bb_load_game_enemies at h
  cases ha : bb_assemble K cat a1 a2 l with
  | undefined => rw [ha] at h; simp at h
  | failed rv =>
    rw [ha] at h
    exfalso
    unfold bb_assemble at ha
    by_cases hep : ¬ (1 ≤ l.episode ∧ l.episode ≤ 3)
    · rw [if_pos hep] at ha; cases ha
    · rw [if_neg hep] at ha
      cases hs : bb_scan l.maps (bb_areas cat K l) 0 0 [] with
      | undefined => rw [hs] at ha; cases ha
      | invalid => rw [hs] at ha; cases ha; simp at h
      | done enemies sets =>
        rw [hs] at ha
        cases a1 <;> cases a2
        · cases ha; simp at h
        · cases ha; simp at h
        · cases ha; simp at h
        · simp only [Bool.true_eq_false, if_false] at ha
          split at ha <;> cases ha
  | built en =>
    rw [ha] at h
    simp only [Option.some.injEq, Prod.mk.injEq, true_and] at h
    exact ⟨en, bb_assemble_built K cat a1 a2 l en ha, by rw [← h]⟩

/-- Claim C13.  `bb_load_game_enemies` never modifies the map catalog
`bb_parsed_maps` or the parameter tables: whatever the call returns (success
or one of the failure codes, with either allocation failing or not), the
tables after the call are the tables before it.  Consequently, when two calls
are made one after the other, for two sessions that agree in mode, episode,
difficulty, event and selection vector (and may differ in everything else),
the second call sees the same tables, the two calls succeed or fail together
when the allocations succeed, and whenever both return 0 the two sessions
hold enemy lists with the same count and the same slots. -/
theorem bb_load_keeps_tables (K : lobby_consts) (t t1 t2 : tables) (l1 l2 l1' l2' : lobby_t)
    (a1 a2 b1 b2 : Bool) (rv1 rv2 : Int)
    (hmode : solo_of K l2 = solo_of K l1) (hep : l2.episode = l1.episode)
    (hdiff : l2.difficulty = l1.difficulty) (hev : l2.event = l1.event)
    (hmaps : ∀ i, i < 0x20 → l2.maps i = l1.maps i)
    (h1 : bb_load_game_enemies_step K t a1 a2 l1 = some (rv1, t1, l1'))
    (h2 : bb_load_game_enemies_step K t1 b1 b2 l2 = some (rv2, t2, l2')) :
    (t1.bb_parsed_maps = t.bb_parsed_maps ∧ t1.battle_params = t.battle_params) ∧
      (t2.bb_parsed_maps = t.bb_parsed_maps ∧ t2.battle_params = t.battle_params) ∧
      (a1 = b1 → a2 = b2 → rv1 = rv2) ∧
      (rv1 = 0 → rv2 = 0 → ∃ en, l1'.map_enemies = some en ∧ l2'.map_enemies = some en) := by
  unfold bb_load_game_enemies_step at h1 h2
  cases hr1 : bb_load_game_enemies K t.bb_parsed_maps a1 a2 l1 with
  | none => rw [hr1] at h1; simp at h1
  | some r1 =>
    rw [hr1] at h1
    simp only [Option.map_some', Option.some.injEq, Prod.mk.injEq] at h1
    obtain ⟨e1, e2, e3⟩ := h1
    subst e2
    cases hr2 : bb_load_game_enemies K t.bb_parsed_maps b1 b2 l2 with
    | none => rw [hr2] at h2; simp at h2
    | some r2 =>
      rw [hr2] at h2
      simp only [Option.map_some', Option.some.injEq, Prod.mk.injEq] at h2
      obtain ⟨f1, f2, f3⟩ := h2
      subst f2
      refine ⟨⟨rfl, rfl⟩, ⟨rfl, rfl⟩, ?_, ?_⟩
      · intro ha hb
        subst ha hb
        have hc := bb_assemble_congr K t.bb_parsed_maps a1 a2 l1 l2 hmode hep hmaps
        unfold bb_load_game_enemies at hr1 hr2
        rw [hc] at hr2
        cases ha : bb_assemble K t.bb_parsed_maps a1 a2 l1 with
        | undefined => rw [ha] at hr1; simp at hr1
        | failed rv =>
          rw [ha] at hr1 hr2
          simp only [Option.some.injEq] at hr1 hr2
          rw [← e1, ← f1, ← hr1, ← hr2]
        | built en =>
          rw [ha] at hr1 hr2
          simp only [Option.some.injEq] at hr1 hr2
          rw [← e1, ← f1, ← hr1, ← hr2]
      · intro z1 z2
        have g1 : bb_load_game_enemies K t.bb_parsed_maps a1 a2 l1 = some (0, l1') := by
          rw [hr1, ← e3, ← z1, ← e1]
        have g2 : bb_load_game_enemies K t.bb_parsed_maps b1 b2 l2 = some (0, l2') := by
          rw [hr2, ← f3, ← z2, ← f1]
        obtain ⟨en1, k1, m1⟩ := bb_load_zero K _ a1 a2 l1 l1' g1
        obtain ⟨en2, k2, m2⟩ := bb_load_zero K _ b1 b2 l2 l2' g2
        rw [bb_assemble_congr K t.bb_parsed_maps true true l1 l2 hmode hep hmaps, k1] at k2
        cases k2
        exact ⟨_, m1, by rw [m2, hdiff, hev]⟩

/-- Claim C13 at a concrete input: two sessions of the sample catalog with
the same selection, difficulty 2 and event 1; the second one already holds
stale session data.  Both calls return 0 and leave the tables as they were,
and both sessions hold the same list of 3 slots. -/
theorem bb_load_keeps_tables_witness :
    bb_load_game_enemies_step demo_consts demo_tables true true
        (demo_lobby 2 1 (demo_maps 1 0 0 1))
      = some (0, demo_tables,
          { demo_lobby 2 1 (demo_maps 1 0 0 1) with
            bb_params := some ⟨0, 0, 2⟩
            map_enemies := some ⟨3, [⟨0x19, 79⟩, ⟨0x19, 79⟩, ⟨0x4E, 0x0C⟩]⟩ }) ∧
    ((demo_tables.bb_parsed_maps = demo_tables.bb_parsed_maps ∧
        demo_tables.battle_params = demo_tables.battle_params) ∧
      (demo_tables.bb_parsed_maps = demo_tables.bb_parsed_maps ∧
        demo_tables.battle_params = demo_tables.battle_params) ∧
      (true = true → true = true → (0 : Int) = 0) ∧
      ((0 : Int) = 0 → (0 : Int) = 0 → ∃ en,
        some (⟨3, [⟨0x19, 79⟩, ⟨0x19, 79⟩, ⟨0x4E, 0x0C⟩]⟩ : game_enemies_t) = some en ∧
        some (⟨3, [⟨0x19, 79⟩, ⟨0x19, 79⟩, ⟨0x4E, 0x0C⟩]⟩ : game_enemies_t) = some en)) :=
  ⟨rfl,
    bb_load_keeps_tables demo_consts demo_tables demo_tables demo_tables
      (demo_lobby 2 1 (demo_maps 1 0 0 1))
      { demo_lobby 2 1 (demo_maps 1 0 0 1) with map_enemies := some ⟨1, [⟨0, 0⟩]⟩ }
      { demo_lobby 2 1 (demo_maps 1 0 0 1) with
        bb_params := some ⟨0, 0, 2⟩
        map_enemies := some ⟨3, [⟨0x19, 79⟩, ⟨0x19, 79⟩, ⟨0x4E, 0x0C⟩]⟩ }
      { demo_lobby 2 1 (demo_maps 1 0 0 1) with
        bb_params := some ⟨0, 0, 2⟩
        map_enemies := some ⟨3, [⟨0x19, 79⟩, ⟨0x19, 79⟩, ⟨0x4E, 0x0C⟩]⟩ }
      true true true true 0 0 rfl rfl rfl rfl (fun _ _ => rfl) rfl rfl⟩

/-! ## The legacy assembler -/

theorem selected_obj_lookup (maps : Nat → Nat) (m : parsed_map_t) (o : parsed_objs_t) (k : Nat)
    (hb : in_bounds maps m k) (hg : grid_ok m) (ho : objs_ok m o) :
    o.data[u32 (maps (2 * k) * m.variation_count + maps (2 * k + 1))]?
      = some (selected_obj_entry maps m o k) ∧ selected_obj_entry maps m o k ∈ o.data := by
  obtain ⟨h1, h2⟩ := hb
  obtain ⟨g1, g2, _⟩ := hg
  have hlt : maps (2 * k) * m.variation_count + maps (2 * k + 1) < o.data.length := by
    rw [ho.1, g1]
    calc maps (2 * k) * m.variation_count + maps (2 * k + 1)
        < maps (2 * k) * m.variation_count + m.variation_count := by omega
      _ = (maps (2 * k) + 1) * m.variation_count := by ring
      _ ≤ m.map_count * m.variation_count := Nat.mul_le_mul_right _ h1
  rw [u32_of_lt (by rw [ho.1] at hlt; omega), selected_obj_entry, List.getD_eq_getElem?_getD,
    List.getElem?_eq_getElem hlt]
  exact ⟨rfl, List.getElem_mem _⟩

theorem v2_scan_range (maps : Nat → Nat) (area : Nat → parsed_map_t)
    (oarea : Nat → parsed_objs_t) :
    ∀ (n k acc oacc : Nat) (sets : List game_enemies_t) (osets : List game_objs_t),
    acc < 4294967296 → oacc < 4294967296 →
    (∀ j ∈ (List.range' k n).takeWhile (fun j => !is_end (area j)),
        in_bounds maps (area j) j ∧ grid_ok (area j) ∧ objs_ok (area j) (oarea j)) →
    v2_scan maps ((List.range' k n).map fun j => (area j, oarea j)) (2 * k) acc oacc sets osets
      = .done
          (u32 (acc + (List.map (fun j => (selected_entry maps (area j) j).count)
              ((List.range' k n).takeWhile fun j => !is_end (area j))).sum))
          (u32 (oacc + (List.map (fun j => (selected_obj_entry maps (area j) (oarea j) j).count)
              ((List.range' k n).takeWhile fun j => !is_end (area j))).sum))
          (sets ++ List.map (fun j => selected_entry maps (area j) j)
              ((List.range' k n).takeWhile fun j => !is_end (area j)))
          (osets ++ List.map (fun j => selected_obj_entry maps (area j) (oarea j) j)
              ((List.range' k n).takeWhile fun j => !is_end (area j))) := by
  intro n
  induction n with
  | zero => intro k acc oacc sets osets ha hoa _; simp [v2_scan, u32_of_lt ha, u32_of_lt hoa]
  | succ n ih =>
    intro k acc oacc sets osets ha hoa h
    rw [List.range'_succ] at h ⊢
    simp only [List.map_cons, v2_scan, List.takeWhile_cons] at h ⊢
    by_cases he : is_end (area k) = true
    · have he' : (area k).map_count = 0 ∧ (area k).variation_count = 0 := by
        simpa [is_end] using he
      simp [he, he', u32_of_lt ha, u32_of_lt hoa]
    · have he' : ¬ ((area k).map_count = 0 ∧ (area k).variation_count = 0) := by
        simpa [is_end] using he
      simp only [he, Bool.not_false, if_true, he', if_false, List.mem_cons, forall_eq_or_imp,
        Bool.false_eq_true, not_false_eq_true, Bool.not_eq_true] at h ⊢
      obtain ⟨⟨hb, hg, ho⟩, hrest⟩ := h
      have hnot : ¬ (maps (2 * k) > (area k).map_count ∨
          maps (2 * k + 1) > (area k).variation_count) := by
        have := hb.1; have := hb.2; omega
      rw [if_neg hnot, (selected_lookup maps _ k hb hg).1,
        (selected_obj_lookup maps _ _ k hb hg ho).1]
      simp only
      have := ih (k + 1) (u32 (acc + (selected_entry maps (area k) k).count))
        (u32 (oacc + (selected_obj_entry maps (area k) (oarea k) k).count))
        (sets ++ [selected_entry maps (area k) k])
        (osets ++ [selected_obj_entry maps (area k) (oarea k) k])
        (Nat.mod_lt _ (by norm_num)) (Nat.mod_lt _ (by norm_num)) hrest
      rw [show 2 * k + 2 = 2 * (k + 1) by ring, this, u32_acc, u32_acc]
      simp

theorem v2_copy_sets_fill : ∀ (sets : List game_enemies_t) (osets : List game_objs_t)
    (filled : List game_enemy_t) (ofilled : List map_object_t),
    sets.length = osets.length →
    (∀ e ∈ sets, e.enemies.length = e.count) → (∀ e ∈ osets, e.objs.length = e.count) →
    filled.length + (sets.map fun e => e.count).sum < 4294967296 →
    ofilled.length + (osets.map fun e => e.count).sum < 4294967296 →
    v2_copy_sets sets osets filled.length ofilled.length
        (filled.map some ++ List.replicate (sets.map fun e => e.count).sum none)
        (ofilled.map some ++ List.replicate (osets.map fun e => e.count).sum none)
      = some ((filled ++ (sets.map fun e => e.enemies).flatten).map some,
              (ofilled ++ (osets.map fun e => e.objs).flatten).map some) := by
  intro sets
  induction sets with
  | nil =>
    intro osets filled ofilled hl _ _ _ _
    have : osets = [] := List.eq_nil_of_length_eq_zero (by simpa using hl.symm)
    subst this
    simp [v2_copy_sets]
  | cons e rest ih =>
    intro osets filled ofilled hl hwf howf hsum hosum
    cases osets with
    | nil => simp at hl
    | cons o orest =>
      have he : e.enemies.length = e.count := hwf e (List.mem_cons_self _ _)
      have ho : o.objs.length = o.count := howf o (List.mem_cons_self _ _)
      simp only [List.map_cons, List.sum_cons] at hsum hosum ⊢
      rw [v2_copy_sets, ← he, ← ho, memcpy_fill filled e.enemies _ (by omega), Option.some_bind,
        memcpy_fill ofilled o.objs _ (by omega), Option.some_bind,
        Nat.add_sub_cancel_left, Nat.add_sub_cancel_left, u32_of_lt (by omega),
        u32_of_lt (by omega)]
      have := ih orest (filled ++ e.enemies) (ofilled ++ o.objs) (by simpa using hl)
        (fun x hx => hwf x (List.mem_cons_of_mem _ hx))
        (fun x hx => howf x (List.mem_cons_of_mem _ hx))
        (by simp only [List.length_append]; omega) (by simp only [List.length_append]; omega)
      rw [List.length_append, List.length_append] at this
      rw [this]
      simp


theorem v2_load_ok (vm : Nat → parsed_map_t) (vo : Nat → parsed_objs_t) (l : lobby_t)
    (hsel : v2_selection_ok l.maps vm vo)
    (hsum : selected_total l.maps vm < 4294967296)
    (hosum : selected_obj_total l.maps vm vo < 4294967296) :
    v2_load_game_enemies vm vo true true true true l
        = some (0, { l with
            map_enemies := some
              ⟨selected_total l.maps vm, (selected_slots l.maps vm).map (v2_fixup l.difficulty)⟩
            map_objs := some ⟨selected_obj_total l.maps vm vo, selected_objs l.maps vm vo⟩ }) := by
  obtain ⟨hs, ho⟩ := hsel
  have hscan := v2_scan_range l.maps vm vo 0x10 0 0 0 [] [] (by norm_num) (by norm_num)
    (by
      intro j hj
      have : j ∈ populated vm := by simpa [populated, List.range_eq_range'] using hj
      exact ⟨(hs j this).1, (hs j this).2, ho j this⟩)
  have hareas : v2_areas vm vo = (List.range' 0 0x10).map fun j => (vm j, vo j) := by
    simp [v2_areas, List.range_eq_range']
  have hent : List.map (fun j => selected_entry l.maps (vm j) j)
      ((List.range' 0 0x10).takeWhile fun j => !is_end (vm j))
      = selected_entries l.maps vm := by
    simp [selected_entries, populated, List.range_eq_range']
  have hcnt : (List.map (fun j => (selected_entry l.maps (vm j) j).count)
      ((List.range' 0 0x10).takeWhile fun j => !is_end (vm j))).sum
      = selected_total l.maps vm := by
    simp [selected_total, selected_entries, populated, List.range_eq_range', Function.comp_def]
  have hoent : List.map (fun j => selected_obj_entry l.maps (vm j) (vo j) j)
      ((List.range' 0 0x10).takeWhile fun j => !is_end (vm j))
      = selected_obj_entries l.maps vm vo := by
    simp [selected_obj_entries, populated, List.range_eq_range']
  have hocnt : (List.map (fun j => (selected_obj_entry l.maps (vm j) (vo j) j).count)
      ((List.range' 0 0x10).takeWhile fun j => !is_end (vm j))).sum
      = selected_obj_total l.maps vm vo := by
    simp [selected_obj_total, selected_obj_entries, populated, List.range_eq_range',
      Function.comp_def]
  rw [hent, hcnt, hoent, hocnt] at hscan
  simp only [Nat.mul_zero, Nat.zero_add, List.nil_append] at hscan
  rw [u32_of_lt hsum, u32_of_lt hosum] at hscan
  have hwf : ∀ e ∈ selected_entries l.maps vm, e.enemies.length = e.count := by
    intro e he
    simp only [selected_entries, List.mem_map] at he
    obtain ⟨k, hk, rfl⟩ := he
    obtain ⟨hb, hg⟩ := hs k hk
    exact hg.2.2 _ (selected_lookup l.maps _ k hb hg).2
  have howf : ∀ e ∈ selected_obj_entries l.maps vm vo, e.objs.length = e.count := by
    intro e he
    simp only [selected_obj_entries, List.mem_map] at he
    obtain ⟨k, hk, rfl⟩ := he
    obtain ⟨hb, hg⟩ := hs k hk
    exact (ho k hk).2 _ (selected_obj_lookup l.maps _ _ k hb hg (ho k hk)).2
  have hcopy := v2_copy_sets_fill (selected_entries l.maps vm)
    (selected_obj_entries l.maps vm vo) [] []
    (by simp [selected_entries, selected_obj_entries]) hwf howf
    (by simpa [selected_total] using hsum) (by simpa [selected_obj_total] using hosum)
  simp only [List.length_nil, List.map_nil, List.nil_append] at hcopy
  have htot : selected_total l.maps vm
      = (List.map (fun e => e.count) (selected_entries l.maps vm)).sum := rfl
  have hotot : selected_obj_total l.maps vm vo
      = (List.map (fun e => e.count) (selected_obj_entries l.maps vm vo)).sum := rfl
  unfold v2_load_game_enemies
  rw [hareas, hscan]
  simp only [Bool.true_eq_false, if_false]
  rw [htot, hotot, hcopy]
  simp only [read_slots_map_some]
  rfl

/-- Claim C14.  For every legacy catalog and every selection that lies
strictly inside the declared bounds of the populated areas (the grids of
both catalogs matching the declared counts, the 32-bit totals not wrapping),
`v2_load_game_enemies` returns 0 and installs an object list that is the
concatenation, in increasing area order over the populated areas, of the
object entries at index `map * variation_count + variation`, with count the
sum of their counts and every object record as stored in the catalog; the
enemy list is the same area-order concatenation of the enemy entries, with
count the sum of their counts, in which a slot differs from the stored slot
only by the rewrite of `bp_entry` 0x37 to 0x38 at a non-zero difficulty.  The
other fields of the session are unchanged. -/
theorem v2_load_concatenates (vm : Nat → parsed_map_t) (vo : Nat → parsed_objs_t) (l : lobby_t)
    (hsel : v2_selection_ok l.maps vm vo)
    (hsum : selected_total l.maps vm < 4294967296)
    (hosum : selected_obj_total l.maps vm vo < 4294967296) :
    v2_load_game_enemies vm vo true true true true l
        = some (0, { l with
            map_enemies := some
              ⟨selected_total l.maps vm, (selected_slots l.maps vm).map (v2_fixup l.difficulty)⟩
            map_objs := some ⟨selected_obj_total l.maps vm vo, selected_objs l.maps vm vo⟩ }) ∧
      (∀ e : game_enemy_t, (v2_fixup l.difficulty e).rt_index = e.rt_index ∧
        (v2_fixup l.difficulty e).bp_entry
          = if e.bp_entry = 0x37 ∧ l.difficulty ≠ 0 then 0x38 else e.bp_entry) := by
  constructor
  · exact v2_load_ok vm vo l hsel hsum hosum
  · intro e
    unfold v2_fixup
    split_ifs <;> simp

/-- Claim C14 at a concrete input: the sample legacy catalog with the
selection (map 0, variation 0) in area 0 and (map 0, variation 1) in area 1,
difficulty 1.  The object list is the object entry at grid index 0 of area 0
followed by the one at grid index 1 of area 1; the enemy list is the
concatenation of the enemy entries at the same indices, the slot of row 0x37
rewritten to row 0x38. -/
theorem v2_load_concatenates_witness :
    v2_selection_ok (demo_maps 0 0 0 1) (demo_catalog 0 0) demo_objs ∧
      v2_installed (demo_catalog 0 0) demo_objs (demo_lobby 1 0 (demo_maps 0 0 0 1))
        = some (0, some ⟨4, [⟨0x49, 0x01⟩, ⟨0x38, 0x2F⟩, ⟨0x19, 0xFF⟩, ⟨0x4E, 0x0C⟩]⟩,
            some ⟨2, [⟨[0x00]⟩, ⟨[0x11]⟩]⟩) :=
  ⟨by decide, by
    unfold v2_installed
    rw [(v2_load_concatenates (demo_catalog 0 0) demo_objs (demo_lobby 1 0 (demo_maps 0 0 0 1))
      (by decide) (by decide) (by decide)).1]
    decide⟩

/-! ## Releasing the session data -/

/-- Claim C15, the code against the claim.  For every lobby,
`free_game_enemies` nulls `map_enemies` and `bb_params` but leaves `map_objs`
as it was, and a second call passes to `free` again the two object blocks
that the first call released.  At the failing input, the session that
`v2_load_game_enemies` installs for the sample legacy catalog, the first call
releases the four blocks, `map_objs` is still set after it, and the second
call releases `l->map_objs->objs` and `l->map_objs` a second time. -/
theorem free_game_enemies_keeps_map_objs :
    (∀ l : lobby_t,
      (free_game_enemies l).2.map_enemies = none ∧ (free_game_enemies l).2.bb_params = none ∧
      (free_game_enemies l).2.map_objs = l.map_objs ∧
      (free_game_enemies (free_game_enemies l).2).1
        = if l.map_objs.isSome then [freed_t.map_objs_objs, freed_t.map_objs] else []) ∧
    v2_load_game_enemies (demo_catalog 0 0) demo_objs true true true true
        (demo_lobby 0 0 (demo_maps 0 0 0 0)) = some (0, demo_v2_session) ∧
    (free_game_enemies demo_v2_session).1
      = [freed_t.map_enemies_enemies, freed_t.map_enemies, freed_t.map_objs_objs,
          freed_t.map_objs] ∧
    (free_game_enemies demo_v2_session).2.map_objs = some ⟨2, [⟨[0x00]⟩, ⟨[0x01]⟩]⟩ ∧
    (free_game_enemies (free_game_enemies demo_v2_session).2).1
      = [freed_t.map_objs_objs, freed_t.map_objs] := by
  refine ⟨fun l => ⟨rfl, rfl, rfl, ?_⟩, rfl, rfl, rfl, rfl⟩
  simp [free_game_enemies]

/-! ## The loops of the catalog loaders -/

theorem slot_index (n nv : Nat) : n / nv * nv + n % nv = n := Nat.div_add_mod' n nv

theorem slot_div (k l nv : Nat) (hl : l < nv) : (k * nv + l) / nv = k := by
  rw [Nat.add_comm, Nat.add_mul_div_right _ _ (by omega), Nat.div_eq_of_lt hl, Nat.zero_add]

theorem slot_mod (k l nv : Nat) (hl : l < nv) : (k * nv + l) % nv = l := by
  rw [Nat.add_comm, Nat.add_mul_mod_self_right, Nat.mod_eq_of_lt hl]

theorem slots_eq (nmaps nvars : Nat) :
    slots nmaps nvars = (List.range (nmaps * nvars)).map fun n => (n / nvars, n % nvars) := by
  induction nmaps with
  | zero => simp [slots]
  | succ n ih =>
    have h1 : slots (n + 1) nvars = slots n nvars ++ (List.range nvars).map fun l => (n, l) := by
      simp [slots, List.range_succ, List.flatMap_append]
    rw [h1, ih, Nat.succ_mul, List.range_add, List.map_append, List.map_map]
    congr 1
    apply List.map_congr_left
    intro l hl
    have hl' : l < nvars := List.mem_range.mp hl
    simp only [Function.comp]
    rw [Nat.add_comm (n * nvars) l, Nat.add_mul_div_right _ _ (by omega),
      Nat.add_mul_mod_self_right, Nat.div_eq_of_lt hl', Nat.mod_eq_of_lt hl', Nat.zero_add]

theorem slot_loop_range {α : Type} (step : Nat → Nat → α → slot_t α) (nv : Nat) :
    ∀ (b a : Nat) (tmp : List α) (rv : Int) (tmp' : List α), a + b ≤ tmp.length →
    slot_loop step nv ((List.range' a b).map fun n => (n / nv, n % nv)) tmp = some (rv, tmp') →
    tmp'.length = tmp.length ∧
      ((∀ k l cur g, step k l cur ≠ .failed 0 g) → rv = 0 → ∀ n, a ≤ n → n < a + b →
        ∃ cur g, tmp[n]? = some cur ∧ step (n / nv) (n % nv) cur = .loaded g ∧
          tmp'[n]? = some g) ∧
      (∀ n, n < a → tmp'[n]? = tmp[n]?) := by
  intro b
  induction b with
  | zero =>
    intro a tmp rv tmp' _ h
    simp only [List.range'_zero, List.map_nil, slot_loop, Option.some.injEq, Prod.mk.injEq] at h
    obtain ⟨_, rfl⟩ := h
    exact ⟨rfl, fun _ _ n h1 h2 => absurd h2 (by omega), fun _ _ => rfl⟩
  | succ b ih =>
    intro a tmp rv tmp' hlen h
    rw [List.range'_succ, List.map_cons, slot_loop, slot_index] at h
    have ha : a < tmp.length := by omega
    rw [List.getElem?_eq_getElem ha] at h
    simp only at h
    cases hs : step (a / nv) (a % nv) tmp[a] with
    | undefined => rw [hs] at h; cases h
    | failed rv1 g =>
      rw [hs] at h
      simp only [Option.some.injEq, Prod.mk.injEq] at h
      obtain ⟨rfl, rfl⟩ := h
      refine ⟨List.length_set _ _ _, fun hstep h0 => ?_, fun n hn => ?_⟩
      · subst h0; exact absurd hs (hstep _ _ _ _)
      · exact List.getElem?_set_ne (by omega)
    | loaded g =>
      rw [hs] at h
      simp only at h
      obtain ⟨i1, i2, i3⟩ := ih (a + 1) (tmp.set a g) rv tmp'
        (by rw [List.length_set]; omega) h
      rw [List.length_set] at i1
      refine ⟨i1, fun hstep h0 n hn1 hn2 => ?_, fun n hn => ?_⟩
      · by_cases hna : n = a
        · subst hna
          refine ⟨tmp[n], g, List.getElem?_eq_getElem ha, hs, ?_⟩
          rw [i3 n (by omega), List.getElem?_set_self ha]
        · obtain ⟨cur, g', c1, c2, c3⟩ := i2 hstep h0 n (by omega) (by omega)
          rw [List.getElem?_set_ne (by omega)] at c1
          exact ⟨cur, g', c1, c2, c3⟩
      · rw [i3 n (by omega), List.getElem?_set_ne (by omega)]

theorem slot_loop_prefix {α : Type} (step : Nat → Nat → α → slot_t α) (nv : Nat)
    (rest : List (Nat × Nat)) :
    ∀ (b a : Nat) (tmp : List α), a + b ≤ tmp.length →
    (∀ n, a ≤ n → n < a + b →
      ∃ cur g, tmp[n]? = some cur ∧ step (n / nv) (n % nv) cur = .loaded g) →
    ∃ tmp1, tmp1.length = tmp.length ∧ (∀ n, a + b ≤ n → tmp1[n]? = tmp[n]?) ∧
      slot_loop step nv (((List.range' a b).map fun n => (n / nv, n % nv)) ++ rest) tmp
        = slot_loop step nv rest tmp1 := by
  intro b
  induction b with
  | zero => intro a tmp _ _; exact ⟨tmp, rfl, fun _ _ => rfl, rfl⟩
  | succ b ih =>
    intro a tmp hlen h
    obtain ⟨cur, g, c1, c2⟩ := h a (le_refl _) (by omega)
    obtain ⟨tmp1, t1, t2, t3⟩ := ih (a + 1) (tmp.set a g) (by rw [List.length_set]; omega)
      (fun n hn1 hn2 => by
        obtain ⟨cur', g', d1, d2⟩ := h n (by omega) (by omega)
        exact ⟨cur', g', by rw [List.getElem?_set_ne (by omega)]; exact d1, d2⟩)
    rw [List.length_set] at t1
    refine ⟨tmp1, t1, fun n hn => ?_, ?_⟩
    · rw [t2 n (by omega), List.getElem?_set_ne (by omega)]
    · rw [List.range'_succ, List.map_cons, List.cons_append, slot_loop, slot_index, c1]
      simp only [c2]
      exact t3

theorem slot_loop_fail {α : Type} (step : Nat → Nat → α → slot_t α) (nv total idx : Nat)
    (tmp : List α) (hlen : tmp.length = total) (hidx : idx < total)
    (hpre : ∀ n, n < idx →
      ∃ cur g, tmp[n]? = some cur ∧ step (n / nv) (n % nv) cur = .loaded g)
    (cur : α) (hcur : tmp[idx]? = some cur) (rv : Int) (g : α)
    (hfail : step (idx / nv) (idx % nv) cur = .failed rv g) :
    ∃ tmp', slot_loop step nv ((List.range total).map fun n => (n / nv, n % nv)) tmp
        = some (rv, tmp') ∧ tmp'[idx]? = some g ∧ tmp'.length = total ∧
        ∀ n, idx < n → tmp'[n]? = tmp[n]? := by
  have hsplit : List.range total
      = List.range' 0 idx ++ (idx :: List.range' (idx + 1) (total - idx - 1)) := by
    have h1 := List.range'_append_1 0 idx (total - idx)
    rw [Nat.zero_add, show total - idx + idx = total by omega,
      show total - idx = (total - idx - 1) + 1 by omega, List.range'_succ] at h1
    rw [List.range_eq_range', ← h1]
  obtain ⟨tmp1, t1, t2, t3⟩ := slot_loop_prefix step nv
    ((idx / nv, idx % nv) ::
      (List.range' (idx + 1) (total - idx - 1)).map fun n => (n / nv, n % nv))
    idx 0 tmp (by omega) (fun n _ hn => hpre n (by omega))
  rw [hsplit, List.map_append, List.map_cons, t3, slot_loop, slot_index,
    t2 idx (by omega), hcur]
  simp only [hfail]
  refine ⟨_, rfl, List.getElem?_set_self (by omega), by rw [List.length_set]; omega,
    fun n hn => ?_⟩
  rw [List.getElem?_set_ne (by omega), t2 n (by omega)]

theorem bb_open_error (fs : String → Option file_t) (solo i j k l : Nat) (rv : Int)
    (h : bb_open fs solo i j k l = .error rv) : rv = 1 ∨ rv = 2 := by
  unfold bb_open at h
  by_cases h1 : solo ≠ 0 ∧ (bb_name "s" i j k l).length ≥ 256
  · rw [if_pos h1] at h; cases h; exact Or.inl rfl
  · rw [if_neg h1] at h
    generalize (if solo ≠ 0 then fs (bb_name "s" i j k l) else none) = r at h
    cases r with
    | some fp => cases h
    | none =>
      simp only at h
      by_cases h2 : (bb_name "m" i j k l).length ≥ 256
      · rw [if_pos h2] at h; cases h; exact Or.inl rfl
      · rw [if_neg h2] at h
        cases hf : fs (bb_name "m" i j k l) with
        | some fp => rw [hf] at h; cases h
        | none => rw [hf] at h; cases h; exact Or.inr rfl

theorem read_file_error (stride : Nat) (fp : file_t) (rv : Int)
    (h : read_file stride fp = .error rv) : 3 ≤ rv ∧ rv ≤ 8 := by
  unfold read_file at h
  split_ifs at h <;> cases h <;> decide

theorem read_file_ok (stride : Nat) (fp : file_t) (buf : List Nat)
    (h : read_file stride fp = .ok buf) : buf = fp.bytes ∧ fp.bytes.length % stride = 0 := by
  unfold read_file at h
  split_ifs at h with h1 h2 h3 h4 h5 h6
  cases h
  exact ⟨rfl, by simpa using h4⟩

theorem read_bb_slot_failed (fs : String → Option file_t) (decode : List Nat → map_enemy_t)
    (solo i j k l : Nat) (cur g : game_enemies_t) :
    read_bb_slot fs decode solo i j k l cur ≠ .failed 0 g := by
  intro h
  unfold read_bb_slot at h
  simp only at h
  cases hb : bb_open fs solo i j k l with
  | error rv =>
    rw [hb] at h
    cases h
    rcases bb_open_error _ _ _ _ _ _ _ hb with h | h <;> cases h
  | ok fp =>
    rw [hb] at h
    simp only at h
    cases hr : read_file 0x48 fp with
    | error rv =>
      rw [hr] at h
      cases h
      have := read_file_error _ _ _ hr
      omega
    | ok buf =>
      rw [hr] at h
      simp only at h
      generalize parse_map _ _ _ _ _ = p at h
      rcases p with _ | ⟨rv, g1⟩
      · cases h
      · simp only at h
        split_ifs at h
        cases h

theorem read_v2_slot_failed (fs : String → Option file_t) (decode : List Nat → map_enemy_t)
    (j k l : Nat) (cur g : game_enemies_t × game_objs_t) :
    read_v2_slot fs decode j k l cur ≠ .failed 0 g := by
  intro h
  unfold read_v2_slot at h
  simp only at h
  by_cases h1 : (v2_name j k l).length ≥ 256
  · rw [if_pos h1] at h; cases h
  · rw [if_neg h1] at h
    cases hf : fs (v2_name j k l) with
    | none => rw [hf] at h; cases h
    | some fp =>
      rw [hf] at h
      simp only at h
      cases hr : read_file 0x48 fp with
      | error rv =>
        rw [hr] at h
        cases h
        have := read_file_error _ _ _ hr
        omega
      | ok buf =>
        rw [hr] at h
        simp only at h
        generalize parse_map _ _ _ _ _ = p at h
        rcases p with _ | ⟨rv, g1⟩
        · cases h
        · simp only at h
          by_cases h2 : rv ≠ 0
          · rw [if_pos h2] at h; cases h
          · rw [if_neg h2] at h
            by_cases h3 : (v2_obj_name j k l).length ≥ 256
            · rw [if_pos h3] at h; cases h
            · rw [if_neg h3] at h
              cases hf2 : fs (v2_obj_name j k l) with
              | none => rw [hf2] at h; cases h
              | some fp2 =>
                rw [hf2] at h
                simp only at h
                cases hr2 : read_file 0x44 fp2 with
                | error rv2 =>
                  rw [hr2] at h
                  cases h
                  have := read_file_error _ _ _ hr2
                  omega
                | ok obuf => rw [hr2] at h; cases h

theorem chunks_flatten (stride : Nat) : ∀ (n : Nat) (bs : List Nat), bs.length = n * stride →
    (chunks stride n bs).flatten = bs := by
  intro n
  induction n with
  | zero =>
    intro bs h
    have : bs = [] := List.eq_nil_of_length_eq_zero (by simpa using h)
    simp [chunks, this]
  | succ n ih =>
    intro bs h
    rw [chunks, List.flatten_cons, ih _ (by rw [List.length_drop, h, Nat.succ_mul]; omega),
      List.take_append_drop]

theorem table_range : ∀ row ∈ maps ++ sp_maps, row.length = 0x20 ∧ ∀ x ∈ row, 1 ≤ x ∧ x ≤ 5 := by
  decide

theorem table_lookup (solo i j : Nat) (row : List Nat) (nmaps nvars : Nat)
    (hrow : (if solo = 0 then maps else sp_maps)[i]? = some row)
    (hm : row[j * 2]? = some nmaps) (hv : row[j * 2 + 1]? = some nvars) :
    i < 3 ∧ j < 16 ∧ 1 ≤ nmaps ∧ nmaps ≤ 5 ∧ 1 ≤ nvars ∧ nvars ≤ 5 := by
  have hi : i < 3 := by
    by_contra hc
    split_ifs at hrow
    · rw [List.getElem?_eq_none (by simp [maps]; omega)] at hrow; cases hrow
    · rw [List.getElem?_eq_none (by simp [sp_maps]; omega)] at hrow; cases hrow
  have hmem : row ∈ maps ++ sp_maps := by
    split_ifs at hrow
    · exact List.mem_append_left _ (List.getElem?_mem hrow)
    · exact List.mem_append_right _ (List.getElem?_mem hrow)
  obtain ⟨hl, hx⟩ := table_range row hmem
  have hj : j < 16 := by
    by_contra hc
    rw [List.getElem?_eq_none (by omega)] at hm; cases hm
  have := hx _ (List.getElem?_mem hm)
  have := hx _ (List.getElem?_mem hv)
  omega

theorem is_loaded_iff {α : Type} (x : slot_t α) : x.is_loaded = true ↔ ∃ g, x = .loaded g := by
  cases x <;> simp [slot_t.is_loaded]

theorem fmt_d_length : ∀ n, n < 10 → (fmt_d n).length = 1 := by decide

theorem fmt_X_length : ∀ n, n < 16 → (fmt_X n).length = 1 := by decide

theorem bb_name_length (c : String) (i j k l : Nat) (hi : i < 3) (hj : j < 16) (hk : k < 5)
    (hl : l < 5) : (bb_name c i j k l).length = c.length + 8 := by
  simp only [bb_name, String.length_append, fmt_d_length (i + 1) (by omega), fmt_X_length j hj,
    fmt_d_length k (by omega), fmt_d_length l (by omega)]
  rfl

theorem v2_name_length (j k l : Nat) (hj : j < 16) (hk : k < 5) (hl : l < 5) :
    (v2_name j k l).length = 8 ∧ (v2_obj_name j k l).length = 10 := by
  simp only [v2_name, v2_obj_name, String.length_append, fmt_X_length j hj,
    fmt_d_length k (by omega), fmt_d_length l (by omega)]
  exact ⟨rfl, rfl⟩

theorem read_bb_map_set_eq (fs : String → Option file_t) (decode : List Nat → map_enemy_t)
    (junk : Nat → game_enemies_t) (solo i j : Nat) (m : parsed_map_t) (row : List Nat)
    (nmaps nvars : Nat)
    (hrow : (if solo = 0 then maps else sp_maps)[i]? = some row)
    (hm : row[j * 2]? = some nmaps) (hv : row[j * 2 + 1]? = some nvars) :
    read_bb_map_set fs decode true junk solo i j m
      = (slot_loop (read_bb_slot fs decode solo i j) nvars
          ((List.range (nmaps * nvars)).map fun n => (n / nvars, n % nvars))
          ((List.range (nmaps * nvars)).map junk)).map fun r =>
            (r.1, ({ map_count := nmaps, variation_count := nvars, data := r.2 } : parsed_map_t)) := by
  unfold read_bb_map_set
  rw [hrow]
  simp only [hm, hv, Bool.true_eq_false, if_false, slots_eq]

theorem read_v2_map_set_eq (fs : String → Option file_t) (decode : List Nat → map_enemy_t)
    (junk : Nat → game_enemies_t) (ojunk : Nat → game_objs_t) (j : Nat) (m : parsed_map_t)
    (o : parsed_objs_t) (row : List Nat) (nmaps nvars : Nat)
    (hrow : maps[0]? = some row)
    (hm : row[j * 2]? = some nmaps) (hv : row[j * 2 + 1]? = some nvars) :
    read_v2_map_set fs decode true true junk ojunk j m o
      = (slot_loop (read_v2_slot fs decode j) nvars
          ((List.range (nmaps * nvars)).map fun n => (n / nvars, n % nvars))
          ((List.range (nmaps * nvars)).map fun n => (junk n, ojunk n))).map fun r =>
            (r.1, ({ map_count := nmaps, variation_count := nvars,
                     data := r.2.map Prod.fst } : parsed_map_t),
              ({ map_count := nmaps, variation_count := nvars,
                 data := r.2.map Prod.snd } : parsed_objs_t)) := by
  unfold read_v2_map_set
  rw [hrow]
  simp only [hm, hv, Bool.true_eq_false, if_false, slots_eq]

theorem slot_lt (nmaps nvars k l : Nat) (hk : k < nmaps) (hl : l < nvars) :
    k * nvars + l < nmaps * nvars := by
  calc k * nvars + l < k * nvars + nvars := by omega
    _ = (k + 1) * nvars := by ring
    _ ≤ nmaps * nvars := Nat.mul_le_mul_right _ hk

theorem reaches_pre {α : Type} (step : Nat → Nat → α → slot_t α) (junk : Nat → α)
    (nmaps nvars k l : Nat) (hl : l < nvars)
    (h : ∀ k1 < k + 1, ∀ l1 < nvars, k1 * nvars + l1 < k * nvars + l →
      (step k1 l1 (junk (k1 * nvars + l1))).is_loaded = true)
    (hk : k < nmaps) :
    ∀ n, n < k * nvars + l → ∃ cur g, ((List.range (nmaps * nvars)).map junk)[n]? = some cur ∧
      step (n / nvars) (n % nvars) cur = .loaded g := by
  intro n hn
  have hnv : 0 < nvars := by omega
  have h1 : n / nvars < k + 1 := by
    rw [Nat.div_lt_iff_lt_mul hnv]
    calc n < k * nvars + l := hn
      _ < k * nvars + nvars := by omega
      _ = (k + 1) * nvars := by ring
  have h2 := h (n / nvars) h1 (n % nvars) (Nat.mod_lt _ hnv) (by rw [slot_index]; exact hn)
  rw [slot_index] at h2
  obtain ⟨g, hg⟩ := (is_loaded_iff _).mp h2
  have hlt : n < nmaps * nvars := lt_trans hn (slot_lt nmaps nvars k l hk hl)
  exact ⟨junk n, g, by simp [List.getElem?_map, List.getElem?_range hlt], hg⟩

theorem junk_get {α : Type} (junk : Nat → α) (total n : Nat) (h : n < total) :
    ((List.range total).map junk)[n]? = some (junk n) := by
  simp [List.getElem?_map, List.getElem?_range h]

theorem parse_map_zero (a : Bool) (en : List map_enemy_t) (game g : game_enemies_t)
    (ep alt : Int) (h : parse_map a en game ep alt = some (0, g)) :
    a = true ∧ ∀ game1, parse_map true en game1 ep alt = some (0, g) := by
  cases a with
  | false => simp [parse_map] at h
  | true => exact ⟨rfl, fun game1 => by simpa [parse_map] using h⟩

theorem parse_map_code (a : Bool) (en : List map_enemy_t) (game g : game_enemies_t)
    (ep alt : Int) (rv : Int) (h : parse_map a en game ep alt = some (rv, g)) :
    rv = 0 ∨ (rv = -1 ∧ g = game) := by
  cases a with
  | false =>
    simp only [parse_map, if_true, Option.some.injEq, Prod.mk.injEq] at h
    exact Or.inr ⟨h.1.symm, h.2.symm⟩
  | true =>
    simp only [parse_map, Bool.true_eq_false, if_false, Option.map_eq_some'] at h
    obtain ⟨s, _, hs⟩ := h
    simp only [Prod.mk.injEq] at hs
    exact Or.inl hs.1.symm

theorem read_bb_slot_loaded (fs : String → Option file_t) (decode : List Nat → map_enemy_t)
    (solo i j k l : Nat) (cur g : game_enemies_t)
    (h : read_bb_slot fs decode solo i j k l cur = .loaded g) :
    ∃ fp, bb_open fs solo i j k l = .ok fp ∧ read_file 0x48 fp = .ok fp.bytes ∧
      parse_map fp.parse_alloc_ok (records decode fp.bytes) { cur with count := 0 }
        ((i : Int) + 1) 0 = some (0, g) := by
  unfold read_bb_slot at h
  simp only at h
  cases hb : bb_open fs solo i j k l with
  | error rv => rw [hb] at h; cases h
  | ok fp =>
    rw [hb] at h
    simp only at h
    cases hr : read_file 0x48 fp with
    | error rv => rw [hr] at h; cases h
    | ok buf =>
      rw [hr] at h
      simp only at h
      obtain ⟨rfl, _⟩ := read_file_ok _ _ _ hr
      refine ⟨fp, rfl, hr, ?_⟩
      generalize parse_map _ _ _ _ _ = p at h ⊢
      rcases p with _ | ⟨rv, g1⟩
      · cases h
      · simp only at h
        by_cases h0 : rv ≠ 0
        · rw [if_pos h0] at h; cases h
        · rw [if_neg h0] at h
          cases h
          have : rv = 0 := by simpa using h0
          rw [this]

theorem bb_open_chosen (fs : String → Option file_t) (solo i j k l : Nat) (hi : i < 3)
    (hj : j < 16) (hk : k < 5) (hl : l < 5) :
    bb_open fs solo i j k l
      = match chosen_file fs solo i j k l with
        | some fp => .ok fp
        | none => .error 2 := by
  have hs : ¬ (bb_name "s" i j k l).length ≥ 256 := by
    rw [bb_name_length "s" i j k l hi hj hk hl]; decide
  have hm : ¬ (bb_name "m" i j k l).length ≥ 256 := by
    rw [bb_name_length "m" i j k l hi hj hk hl]; decide
  unfold bb_open chosen_file
  rw [if_neg (fun h => hs h.2), if_neg hm]
  by_cases h0 : solo ≠ 0
  · rw [if_pos h0, if_pos h0]
    cases fs (bb_name "s" i j k l) with
    | some fp => rfl
    | none => rfl
  · simp only [if_neg h0]

/-- Claim C16.  When the loop of a loader reaches a slot (map k, variation l)
and the length of a file of that slot is obtained and is not a multiple of
the record stride, the call returns 6.  For the enemy file (stride 0x48) of
`read_bb_map_set` and of `read_v2_map_set` the loop body fails with 6 leaving
the entry of the slot with count 0 and its `enemies` pointer untouched,
whatever the reading `decode` of records, so `parse_map` did not run on the
file, and the catalog entry of the area holds count 0 at the slot.  For the
object file (stride 0x44) of `read_v2_map_set`, read after the enemy file of
the slot was translated, the call returns 6 as well; the enemy entry of the
slot holds the translation and the object entry is untouched. -/
theorem bad_length_returns_six (fs : String → Option file_t) (decode : List Nat → map_enemy_t)
    (junk : Nat → game_enemies_t) (ojunk : Nat → game_objs_t) (row : List Nat)
    (nmaps nvars j k l : Nat) (hm : row[j * 2]? = some nmaps)
    (hv : row[j * 2 + 1]? = some nvars) (hk : k < nmaps) (hl : l < nvars) :
    (∀ (solo i : Nat) (m : parsed_map_t) (fp : file_t),
      (if solo = 0 then maps else sp_maps)[i]? = some row →
      bb_reaches fs decode junk solo i j nvars k l →
      bb_open fs solo i j k l = .ok fp → bad_length 0x48 fp →
      (∀ decode1 cur, read_bb_slot fs decode1 solo i j k l cur
        = .failed 6 { cur with count := 0 }) ∧
      ∃ data, read_bb_map_set fs decode true junk solo i j m
          = some (6, ⟨nmaps, nvars, data⟩) ∧
        data[k * nvars + l]? = some { junk (k * nvars + l) with count := 0 }) ∧
    (∀ (m : parsed_map_t) (o : parsed_objs_t) (fp : file_t),
      maps[0]? = some row → v2_reaches fs decode junk ojunk j nvars k l →
      fs (v2_name j k l) = some fp → bad_length 0x48 fp →
      (∀ decode1 cur, read_v2_slot fs decode1 j k l cur
        = .failed 6 ({ cur.1 with count := 0 }, cur.2)) ∧
      ∃ data odata, read_v2_map_set fs decode true true junk ojunk j m o
          = some (6, ⟨nmaps, nvars, data⟩, ⟨nmaps, nvars, odata⟩) ∧
        data[k * nvars + l]? = some { junk (k * nvars + l) with count := 0 } ∧
        odata[k * nvars + l]? = some (ojunk (k * nvars + l))) ∧
    (∀ (m : parsed_map_t) (o : parsed_objs_t) (fp fp2 : file_t) (g : game_enemies_t),
      maps[0]? = some row → v2_reaches fs decode junk ojunk j nvars k l →
      fs (v2_name j k l) = some fp → read_file 0x48 fp = .ok fp.bytes →
      parse_map fp.parse_alloc_ok (records decode fp.bytes)
        { junk (k * nvars + l) with count := 0 } 1 0 = some (0, g) →
      fs (v2_obj_name j k l) = some fp2 → bad_length 0x44 fp2 →
      ∃ data odata, read_v2_map_set fs decode true true junk ojunk j m o
          = some (6, ⟨nmaps, nvars, data⟩, ⟨nmaps, nvars, odata⟩) ∧
        data[k * nvars + l]? = some g ∧
        odata[k * nvars + l]? = some (ojunk (k * nvars + l))) := by
  have hidx := slot_lt nmaps nvars k l hk hl
  have hbad : ∀ stride fp, bad_length stride fp → read_file stride fp = .error 6 := by
    intro stride fp hb
    obtain ⟨b1, b2, b3, b4⟩ := hb
    simp [read_file, b1, b2, b3, b4]
  refine ⟨?_, ?_, ?_⟩
  · intro solo i m fp hrow hreach hopen hb
    have hslot : ∀ decode1 cur, read_bb_slot fs decode1 solo i j k l cur
        = .failed 6 { cur with count := 0 } := by
      intro decode1 cur
      simp only [read_bb_slot, hopen, hbad _ _ hb]
    refine ⟨hslot, ?_⟩
    obtain ⟨tmp', t1, t2, _, _⟩ := slot_loop_fail (read_bb_slot fs decode solo i j) nvars
      (nmaps * nvars) (k * nvars + l) ((List.range (nmaps * nvars)).map junk) (by simp) hidx
      (reaches_pre _ junk nmaps nvars k l hl hreach hk) (junk (k * nvars + l))
      (junk_get junk _ _ hidx) 6 { junk (k * nvars + l) with count := 0 }
      (by rw [slot_div k l nvars hl, slot_mod k l nvars hl]; exact hslot _ _)
    refine ⟨tmp', ?_, t2⟩
    rw [read_bb_map_set_eq fs decode junk solo i j m row nmaps nvars hrow hm hv, t1]
    rfl
  · intro m o fp hrow hreach hfs hb
    have hr := table_lookup 0 0 j row nmaps nvars (by simpa using hrow) hm hv
    have hlen := (v2_name_length j k l hr.2.1 (by omega) (by omega)).1
    have hslot : ∀ decode1 cur, read_v2_slot fs decode1 j k l cur
        = .failed 6 ({ cur.1 with count := 0 }, cur.2) := by
      intro decode1 cur
      simp only [read_v2_slot, hlen, hfs, hbad _ _ hb]
      rfl
    refine ⟨hslot, ?_⟩
    obtain ⟨tmp', t1, t2, _, _⟩ := slot_loop_fail (read_v2_slot fs decode j) nvars
      (nmaps * nvars) (k * nvars + l)
      ((List.range (nmaps * nvars)).map fun n => (junk n, ojunk n)) (by simp) hidx
      (reaches_pre _ (fun n => (junk n, ojunk n)) nmaps nvars k l hl hreach hk)
      (junk (k * nvars + l), ojunk (k * nvars + l))
      (junk_get (fun n => (junk n, ojunk n)) _ _ hidx) 6
      ({ junk (k * nvars + l) with count := 0 }, ojunk (k * nvars + l))
      (by rw [slot_div k l nvars hl, slot_mod k l nvars hl]; exact hslot _ _)
    refine ⟨tmp'.map Prod.fst, tmp'.map Prod.snd, ?_, ?_, ?_⟩
    · rw [read_v2_map_set_eq fs decode junk ojunk j m o row nmaps nvars hrow hm hv, t1]; rfl
    · rw [List.getElem?_map, t2]; rfl
    · rw [List.getElem?_map, t2]; rfl
  · intro m o fp fp2 g hrow hreach hfs hread hparse hfs2 hb
    have hr := table_lookup 0 0 j row nmaps nvars (by simpa using hrow) hm hv
    have hlen := v2_name_length j k l hr.2.1 (by omega) (by omega)
    have hslot : read_v2_slot fs decode j k l (junk (k * nvars + l), ojunk (k * nvars + l))
        = .failed 6 (g, ojunk (k * nvars + l)) := by
      simp only [read_v2_slot, hlen.1, hlen.2, hfs, hread, hparse, hfs2, hbad _ _ hb]
      rfl
    obtain ⟨tmp', t1, t2, _, _⟩ := slot_loop_fail (read_v2_slot fs decode j) nvars
      (nmaps * nvars) (k * nvars + l)
      ((List.range (nmaps * nvars)).map fun n => (junk n, ojunk n)) (by simp) hidx
      (reaches_pre _ (fun n => (junk n, ojunk n)) nmaps nvars k l hl hreach hk)
      (junk (k * nvars + l), ojunk (k * nvars + l))
      (junk_get (fun n => (junk n, ojunk n)) _ _ hidx) 6 (g, ojunk (k * nvars + l))
      (by rw [slot_div k l nvars hl, slot_mod k l nvars hl]; exact hslot)
    refine ⟨tmp'.map Prod.fst, tmp'.map Prod.snd, ?_, ?_, ?_⟩
    · rw [read_v2_map_set_eq fs decode junk ojunk j m o row nmaps nvars hrow hm hv, t1]; rfl
    · rw [List.getElem?_map, t2]; rfl
    · rw [List.getElem?_map, t2]; rfl

/-- Claim C16 at a concrete input: area 1 of episode 1 in the directory
`demo_fs`.  The slot of variation 0 is loaded; the file of variation 1 has
0x49 bytes, so the call returns 6 and the slot holds count 0. -/
theorem bad_length_returns_six_witness :
    bb_reaches demo_fs demo_decode demo_junk 0 0 1 5 0 1 ∧
      bad_length 0x48 (plain_file (demo_record 0x40 0 0 ++ [1])) ∧
      ((∀ decode1 cur, read_bb_slot demo_fs decode1 0 0 1 0 1 cur
        = .failed 6 { cur with count := 0 }) ∧
      ∃ data, read_bb_map_set demo_fs demo_decode true demo_junk 0 0 1 ⟨0, 0, []⟩
          = some (6, ⟨1, 5, data⟩) ∧
        data[0 * 5 + 1]? = some { demo_junk (0 * 5 + 1) with count := 0 }) :=
  ⟨by set_option maxRecDepth 100000 in decide, by decide,
    (bad_length_returns_six demo_fs demo_decode demo_junk (fun _ => ⟨0, []⟩)
      [1,1,1,5,1,5,3,2,3,2,3,2,3,2,3,2,3,2,3,2,3,2,1,1,1,1,1,1,1,1,1,1] 1 5 1 0 1
      rfl rfl (by decide) (by decide)).1 0 0 ⟨0, 0, []⟩
      (plain_file (demo_record 0x40 0 0 ++ [1])) rfl
      (by set_option maxRecDepth 100000 in decide) rfl (by decide)⟩

/-- Claim C17.  For `read_bb_map_set(solo, i, j)` on an area of `nmaps` maps
and `nvars` variations: (1) when the call returns 0, the entry of the area
holds the two counts and a grid of `nmaps * nvars` entries, and every slot
(map k, variation l) holds the translation `parse_map(records, i + 1, 0)` of
the records of one file, the file that the loop body opened for the slot;
the records are the whole content of the file, in file order; (2) the file
that the loop body opens is the chosen file of the claim (the file `s...` in
single-player mode when it can be opened, otherwise the file `m...`), and
the body fails with code 2 when there is none; (3) when the loop reaches a
slot whose chosen file cannot be opened, the call returns 2. -/
theorem bb_slot_holds_translation (fs : String → Option file_t)
    (decode : List Nat → map_enemy_t) (junk : Nat → game_enemies_t) (solo i j : Nat)
    (m : parsed_map_t) (row : List Nat) (nmaps nvars : Nat)
    (hrow : (if solo = 0 then maps else sp_maps)[i]? = some row)
    (hm : row[j * 2]? = some nmaps) (hv : row[j * 2 + 1]? = some nvars) :
    (∀ (alloc_grid : Bool) (m1 : parsed_map_t),
      read_bb_map_set fs decode alloc_grid junk solo i j m = some (0, m1) →
      m1.map_count = nmaps ∧ m1.variation_count = nvars ∧ m1.data.length = nmaps * nvars ∧
      ∀ k l, k < nmaps → l < nvars →
        ∃ fp g, chosen_file fs solo i j k l = some fp ∧
          fp.bytes.length % 0x48 = 0 ∧
          (chunks 0x48 (fp.bytes.length / 0x48) fp.bytes).flatten = fp.bytes ∧
          (∀ game, parse_map true (records decode fp.bytes) game ((i : Int) + 1) 0
            = some (0, g)) ∧
          m1.data[k * nvars + l]? = some g) ∧
    (∀ k l, k < nmaps → l < nvars →
      bb_open fs solo i j k l
        = match chosen_file fs solo i j k l with
          | some fp => .ok fp
          | none => .error 2) ∧
    (∀ k l, k < nmaps → l < nvars → bb_reaches fs decode junk solo i j nvars k l →
      chosen_file fs solo i j k l = none →
      ∃ data, read_bb_map_set fs decode true junk solo i j m
          = some (2, ⟨nmaps, nvars, data⟩) ∧
        data[k * nvars + l]? = some { junk (k * nvars + l) with count := 0 }) := by
  have hr := table_lookup solo i j row nmaps nvars hrow hm hv
  have hopen : ∀ k l, k < nmaps → l < nvars →
      bb_open fs solo i j k l
        = match chosen_file fs solo i j k l with
          | some fp => .ok fp
          | none => .error 2 :=
    fun k l hk hl => bb_open_chosen fs solo i j k l hr.1 hr.2.1 (by omega) (by omega)
  refine ⟨?_, hopen, ?_⟩
  · intro alloc_grid m1 h
    cases alloc_grid with
    | false =>
      unfold read_bb_map_set at h
      rw [hrow] at h
      simp [hm, hv] at h
    | true =>
      rw [read_bb_map_set_eq fs decode junk solo i j m row nmaps nvars hrow hm hv] at h
      simp only [Option.map_eq_some', Prod.mk.injEq] at h
      obtain ⟨⟨rv, tmp'⟩, hloop, hrv, rfl⟩ := h
      simp only at hrv
      subst hrv
      rw [List.range_eq_range'] at hloop
      obtain ⟨r1, r2, _⟩ := slot_loop_range (read_bb_slot fs decode solo i j) nvars
        (nmaps * nvars) 0 ((List.range' 0 (nmaps * nvars)).map junk) 0 tmp' (by simp) hloop
      refine ⟨rfl, rfl, by simpa using r1, ?_⟩
      intro k l hk hl
      obtain ⟨cur, g, c1, c2, c3⟩ := r2 (fun k l cur g => read_bb_slot_failed _ _ _ _ _ _ _ _ _)
        rfl (k * nvars + l) (Nat.zero_le _) (by rw [Nat.zero_add]; exact slot_lt _ _ _ _ hk hl)
      rw [slot_div k l nvars hl, slot_mod k l nvars hl] at c2
      obtain ⟨fp, f1, f2, f3⟩ := read_bb_slot_loaded _ _ _ _ _ _ _ _ _ c2
      have hch : chosen_file fs solo i j k l = some fp := by
        have := hopen k l hk hl
        rw [f1] at this
        cases hc : chosen_file fs solo i j k l with
        | none => rw [hc] at this; cases this
        | some fp1 => rw [hc] at this; cases this; rfl
      have hmod := (read_file_ok _ _ _ f2).2
      refine ⟨fp, g, hch, hmod, ?_, (parse_map_zero _ _ _ _ _ _ f3).2, c3⟩
      exact chunks_flatten 0x48 _ _ (by omega)
  · intro k l hk hl hreach hnone
    have hidx := slot_lt nmaps nvars k l hk hl
    have hslot : read_bb_slot fs decode solo i j k l (junk (k * nvars + l))
        = .failed 2 { junk (k * nvars + l) with count := 0 } := by
      simp only [read_bb_slot, hopen k l hk hl, hnone]
    obtain ⟨tmp', t1, t2, _, _⟩ := slot_loop_fail (read_bb_slot fs decode solo i j) nvars
      (nmaps * nvars) (k * nvars + l) ((List.range (nmaps * nvars)).map junk) (by simp) hidx
      (reaches_pre _ junk nmaps nvars k l hl hreach hk) (junk (k * nvars + l))
      (junk_get junk _ _ hidx) 2 { junk (k * nvars + l) with count := 0 }
      (by rw [slot_div k l nvars hl, slot_mod k l nvars hl]; exact hslot)
    refine ⟨tmp', ?_, t2⟩
    rw [read_bb_map_set_eq fs decode junk solo i j m row nmaps nvars hrow hm hv, t1]
    rfl

/-- Claim C17 at a concrete input: area 0 of episode 1, multi-player, in the
directory `demo_fs`: the call returns 0 and the only slot holds the
translation of the one record of the file `m1000.dat`. -/
theorem bb_slot_holds_translation_witness :
    read_bb_map_set demo_fs demo_decode true demo_junk 0 0 0 ⟨0, 0, []⟩
        = some (0, ⟨1, 1, [⟨1, [⟨0x49, 0x01⟩]⟩]⟩) ∧
      ∃ fp g, chosen_file demo_fs 0 0 0 0 0 = some fp ∧
        fp.bytes.length % 0x48 = 0 ∧
        (chunks 0x48 (fp.bytes.length / 0x48) fp.bytes).flatten = fp.bytes ∧
        (∀ game, parse_map true (records demo_decode fp.bytes) game (((0 : Nat) : Int) + 1) 0
          = some (0, g)) ∧
        (⟨1, 1, [⟨1, [⟨0x49, 0x01⟩]⟩]⟩ : parsed_map_t).data[0 * 1 + 0]? = some g :=
  ⟨by set_option maxRecDepth 100000 in decide,
    ((bb_slot_holds_translation demo_fs demo_decode demo_junk 0 0 0 ⟨0, 0, []⟩
      [1,1,1,5,1,5,3,2,3,2,3,2,3,2,3,2,3,2,3,2,3,2,1,1,1,1,1,1,1,1,1,1] 1 1 rfl rfl rfl).1
      true ⟨1, 1, [⟨1, [⟨0x49, 0x01⟩]⟩]⟩
      (by set_option maxRecDepth 100000 in decide)).2.2.2 0 0 (by decide) (by decide)⟩

/-- Claim C18 fails as stated.  In the directory `demo_fs` the loading of
area 1 of episode 1 fails with code 6 at the slot of variation 1.  The entry
of the area, all-zero before the call, is not as it was: it holds the counts
1 and 5 and a grid of 5 entries, the first one loaded.  An assembly call on
the catalog in that state treats the area as populated: for the selection of
variation 0 in both areas it returns 0 and installs the slot of area 0
followed by the 3 slots of the incompletely loaded area 1. -/
theorem failed_load_leaves_area_populated :
    read_bb_map_set demo_fs demo_decode true demo_junk 0 0 1 ⟨0, 0, []⟩
        = some (6, partial_area) ∧
      is_end ⟨0, 0, []⟩ = true ∧ is_end partial_area = false ∧
      populated (partial_catalog 0 0) = [0, 1] ∧
      bb_installed demo_consts partial_catalog (demo_lobby 0 0 (demo_maps 0 0 0 0))
        = some (0, some ⟨4, [⟨0x49, 0x01⟩, ⟨0x49, 0x01⟩, ⟨0x19, 0x06⟩, ⟨0, 0⟩]⟩) := by
  refine ⟨by set_option maxRecDepth 100000 in decide, by decide, by decide, by decide,
    by decide⟩

/-- Claim C18, amended.  Whatever `read_bb_map_set` or `read_v2_map_set`
returns, a failure code included, the catalog entry of the area is not reset:
`map_count` and `variation_count` hold the values of the table, both at
least 1, so that the end-of-topology test of the assemblers does not hold for
the area; when the allocation of the grid fails the call returns 10 and the
entry keeps the `data` it had, and otherwise a grid of
`map_count * variation_count` entries is attached.  In `read_v2_map_set` the
object entry gets the same counts; it keeps its `data` when the call returns
10 or 11 and otherwise has a grid of the same size attached. -/
theorem failed_load_keeps_counts (fs : String → Option file_t)
    (decode : List Nat → map_enemy_t) (junk : Nat → game_enemies_t)
    (ojunk : Nat → game_objs_t) (alloc_grid alloc_ogrid : Bool) (j : Nat)
    (m m1 : parsed_map_t) (rv : Int) :
    (∀ solo i, read_bb_map_set fs decode alloc_grid junk solo i j m = some (rv, m1) →
      (1 ≤ m1.map_count ∧ 1 ≤ m1.variation_count ∧ is_end m1 = false) ∧
      (∃ row, (if solo = 0 then maps else sp_maps)[i]? = some row ∧
        row[j * 2]? = some m1.map_count ∧ row[j * 2 + 1]? = some m1.variation_count) ∧
      (alloc_grid = false → rv = 10 ∧ m1.data = m.data) ∧
      (alloc_grid = true → m1.data.length = m1.map_count * m1.variation_count)) ∧
    (∀ o o1, read_v2_map_set fs decode alloc_grid alloc_ogrid junk ojunk j m o
        = some (rv, m1, o1) →
      (1 ≤ m1.map_count ∧ 1 ≤ m1.variation_count ∧ is_end m1 = false) ∧
      (∃ row, maps[0]? = some row ∧
        row[j * 2]? = some m1.map_count ∧ row[j * 2 + 1]? = some m1.variation_count) ∧
      (o1.map_count = m1.map_count ∧ o1.variation_count = m1.variation_count) ∧
      (alloc_grid = false → rv = 10 ∧ m1.data = m.data ∧ o1.data = o.data) ∧
      (alloc_grid = true → m1.data.length = m1.map_count * m1.variation_count) ∧
      (alloc_grid = true → alloc_ogrid = false → rv = 11 ∧ o1.data = o.data) ∧
      (alloc_grid = true → alloc_ogrid = true →
        o1.data.length = m1.map_count * m1.variation_count)) := by
  have hend : ∀ x : parsed_map_t, 1 ≤ x.map_count → is_end x = false := by
    intro x hx
    simp only [is_end, Bool.and_eq_false_imp, beq_iff_eq]
    omega
  constructor
  · intro solo i h
    unfold read_bb_map_set at h
    cases hrow : (if solo = 0 then maps else sp_maps)[i]? with
    | none => rw [hrow] at h; cases h
    | some row =>
      rw [hrow] at h
      simp only at h
      cases hm : row[j * 2]? with
      | none => rw [hm] at h; cases h
      | some nmaps =>
        cases hv : row[j * 2 + 1]? with
        | none => rw [hm, hv] at h; cases h
        | some nvars =>
          rw [hm, hv] at h
          simp only at h
          have hr := table_lookup solo i j row nmaps nvars hrow hm hv
          cases alloc_grid with
          | false =>
            simp only [if_true, Option.some.injEq, Prod.mk.injEq] at h
            obtain ⟨rfl, rfl⟩ := h
            exact ⟨⟨hr.2.2.1, hr.2.2.2.2.1, hend _ hr.2.2.1⟩, ⟨row, rfl, hm, hv⟩,
              fun _ => ⟨rfl, rfl⟩, (fun hc => Bool.noConfusion hc)⟩
          | true =>
            simp only [Bool.true_eq_false, if_false, Option.map_eq_some', Prod.mk.injEq] at h
            obtain ⟨⟨rv1, tmp'⟩, hloop, _, rfl⟩ := h
            rw [slots_eq, List.range_eq_range'] at hloop
            obtain ⟨r1, _, _⟩ := slot_loop_range (read_bb_slot fs decode solo i j) nvars
              (nmaps * nvars) 0 ((List.range' 0 (nmaps * nvars)).map junk) rv1 tmp' (by simp)
              hloop
            exact ⟨⟨hr.2.2.1, hr.2.2.2.2.1, hend _ hr.2.2.1⟩, ⟨row, rfl, hm, hv⟩,
              (fun hc => Bool.noConfusion hc), (fun _ => by simpa using r1)⟩
  · intro o o1 h
    unfold read_v2_map_set at h
    cases hrow : maps[0]? with
    | none => rw [hrow] at h; cases h
    | some row =>
      rw [hrow] at h
      simp only at h
      cases hm : row[j * 2]? with
      | none => rw [hm] at h; cases h
      | some nmaps =>
        cases hv : row[j * 2 + 1]? with
        | none => rw [hm, hv] at h; cases h
        | some nvars =>
          rw [hm, hv] at h
          simp only at h
          have hr := table_lookup 0 0 j row nmaps nvars (by simpa using hrow) hm hv
          cases alloc_grid with
          | false =>
            simp only [if_true, Option.some.injEq, Prod.mk.injEq] at h
            obtain ⟨rfl, rfl, rfl⟩ := h
            exact ⟨⟨hr.2.2.1, hr.2.2.2.2.1, hend _ hr.2.2.1⟩, ⟨row, rfl, hm, hv⟩, ⟨rfl, rfl⟩,
              fun _ => ⟨rfl, rfl, rfl⟩, (fun hc => Bool.noConfusion hc), (fun hc => Bool.noConfusion hc),
              (fun hc => Bool.noConfusion hc)⟩
          | true =>
            cases alloc_ogrid with
            | false =>
              simp only [Bool.true_eq_false, if_false, if_true, Option.some.injEq,
                Prod.mk.injEq] at h
              obtain ⟨rfl, rfl, rfl⟩ := h
              exact ⟨⟨hr.2.2.1, hr.2.2.2.2.1, hend _ hr.2.2.1⟩, ⟨row, rfl, hm, hv⟩, ⟨rfl, rfl⟩,
                (fun hc => Bool.noConfusion hc), (fun _ => by simp), fun _ _ => ⟨rfl, rfl⟩,
                (fun _ hc => Bool.noConfusion hc)⟩
            | true =>
              simp only [Bool.true_eq_false, if_false, Option.map_eq_some', Prod.mk.injEq] at h
              obtain ⟨⟨rv1, tmp'⟩, hloop, _, rfl, rfl⟩ := h
              rw [slots_eq, List.range_eq_range'] at hloop
              obtain ⟨r1, _, _⟩ := slot_loop_range (read_v2_slot fs decode j) nvars
                (nmaps * nvars) 0
                ((List.range' 0 (nmaps * nvars)).map fun n => (junk n, ojunk n)) rv1 tmp'
                (by simp) hloop
              exact ⟨⟨hr.2.2.1, hr.2.2.2.2.1, hend _ hr.2.2.1⟩, ⟨row, rfl, hm, hv⟩, ⟨rfl, rfl⟩,
                (fun hc => Bool.noConfusion hc), (fun _ => by simpa using r1), (fun _ hc => Bool.noConfusion hc),
                (fun _ _ => by simpa using r1)⟩

/-- Claim C18, amended, at a concrete input: the failed loading of area 1 of
episode 1 in the directory `demo_fs`. -/
theorem failed_load_keeps_counts_witness :
    read_bb_map_set demo_fs demo_decode true demo_junk 0 0 1 ⟨0, 0, []⟩
        = some (6, partial_area) ∧
      (1 ≤ partial_area.map_count ∧ 1 ≤ partial_area.variation_count ∧
        is_end partial_area = false) ∧
      (∃ row, (if 0 = 0 then maps else sp_maps)[0]? = some row ∧
        row[1 * 2]? = some partial_area.map_count ∧
        row[1 * 2 + 1]? = some partial_area.variation_count) ∧
      (true = false → (6 : Int) = 10 ∧ partial_area.data = (⟨0, 0, []⟩ : parsed_map_t).data) ∧
      (true = true →
        partial_area.data.length = partial_area.map_count * partial_area.variation_count) :=
  ⟨by set_option maxRecDepth 100000 in decide,
    (failed_load_keeps_counts demo_fs demo_decode demo_junk (fun _ => ⟨0, []⟩) true true 1
      ⟨0, 0, []⟩ partial_area 6).1 0 0 (by set_option maxRecDepth 100000 in decide)⟩

/-! ## The parameter files -/

/-- Claim C19 fails as stated.  With a table of 4 bytes and a file for which
`prs_decompress_size` reports 6, a size that differs from the size of the
table, `read_level_data` returns 0 and `char_stats` holds the first 4
decompressed bytes instead of its previous content. -/
theorem level_data_size_not_validated :
    demo_prs.prs_decompress_size [0] ≠ 4 ∧
      read_level_data 4 demo_prs (fun _ => 0) (some ⟨[0], true, true⟩) true [9, 9, 9, 9]
        = some (0, [1, 2, 3, 4]) := by
  decide

/-- Claim C19, amended.  `read_level_data` does not compare the size that
`prs_decompress_size` reports with the size of the table.  Whenever the file
is read and both allocations succeed, and the decompressed data (at most as
long as the reported size) hold at least `SIZE` bytes, the function returns 0
and `char_stats` holds the first `SIZE` decompressed bytes, whether the
reported size equals `SIZE` or exceeds it; when the reported size is smaller
than `SIZE` the copy reads beyond the decompression buffer.  Every non-zero
return is 1 or -200 and leaves `char_stats` unchanged. -/
theorem level_data_copied_unchecked (SIZE : Nat) (prs : prs_t) (junk : Nat → Nat)
    (bytes : List Nat) (char_stats : List Nat) (hcs : char_stats.length = SIZE) :
    (SIZE ≤ (prs.prs_decompress bytes).length →
      (prs.prs_decompress bytes).length ≤ u32 (prs.prs_decompress_size bytes) →
      read_level_data SIZE prs junk (some ⟨bytes, true, true⟩) true char_stats
        = some (0, (prs.prs_decompress bytes).take SIZE)) ∧
    (u32 (prs.prs_decompress_size bytes) < SIZE →
      read_level_data SIZE prs junk (some ⟨bytes, true, true⟩) true char_stats = none) ∧
    (∀ file alloc_buf2 rv cs, read_level_data SIZE prs junk file alloc_buf2 char_stats
        = some (rv, cs) → rv ≠ 0 → (rv = 1 ∨ rv = -200) ∧ cs = char_stats) := by
  refine ⟨?_, ?_, ?_⟩
  · intro h1 h2
    have h3 : ¬ (prs.prs_decompress bytes).length > u32 (prs.prs_decompress_size bytes) := by
      omega
    have h4 : ¬ SIZE > u32 (prs.prs_decompress_size bytes) := by omega
    simp only [read_level_data, Bool.true_eq_false, if_false, h3, h4]
    rw [List.take_append_of_le_length h1, List.drop_of_length_le (by omega), List.append_nil]
  · intro h1
    simp only [read_level_data, Bool.true_eq_false, if_false]
    split_ifs
    · rfl
    · rfl
  · intro file alloc_buf2 rv cs h hrv
    unfold read_level_data at h
    cases file with
    | none => simp only [Option.some.injEq, Prod.mk.injEq] at h; exact ⟨Or.inl h.1.symm, h.2.symm⟩
    | some fp =>
      simp only at h
      split_ifs at h
      · simp only [Option.some.injEq, Prod.mk.injEq] at h; exact ⟨Or.inr h.1.symm, h.2.symm⟩
      · simp only [Option.some.injEq, Prod.mk.injEq] at h; exact ⟨Or.inl h.1.symm, h.2.symm⟩
      · simp only [Option.some.injEq, Prod.mk.injEq] at h; exact ⟨Or.inr h.1.symm, h.2.symm⟩
      · simp only [Option.some.injEq, Prod.mk.injEq] at h; exact absurd h.1.symm hrv

/-- Claim C19, amended, at a concrete input: the reported size 6 exceeds the
size 4 of the table; the call returns 0 and installs the first 4 bytes. -/
theorem level_data_copied_unchecked_witness :
    ([9, 9, 9, 9] : List Nat).length = 4 ∧
      4 ≤ (demo_prs.prs_decompress [0]).length ∧
      (demo_prs.prs_decompress [0]).length ≤ u32 (demo_prs.prs_decompress_size [0]) ∧
      read_level_data 4 demo_prs (fun _ => 0) (some ⟨[0], true, true⟩) true [9, 9, 9, 9]
        = some (0, (demo_prs.prs_decompress [0]).take 4) :=
  ⟨rfl, by decide, by decide,
    (level_data_copied_unchecked 4 demo_prs (fun _ => 0) [0] [9, 9, 9, 9] rfl).1
      (by decide) (by decide)⟩

theorem read_blocks_range (sz : Nat) (bytes mem : List Nat) :
    ∀ (c n : Nat), n * sz ≤ bytes.length → (n + c) * sz ≤ mem.length →
    read_blocks sz (List.range' n c) (bytes.drop (n * sz))
        (bytes.take (n * sz) ++ mem.drop (n * sz))
      = (if (n + c) * sz ≤ bytes.length then 0 else 1,
          bytes.take ((n + c) * sz) ++ mem.drop (min bytes.length ((n + c) * sz))) := by
  intro c
  induction c with
  | zero =>
    intro n h1 h2
    simp only [List.range'_zero, read_blocks, Nat.add_zero, if_pos h1, Nat.min_eq_right h1]
  | succ c ih =>
    intro n h1 h2
    have e1 : (n + (c + 1)) * sz = (n + 1 + c) * sz := by ring
    have e2 : (n + 1) * sz = n * sz + sz := by ring
    have e3 : (n + 1) * sz ≤ (n + 1 + c) * sz := Nat.mul_le_mul_right _ (by omega)
    have htl : (bytes.take (n * sz)).length = n * sz := by
      rw [List.length_take]; omega
    have hM1 : (bytes.take (n * sz) ++ mem.drop (n * sz)).take (n * sz) = bytes.take (n * sz) :=
      List.take_left' htl
    have hM2 : ∀ r, (bytes.take (n * sz) ++ mem.drop (n * sz)).drop (n * sz + r)
        = mem.drop (n * sz + r) := by
      intro r
      rw [List.drop_append_eq_append_drop, List.drop_eq_nil_of_le (by omega), List.nil_append,
        htl, Nat.add_sub_cancel_left, List.drop_drop]
    have hfr : fread_at sz n (bytes.drop (n * sz)) (bytes.take (n * sz) ++ mem.drop (n * sz))
        = bytes.take ((n + 1) * sz)
            ++ mem.drop (n * sz + ((bytes.drop (n * sz)).take sz).length) := by
      unfold fread_at
      rw [hM1, hM2, e2, List.take_add]
    rw [List.range'_succ, read_blocks, hfr, e1]
    by_cases hfull : (n + 1) * sz ≤ bytes.length
    · have hlen : ((bytes.drop (n * sz)).take sz).length = sz := by
        rw [List.length_take, List.length_drop]; omega
      rw [if_neg (by omega), hlen, List.drop_drop, ← e2]
      exact ih (n + 1) hfull (by omega)
    · have hlen : ((bytes.drop (n * sz)).take sz).length = bytes.length - n * sz := by
        rw [List.length_take, List.length_drop]; omega
      rw [if_pos (by omega), if_neg (by omega), hlen,
        List.take_of_length_le (by omega), List.take_of_length_le (by omega),
        Nat.min_eq_left (by omega), show n * sz + (bytes.length - n * sz) = bytes.length by omega]

theorem read_param_file_eq (ROW : Nat) (dst bytes : List Nat) (hdst : dst.length = 4 * (0x60 * ROW)) :
    read_param_file ROW dst (some bytes)
      = (if 4 * (0x60 * ROW) ≤ bytes.length then 0 else 1,
          bytes.take (4 * (0x60 * ROW)) ++ dst.drop bytes.length) := by
  have h := read_blocks_range (0x60 * ROW) bytes dst 4 0 (by omega) (by omega)
  simp only [Nat.zero_mul, List.drop_zero, List.take_zero, List.nil_append, Nat.zero_add] at h
  have hr : List.range' 0 4 = [0, 1, 2, 3] := by decide
  rw [hr] at h
  rw [read_param_file, h]
  by_cases hfull : 4 * (0x60 * ROW) ≤ bytes.length
  · rw [Nat.min_eq_right hfull, List.drop_eq_nil_of_le (by omega),
      List.drop_eq_nil_of_le (by omega)]
  · rw [Nat.min_eq_left (by omega)]

/-- Claim C20 fails as stated.  With rows of 1 byte (blocks of 0x60 bytes),
a table of zeros and a file that holds one block of ones and nothing more,
the second read is short: `read_param_file` returns 1, and the destination
is not unchanged, its block 0 holds the ones of the file. -/
theorem param_file_short_read_overwrites :
    read_param_file 1 (List.replicate 384 0) (some (List.replicate 96 1))
        = (1, List.replicate 96 1 ++ List.replicate 288 0) ∧
      block 96 (List.replicate 384 0) 0 = List.replicate 96 0 ∧
      block 96 (List.replicate 96 1 ++ List.replicate 288 0) 0 = List.replicate 96 1 := by
  set_option maxRecDepth 100000 in decide

/-- Claim C20, amended.  `read_param_file` reads straight into the
destination.  For a destination of four blocks of `sz = 0x60 * ROW` bytes:
if the file holds at least four full blocks the call returns 0 and the
blocks `dst[0..3]` are the first four blocks of the file, in file order; if
it holds fewer the call returns 1 and the destination is not restored: the
bytes of the file, all of them, have replaced the bytes of the destination
from its start, so the destination is unchanged only if the file is a copy of
what the destination held there (an empty file for instance); if the file
cannot be opened the call returns 1 and the destination is unchanged. -/
theorem param_file_read_in_place (ROW : Nat) (dst bytes : List Nat)
    (hdst : dst.length = 4 * (0x60 * ROW)) :
    (4 * (0x60 * ROW) ≤ bytes.length →
      read_param_file ROW dst (some bytes) = (0, bytes.take (4 * (0x60 * ROW))) ∧
      ∀ n, n < 4 → block (0x60 * ROW) (read_param_file ROW dst (some bytes)).2 n
        = block (0x60 * ROW) bytes n) ∧
    (bytes.length < 4 * (0x60 * ROW) →
      read_param_file ROW dst (some bytes) = (1, bytes ++ dst.drop bytes.length) ∧
      ((read_param_file ROW dst (some bytes)).2 = dst ↔ bytes = dst.take bytes.length)) ∧
    read_param_file ROW dst none = (1, dst) := by
  have h := read_param_file_eq ROW dst bytes hdst
  refine ⟨fun hfull => ?_, fun hshort => ?_, rfl⟩
  · have h1 : read_param_file ROW dst (some bytes) = (0, bytes.take (4 * (0x60 * ROW))) := by
      rw [h, if_pos hfull, List.drop_eq_nil_of_le (by omega), List.append_nil]
    refine ⟨h1, fun n hn => ?_⟩
    have hle : n * (0x60 * ROW) + 0x60 * ROW ≤ 4 * (0x60 * ROW) := by
      calc n * (0x60 * ROW) + 0x60 * ROW = (n + 1) * (0x60 * ROW) := by ring
        _ ≤ 4 * (0x60 * ROW) := Nat.mul_le_mul_right _ (by omega)
    rw [h1]
    simp only [block]
    rw [List.drop_take, List.take_take, Nat.min_eq_left (by omega)]
  · have h1 : read_param_file ROW dst (some bytes) = (1, bytes ++ dst.drop bytes.length) := by
      rw [h, if_neg (by omega), List.take_of_length_le (by omega)]
    refine ⟨h1, ?_⟩
    rw [h1]
    simp only
    constructor
    · intro he
      have h2 := congrArg (List.take bytes.length) he
      rw [List.take_left' rfl] at h2
      exact h2
    · intro he
      have h2 := List.take_append_drop bytes.length dst
      rw [← he] at h2
      exact h2

/-- Claim C20, amended, at a concrete input: rows of 1 byte, a table of zeros
and a file of one block of ones. -/
theorem param_file_read_in_place_witness :
    (List.replicate 384 0).length = 4 * (0x60 * 1) ∧
      (List.replicate 96 1).length < 4 * (0x60 * 1) ∧
      read_param_file 1 (List.replicate 384 0) (some (List.replicate 96 1))
        = (1, List.replicate 96 1 ++ (List.replicate 384 0).drop (List.replicate 96 1).length) :=
  ⟨List.length_replicate 384 0, by rw [List.length_replicate]; decide,
    ((param_file_read_in_place 1 (List.replicate 384 0) (List.replicate 96 1)
      (List.length_replicate 384 0)).2.1 (by rw [List.length_replicate]; decide)).1⟩

/-! ## The slot counter -/

theorem set_bp_entry_count {s s' : scratch} {idx v : Nat} (h : set_bp_entry s idx v = some s') :
    s'.count = s.count := by
  unfold set_bp_entry at h
  split_ifs at h
  simp only [Option.some.injEq] at h
  rw [← h]

theorem set_rt_index_count {s s' : scratch} {idx v : Nat} (h : set_rt_index s idx v = some s') :
    s'.count = s.count := by
  unfold set_rt_index at h
  split_ifs at h
  simp only [Option.some.injEq] at h
  rw [← h]

theorem put_count {s s' : scratch} {off bp rt : Nat} (h : put s off bp rt = some s') :
    s'.count = s.count := by
  unfold put at h
  obtain ⟨s1, h1, h2⟩ := Option.bind_eq_some.mp h
  rw [set_rt_index_count h2, set_bp_entry_count h1]

theorem u32_lt (n : Nat) : u32 n < 4294967296 := Nat.mod_lt _ (by norm_num)

theorem companions_count (bp rt : Nat) : ∀ (n : Nat) (s s' : scratch),
    s.count < 4294967296 → companions bp rt n s = some s' → s'.count = u32 (s.count + n) := by
  intro n
  induction n with
  | zero => intro s s' hs h; simp only [companions] at h; cases h; exact (u32_of_lt hs).symm
  | succ n ih =>
    intro s s' hs h
    rw [companions] at h
    obtain ⟨s1, h1, h2⟩ := Option.bind_eq_some.mp h
    have c1 : s1.count = u32 (s.count + 1) := put_count h1
    rw [ih s1 s' (by rw [c1]; exact u32_lt _) h2, c1, u32_acc, Nat.add_comm 1 n]

theorem helpers_count (bp : Nat) : ∀ (n : Nat) (s s' : scratch),
    s.count < 4294967296 → helpers bp n s = some s' → s'.count = u32 (s.count + n) := by
  intro n
  induction n with
  | zero => intro s s' hs h; simp only [helpers] at h; cases h; exact (u32_of_lt hs).symm
  | succ n ih =>
    intro s s' hs h
    rw [helpers] at h
    obtain ⟨s1, h1, h2⟩ := Option.bind_eq_some.mp h
    have c1 : s1.count = u32 (s.count + 1) := set_bp_entry_count h1
    rw [ih s1 s' (by rw [c1]; exact u32_lt _) h2, c1, u32_acc, Nat.add_comm 1 n]

theorem recons_count : ∀ (n j : Nat) (s s' : scratch),
    recons n j s = some s' → s'.count = s.count := by
  intro n
  induction n with
  | zero => intro j s s' h; simp only [recons] at h; cases h; rfl
  | succ n ih =>
    intro j s s' h
    rw [recons] at h
    obtain ⟨s1, h1, h2⟩ := Option.bind_eq_some.mp h
    rw [ih _ _ _ h2, put_count h1]

theorem ca_put {s s' : scratch} {bp rt : Nat} (h : put s 0 bp rt = some s')
    (hs : s.count < 4294967296) : s'.count = u32 (s.count + 0) := by
  rw [put_count h, Nat.add_zero, u32_of_lt hs]

theorem ca_skip {s s' : scratch} (h : some s = some s') (hs : s.count < 4294967296) :
    s'.count = u32 (s.count + 0) := by
  cases h; rw [Nat.add_zero, u32_of_lt hs]

theorem ca_put_bump {s s' : scratch} {bp rt m : Nat}
    (h : ((put s 0 bp rt).map fun s1 => bump s1 m) = some s') (_hs : s.count < 4294967296) :
    s'.count = u32 (s.count + m) := by
  obtain ⟨s1, h1, h2⟩ := Option.map_eq_some'.mp h
  subst h2
  simp only [bump, put_count h1]

theorem ca_companions {s s' : scratch} {bp rt cbp crt n : Nat}
    (h : (put s 0 bp rt).bind (companions cbp crt n) = some s') (hs : s.count < 4294967296) :
    s'.count = u32 (s.count + n) := by
  obtain ⟨s1, h1, h2⟩ := Option.bind_eq_some.mp h
  rw [companions_count _ _ _ _ _ (by rw [put_count h1]; exact hs) h2, put_count h1]

theorem ca_three {s s' : scratch} {a b c d e f : Nat}
    (h : (((put s 0 a b).bind fun s0 => (put s0 1 c d).bind fun s1 => put s1 2 e f).map
      fun s2 => bump s2 2) = some s') (_hs : s.count < 4294967296) :
    s'.count = u32 (s.count + 2) := by
  obtain ⟨s2, h2, hs2⟩ := Option.map_eq_some'.mp h
  subst hs2
  obtain ⟨s0, h0, h3⟩ := Option.bind_eq_some.mp h2
  obtain ⟨s1, h1, h4⟩ := Option.bind_eq_some.mp h3
  simp only [bump, put_count h4, put_count h1, put_count h0]

theorem ca_falz {s s' : scratch} {bp rt hbp n : Nat}
    (h : (((put s 0 bp rt).bind (helpers hbp n)).map fun s1 => bump s1 1) = some s')
    (hs : s.count < 4294967296) : s'.count = u32 (s.count + (n + 1)) := by
  obtain ⟨s2, h2, hs2⟩ := Option.map_eq_some'.mp h
  subst hs2
  obtain ⟨s1, h1, h3⟩ := Option.bind_eq_some.mp h2
  simp only [bump]
  rw [helpers_count _ _ _ _ (by rw [put_count h1]; exact hs) h3, put_count h1, u32_acc]

theorem ca_recons {s s' : scratch} {bp rt n : Nat}
    (h : (put s 0 bp rt).bind (recons n 1) = some s') (hs : s.count < 4294967296) :
    s'.count = u32 (s.count + 0) := by
  obtain ⟨s1, h1, h2⟩ := Option.bind_eq_some.mp h
  rw [recons_count _ _ _ _ h2, put_count h1, Nat.add_zero, u32_of_lt hs]

set_option maxHeartbeats 4000000 in
theorem extra_default (ep alt : Int) (r : map_enemy_t) (h : r.base ∉ handled) :
    extra ep alt r = 0 := by
  simp only [handled, List.mem_cons, List.mem_singleton, not_or, List.not_mem_nil, not_false_eq_true, and_true] at h
  unfold extra
  split <;> first | rfl | omega

set_option maxRecDepth 8000 in
set_option maxHeartbeats 4000000 in
theorem parse_enemy_count_handled (ep alt : Int) (nc rsv skin : Nat) (s s' : scratch)
    (hs : s.count < 4294967296) :
    ∀ base ∈ handled, parse_enemy ep alt ⟨base, nc, rsv, skin⟩ s = some s' →
    s'.count = u32 (s.count + extra ep alt ⟨base, nc, rsv, skin⟩) := by
  intro base hm h
  simp only [handled, List.mem_cons, List.mem_singleton, List.not_mem_nil, or_false] at hm
  rcases hm with rfl | rfl | rfl | rfl | rfl | rfl | rfl | rfl | rfl | rfl | rfl | rfl | rfl | rfl | rfl | rfl | rfl | rfl | rfl | rfl | rfl | rfl | rfl | rfl | rfl | rfl | rfl | rfl | rfl | rfl | rfl | rfl | rfl | rfl | rfl | rfl | rfl | rfl | rfl | rfl | rfl | rfl | rfl | rfl | rfl | rfl | rfl | rfl | rfl | rfl | rfl | rfl | rfl | rfl | rfl | rfl | rfl
  all_goals
    (simp only [parse_enemy, extra] at h ⊢
     (try split_ifs at h ⊢) <;> first
      | exact ca_put h hs
      | exact ca_skip h hs
      | exact ca_put_bump h hs
      | exact ca_companions h hs
      | exact ca_three h hs
      | exact ca_falz h hs
      | exact ca_recons h hs)

theorem parse_enemy_count (ep alt : Int) (r : map_enemy_t) (s s' : scratch)
    (hs : s.count < 4294967296) (h : parse_enemy ep alt r s = some s') :
    s'.count = u32 (s.count + extra ep alt r) := by
  by_cases hm : r.base ∈ handled
  · obtain ⟨base, nc, rsv, skin⟩ := r
    exact parse_enemy_count_handled ep alt nc rsv skin s s' hs base hm h
  · rw [parse_enemy_default ep alt r _ hm] at h
    cases h
    rw [extra_default ep alt r hm, Nat.add_zero, u32_of_lt hs]

theorem advance_count (r : map_enemy_t) (s : scratch) :
    (advance r s).count = u32 (s.count + clones_after r + 1) := by
  unfold advance bump
  split_ifs with h
  · simp only [u32_add_u32]
  · have : clones_after r = 0 := by simpa using h
    simp only [this, Nat.add_zero]

theorem record_count (ep alt : Int) (r : map_enemy_t) (s s' : scratch)
    (hs : s.count < 4294967296) (h : parse_enemy ep alt r s = some s') :
    (advance r s').count = u32 (s.count + slots_of ep alt r) := by
  rw [advance_count, parse_enemy_count ep alt r s s' hs h, Nat.add_assoc, u32_add_u32,
    slots_of]
  congr 1
  omega

theorem parse_records_count (ep alt : Int) : ∀ (en : List map_enemy_t) (s s' : scratch),
    s.count < 4294967296 → parse_records ep alt en s = some s' →
    s'.count = u32 (s.count + (en.map (slots_of ep alt)).sum) := by
  intro en
  induction en with
  | nil =>
    intro s s' hs h
    simp only [parse_records] at h
    cases h
    simp only [List.map_nil, List.sum_nil, Nat.add_zero, u32_of_lt hs]
  | cons r rs ih =>
    intro s s' hs h
    rw [parse_records] at h
    obtain ⟨s1, h1, h2⟩ := Option.bind_eq_some.mp h
    have c1 := record_count ep alt r s s1 hs h1
    rw [ih _ _ (by rw [c1]; exact u32_lt _) h2, c1, u32_add_u32, List.map_cons, List.sum_cons,
      Nat.add_assoc]

set_option maxRecDepth 8000 in
set_option maxHeartbeats 4000000 in
theorem switch_slots_length_handled (ep alt : Int) (nc rsv skin : Nat) :
    ∀ base ∈ handled, (switch_slots ep alt ⟨base, nc, rsv, skin⟩).length
      = 1 + extra ep alt ⟨base, nc, rsv, skin⟩ := by
  intro base hm
  simp only [handled, List.mem_cons, List.mem_singleton, List.not_mem_nil, or_false] at hm
  rcases hm with rfl | rfl | rfl | rfl | rfl | rfl | rfl | rfl | rfl | rfl | rfl | rfl | rfl | rfl | rfl | rfl | rfl | rfl | rfl | rfl | rfl | rfl | rfl | rfl | rfl | rfl | rfl | rfl | rfl | rfl | rfl | rfl | rfl | rfl | rfl | rfl | rfl | rfl | rfl | rfl | rfl | rfl | rfl | rfl | rfl | rfl | rfl | rfl | rfl | rfl | rfl | rfl | rfl | rfl | rfl | rfl | rfl
  all_goals
    (simp only [switch_slots, extra]
     (try split_ifs) <;>
      simp only [List.length_cons, List.length_append, List.length_replicate, List.length_nil])

theorem switch_slots_length (ep alt : Int) (r : map_enemy_t) :
    (switch_slots ep alt r).length = 1 + extra ep alt r := by
  by_cases hm : r.base ∈ handled
  · obtain ⟨base, nc, rsv, skin⟩ := r
    exact switch_slots_length_handled ep alt nc rsv skin base hm
  · rw [switch_slots_default ep alt r hm, extra_default ep alt r hm]
    rfl

theorem record_slots_length (ep alt : Int) (r : map_enemy_t) :
    (record_slots ep alt r).length = slots_of ep alt r := by
  rw [record_slots, List.length_append, switch_slots_length, List.length_replicate, slots_of]
  omega

theorem map_slots_length (ep alt : Int) (en : List map_enemy_t) :
    (map_slots ep alt en).length = (en.map (slots_of ep alt)).sum := by
  induction en with
  | nil => rfl
  | cons r rs ih =>
    rw [map_slots_cons, List.length_append, ih, record_slots_length, List.map_cons,
      List.sum_cons]

/-! ## Claims C21 to C30 -/

/-- Claim C22.  With `extra` the companion constant of the claim (30 for
0x0042, 4 for 0x0064, 2 for 0x0065, 8 for 0x0084, 2 for 0x00A1, 4 for 0x00A7,
511 for 0x00C8, 512 for 0x00CA, 47 for 0x00CB, 5 for 0x00CC, 4 for 0x00D4, 4
for 0x00E0 when ep = 2 and alt is set, 0 otherwise) and `n` the clone count
(4 for a zero clone count of species 0x0082): (1) for every record and every
context, in every state of the translator, the switch and the advance of the
counter together move the counter by `1 + n + extra`, in the 32-bit
arithmetic of the counter; (2) for every record list, whenever `parse_map`
returns, it returns 0 and the reported count is the sum of the per-record
values, reduced to 32 bits; (3) when that sum is within the capacity 0xB50 of
the scratch buffer, `parse_map` does return, the count is the sum itself and
as many slots are emitted. -/
theorem slots_per_record (en : List map_enemy_t) (g : game_enemies_t) (ep alt : Int) :
    (∀ (r : map_enemy_t) (s s' : scratch), s.count < 4294967296 →
      parse_enemy ep alt r s = some s' →
      (advance r s').count = u32 (s.count + (1 + clones_after r + extra ep alt r))) ∧
    (∀ rv out, parse_map true en g ep alt = some (rv, out) →
      rv = 0 ∧ out.count
        = u32 ((en.map fun r => 1 + clones_after r + extra ep alt r).sum)) ∧
    ((en.map fun r => 1 + clones_after r + extra ep alt r).sum ≤ 0xB50 →
      ∃ out, parse_map true en g ep alt = some (0, out) ∧
        out.count = (en.map fun r => 1 + clones_after r + extra ep alt r).sum ∧
        out.enemies.length = (en.map fun r => 1 + clones_after r + extra ep alt r).sum) := by
  refine ⟨fun r s s' hs h => record_count ep alt r s s' hs h, ?_, ?_⟩
  · intro rv out h
    simp only [parse_map, Bool.true_eq_false, if_false, Option.map_eq_some', Prod.mk.injEq] at h
    obtain ⟨s, hs, rfl, rfl⟩ := h
    refine ⟨rfl, ?_⟩
    have hc := parse_records_count ep alt en scratch.init s (by decide) hs
    rw [show scratch.init.count = 0 from rfl, Nat.zero_add] at hc
    exact hc
  · intro hcap
    have hlen : (map_slots ep alt en).length
        = (en.map fun r => 1 + clones_after r + extra ep alt r).sum := map_slots_length ep alt en
    have hcap' : (map_slots ep alt en).length ≤ 0xB50 := by
      rw [hlen]; exact hcap
    exact ⟨_, parse_map_eq en g ep alt hcap', hlen, hlen⟩

/-- Claim C22 at a concrete input: a Monest (0x0042), a Sinow Beat (0x0082)
with clone count 0 and a record of unknown species with 2 clones occupy
31 + 5 + 3 = 39 slots. -/
theorem slots_per_record_witness :
    ([⟨0x0042, 0, 0, 0⟩, ⟨0x0082, 0, 0, 0⟩, ⟨0xFFFF, 2, 0, 0⟩].map
        fun r => 1 + clones_after r + extra 1 0 r).sum = 39 ∧
      ∃ out, parse_map true [⟨0x0042, 0, 0, 0⟩, ⟨0x0082, 0, 0, 0⟩, ⟨0xFFFF, 2, 0, 0⟩]
          ⟨0, []⟩ 1 0 = some (0, out) ∧
        out.count = ([⟨0x0042, 0, 0, 0⟩, ⟨0x0082, 0, 0, 0⟩, ⟨0xFFFF, 2, 0, 0⟩].map
          fun r => 1 + clones_after r + extra 1 0 r).sum ∧
        out.enemies.length = ([⟨0x0042, 0, 0, 0⟩, ⟨0x0082, 0, 0, 0⟩, ⟨0xFFFF, 2, 0, 0⟩].map
          fun r => 1 + clones_after r + extra 1 0 r).sum :=
  ⟨by decide,
    (slots_per_record [⟨0x0042, 0, 0, 0⟩, ⟨0x0082, 0, 0, 0⟩, ⟨0xFFFF, 2, 0, 0⟩] ⟨0, []⟩ 1 0).2.2
      (by decide)⟩

/-! ## The slots of parameter row 0x37 -/

theorem set_bp_entry_slot {s s' : scratch} {idx v : Nat} (h : set_bp_entry s idx v = some s') :
    ∀ k, (s'.gen k = s.gen k ∨ (s'.gen k = { s.gen k with bp_entry := v } ∧ k = idx)) ∧
      idx < 0xB50 := by
  unfold set_bp_entry at h
  split_ifs at h with hi
  simp only [Option.some.injEq] at h
  subst h
  intro k
  refine ⟨?_, hi⟩
  by_cases hk : k = idx
  · right; simp [hk]
  · left; simp [hk]

theorem set_rt_index_slot {s s' : scratch} {idx v : Nat} (h : set_rt_index s idx v = some s') :
    ∀ k, (s'.gen k = s.gen k ∨ (s'.gen k = { s.gen k with rt_index := v } ∧ k = idx)) ∧
      idx < 0xB50 := by
  unfold set_rt_index at h
  split_ifs at h with hi
  simp only [Option.some.injEq] at h
  subst h
  intro k
  refine ⟨?_, hi⟩
  by_cases hk : k = idx
  · right; simp [hk]
  · left; simp [hk]

theorem put_slot {s s' : scratch} {off bp rt : Nat} (h : put s off bp rt = some s') :
    ∀ k, (s'.gen k = s.gen k ∨ (s'.gen k = ⟨bp, rt⟩ ∧ k = u32 (s.count + off))) ∧
      u32 (s.count + off) < 0xB50 := by
  unfold put set_bp_entry set_rt_index at h
  by_cases hi : u32 (s.count + off) < 0xB50
  · simp only [hi, if_true, Option.some_bind, Option.some.injEq] at h
    subst h
    intro k
    refine ⟨?_, hi⟩
    by_cases hk : k = u32 (s.count + off)
    · right; simp [hk]
    · left; simp [hk]
  · simp only [hi, if_false, Option.none_bind] at h
    cases h

theorem bp_effect_refl (P : Prop) (s : scratch) : bp_effect P s s := fun _ => Or.inl rfl

theorem bp_effect_trans {P : Prop} {s s1 s2 : scratch} (h1 : bp_effect P s s1)
    (h2 : bp_effect P s1 s2) : bp_effect P s s2 := by
  intro k
  rcases h2 k with hk | hk | hk
  · rw [hk]; exact h1 k
  · exact Or.inr (Or.inl hk)
  · exact Or.inr (Or.inr hk)

theorem bp_effect_mono {P Q : Prop} {s s' : scratch} (hPQ : P → Q) (h : bp_effect P s s') :
    bp_effect Q s s' := by
  intro k
  rcases h k with hk | hk | ⟨hk, hP⟩
  · exact Or.inl hk
  · exact Or.inr (Or.inl hk)
  · exact Or.inr (Or.inr ⟨hk, hPQ hP⟩)

theorem bp_put {P : Prop} {s s' : scratch} {off bp rt : Nat} (h : put s off bp rt = some s')
    (hv : bp ≠ 0x37) : bp_effect P s s' := by
  intro k
  rcases (put_slot h k).1 with hk | ⟨hk, _⟩
  · exact Or.inl hk
  · right; left; rw [hk]; exact hv

theorem bp_set {P : Prop} {s s' : scratch} {idx v : Nat} (h : set_bp_entry s idx v = some s')
    (hv : v ≠ 0x37) : bp_effect P s s' := by
  intro k
  rcases (set_bp_entry_slot h k).1 with hk | ⟨hk, _⟩
  · exact Or.inl hk
  · right; left; rw [hk]; exact hv

theorem bp_bump {P : Prop} {s s' : scratch} (n : Nat) (h : bp_effect P s s') :
    bp_effect P s (bump s' n) := h

theorem companions_bp {P : Prop} (bp rt : Nat) (hv : bp ≠ 0x37) : ∀ (n : Nat) (s s' : scratch),
    companions bp rt n s = some s' → bp_effect P s s' := by
  intro n
  induction n with
  | zero => intro s s' h; simp only [companions] at h; cases h; exact bp_effect_refl _ _
  | succ n ih =>
    intro s s' h
    rw [companions] at h
    obtain ⟨s1, h1, h2⟩ := Option.bind_eq_some.mp h
    exact bp_effect_trans (fun k => bp_put h1 hv k) (ih s1 s' h2)

theorem helpers_bp {P : Prop} (bp : Nat) (hv : bp ≠ 0x37) : ∀ (n : Nat) (s s' : scratch),
    helpers bp n s = some s' → bp_effect P s s' := by
  intro n
  induction n with
  | zero => intro s s' h; simp only [helpers] at h; cases h; exact bp_effect_refl _ _
  | succ n ih =>
    intro s s' h
    rw [helpers] at h
    obtain ⟨s1, h1, h2⟩ := Option.bind_eq_some.mp h
    exact bp_effect_trans (fun k => bp_set h1 hv k) (ih s1 s' h2)

theorem recons_bp {P : Prop} : ∀ (n j : Nat) (s s' : scratch),
    recons n j s = some s' → bp_effect P s s' := by
  intro n
  induction n with
  | zero => intro j s s' h; simp only [recons] at h; cases h; exact bp_effect_refl _ _
  | succ n ih =>
    intro j s s' h
    rw [recons] at h
    obtain ⟨s1, h1, h2⟩ := Option.bind_eq_some.mp h
    exact bp_effect_trans (bp_put h1 (by decide)) (ih _ s1 s' h2)

theorem be_put {P : Prop} {s s' : scratch} {bp rt : Nat} (h : put s 0 bp rt = some s')
    (hv : bp ≠ 0x37) : bp_effect P s s' := bp_put h hv

theorem be_skip {P : Prop} {s s' : scratch} (h : some s = some s') : bp_effect P s s' := by
  cases h; exact bp_effect_refl P s

theorem be_put_bump {P : Prop} {s s' : scratch} {bp rt m : Nat}
    (h : ((put s 0 bp rt).map fun s1 => bump s1 m) = some s') (hv : bp ≠ 0x37) :
    bp_effect P s s' := by
  obtain ⟨s1, h1, h2⟩ := Option.map_eq_some'.mp h
  subst h2
  exact fun k => bp_put h1 hv k

theorem be_companions {P : Prop} {s s' : scratch} {bp rt cbp crt n : Nat}
    (h : (put s 0 bp rt).bind (companions cbp crt n) = some s') (hv : bp ≠ 0x37)
    (hc : cbp ≠ 0x37) : bp_effect P s s' := by
  obtain ⟨s1, h1, h2⟩ := Option.bind_eq_some.mp h
  exact bp_effect_trans (bp_put h1 hv) (companions_bp _ _ hc _ _ _ h2)

theorem be_three {P : Prop} {s s' : scratch} {a b c d e f : Nat}
    (h : (((put s 0 a b).bind fun s0 => (put s0 1 c d).bind fun s1 => put s1 2 e f).map
      fun s2 => bump s2 2) = some s')
    (ha : a ≠ 0x37) (hc : c ≠ 0x37) (he : e ≠ 0x37) : bp_effect P s s' := by
  obtain ⟨s2, h2, hs⟩ := Option.map_eq_some'.mp h
  subst hs
  obtain ⟨s0, h0, h3⟩ := Option.bind_eq_some.mp h2
  obtain ⟨s1, h1, h4⟩ := Option.bind_eq_some.mp h3
  exact bp_effect_trans (bp_put h0 ha)
    (bp_effect_trans (bp_put h1 hc) (fun k => bp_put h4 he k))

theorem be_falz {P : Prop} {s s' : scratch} {hbp n : Nat}
    (h : (((put s 0 0x37 0x2F).bind (helpers hbp n)).map fun s1 => bump s1 1) = some s')
    (hh : hbp ≠ 0x37) (hP : P) : bp_effect P s s' := by
  obtain ⟨s2, h2, hs⟩ := Option.map_eq_some'.mp h
  subst hs
  obtain ⟨s1, h1, h3⟩ := Option.bind_eq_some.mp h2
  have e1 : bp_effect P s s1 := by
    intro k
    rcases (put_slot h1 k).1 with hk | ⟨hk, _⟩
    · exact Or.inl hk
    · exact Or.inr (Or.inr ⟨hk, hP⟩)
  exact bp_effect_trans e1 (fun k => helpers_bp _ hh _ _ _ h3 k)

theorem be_recons {P : Prop} {s s' : scratch} {bp rt n : Nat}
    (h : (put s 0 bp rt).bind (recons n 1) = some s') (hv : bp ≠ 0x37) :
    bp_effect P s s' := by
  obtain ⟨s1, h1, h2⟩ := Option.bind_eq_some.mp h
  exact bp_effect_trans (bp_put h1 hv) (recons_bp _ _ _ _ h2)

set_option maxHeartbeats 4000000 in
theorem parse_enemy_bp (ep alt : Int) (r : map_enemy_t) (s s' : scratch)
    (h : parse_enemy ep alt r s = some s') : bp_effect (r.base = 0x00C8) s s' := by
  have h1 := and_one_le r.skin
  have h3 := Nat.mod_lt r.skin (by norm_num : 3 > 0)
  have hr := rare_le r
  unfold parse_enemy at h
  split at h <;> (try dsimp only at h) <;> (try split_ifs at h) <;>
    first
      | exact be_put h (by omega)
      | exact be_skip h
      | exact be_put_bump h (by omega)
      | exact be_companions h (by omega) (by omega)
      | exact be_three h (by omega) (by omega) (by omega)
      | exact be_falz h (by omega) (by assumption)
      | exact be_recons h (by omega)

theorem parse_records_bp (ep alt : Int) : ∀ (en : List map_enemy_t) (s s' : scratch),
    parse_records ep alt en s = some s' → bp_effect (∃ r ∈ en, r.base = 0x00C8) s s' := by
  intro en
  induction en with
  | nil => intro s s' h; simp only [parse_records] at h; cases h; exact bp_effect_refl _ _
  | cons r rs ih =>
    intro s s' h
    rw [parse_records] at h
    obtain ⟨s1, h1, h2⟩ := Option.bind_eq_some.mp h
    have e1 : bp_effect (∃ x ∈ r :: rs, x.base = 0x00C8) s s1 :=
      bp_effect_mono (fun hd => ⟨r, List.mem_cons_self _ _, hd⟩) (parse_enemy_bp ep alt r s s1 h1)
    have e2 : bp_effect (∃ x ∈ r :: rs, x.base = 0x00C8) s1 s' := by
      have h3 := ih (advance r s1) s' h2
      refine bp_effect_mono (P := ∃ x ∈ rs, x.base = 0x00C8)
        (fun ⟨x, hx, hd⟩ => ⟨x, List.mem_cons_of_mem _ hx, hd⟩) ?_
      intro k
      have hk := h3 k
      rw [advance_gen] at hk
      exact hk
    exact bp_effect_trans e1 e2

theorem parse_map_slot {en : List map_enemy_t} {g out : game_enemies_t} {ep alt : Int}
    {rv : Int} (h : parse_map true en g ep alt = some (rv, out)) :
    ∃ s, parse_records ep alt en scratch.init = some s ∧ rv = 0 ∧ out.count = s.count ∧
      ∀ e ∈ out.enemies, ∃ k, e = s.gen k := by
  simp only [parse_map, Bool.true_eq_false, if_false, Option.map_eq_some', Prod.mk.injEq] at h
  obtain ⟨s, hs, rfl, rfl⟩ := h
  refine ⟨s, hs, rfl, rfl, ?_⟩
  intro e he
  simp only [List.mem_map, List.mem_range] at he
  obtain ⟨k, _, hk⟩ := he
  exact ⟨k, hk.symm⟩

set_option maxHeartbeats 4000000 in
theorem switch_slots_bp (ep alt : Int) (r : map_enemy_t) :
    ∀ e ∈ switch_slots ep alt r, e.bp_entry = 0x37 →
      r.base = 0x00C8 ∧ switch_slots ep alt r
        = ⟨0x37, 0x2F⟩ :: (List.replicate 510 ⟨0x35, 0⟩ ++ List.replicate 1 zero_slot) := by
  have h1 := and_one_le r.skin
  have h3 := Nat.mod_lt r.skin (by norm_num : 3 > 0)
  have hr := rare_le r
  unfold switch_slots
  split <;> (try split_ifs) <;>
    first
      | (intro e he hbp; exact ⟨by assumption, rfl⟩)
      | (simp only [List.forall_mem_cons, List.mem_replicate, List.mem_append, List.not_mem_nil,
          forall_eq_or_imp, List.mem_cons, List.mem_singleton, forall_eq, zero_slot,
          IsEmpty.forall_iff, implies_true, and_true, and_imp]
         first
          | omega
          | (refine ⟨?_, ?_⟩ <;> first | (intro hc; exfalso; omega) | (intro e _ he hc; subst he; simp at hc)))

theorem record_slots_bp (ep alt : Int) (r : map_enemy_t) (j : Nat) (e : game_enemy_t)
    (h : (record_slots ep alt r)[j]? = some e) (hbp : e.bp_entry = 0x37) :
    r.base = 0x00C8 ∧ j = 0 ∧ e = ⟨0x37, 0x2F⟩ := by
  rw [record_slots] at h
  rcases Nat.lt_or_ge j (switch_slots ep alt r).length with hj | hj
  · rw [List.getElem?_append_left hj] at h
    obtain ⟨hb, hsw⟩ := switch_slots_bp ep alt r e (List.getElem?_mem h) hbp
    rw [hsw] at h
    cases j with
    | zero =>
      simp only [List.getElem?_cons_zero, Option.some.injEq] at h
      exact ⟨hb, rfl, h.symm⟩
    | succ i =>
      rw [List.getElem?_cons_succ] at h
      have hmem := List.getElem?_mem h
      rw [List.mem_append, List.mem_replicate, List.mem_replicate] at hmem
      rcases hmem with ⟨_, he⟩ | ⟨_, he⟩ <;> (rw [he] at hbp; simp [zero_slot] at hbp)
  · rw [List.getElem?_append_right hj] at h
    have hmem := List.getElem?_mem h
    rw [List.mem_replicate] at hmem
    rw [hmem.2] at hbp
    split_ifs at hbp <;> simp [zero_slot] at hbp

theorem record_slots_falz (ep alt : Int) (r : map_enemy_t) (h : r.base = 0x00C8) :
    (record_slots ep alt r)[0]? = some ⟨0x37, 0x2F⟩ := by
  obtain ⟨base, nc, rsv, skin⟩ := r
  simp only at h
  subst h
  simp only [record_slots, switch_slots, List.cons_append, List.getElem?_cons_zero]

/-- A slot of the slots of a record list has parameter row 0x37 only if it is
the first slot of a record of species 0x00C8, and then it is (0x37, 0x2F). -/
theorem map_slots_falz (ep alt : Int) : ∀ (en : List map_enemy_t) (i : Nat) (e : game_enemy_t),
    (map_slots ep alt en)[i]? = some e → e.bp_entry = 0x37 →
    e = ⟨0x37, 0x2F⟩ ∧ ∃ pre r post, en = pre ++ r :: post ∧ r.base = 0x00C8 ∧
      (map_slots ep alt pre).length = i := by
  intro en
  induction en with
  | nil => intro i e h; simp [map_slots] at h
  | cons r rs ih =>
    intro i e h hbp
    rw [map_slots_cons, List.getElem?_append] at h
    split_ifs at h with hi
    · obtain ⟨hb, hj, he⟩ := record_slots_bp ep alt r i e h hbp
      exact ⟨he, [], r, rs, rfl, hb, by rw [hj]; rfl⟩
    · obtain ⟨he, pre, r0, post, hen, hb, hlen⟩ := ih _ e h hbp
      refine ⟨he, r :: pre, r0, post, by rw [hen]; rfl, hb, ?_⟩
      rw [map_slots_cons, List.length_append, hlen]
      omega

theorem map_slots_falz_at (ep alt : Int) (pre post : List map_enemy_t) (r : map_enemy_t)
    (h : r.base = 0x00C8) :
    (map_slots ep alt (pre ++ r :: post))[(map_slots ep alt pre).length]?
      = some ⟨0x37, 0x2F⟩ := by
  rw [map_slots_append, map_slots_cons, List.getElem?_append_right (Nat.le_refl _),
    Nat.sub_self, List.getElem?_append_left (by
      have := record_slots_pos ep alt r; omega)]
  exact record_slots_falz ep alt r h

theorem fixup_bp (K : lobby_consts) (d ev : Nat) (e : game_enemy_t) :
    ((bb_fixup K d ev e).bp_entry ≠ e.bp_entry → e.bp_entry = 0x37 ∧ d ≠ 0) ∧
      ((v2_fixup d e).bp_entry ≠ e.bp_entry → e.bp_entry = 0x37 ∧ d ≠ 0) := by
  unfold bb_fixup v2_fixup
  constructor
  · intro h
    split_ifs at h with h1 <;> first | exact h1 | exact absurd rfl h
  · intro h
    split_ifs at h with h1 <;> first | exact h1 | exact absurd rfl h

/-- Claim C26.  For all record lists, ep and alt: (1) in every run of the
record loop, from any state of the scratch buffer, a slot that holds
parameter row 0x37 afterwards is as it was before, or is the slot
(0x37, 0x2F) and the list has a record of species 0x00C8; (2) hence in every
output of `parse_map` a slot with `bp_entry` 0x37 has `rt_index` 0x2F, not
0xFF, and the list has a Dark Falz record; (3) when the slots fit the scratch
buffer, `parse_map` returns and the slots with `bp_entry` 0x37 are exactly
the primary slots of the records of species 0x00C8; (4) the difficulty fixup
of either assembler changes the `bp_entry` of a slot of the output only if
that slot is (0x37, 0x2F), so never a slot of another species, a companion
slot or a padding slot. -/
theorem row_37_is_falz_primary (en : List map_enemy_t) (g : game_enemies_t) (ep alt : Int) :
    (∀ s s', parse_records ep alt en s = some s' → ∀ k, (s'.gen k).bp_entry = 0x37 →
      s'.gen k = s.gen k ∨ (s'.gen k = ⟨0x37, 0x2F⟩ ∧ ∃ r ∈ en, r.base = 0x00C8)) ∧
    (∀ rv out, parse_map true en g ep alt = some (rv, out) → ∀ e ∈ out.enemies,
      (e.bp_entry = 0x37 → e = ⟨0x37, 0x2F⟩ ∧ ∃ r ∈ en, r.base = 0x00C8) ∧
      ¬ (e.bp_entry = 0x37 ∧ e.rt_index = 0xFF) ∧
      ∀ (K : lobby_consts) (d ev : Nat),
        ((bb_fixup K d ev e).bp_entry ≠ e.bp_entry → e = ⟨0x37, 0x2F⟩) ∧
        ((v2_fixup d e).bp_entry ≠ e.bp_entry → e = ⟨0x37, 0x2F⟩)) ∧
    ((map_slots ep alt en).length ≤ 0xB50 →
      ∃ out, parse_map true en g ep alt = some (0, out) ∧
        (∀ i e, out.enemies[i]? = some e → e.bp_entry = 0x37 →
          ∃ pre r post, en = pre ++ r :: post ∧ r.base = 0x00C8 ∧
            (parse_map true pre g ep alt).map (fun o => o.2.count) = some i) ∧
        (∀ pre r post i, en = pre ++ r :: post → r.base = 0x00C8 →
          (parse_map true pre g ep alt).map (fun o => o.2.count) = some i →
          out.enemies[i]? = some ⟨0x37, 0x2F⟩)) := by
  have hslot : ∀ rv out, parse_map true en g ep alt = some (rv, out) → ∀ e ∈ out.enemies,
      e.bp_entry = 0x37 → e = ⟨0x37, 0x2F⟩ ∧ ∃ r ∈ en, r.base = 0x00C8 := by
    intro rv out h e he hbp
    obtain ⟨s, hs, _, _, hk⟩ := parse_map_slot h
    obtain ⟨k, rfl⟩ := hk e he
    rcases parse_records_bp ep alt en _ _ hs k with hk | hk | hk
    · rw [hk] at hbp; simp [scratch.init] at hbp
    · exact absurd hbp hk
    · exact hk
  refine ⟨?_, ?_, ?_⟩
  · intro s s' h k hbp
    rcases parse_records_bp ep alt en s s' h k with hk | hk | hk
    · exact Or.inl hk
    · exact absurd hbp hk
    · exact Or.inr hk
  · intro rv out h e he
    refine ⟨hslot rv out h e he, ?_, ?_⟩
    · rintro ⟨hbp, hrt⟩
      have := (hslot rv out h e he hbp).1
      rw [this] at hrt
      simp at hrt
    · intro K d ev
      exact ⟨fun hne => (hslot rv out h e he ((fixup_bp K d ev e).1 hne).1).1,
        fun hne => (hslot rv out h e he ((fixup_bp K d ev e).2 hne).1).1⟩
  · intro hcap
    refine ⟨_, parse_map_eq en g ep alt hcap, ?_, ?_⟩
    · intro i e hi hbp
      obtain ⟨_, pre, r, post, hen, hb, hlen⟩ := map_slots_falz ep alt en i e hi hbp
      refine ⟨pre, r, post, hen, hb, ?_⟩
      have hpre : (map_slots ep alt pre).length ≤ 0xB50 := by
        rw [hen, map_slots_append, List.length_append] at hcap
        omega
      rw [parse_map_eq pre g ep alt hpre]
      simp [hlen]
    · intro pre r post i hen hb hi
      have hpre : (map_slots ep alt pre).length ≤ 0xB50 := by
        rw [hen, map_slots_append, List.length_append] at hcap
        omega
      rw [parse_map_eq pre g ep alt hpre] at hi
      simp only [Option.map_some', Option.some.injEq] at hi
      subst hi
      subst hen
      exact map_slots_falz_at ep alt pre post r hb

/-- Claim C26 at a concrete input: a Hildebear, a Dark Falz and a Booma in
episode 1; the slots fit the scratch buffer and the only slot of row 0x37 is
slot 1, the primary slot of the Dark Falz record. -/
theorem row_37_is_falz_primary_witness :
    (map_slots 1 0 [⟨0x0040, 0, 0, 0⟩, ⟨0x00C8, 0, 0, 0⟩, ⟨0x0044, 0, 0, 0⟩]).length ≤ 0xB50 ∧
      ∃ out, parse_map true [⟨0x0040, 0, 0, 0⟩, ⟨0x00C8, 0, 0, 0⟩, ⟨0x0044, 0, 0, 0⟩]
          ⟨0, []⟩ 1 0 = some (0, out) ∧
        (∀ i e, out.enemies[i]? = some e → e.bp_entry = 0x37 →
          ∃ pre r post,
            [⟨0x0040, 0, 0, 0⟩, ⟨0x00C8, 0, 0, 0⟩, ⟨0x0044, 0, 0, 0⟩] = pre ++ r :: post ∧
            r.base = 0x00C8 ∧
            (parse_map true pre ⟨0, []⟩ 1 0).map (fun o => o.2.count) = some i) ∧
        (∀ pre r post i,
          [⟨0x0040, 0, 0, 0⟩, ⟨0x00C8, 0, 0, 0⟩, ⟨0x0044, 0, 0, 0⟩] = pre ++ r :: post →
          r.base = 0x00C8 →
          (parse_map true pre ⟨0, []⟩ 1 0).map (fun o => o.2.count) = some i →
          out.enemies[i]? = some ⟨0x37, 0x2F⟩) :=
  ⟨by set_option maxRecDepth 100000 in decide,
    (row_37_is_falz_primary [⟨0x0040, 0, 0, 0⟩, ⟨0x00C8, 0, 0, 0⟩, ⟨0x0044, 0, 0, 0⟩]
      ⟨0, []⟩ 1 0).2.2 (by set_option maxRecDepth 100000 in decide)⟩

/-! ## The slots written by a record -/

theorem confined_refl (lo hi : Nat) (s : scratch) : confined lo hi s s :=
  fun _ h => absurd rfl h

theorem confined_trans {lo hi : Nat} {s s1 s2 : scratch} (h1 : confined lo hi s s1)
    (h2 : confined lo hi s1 s2) : confined lo hi s s2 := by
  intro k hk
  by_cases h : s2.gen k = s1.gen k
  · exact h1 k (by rw [← h]; exact hk)
  · exact h2 k h

theorem confined_mono {lo hi lo1 hi1 : Nat} {s s' : scratch} (h : confined lo hi s s')
    (hlo : lo1 ≤ lo) (hhi : hi ≤ hi1) : confined lo1 hi1 s s' := by
  intro k hk
  obtain ⟨a, b, c⟩ := h k hk
  exact ⟨by omega, by omega, c⟩

theorem put_conf {s s' : scratch} {off bp rt : Nat} (h : put s off bp rt = some s')
    (hs : s.count + off < 4294967296) :
    confined (s.count + off) (s.count + off + 1) s s' ∧ s.count + off < 0xB50 := by
  have hu := u32_of_lt hs
  have hb := (put_slot h 0).2
  rw [hu] at hb
  refine ⟨?_, hb⟩
  intro k hk
  rcases (put_slot h k).1 with h1 | ⟨_, h1⟩
  · exact absurd h1 hk
  · rw [hu] at h1
    omega

theorem set_bp_conf {s s' : scratch} {idx v : Nat} (h : set_bp_entry s idx v = some s') :
    confined idx (idx + 1) s s' := by
  intro k hk
  have hb := (set_bp_entry_slot h k).2
  rcases (set_bp_entry_slot h k).1 with h1 | ⟨_, h1⟩
  · exact absurd h1 hk
  · omega

theorem companions_conf (bp rt : Nat) : ∀ (n : Nat) (s s' : scratch),
    s.count + n < 4294967296 → companions bp rt n s = some s' →
    confined (s.count + 1) (s.count + n + 1) s s' := by
  intro n
  induction n with
  | zero => intro s s' _ h; simp only [companions] at h; cases h; exact confined_refl _ _ _
  | succ n ih =>
    intro s s' hs h
    rw [companions] at h
    obtain ⟨s1, h1, h2⟩ := Option.bind_eq_some.mp h
    have hb : (bump s 1).count = s.count + 1 := by
      simp only [bump]; exact u32_of_lt (by omega)
    have c1 : s1.count = s.count + 1 := by rw [put_count h1, hb]
    have e1 := (put_conf h1 (by rw [hb]; omega)).1
    rw [hb, Nat.add_zero] at e1
    have e2 := ih s1 s' (by rw [c1]; omega) h2
    rw [c1] at e2
    exact confined_trans (confined_mono (fun k => e1 k) (le_refl _) (by omega))
      (confined_mono e2 (by omega) (by omega))

theorem helpers_conf (bp : Nat) : ∀ (n : Nat) (s s' : scratch),
    s.count + n < 4294967296 → helpers bp n s = some s' →
    confined (s.count + 1) (s.count + n + 1) s s' := by
  intro n
  induction n with
  | zero => intro s s' _ h; simp only [helpers] at h; cases h; exact confined_refl _ _ _
  | succ n ih =>
    intro s s' hs h
    rw [helpers] at h
    obtain ⟨s1, h1, h2⟩ := Option.bind_eq_some.mp h
    have hu : u32 (s.count + 1) = s.count + 1 := u32_of_lt (by omega)
    have c1 : s1.count = s.count + 1 := by
      rw [set_bp_entry_count h1]; simp only [bump]; exact hu
    have e1 := set_bp_conf h1
    rw [hu] at e1
    have e2 := ih s1 s' (by rw [c1]; omega) h2
    rw [c1] at e2
    exact confined_trans (confined_mono (fun k => e1 k) (le_refl _) (by omega))
      (confined_mono e2 (by omega) (by omega))

theorem recons_conf : ∀ (n j : Nat) (s s' : scratch),
    s.count + j ≤ 0xB50 → recons n j s = some s' →
    confined (s.count + j) (s.count + j + n) s s' := by
  intro n
  induction n with
  | zero => intro j s s' _ h; simp only [recons] at h; cases h; exact confined_refl _ _ _
  | succ n ih =>
    intro j s s' hs h
    rw [recons] at h
    obtain ⟨s1, h1, h2⟩ := Option.bind_eq_some.mp h
    obtain ⟨e1, hb⟩ := put_conf h1 (by omega)
    have c1 : s1.count = s.count := put_count h1
    have e2 := ih (j + 1) s1 s' (by rw [c1]; omega) h2
    rw [c1] at e2
    exact confined_trans (confined_mono e1 (le_refl _) (by omega))
      (confined_mono e2 (by omega) (by omega))

theorem cf_put {s s' : scratch} {bp rt : Nat} (h : put s 0 bp rt = some s')
    (hs : s.count < 4294967296) (hi : Nat) (hb : s.count + 1 ≤ hi) :
    confined s.count hi s s' :=
  confined_mono (put_conf h (by omega)).1 (by omega) (by omega)

theorem cf_skip {s s' : scratch} (h : some s = some s') (hi : Nat) :
    confined s.count hi s s' := by
  cases h; exact confined_refl _ _ _

theorem cf_put_bump {s s' : scratch} {bp rt m : Nat}
    (h : ((put s 0 bp rt).map fun s1 => bump s1 m) = some s')
    (hs : s.count < 4294967296) (hi : Nat) (hb : s.count + 1 ≤ hi) :
    confined s.count hi s s' := by
  obtain ⟨s1, h1, h2⟩ := Option.map_eq_some'.mp h
  subst h2
  exact fun k => cf_put h1 hs hi hb k

theorem cf_companions {s s' : scratch} {bp rt cbp crt n : Nat}
    (h : (put s 0 bp rt).bind (companions cbp crt n) = some s')
    (hs : s.count < 4294967296) (hn : n < 65536) (hi : Nat) (hb : s.count + (n + 1) ≤ hi) :
    confined s.count hi s s' := by
  obtain ⟨s1, h1, h2⟩ := Option.bind_eq_some.mp h
  obtain ⟨e1, hc⟩ := put_conf h1 (by omega)
  have c1 : s1.count = s.count := put_count h1
  have e2 := companions_conf _ _ _ _ _ (by rw [c1]; omega) h2
  rw [c1] at e2
  exact confined_trans (confined_mono e1 (by omega) (by omega))
    (confined_mono e2 (by omega) (by omega))

theorem cf_three {s s' : scratch} {a b c d e f : Nat}
    (h : (((put s 0 a b).bind fun s0 => (put s0 1 c d).bind fun s1 => put s1 2 e f).map
      fun s2 => bump s2 2) = some s')
    (hs : s.count < 4294967296) (hi : Nat) (hb : s.count + 3 ≤ hi) :
    confined s.count hi s s' := by
  obtain ⟨s2, h2, hs2⟩ := Option.map_eq_some'.mp h
  subst hs2
  obtain ⟨s0, h0, h3⟩ := Option.bind_eq_some.mp h2
  obtain ⟨s1, h1, h4⟩ := Option.bind_eq_some.mp h3
  obtain ⟨e0, hc⟩ := put_conf h0 (by omega)
  have c0 : s0.count = s.count := put_count h0
  have c1 : s1.count = s.count := by rw [put_count h1, c0]
  obtain ⟨e1, _⟩ := put_conf h1 (by rw [c0]; omega)
  obtain ⟨e2, _⟩ := put_conf h4 (by rw [c1]; omega)
  rw [c0] at e1
  rw [c1] at e2
  exact confined_trans (confined_mono e0 (by omega) (by omega))
    (confined_trans (confined_mono e1 (by omega) (by omega))
      (confined_mono (fun k => e2 k) (by omega) (by omega)))

theorem cf_falz {s s' : scratch} {bp rt hbp n : Nat}
    (h : (((put s 0 bp rt).bind (helpers hbp n)).map fun s1 => bump s1 1) = some s')
    (hs : s.count < 4294967296) (hn : n < 65536) (hi : Nat) (hb : s.count + (n + 1) ≤ hi) :
    confined s.count hi s s' := by
  obtain ⟨s2, h2, hs2⟩ := Option.map_eq_some'.mp h
  subst hs2
  obtain ⟨s1, h1, h3⟩ := Option.bind_eq_some.mp h2
  obtain ⟨e1, hc⟩ := put_conf h1 (by omega)
  have c1 : s1.count = s.count := put_count h1
  have e2 := helpers_conf _ _ _ _ (by rw [c1]; omega) h3
  rw [c1] at e2
  exact confined_trans (confined_mono e1 (by omega) (by omega))
    (confined_mono (fun k => e2 k) (by omega) (by omega))

theorem cf_recons {s s' : scratch} {bp rt n : Nat}
    (h : (put s 0 bp rt).bind (recons n 1) = some s')
    (hs : s.count < 4294967296) (hi : Nat) (hb : s.count + (n + 1) ≤ hi) :
    confined s.count hi s s' := by
  obtain ⟨s1, h1, h2⟩ := Option.bind_eq_some.mp h
  obtain ⟨e1, hc⟩ := put_conf h1 (by omega)
  have c1 : s1.count = s.count := put_count h1
  have e2 := recons_conf _ _ _ _ (by rw [c1]; omega) h2
  rw [c1] at e2
  exact confined_trans (confined_mono e1 (by omega) (by omega))
    (confined_mono e2 (by omega) (by omega))

set_option maxRecDepth 8000 in
set_option maxHeartbeats 4000000 in
theorem parse_enemy_conf_handled (ep alt : Int) (nc rsv skin : Nat) (s s' : scratch)
    (hs : s.count < 4294967296) :
    ∀ base ∈ handled, parse_enemy ep alt ⟨base, nc, rsv, skin⟩ s = some s' →
    confined s.count (s.count + slots_of ep alt ⟨base, nc, rsv, skin⟩) s s' := by
  intro base hm h
  simp only [handled, List.mem_cons, List.mem_singleton, List.not_mem_nil, or_false] at hm
  rcases hm with rfl | rfl | rfl | rfl | rfl | rfl | rfl | rfl | rfl | rfl | rfl | rfl | rfl | rfl | rfl | rfl | rfl | rfl | rfl | rfl | rfl | rfl | rfl | rfl | rfl | rfl | rfl | rfl | rfl | rfl | rfl | rfl | rfl | rfl | rfl | rfl | rfl | rfl | rfl | rfl | rfl | rfl | rfl | rfl | rfl | rfl | rfl | rfl | rfl | rfl | rfl | rfl | rfl | rfl | rfl | rfl | rfl
  all_goals
    (simp only [parse_enemy, extra, slots_of] at h ⊢
     (try split_ifs at h ⊢) <;> first
      | exact cf_put h hs _ (by omega)
      | exact cf_skip h _
      | exact cf_put_bump h hs _ (by omega)
      | exact cf_companions h hs (by decide) _ (by omega)
      | exact cf_three h hs _ (by omega)
      | exact cf_falz h hs (by decide) _ (by omega)
      | exact cf_recons h hs _ (by rw [clones_after_of_ne (by simp)]; simp only; omega))

theorem parse_enemy_conf (ep alt : Int) (r : map_enemy_t) (s s' : scratch)
    (hs : s.count < 4294967296) (h : parse_enemy ep alt r s = some s') :
    confined s.count (s.count + slots_of ep alt r) s s' := by
  by_cases hm : r.base ∈ handled
  · obtain ⟨base, nc, rsv, skin⟩ := r
    exact parse_enemy_conf_handled ep alt nc rsv skin s s' hs base hm h
  · rw [parse_enemy_default ep alt r _ hm] at h
    cases h
    exact confined_refl _ _ _

set_option maxHeartbeats 4000000 in
theorem extra_le (ep alt : Int) (r : map_enemy_t) : extra ep alt r ≤ 512 := by
  unfold extra
  split <;> (try split_ifs) <;> decide

theorem parse_records_conf (ep alt : Int) : ∀ (en : List map_enemy_t) (s s' : scratch),
    s.count + (en.map (slots_of ep alt)).sum ≤ 0xB50 → parse_records ep alt en s = some s' →
    confined s.count (s.count + (en.map (slots_of ep alt)).sum) s s' ∧
      s'.count = s.count + (en.map (slots_of ep alt)).sum := by
  intro en
  induction en with
  | nil =>
    intro s s' _ h
    simp only [parse_records] at h
    cases h
    exact ⟨confined_refl _ _ _, by simp⟩
  | cons r rs ih =>
    intro s s' hcap h
    rw [parse_records] at h
    obtain ⟨s1, h1, h2⟩ := Option.bind_eq_some.mp h
    rw [List.map_cons, List.sum_cons] at hcap ⊢
    have c1 : (advance r s1).count = s.count + slots_of ep alt r := by
      rw [record_count ep alt r s s1 (by omega) h1]
      exact u32_of_lt (by omega)
    have e1 := parse_enemy_conf ep alt r s s1 (by omega) h1
    obtain ⟨e2, c2⟩ := ih (advance r s1) s' (by rw [c1]; omega) h2
    rw [c1] at e2 c2
    have e3 : confined (s.count + slots_of ep alt r)
        (s.count + slots_of ep alt r + (rs.map (slots_of ep alt)).sum) s1 s' := by
      intro k hk
      exact e2 k (by rw [advance_gen]; exact hk)
    exact ⟨confined_trans (confined_mono e1 (le_refl _) (by omega))
      (confined_mono e3 (by omega) (by omega)), by rw [c2]; omega⟩

theorem parse_records_init (ep alt : Int) (en : List map_enemy_t)
    (h : (map_slots ep alt en).length ≤ 0xB50) :
    parse_records ep alt en scratch.init
      = some ⟨pad (map_slots ep alt en), (map_slots ep alt en).length⟩ := by
  have h0 : scratch.init = ⟨pad [], ([] : List game_enemy_t).length⟩ := by
    rw [pad_nil]; rfl
  have := parse_records_pad ep alt en [] (by simpa using h)
  rw [← h0] at this
  simpa using this

theorem clones_after_lt (r : map_enemy_t) (h : r.num_clones < 65536) :
    clones_after r < 65536 := by
  unfold clones_after
  split_ifs <;> omega

/-- Claim C27.  For all record lists `a` and `b` and every ep and alt, when
the slots of `a ++ b` fit the scratch buffer: `parse_map` returns 0 on `a`,
on `b` and on `a ++ b`, the slot sequence of `a ++ b` is the one of `a`
followed by the one of `b`, and the counts add.  Equivalently, the output for
a record list is the concatenation, in record order, of the outputs for its
records taken alone. -/
theorem parse_map_compositional (a b : List map_enemy_t) (g : game_enemies_t) (ep alt : Int)
    (h : (map_slots ep alt (a ++ b)).length ≤ 0xB50) :
    (∃ oa ob, parse_map true a g ep alt = some (0, oa) ∧
      parse_map true b g ep alt = some (0, ob) ∧
      parse_map true (a ++ b) g ep alt
        = some (0, ⟨oa.count + ob.count, oa.enemies ++ ob.enemies⟩)) ∧
    (∃ single : map_enemy_t → game_enemies_t,
      (∀ r ∈ a ++ b, parse_map true [r] g ep alt = some (0, single r)) ∧
      parse_map true (a ++ b) g ep alt
        = some (0, ⟨((a ++ b).map fun r => (single r).count).sum,
            ((a ++ b).map fun r => (single r).enemies).flatten⟩)) := by
  have hab := h
  rw [map_slots_append, List.length_append] at hab
  constructor
  · refine ⟨_, _, parse_map_eq a g ep alt (by omega), parse_map_eq b g ep alt (by omega), ?_⟩
    rw [parse_map_eq (a ++ b) g ep alt h, map_slots_append, List.length_append]
  · refine ⟨fun r => ⟨(record_slots ep alt r).length, record_slots ep alt r⟩, ?_, ?_⟩
    · intro r hr
      have hr1 : (map_slots ep alt [r]).length ≤ 0xB50 := by
        obtain ⟨pre, post, hsplit⟩ := List.append_of_mem hr
        rw [hsplit, map_slots_append, map_slots_cons, List.length_append,
          List.length_append] at h
        simp only [map_slots, List.flatMap_cons, List.flatMap_nil, List.append_nil]
        omega
      rw [parse_map_eq [r] g ep alt hr1]
      simp [map_slots]
    · rw [parse_map_eq (a ++ b) g ep alt h]
      have e1 : ∀ en : List map_enemy_t, (map_slots ep alt en).length
          = (en.map fun r => (record_slots ep alt r).length).sum := by
        intro en
        induction en with
        | nil => rfl
        | cons r rs ih => rw [map_slots_cons, List.length_append, ih, List.map_cons, List.sum_cons]
      have e2 : ∀ en : List map_enemy_t, map_slots ep alt en
          = (en.map fun r => record_slots ep alt r).flatten := by
        intro en
        induction en with
        | nil => rfl
        | cons r rs ih => rw [map_slots_cons, ih, List.map_cons, List.flatten_cons]
      rw [e1, ← e2]

/-- Claim C27 at a concrete input: a Hildebear followed by an odd-skin Rappy
with a clone, then a Grass Assassin, in episode 2. -/
theorem parse_map_compositional_witness :
    (map_slots 2 0 ([⟨0x0040, 0, 0, 0⟩, ⟨0x0041, 1, 0, 1⟩] ++ [⟨0x0060, 0, 0, 0⟩])).length
        ≤ 0xB50 ∧
      ∃ oa ob, parse_map true [⟨0x0040, 0, 0, 0⟩, ⟨0x0041, 1, 0, 1⟩] ⟨0, []⟩ 2 0 = some (0, oa) ∧
        parse_map true [⟨0x0060, 0, 0, 0⟩] ⟨0, []⟩ 2 0 = some (0, ob) ∧
        parse_map true ([⟨0x0040, 0, 0, 0⟩, ⟨0x0041, 1, 0, 1⟩] ++ [⟨0x0060, 0, 0, 0⟩])
            ⟨0, []⟩ 2 0
          = some (0, ⟨oa.count + ob.count, oa.enemies ++ ob.enemies⟩) :=
  ⟨by decide,
    (parse_map_compositional [⟨0x0040, 0, 0, 0⟩, ⟨0x0041, 1, 0, 1⟩] [⟨0x0060, 0, 0, 0⟩]
      ⟨0, []⟩ 2 0 (by decide)).1⟩

/-- Claim C28.  (1) For every record (clone count in its 16-bit range) and
every state of the translator: a slot that the switch changes has its index
at or above the counter before the record, strictly below the counter
reached after the record, and inside the scratch buffer.  (2) When the total
slot count of the record list is at most the capacity 0xB50, the record loop
and `parse_map` run to completion, so that every write landed inside the
buffer; the reported count is the total; every slot at or beyond the
reported count is as `memset` left it; and for each record of the list the
slots changed while it is translated lie below the counter reached after
it, which is at most the reported count. -/
theorem writes_below_counter (en : List map_enemy_t) (g : game_enemies_t) (ep alt : Int) :
    (∀ (r : map_enemy_t) (s s' : scratch), s.count < 4294967296 → r.num_clones < 65536 →
      parse_enemy ep alt r s = some s' →
      ∀ k, s'.gen k ≠ s.gen k → s.count ≤ k ∧ k < (advance r s').count ∧ k < 0xB50) ∧
    ((map_slots ep alt en).length ≤ 0xB50 →
      ∃ s' out, parse_records ep alt en scratch.init = some s' ∧
        parse_map true en g ep alt = some (0, out) ∧
        out.count = s'.count ∧ s'.count = (map_slots ep alt en).length ∧
        (∀ k, s'.count ≤ k → s'.gen k = scratch.init.gen k) ∧
        (∀ pre r post, en = pre ++ r :: post →
          ∃ s1 s2, parse_records ep alt pre scratch.init = some s1 ∧
            parse_enemy ep alt r s1 = some s2 ∧ (advance r s2).count ≤ s'.count ∧
            ∀ k, s2.gen k ≠ s1.gen k →
              s1.count ≤ k ∧ k < (advance r s2).count ∧ k < 0xB50)) := by
  constructor
  · intro r s s' hs hc h k hk
    obtain ⟨h1, h2, h3⟩ := parse_enemy_conf ep alt r s s' hs h k hk
    refine ⟨h1, ?_, h3⟩
    have hx := extra_le ep alt r
    have hcl := clones_after_lt r hc
    rw [record_count ep alt r s s' hs h, u32_of_lt (by simp only [slots_of]; omega)]
    exact h2
  · intro hcap
    refine ⟨_, _, parse_records_init ep alt en hcap, parse_map_eq en g ep alt hcap, rfl, rfl,
      ?_, ?_⟩
    · intro k hk
      simp only at hk
      simp only [pad, List.getElem?_eq_none hk, Option.getD_none]
      rfl
    · intro pre r post hen
      have hlen : (map_slots ep alt en).length = (map_slots ep alt pre).length
          + (record_slots ep alt r).length + (map_slots ep alt post).length := by
        rw [hen, map_slots_append, map_slots_cons, List.length_append, List.length_append]
        omega
      have hpre : (map_slots ep alt pre).length ≤ 0xB50 := by omega
      have hrec := record_pad ep alt r (map_slots ep alt pre) (by omega)
      obtain ⟨s2, hs2, hadv⟩ := Option.map_eq_some'.mp hrec
      have hcnt : (advance r s2).count
          = (map_slots ep alt pre).length + (record_slots ep alt r).length := by
        rw [hadv, List.length_append]
      refine ⟨_, s2, parse_records_init ep alt pre hpre, hs2, ?_, ?_⟩
      · simp only
        omega
      · intro k hk
        obtain ⟨h1, h2, h3⟩ := parse_enemy_conf ep alt r _ s2 (by simp only; omega) hs2 k hk
        rw [← record_slots_length] at h2
        exact ⟨h1, by rw [hcnt]; exact h2, h3⟩

/-- Claim C28 at a concrete input: a Monest followed by a Recobox with 2
clones in episode 1; the 34 slots fit the scratch buffer. -/
theorem writes_below_counter_witness :
    (map_slots 1 0 [⟨0x0042, 0, 0, 0⟩, ⟨0x00DF, 2, 0, 0⟩]).length ≤ 0xB50 ∧
      ∃ s' out, parse_records 1 0 [⟨0x0042, 0, 0, 0⟩, ⟨0x00DF, 2, 0, 0⟩] scratch.init = some s' ∧
        parse_map true [⟨0x0042, 0, 0, 0⟩, ⟨0x00DF, 2, 0, 0⟩] ⟨0, []⟩ 1 0 = some (0, out) ∧
        out.count = s'.count ∧
        s'.count = (map_slots 1 0 [⟨0x0042, 0, 0, 0⟩, ⟨0x00DF, 2, 0, 0⟩]).length ∧
        (∀ k, s'.count ≤ k → s'.gen k = scratch.init.gen k) ∧
        (∀ pre r post, [⟨0x0042, 0, 0, 0⟩, ⟨0x00DF, 2, 0, 0⟩] = pre ++ r :: post →
          ∃ s1 s2, parse_records 1 0 pre scratch.init = some s1 ∧
            parse_enemy 1 0 r s1 = some s2 ∧ (advance r s2).count ≤ s'.count ∧
            ∀ k, s2.gen k ≠ s1.gen k →
              s1.count ≤ k ∧ k < (advance r s2).count ∧ k < 0xB50) :=
  ⟨by decide,
    (writes_below_counter [⟨0x0042, 0, 0, 0⟩, ⟨0x00DF, 2, 0, 0⟩] ⟨0, []⟩ 1 0).2 (by decide)⟩

/-! ## The context of the translation -/

set_option maxRecDepth 8000 in
set_option maxHeartbeats 4000000 in
theorem parse_enemy_alt_handled (ep alt alt1 : Int) (nc rsv skin : Nat) (s : scratch) :
    ∀ base ∈ handled, base ∉ [0x0041, 0x0061, 0x00E0, 0x0111, 0x0114] →
    parse_enemy ep alt ⟨base, nc, rsv, skin⟩ s = parse_enemy ep alt1 ⟨base, nc, rsv, skin⟩ s := by
  intro base hm hx
  simp only [handled, List.mem_cons, List.mem_singleton, List.not_mem_nil, or_false] at hm
  rcases hm with rfl | rfl | rfl | rfl | rfl | rfl | rfl | rfl | rfl | rfl | rfl | rfl | rfl | rfl | rfl | rfl | rfl | rfl | rfl | rfl | rfl | rfl | rfl | rfl | rfl | rfl | rfl | rfl | rfl | rfl | rfl | rfl | rfl | rfl | rfl | rfl | rfl | rfl | rfl | rfl | rfl | rfl | rfl | rfl | rfl | rfl | rfl | rfl | rfl | rfl | rfl | rfl | rfl | rfl | rfl | rfl | rfl
  all_goals first
    | (exfalso; revert hx; decide)
    | simp only [parse_enemy]

set_option maxRecDepth 8000 in
set_option maxHeartbeats 4000000 in
theorem parse_enemy_ep_handled (ep ep1 alt : Int) (nc rsv skin : Nat) (s : scratch) :
    ∀ base ∈ handled, base ∉ [0x0041, 0x0061, 0x00C0, 0x00E0] →
    parse_enemy ep alt ⟨base, nc, rsv, skin⟩ s = parse_enemy ep1 alt ⟨base, nc, rsv, skin⟩ s := by
  intro base hm hx
  simp only [handled, List.mem_cons, List.mem_singleton, List.not_mem_nil, or_false] at hm
  rcases hm with rfl | rfl | rfl | rfl | rfl | rfl | rfl | rfl | rfl | rfl | rfl | rfl | rfl | rfl | rfl | rfl | rfl | rfl | rfl | rfl | rfl | rfl | rfl | rfl | rfl | rfl | rfl | rfl | rfl | rfl | rfl | rfl | rfl | rfl | rfl | rfl | rfl | rfl | rfl | rfl | rfl | rfl | rfl | rfl | rfl | rfl | rfl | rfl | rfl | rfl | rfl | rfl | rfl | rfl | rfl | rfl | rfl
  all_goals first
    | (exfalso; revert hx; decide)
    | simp only [parse_enemy]

theorem parse_enemy_alt (ep alt alt1 : Int) (r : map_enemy_t) (s : scratch)
    (h : r.base ∉ [0x0041, 0x0061, 0x00E0, 0x0111, 0x0114]) :
    parse_enemy ep alt r s = parse_enemy ep alt1 r s := by
  by_cases hm : r.base ∈ handled
  · obtain ⟨base, nc, rsv, skin⟩ := r
    exact parse_enemy_alt_handled ep alt alt1 nc rsv skin s base hm h
  · rw [parse_enemy_default ep alt r _ hm, parse_enemy_default ep alt1 r _ hm]

theorem parse_enemy_ep (ep ep1 alt : Int) (r : map_enemy_t) (s : scratch)
    (h : r.base ∉ [0x0041, 0x0061, 0x00C0, 0x00E0]) :
    parse_enemy ep alt r s = parse_enemy ep1 alt r s := by
  by_cases hm : r.base ∈ handled
  · obtain ⟨base, nc, rsv, skin⟩ := r
    exact parse_enemy_ep_handled ep ep1 alt nc rsv skin s base hm h
  · rw [parse_enemy_default ep alt r _ hm, parse_enemy_default ep1 alt r _ hm]

theorem parse_records_context (ep alt ep1 alt1 : Int) : ∀ (en : List map_enemy_t) (s : scratch),
    (∀ r ∈ en, ∀ s1, parse_enemy ep alt r s1 = parse_enemy ep1 alt1 r s1) →
    parse_records ep alt en s = parse_records ep1 alt1 en s := by
  intro en
  induction en with
  | nil => intro s _; rfl
  | cons r rs ih =>
    intro s h
    rw [parse_records, parse_records, h r (List.mem_cons_self _ _) s]
    congr 1
    funext s1
    exact ih _ (fun x hx => h x (List.mem_cons_of_mem _ hx))

theorem parse_map_context (ep alt ep1 alt1 : Int) (en : List map_enemy_t) (g : game_enemies_t)
    (a : Bool) (h : ∀ r ∈ en, ∀ s1, parse_enemy ep alt r s1 = parse_enemy ep1 alt1 r s1) :
    parse_map a en g ep alt = parse_map a en g ep1 alt1 := by
  simp only [parse_map, parse_records_context ep alt ep1 alt1 en _ h]

/-- Claim C29.  For every record list, every outcome of the allocation and
all contexts (ep, alt) and (ep1, alt1): (1) if no record has one of the
species 0x0041, 0x0061, 0x00C0, 0x00E0, 0x0111, 0x0114, the result of
`parse_map` (return code, count and slots) is the same in both contexts, and
so is the effect of the switch on every state, record by record; (2) if no
record has one of the species 0x0041, 0x0061, 0x00E0, 0x0111, 0x0114, so
that species 0x00C0 is allowed, the result does not depend on alt; (3) if no
record has one of the species 0x0041, 0x0061, 0x00C0, 0x00E0, so that species
0x0111 and 0x0114 are allowed, the result does not depend on ep. -/
theorem context_non_interference (en : List map_enemy_t) (g : game_enemies_t) (a : Bool)
    (ep alt ep1 alt1 : Int) :
    ((∀ r ∈ en, r.base ∉ [0x0041, 0x0061, 0x00C0, 0x00E0, 0x0111, 0x0114]) →
      parse_map a en g ep alt = parse_map a en g ep1 alt1 ∧
      ∀ r ∈ en, ∀ s, parse_enemy ep alt r s = parse_enemy ep1 alt1 r s) ∧
    ((∀ r ∈ en, r.base ∉ [0x0041, 0x0061, 0x00E0, 0x0111, 0x0114]) →
      parse_map a en g ep alt = parse_map a en g ep alt1) ∧
    ((∀ r ∈ en, r.base ∉ [0x0041, 0x0061, 0x00C0, 0x00E0]) →
      parse_map a en g ep alt = parse_map a en g ep1 alt) := by
  refine ⟨fun h => ?_, fun h => ?_, fun h => ?_⟩
  · have hr : ∀ r ∈ en, ∀ s, parse_enemy ep alt r s = parse_enemy ep1 alt1 r s := by
      intro r hr s
      have hb := h r hr
      rw [parse_enemy_alt ep alt alt1 r s (fun hc => hb (by
          simp only [List.mem_cons, List.mem_singleton, List.not_mem_nil, or_false] at hc ⊢
          omega)),
        parse_enemy_ep ep ep1 alt1 r s (fun hc => hb (by
          simp only [List.mem_cons, List.mem_singleton, List.not_mem_nil, or_false] at hc ⊢
          omega))]
    exact ⟨parse_map_context ep alt ep1 alt1 en g a hr, hr⟩
  · exact parse_map_context ep alt ep alt1 en g a
      (fun r hr s => parse_enemy_alt ep alt alt1 r s (h r hr))
  · exact parse_map_context ep alt ep1 alt en g a
      (fun r hr s => parse_enemy_ep ep ep1 alt r s (h r hr))

/-- Claim C29 at a concrete input: a Booma, a Dark Falz and a record of
unknown species are translated alike in episode 1 without alt and in
episode 2 with alt. -/
theorem context_non_interference_witness :
    (∀ r ∈ [(⟨0x0044, 0, 0, 1⟩ : map_enemy_t), ⟨0x00C8, 0, 0, 0⟩, ⟨0xFFFF, 3, 0, 0⟩],
        r.base ∉ [0x0041, 0x0061, 0x00C0, 0x00E0, 0x0111, 0x0114]) ∧
      parse_map true [⟨0x0044, 0, 0, 1⟩, ⟨0x00C8, 0, 0, 0⟩, ⟨0xFFFF, 3, 0, 0⟩] ⟨0, []⟩ 1 0
        = parse_map true [⟨0x0044, 0, 0, 1⟩, ⟨0x00C8, 0, 0, 0⟩, ⟨0xFFFF, 3, 0, 0⟩] ⟨0, []⟩ 2 1 :=
  ⟨by decide,
    ((context_non_interference [⟨0x0044, 0, 0, 1⟩, ⟨0x00C8, 0, 0, 0⟩, ⟨0xFFFF, 3, 0, 0⟩]
      ⟨0, []⟩ true 1 0 2 1).1 (by decide)).1⟩

/-! ## The fixups and the sentinel -/

theorem bb_fixup_rt_keep (K : lobby_consts) (d ev : Nat) (e : game_enemy_t)
    (h : e.rt_index ≠ 0xFF) : (bb_fixup K d ev e).rt_index = e.rt_index := by
  unfold bb_fixup
  split_ifs <;> rfl

theorem bb_fixup_no_sentinel (K : lobby_consts) (d ev : Nat) (e : game_enemy_t)
    (h : e.rt_index = 0xFF → e.bp_entry ≠ 0x37) : (bb_fixup K d ev e).rt_index ≠ 0xFF := by
  by_cases hrt : e.rt_index = 0xFF
  · rw [bb_fixup_sentinel K d ev e hrt (Or.inl (h hrt))]
    simp only
    split_ifs <;> decide
  · rw [bb_fixup_rt_keep K d ev e hrt]
    exact hrt

theorem v2_fixup_rt (d : Nat) (e : game_enemy_t) : (v2_fixup d e).rt_index = e.rt_index := by
  unfold v2_fixup
  split_ifs <;> rfl

theorem selected_slots_mem (maps : Nat → Nat) (area : Nat → parsed_map_t) (e : game_enemy_t)
    (h : e ∈ selected_slots maps area) :
    ∃ k ∈ populated area, e ∈ (selected_entry maps (area k) k).enemies := by
  simp only [selected_slots, selected_entries, List.mem_flatten, List.mem_map] at h
  obtain ⟨xs, ⟨x, ⟨k, hk, rfl⟩, rfl⟩, he⟩ := h
  exact ⟨k, hk, he⟩

theorem parse_map_out_rt {en : List map_enemy_t} {g out : game_enemies_t} {ep alt : Int}
    {rv : Int} {a : Bool} (h : parse_map a en g ep alt = some (rv, out)) (h0 : rv = 0) :
    ∀ e ∈ out.enemies, e.rt_index ≤ 0x54 ∨
      (e.rt_index = 0xFF ∧ e.bp_entry ≠ 0x37 ∧ ∃ r ∈ en, deferred ep r) := by
  cases a with
  | false =>
    simp only [parse_map, if_true, Option.some.injEq, Prod.mk.injEq] at h
    rw [h0] at h
    exact absurd h.1 (by decide)
  | true =>
    intro e he
    obtain ⟨s, hs, _, _, hk⟩ := parse_map_slot h
    obtain ⟨k, rfl⟩ := hk e he
    rcases parse_records_rt ep alt en _ _ hs k with hr | hr | ⟨hr, hd⟩
    · left; rw [hr]; simp [scratch.init]
    · exact Or.inl hr
    · right
      refine ⟨hr, ?_, hd⟩
      intro hbp
      rcases parse_records_bp ep alt en _ _ hs k with hb | hb | ⟨hb, _⟩
      · rw [hb] at hbp; simp [scratch.init] at hbp
      · exact hb hbp
      · rw [hb] at hr; simp at hr

/-- Claim C23.  Let the event codes of `lobby.h` be different values.  For a
catalog and an in-bounds selection as in C1 and a slot `i` of the list
whose value before the fixup loop is `e`: (1) if `e` carries the sentinel
(`rt_index` 0xFF) and the difficulty fixup does not rewrite it (its
`bp_entry` is not 0x37, or the difficulty is 0), `bb_load_game_enemies`
installs the slot with the `bp_entry` of `e` and with `rt_index` 79 for
Christmas, 81 for Easter, 80 for Halloween and 51 for every other event
value, the code of "no event" included; (2) if `e` does not carry the
sentinel, the installed slot has the `rt_index` of `e`. -/
theorem sentinel_resolution_table (K : lobby_consts)
    (cat : Nat → Nat → Nat → parsed_map_t) (l : lobby_t) (i : Nat) (e : game_enemy_t)
    (hK : K.distinct)
    (hep : 1 ≤ l.episode ∧ l.episode ≤ 3)
    (hsel : selection_ok l.maps (bb_area K cat l))
    (hsum : selected_total l.maps (bb_area K cat l) < 4294967296)
    (hi : (selected_slots l.maps (bb_area K cat l))[i]? = some e) :
    (e.rt_index = 0xFF → (e.bp_entry ≠ 0x37 ∨ l.difficulty = 0) →
      ∃ e1, bb_slot K cat l i = some e1 ∧ e1.bp_entry = e.bp_entry ∧
        (l.event = K.LOBBY_EVENT_CHRISTMAS → e1.rt_index = 79) ∧
        (l.event = K.LOBBY_EVENT_EASTER → e1.rt_index = 81) ∧
        (l.event = K.LOBBY_EVENT_HALLOWEEN → e1.rt_index = 80) ∧
        (l.event ≠ K.LOBBY_EVENT_CHRISTMAS → l.event ≠ K.LOBBY_EVENT_EASTER →
          l.event ≠ K.LOBBY_EVENT_HALLOWEEN → e1.rt_index = 51) ∧
        (l.event = K.LOBBY_EVENT_NONE → e1.rt_index = 51)) ∧
    (e.rt_index ≠ 0xFF →
      ∃ e1, bb_slot K cat l i = some e1 ∧ e1.rt_index = e.rt_index) := by
  obtain ⟨hce, hch, heh, hnc, hne, hnh⟩ := hK
  have hs := bb_slot_ok K cat l hep hsel hsum i
  rw [hi, Option.map_some'] at hs
  constructor
  · intro hrt hbp
    refine ⟨_, hs, ?_, ?_, ?_, ?_, ?_, ?_⟩
    · rw [bb_fixup_sentinel K _ _ e hrt hbp]
    · intro hev
      rw [bb_fixup_sentinel K _ _ e hrt hbp]
      simp [hev]
    · intro hev
      rw [bb_fixup_sentinel K _ _ e hrt hbp]
      simp [hev, Ne.symm hce]
    · intro hev
      rw [bb_fixup_sentinel K _ _ e hrt hbp]
      simp [hev, Ne.symm hch, Ne.symm heh]
    · intro h1 h2 h3
      rw [bb_fixup_sentinel K _ _ e hrt hbp]
      simp [h1, h2, h3]
    · intro hev
      rw [bb_fixup_sentinel K _ _ e hrt hbp]
      simp [hev, hnc, hne, hnh]
  · intro hrt
    exact ⟨_, hs, bb_fixup_rt_keep K _ _ e hrt⟩

/-- Claim C23 at a concrete input: slot 1 of the list assembled from the
sample catalog with the selection (1, 0), (0, 1) carries the sentinel; at
difficulty 2 under the Halloween event it is installed as (0x19, 80). -/
theorem sentinel_resolution_table_witness :
    ∃ e1, bb_slot demo_consts demo_catalog (demo_lobby 2 5 (demo_maps 1 0 0 1)) 1 = some e1 ∧
      e1.bp_entry = 0x19 ∧
      ((5 : Nat) = 1 → e1.rt_index = 79) ∧ ((5 : Nat) = 4 → e1.rt_index = 81) ∧
      ((5 : Nat) = 5 → e1.rt_index = 80) ∧
      ((5 : Nat) ≠ 1 → (5 : Nat) ≠ 4 → (5 : Nat) ≠ 5 → e1.rt_index = 51) ∧
      ((5 : Nat) = 0 → e1.rt_index = 51) :=
  (sentinel_resolution_table demo_consts demo_catalog (demo_lobby 2 5 (demo_maps 1 0 0 1))
    1 ⟨0x19, 0xFF⟩ (by decide) (by decide) (by decide) (by decide) (by decide)).1
    (by decide) (by decide)

/-! ## Catalogs built by the loaders -/

theorem read_v2_slot_loaded (fs : String → Option file_t) (decode : List Nat → map_enemy_t)
    (j k l : Nat) (cur g : game_enemies_t × game_objs_t)
    (h : read_v2_slot fs decode j k l cur = .loaded g) :
    ∃ fp, fs (v2_name j k l) = some fp ∧ read_file 0x48 fp = .ok fp.bytes ∧
      parse_map fp.parse_alloc_ok (records decode fp.bytes) { cur.1 with count := 0 } 1 0
        = some (0, g.1) := by
  unfold read_v2_slot at h
  simp only at h
  by_cases h1 : (v2_name j k l).length ≥ 256
  · rw [if_pos h1] at h; cases h
  · rw [if_neg h1] at h
    cases hf : fs (v2_name j k l) with
    | none => rw [hf] at h; cases h
    | some fp =>
      rw [hf] at h
      simp only at h
      cases hr : read_file 0x48 fp with
      | error rv => rw [hr] at h; cases h
      | ok buf =>
        rw [hr] at h
        simp only at h
        obtain ⟨rfl, _⟩ := read_file_ok _ _ _ hr
        refine ⟨fp, rfl, hr, ?_⟩
        generalize parse_map _ _ _ _ _ = p at h ⊢
        rcases p with _ | ⟨rv, g1⟩
        · cases h
        · simp only at h
          by_cases h2 : rv ≠ 0
          · rw [if_pos h2] at h; cases h
          · rw [if_neg h2] at h
            have hrv : rv = 0 := by simpa using h2
            subst hrv
            by_cases h3 : (v2_obj_name j k l).length ≥ 256
            · rw [if_pos h3] at h; cases h
            · rw [if_neg h3] at h
              cases hf2 : fs (v2_obj_name j k l) with
              | none => rw [hf2] at h; cases h
              | some fp2 =>
                rw [hf2] at h
                simp only at h
                cases hr2 : read_file 0x44 fp2 with
                | error rv2 => rw [hr2] at h; cases h
                | ok obuf =>
                  rw [hr2] at h
                  cases h
                  rfl

theorem read_bb_map_set_parsed (fs : String → Option file_t) (decode : List Nat → map_enemy_t)
    (alloc_grid : Bool) (junk : Nat → game_enemies_t) (solo i j : Nat) (m m1 : parsed_map_t)
    (h : read_bb_map_set fs decode alloc_grid junk solo i j m = some (0, m1)) :
    m1.data.length = m1.map_count * m1.variation_count ∧
      ∀ x ∈ m1.data, ∃ en g, parse_map true en g ((i : Int) + 1) 0 = some (0, x) := by
  cases hrow : (if solo = 0 then maps else sp_maps)[i]? with
  | none => unfold read_bb_map_set at h; rw [hrow] at h; cases h
  | some row =>
    cases hm : row[j * 2]? with
    | none => unfold read_bb_map_set at h; rw [hrow] at h; simp only [hm] at h; cases h
    | some nmaps =>
      cases hv : row[j * 2 + 1]? with
      | none => unfold read_bb_map_set at h; rw [hrow] at h; simp only [hm, hv] at h; cases h
      | some nvars =>
        cases alloc_grid with
        | false =>
          unfold read_bb_map_set at h
          rw [hrow] at h
          simp [hm, hv] at h
        | true =>
          rw [read_bb_map_set_eq fs decode junk solo i j m row nmaps nvars hrow hm hv] at h
          simp only [Option.map_eq_some', Prod.mk.injEq] at h
          obtain ⟨⟨rv, tmp'⟩, hloop, hrv, rfl⟩ := h
          simp only at hrv
          subst hrv
          rw [List.range_eq_range'] at hloop
          obtain ⟨r1, r2, _⟩ := slot_loop_range (read_bb_slot fs decode solo i j) nvars
            (nmaps * nvars) 0 ((List.range' 0 (nmaps * nvars)).map junk) 0 tmp' (by simp) hloop
          have hlen : tmp'.length = nmaps * nvars := by simpa using r1
          refine ⟨hlen, ?_⟩
          intro x hx
          have hx1 : x ∈ tmp' := hx
          obtain ⟨n, hn, hxn⟩ := List.getElem_of_mem hx1
          obtain ⟨cur, g, _, c2, c3⟩ := r2
            (fun k l cur g => read_bb_slot_failed _ _ _ _ _ _ _ _ _) rfl n (Nat.zero_le _)
            (by omega)
          rw [List.getElem?_eq_getElem hn, hxn, Option.some.injEq] at c3
          subst c3
          obtain ⟨fp, _, _, f3⟩ := read_bb_slot_loaded _ _ _ _ _ _ _ _ _ c2
          exact ⟨_, _, (parse_map_zero _ _ _ _ _ _ f3).2 ⟨0, []⟩⟩

theorem read_v2_map_set_parsed (fs : String → Option file_t) (decode : List Nat → map_enemy_t)
    (alloc_grid alloc_ogrid : Bool) (junk : Nat → game_enemies_t) (ojunk : Nat → game_objs_t)
    (j : Nat) (m m1 : parsed_map_t) (o o1 : parsed_objs_t)
    (h : read_v2_map_set fs decode alloc_grid alloc_ogrid junk ojunk j m o = some (0, m1, o1)) :
    m1.data.length = m1.map_count * m1.variation_count ∧ o1.data.length = m1.data.length ∧
      ∀ x ∈ m1.data, ∃ en g, parse_map true en g 1 0 = some (0, x) := by
  cases hrow : maps[0]? with
  | none => unfold read_v2_map_set at h; rw [hrow] at h; cases h
  | some row =>
    cases hm : row[j * 2]? with
    | none => unfold read_v2_map_set at h; rw [hrow] at h; simp only [hm] at h; cases h
    | some nmaps =>
      cases hv : row[j * 2 + 1]? with
      | none => unfold read_v2_map_set at h; rw [hrow] at h; simp only [hm, hv] at h; cases h
      | some nvars =>
        cases alloc_grid with
        | false =>
          unfold read_v2_map_set at h
          rw [hrow] at h
          simp [hm, hv] at h
        | true =>
          cases alloc_ogrid with
          | false =>
            unfold read_v2_map_set at h
            rw [hrow] at h
            simp [hm, hv] at h
          | true =>
            rw [read_v2_map_set_eq fs decode junk ojunk j m o row nmaps nvars hrow hm hv] at h
            simp only [Option.map_eq_some', Prod.mk.injEq] at h
            obtain ⟨⟨rv, tmp'⟩, hloop, hrv, rfl, rfl⟩ := h
            simp only at hrv
            subst hrv
            rw [List.range_eq_range'] at hloop
            obtain ⟨r1, r2, _⟩ := slot_loop_range (read_v2_slot fs decode j) nvars
              (nmaps * nvars) 0
              ((List.range' 0 (nmaps * nvars)).map fun n => (junk n, ojunk n)) 0 tmp'
              (by simp) hloop
            have hlen : tmp'.length = nmaps * nvars := by simpa using r1
            refine ⟨by simpa using hlen, by simp, ?_⟩
            intro x hx
            simp only [List.mem_map] at hx
            obtain ⟨p, hp, rfl⟩ := hx
            obtain ⟨n, hn, hxn⟩ := List.getElem_of_mem hp
            obtain ⟨cur, g, _, c2, c3⟩ := r2
              (fun k l cur g => read_v2_slot_failed _ _ _ _ _ _ _) rfl n (Nat.zero_le _)
              (by omega)
            rw [List.getElem?_eq_getElem hn, hxn, Option.some.injEq] at c3
            subst c3
            obtain ⟨fp, _, _, f3⟩ := read_v2_slot_loaded _ _ _ _ _ _ _ c2
            exact ⟨_, _, (parse_map_zero _ _ _ _ _ _ f3).2 ⟨0, []⟩⟩

/-- Claim C25.  (1) For a catalog and an in-bounds selection as in C1, if
every enemy set stored in the populated areas that the session reads is an
output of `parse_map` for the episode of the session and alt = 0, then, for
every difficulty and event, `bb_load_game_enemies` returns 0 and no slot of
the list it installs has `rt_index` 0xFF.  (2) For a legacy catalog and an
in-bounds selection as in C14, if every stored enemy set of the populated
areas is an output of `parse_map` for ep = 1 and alt = 0, then
`v2_load_game_enemies` returns 0 and no slot of the enemy list it installs
has `rt_index` 0xFF.  (3) The entries that a successful call of
`read_bb_map_set(solo, i, j)` or of `read_v2_map_set(j)` leaves in the grid
of the area are such outputs, for ep = i + 1 and for ep = 1. -/
theorem sentinel_never_reaches_session (K : lobby_consts) (l : lobby_t) :
    (∀ (cat : Nat → Nat → Nat → parsed_map_t),
      (1 ≤ l.episode ∧ l.episode ≤ 3) →
      selection_ok l.maps (bb_area K cat l) →
      selected_total l.maps (bb_area K cat l) < 4294967296 →
      (∀ k ∈ populated (bb_area K cat l), ∀ x ∈ (bb_area K cat l k).data,
        ∃ en g, parse_map true en g (l.episode : Int) 0 = some (0, x)) →
      ∃ l1 out, bb_load_game_enemies K cat true true l = some (0, l1) ∧
        l1.map_enemies = some out ∧ ∀ e ∈ out.enemies, e.rt_index ≠ 0xFF) ∧
    (∀ (vm : Nat → parsed_map_t) (vo : Nat → parsed_objs_t),
      v2_selection_ok l.maps vm vo →
      selected_total l.maps vm < 4294967296 →
      selected_obj_total l.maps vm vo < 4294967296 →
      (∀ k ∈ populated vm, ∀ x ∈ (vm k).data,
        ∃ en g, parse_map true en g 1 0 = some (0, x)) →
      ∃ l1 out, v2_load_game_enemies vm vo true true true true l = some (0, l1) ∧
        l1.map_enemies = some out ∧ ∀ e ∈ out.enemies, e.rt_index ≠ 0xFF) ∧
    (∀ (fs : String → Option file_t) (decode : List Nat → map_enemy_t) (a1 a2 : Bool)
      (junk : Nat → game_enemies_t) (ojunk : Nat → game_objs_t) (solo i j : Nat)
      (m m1 : parsed_map_t) (o o1 : parsed_objs_t),
      (read_bb_map_set fs decode a1 junk solo i j m = some (0, m1) →
        ∀ x ∈ m1.data, ∃ en g, parse_map true en g ((i : Int) + 1) 0 = some (0, x)) ∧
      (read_v2_map_set fs decode a1 a2 junk ojunk j m o = some (0, m1, o1) →
        ∀ x ∈ m1.data, ∃ en g, parse_map true en g 1 0 = some (0, x))) := by
  refine ⟨?_, ?_, ?_⟩
  · intro cat hep hsel hsum hparsed
    refine ⟨_, _, bb_load_ok K cat l hep hsel hsum, rfl, ?_⟩
    intro e he
    simp only [List.mem_map] at he
    obtain ⟨e0, he0, rfl⟩ := he
    obtain ⟨k, hk, hmem⟩ := selected_slots_mem _ _ _ he0
    obtain ⟨hb, hg⟩ := hsel k hk
    obtain ⟨en, g, hp⟩ := hparsed k hk _ (selected_lookup l.maps _ k hb hg).2
    apply bb_fixup_no_sentinel
    intro hrt
    rcases parse_map_out_rt hp rfl e0 hmem with hle | ⟨_, hbp, _⟩
    · rw [hrt] at hle; exact absurd hle (by decide)
    · exact hbp
  · intro vm vo hsel hsum hosum hparsed
    refine ⟨_, _, v2_load_ok vm vo l hsel hsum hosum, rfl, ?_⟩
    intro e he
    simp only [List.mem_map] at he
    obtain ⟨e0, he0, rfl⟩ := he
    obtain ⟨k, hk, hmem⟩ := selected_slots_mem _ _ _ he0
    obtain ⟨hb, hg⟩ := hsel.1 k hk
    obtain ⟨en, g, hp⟩ := hparsed k hk _ (selected_lookup l.maps _ k hb hg).2
    rw [v2_fixup_rt]
    intro hrt
    rcases parse_map_out_rt hp rfl e0 hmem with hle | ⟨_, _, r, _, hd⟩
    · rw [hrt] at hle; exact absurd hle (by decide)
    · exact hd.2.2.1 rfl
  · intro fs decode a1 a2 junk ojunk solo i j m m1 o o1
    exact ⟨fun h => (read_bb_map_set_parsed fs decode a1 junk solo i j m m1 h).2,
      fun h => (read_v2_map_set_parsed fs decode a1 a2 junk ojunk j m m1 o o1 h).2.2⟩

/-- Claim C25 at a concrete input: a session of episode 2 over a catalog
whose only entry, in area 0, is the translation of a Hildebear and an
odd-skin Rappy, which carries the sentinel in the catalog; in the installed
list its `rt_index` is 51. -/
theorem sentinel_never_reaches_session_witness :
    bb_installed demo_consts
        (fun _ _ k => if k = 0 then ⟨1, 1, [⟨2, [⟨0x49, 0x01⟩, ⟨0x19, 0xFF⟩]⟩]⟩ else ⟨0, 0, []⟩)
        { demo_lobby 0 0 (demo_maps 0 0 0 0) with episode := 2 }
      = some (0, some ⟨2, [⟨0x49, 0x01⟩, ⟨0x19, 51⟩]⟩) ∧
    ∃ l1 out, bb_load_game_enemies demo_consts
        (fun _ _ k => if k = 0 then ⟨1, 1, [⟨2, [⟨0x49, 0x01⟩, ⟨0x19, 0xFF⟩]⟩]⟩ else ⟨0, 0, []⟩)
        true true { demo_lobby 0 0 (demo_maps 0 0 0 0) with episode := 2 } = some (0, l1) ∧
      l1.map_enemies = some out ∧ ∀ e ∈ out.enemies, e.rt_index ≠ 0xFF :=
  ⟨by decide,
    (sentinel_never_reaches_session demo_consts
      { demo_lobby 0 0 (demo_maps 0 0 0 0) with episode := 2 }).1
      (fun _ _ k => if k = 0 then ⟨1, 1, [⟨2, [⟨0x49, 0x01⟩, ⟨0x19, 0xFF⟩]⟩]⟩ else ⟨0, 0, []⟩)
      (by decide) (by decide) (by decide)
      (by
        intro k hk x hx
        have hk0 : k = 0 := by
          have : populated (bb_area demo_consts
            (fun _ _ k => if k = 0 then ⟨1, 1, [⟨2, [⟨0x49, 0x01⟩, ⟨0x19, 0xFF⟩]⟩]⟩
              else ⟨0, 0, []⟩)
            { demo_lobby 0 0 (demo_maps 0 0 0 0) with episode := 2 }) = [0] := by decide
          rw [this] at hk
          simpa using hk
        subst hk0
        have hx0 : x = ⟨2, [⟨0x49, 0x01⟩, ⟨0x19, 0xFF⟩]⟩ := by
          simpa [bb_area] using hx
        subst hx0
        exact ⟨[⟨0x0040, 0, 0, 0⟩, ⟨0x0041, 0, 0, 1⟩], ⟨0, []⟩, by decide⟩)⟩

/-! ## The legacy catalog as state -/

theorem v2_free_loop_frame : ∀ (ks : List Nat) (vm : Nat → parsed_map_t)
    (r : List v2_freed_t × (Nat → parsed_map_t)), v2_free_loop ks vm = some r →
    (∀ k ∈ ks, r.2 k = ⟨0, 0, []⟩) ∧ (∀ k, k ∉ ks → r.2 k = vm k) := by
  intro ks
  induction ks with
  | nil =>
    intro vm r h
    simp only [v2_free_loop, Option.some.injEq] at h
    subst h
    exact ⟨fun k hk => absurd hk (List.not_mem_nil _), fun _ _ => rfl⟩
  | cons k rest ih =>
    intro vm r h
    rw [v2_free_loop] at h
    obtain ⟨r1, h1, h2⟩ := Option.bind_eq_some.mp h
    obtain ⟨r2, h3, rfl⟩ := Option.map_eq_some'.mp h2
    obtain ⟨i1, i2⟩ := ih _ r2 h3
    have hz : r1.2 = ⟨0, 0, []⟩ := by
      unfold v2_free_area at h1
      split_ifs at h1
      simp only [Option.some.injEq] at h1
      rw [← h1]
    constructor
    · intro x hx
      by_cases hxr : x ∈ rest
      · exact i1 x hxr
      · have hxk : x = k := by
          rcases List.mem_cons.mp hx with h | h
          · exact h
          · exact absurd h hxr
        simp only
        rw [i2 x hxr, if_pos hxk, hz]
    · intro x hx
      have hxk : x ≠ k := fun hc => hx (hc ▸ List.mem_cons_self _ _)
      have hxr : x ∉ rest := fun hc => hx (List.mem_cons_of_mem _ hc)
      simp only
      rw [i2 x hxr, if_neg hxk]

theorem read_v2_map_loop_ok (E : v2_env) : ∀ (js : List Nat) (st st1 : v2_state) (rv : Int),
    js.Nodup → read_v2_map_loop E js st = some (rv, st1) →
    st1.have_v2_maps = st.have_v2_maps ∧
      (∀ x, x ∉ js → st1.v2_parsed_maps x = st.v2_parsed_maps x ∧
        st1.v2_parsed_objs x = st.v2_parsed_objs x) ∧
      (rv = 0 → ∀ j ∈ js,
        read_v2_map_set E.fs E.decode (E.alloc_grid j) (E.alloc_ogrid j) (E.junk j) (E.ojunk j)
          j (st.v2_parsed_maps j) (st.v2_parsed_objs j)
          = some (0, st1.v2_parsed_maps j, st1.v2_parsed_objs j)) := by
  intro js
  induction js with
  | nil =>
    intro st st1 rv _ h
    simp only [read_v2_map_loop, Option.some.injEq, Prod.mk.injEq] at h
    obtain ⟨_, rfl⟩ := h
    exact ⟨rfl, fun _ _ => ⟨rfl, rfl⟩, fun _ j hj => absurd hj (List.not_mem_nil _)⟩
  | cons j rest ih =>
    intro st st1 rv hnd h
    rw [read_v2_map_loop] at h
    obtain ⟨hj, hnd1⟩ := List.nodup_cons.mp hnd
    cases hr : read_v2_map_set E.fs E.decode (E.alloc_grid j) (E.alloc_ogrid j) (E.junk j)
        (E.ojunk j) j (st.v2_parsed_maps j) (st.v2_parsed_objs j) with
    | none => rw [hr] at h; cases h
    | some r =>
      obtain ⟨srv, m1, o1⟩ := r
      rw [hr] at h
      simp only at h
      by_cases hs : srv ≠ 0
      · rw [if_pos hs] at h
        simp only [Option.some.injEq, Prod.mk.injEq] at h
        obtain ⟨rfl, rfl⟩ := h
        refine ⟨rfl, ?_, fun h0 => absurd h0 hs⟩
        intro x hx
        have hxj : x ≠ j := fun hc => hx (hc ▸ List.mem_cons_self _ _)
        simp only [if_neg hxj, and_self]
      · rw [if_neg hs] at h
        have hs0 : srv = 0 := by simpa using hs
        subst hs0
        obtain ⟨i1, i2, i3⟩ := ih _ st1 rv hnd1 h
        refine ⟨i1, ?_, ?_⟩
        · intro x hx
          have hxj : x ≠ j := fun hc => hx (hc ▸ List.mem_cons_self _ _)
          have hxr : x ∉ rest := fun hc => hx (List.mem_cons_of_mem _ hc)
          have := i2 x hxr
          simp only [if_neg hxj] at this
          exact this
        · intro h0 x hx
          rcases List.mem_cons.mp hx with hxj | hxr
          · subst hxj
            have := i2 x hj
            simp only [if_true] at this
            rw [hr, this.1, this.2]
          · have hxj : x ≠ j := fun hc => hj (hc ▸ hxr)
            have := i3 h0 x hxr
            simp only [if_neg hxj] at this
            exact this

/-- Claim C21, the code against the claim.  Whenever `v2_free_params`
returns, the sixteen entries of `v2_parsed_maps` are all-zero with no data
attached, but `v2_parsed_objs` is what it was before the call, and so is the
flag `have_v2_maps`: the function names the enemy catalog only.  At the
failing input, the state in which area 0 was loaded by `read_v2_map_set(0)`
from one enemy file and one object file, the call frees the enemy blocks of
the sixteen areas and no object block, and afterwards the object entry of
area 0 still has `map_count = 1`, `variation_count = 1` and its grid
attached. -/
theorem v2_free_params_keeps_objs :
    (∀ st : v2_state,
      match v2_free_params st with
      | none => True
      | some r =>
        (List.range 0x10).map r.2.v2_parsed_maps = List.replicate 0x10 ⟨0, 0, []⟩ ∧
          r.2.v2_parsed_objs = st.v2_parsed_objs ∧ r.2.have_v2_maps = st.have_v2_maps) ∧
    read_v2_map_set demo_v2_fs demo_decode true true (fun _ => ⟨7, []⟩) (fun _ => ⟨7, []⟩) 0
        ⟨0, 0, []⟩ ⟨0, 0, []⟩
      = some (0, demo_v2_loaded.v2_parsed_maps 0, demo_v2_loaded.v2_parsed_objs 0) ∧
    (v2_free_params demo_v2_loaded).map
        (fun r => (r.1, (List.range 0x10).map r.2.v2_parsed_maps, r.2.v2_parsed_objs 0,
          map_have_v2_maps r.2))
      = some (v2_freed_t.enemies 0 0 :: (List.range 0x10).map v2_freed_t.data,
          List.replicate 0x10 ⟨0, 0, []⟩, ⟨1, 1, [⟨1, [⟨List.replicate 0x44 0⟩]⟩]⟩, 1) := by
  refine ⟨?_, by set_option maxRecDepth 1000000 in decide,
    by set_option maxRecDepth 1000000 in decide⟩
  intro st
  cases h : v2_free_params st with
  | none => trivial
  | some r =>
    simp only
    unfold v2_free_params at h
    obtain ⟨r1, h1, rfl⟩ := Option.map_eq_some'.mp h
    obtain ⟨i1, _⟩ := v2_free_loop_frame _ _ _ h1
    refine ⟨?_, rfl, rfl⟩
    simp only
    apply List.ext_getElem
    · simp
    · intro n hn1 hn2
      simp only [List.length_map, List.length_range] at hn1
      simp only [List.getElem_map, List.getElem_range, List.getElem_replicate]
      exact i1 n (List.mem_range.mpr hn1)

/-- Claim C24.  Starting from the flag at 0, whenever `v2_read_params`
returns `rv`: `map_have_v2_maps()` is 1 afterwards if and only if `rv = 0`;
on every non-zero return the flag is what it was before the call; and
`rv = 0` holds only if the directory was named, the allocation, `getcwd` and
both calls of `chdir` succeeded (the working directory restored) and every
call `read_v2_map_set(j)`, for the areas 0 to 0x0E, returned 0, leaving in
the state the enemy and object entries it built. -/
theorem v2_flag_iff_success (S : sys_t) (E : v2_env) (st st1 : v2_state) (rv : Int)
    (h0 : st.have_v2_maps = 0) (h : v2_read_params S E st = some (rv, st1)) :
    (map_have_v2_maps st1 = 1 ↔ rv = 0) ∧
      (rv ≠ 0 → st1.have_v2_maps = st.have_v2_maps) ∧
      (rv = 0 →
        (S.has_dirs = true ∧ S.alloc_buf = true ∧ S.getcwd_ok = true ∧ S.chdir_ok = true ∧
          S.chdir_back_ok = true) ∧
        ∀ j, j ≤ 0x0E →
          read_v2_map_set E.fs E.decode (E.alloc_grid j) (E.alloc_ogrid j) (E.junk j)
            (E.ojunk j) j (st.v2_parsed_maps j) (st.v2_parsed_objs j)
            = some (0, st1.v2_parsed_maps j, st1.v2_parsed_objs j)) := by
  unfold v2_read_params at h
  unfold map_have_v2_maps
  by_cases c1 : S.has_dirs = false
  · rw [if_pos c1] at h; cases h; simp [h0]
  rw [if_neg c1] at h
  by_cases c2 : S.alloc_buf = false
  · rw [if_pos c2] at h; cases h; simp [h0]
  rw [if_neg c2] at h
  by_cases c3 : S.getcwd_ok = false
  · rw [if_pos c3] at h; cases h; simp [h0]
  rw [if_neg c3] at h
  by_cases c4 : S.chdir_ok = false
  · rw [if_pos c4] at h; cases h; simp [h0]
  rw [if_neg c4] at h
  cases hf : read_v2_map_files E st with
  | none => rw [hf] at h; cases h
  | some r =>
    obtain ⟨rv1, st2⟩ := r
    rw [hf] at h
    simp only at h
    have hjs : (List.range 16).takeWhile (fun j => decide (j ≤ 0x0E)) = List.range 15 := by
      decide
    have hloop : read_v2_map_loop E (List.range 15) st = some (rv1, st2) := by
      unfold read_v2_map_files at hf
      simp only [max_area, List.getElem?_cons_zero] at hf
      rw [hjs] at hf
      exact hf
    obtain ⟨k1, _, k3⟩ := read_v2_map_loop_ok E _ _ _ _ (List.nodup_range 15) hloop
    by_cases c5 : S.chdir_back_ok = false
    · rw [if_pos c5] at h; cases h; simp [k1, h0]
    rw [if_neg c5] at h
    by_cases c6 : rv1 ≠ 0
    · rw [if_pos c6] at h
      cases h
      simp [k1, h0, c6]
    · rw [if_neg c6] at h
      have hz : rv1 = 0 := by simpa using c6
      cases h
      refine ⟨by simp [hz], fun hne => absurd hz hne, fun _ => ⟨⟨?_, ?_, ?_, ?_, ?_⟩, ?_⟩⟩
      · simpa using c1
      · simpa using c2
      · simpa using c3
      · simpa using c4
      · simpa using c5
      · intro j hj
        exact k3 hz j (List.mem_range.mpr (by omega))

/-- Claim C24 at a concrete input: with every file present and empty and
every system call succeeding, `v2_read_params` returns 0 and sets the
flag. -/
theorem v2_flag_iff_success_witness :
    v2_state.init.have_v2_maps = 0 ∧
      v2_read_params demo_sys demo_v2_env v2_state.init = some (0, demo_v2_result) ∧
      (map_have_v2_maps demo_v2_result = 1 ↔ (0 : Int) = 0) ∧
      map_have_v2_maps demo_v2_result = 1 :=
  ⟨rfl, by set_option maxRecDepth 1000000 in rfl,
    (v2_flag_iff_success demo_sys demo_v2_env v2_state.init demo_v2_result 0 rfl
      (by set_option maxRecDepth 1000000 in rfl)).1,
    by set_option maxRecDepth 1000000 in decide⟩

/-! ## The status of `bb_read_params` -/

theorem read_blocks_code (sz : Nat) (ns : List Nat) :
    ∀ (stream dst dst' : List Nat),
      (read_blocks sz ns stream dst).1 = (read_blocks sz ns stream dst').1 ∧
        ((read_blocks sz ns stream dst).1 = 0 ∨ (read_blocks sz ns stream dst).1 = 1) := by
  induction ns with
  | nil => intro stream dst dst'; exact ⟨rfl, Or.inl rfl⟩
  | cons n rest ih =>
    intro stream dst dst'
    unfold read_blocks
    by_cases hs : (stream.take sz).length ≠ sz
    · rw [if_pos hs, if_pos hs]; exact ⟨rfl, Or.inr rfl⟩
    · rw [if_neg hs, if_neg hs]
      exact ih (stream.drop sz) (fread_at sz n stream dst) (fread_at sz n stream dst')

theorem read_param_file_code (ROW : Nat) (file : Option (List Nat)) (dst dst' : List Nat) :
    (read_param_file ROW dst file).1 = (read_param_file ROW dst' file).1 ∧
      ((read_param_file ROW dst file).1 = 0 ∨ (read_param_file ROW dst file).1 = 1) := by
  cases file with
  | none => exact ⟨rfl, Or.inr rfl⟩
  | some bytes => exact read_blocks_code (0x60 * ROW) [0, 1, 2, 3] bytes dst dst'

theorem read_level_data_code (SIZE : Nat) (prs : prs_t) (junk : Nat → Nat)
    (file : Option raw_file_t) (alloc_buf2 : Bool) (cs cs1 : List Nat) (c : Int)
    (h : read_level_data SIZE prs junk file alloc_buf2 cs = some (c, cs1)) :
    c = 0 ∨ c = 1 ∨ c = -200 := by
  unfold read_level_data at h
  cases file with
  | none =>
    simp only [Option.some.injEq, Prod.mk.injEq] at h
    exact Or.inr (Or.inl h.1.symm)
  | some fp =>
    simp only at h
    split_ifs at h <;> simp only [Option.some.injEq, Prod.mk.injEq] at h
    · exact Or.inr (Or.inr h.1.symm)
    · exact Or.inr (Or.inl h.1.symm)
    · exact Or.inr (Or.inr h.1.symm)
    · exact Or.inl h.1.symm

theorem read_level_data_frame (SIZE : Nat) (prs : prs_t) (junk : Nat → Nat)
    (file : Option raw_file_t) (alloc_buf2 : Bool) (cs cs' : List Nat) :
    (read_level_data SIZE prs junk file alloc_buf2 cs).map Prod.fst
      = (read_level_data SIZE prs junk file alloc_buf2 cs').map Prod.fst := by
  unfold read_level_data
  cases file with
  | none => rfl
  | some fp =>
    simp only
    split_ifs <;> rfl

theorem read_param_files_eq (E : bb_env) (jobs : List (Nat × Nat × String)) :
    ∀ (rv : Int) (st : bb_state),
      (read_param_files E jobs rv st).1
          = rv + (jobs.map fun job =>
              (read_param_file E.ROW (st.battle_params job.1 job.2.1)
                (E.param_files job.2.2)).1).sum ∧
        (read_param_files E jobs rv st).2.char_stats = st.char_stats ∧
        (read_param_files E jobs rv st).2.bb_parsed_maps = st.bb_parsed_maps ∧
        (read_param_files E jobs rv st).2.log = st.log := by
  induction jobs with
  | nil => intro rv st; exact ⟨by simp [read_param_files], rfl, rfl, rfl⟩
  | cons job rest ih =>
    intro rv st
    obtain ⟨s, e, fn⟩ := job
    unfold read_param_files
    obtain ⟨h1, h2, h3, h4⟩ := ih
      (rv + (read_param_file E.ROW (st.battle_params s e) (E.param_files fn)).1)
      { st with battle_params := fun a b =>
          if a = s ∧ b = e then
            (read_param_file E.ROW (st.battle_params s e) (E.param_files fn)).2
          else st.battle_params a b }
    refine ⟨?_, h2, h3, h4⟩
    rw [h1, List.map_cons, List.sum_cons, Int.add_assoc]
    congr 2
    refine congrArg List.sum (List.map_congr_left ?_)
    intro job _
    exact (read_param_file_code E.ROW (E.param_files job.2.2) _ _).1

theorem read_bb_map_loop_frame (E : bb_env) (jobs : List (Nat × Nat × Nat)) :
    ∀ (st st1 : bb_state) (rv : Int), read_bb_map_loop E jobs st = some (rv, st1) →
      st1.log = st.log ∧ st1.char_stats = st.char_stats ∧
        st1.battle_params = st.battle_params := by
  induction jobs with
  | nil =>
    intro st st1 rv h
    simp only [read_bb_map_loop, Option.some.injEq, Prod.mk.injEq] at h
    rw [← h.2]; exact ⟨rfl, rfl, rfl⟩
  | cons job rest ih =>
    intro st st1 rv h
    obtain ⟨solo, i, j⟩ := job
    unfold read_bb_map_loop at h
    cases hr : read_bb_map_set E.fs E.decode (E.alloc_grid solo i j) (E.junk solo i j) solo i j
        (st.bb_parsed_maps solo i j) with
    | none => rw [hr] at h; cases h
    | some r =>
      obtain ⟨srv, m1⟩ := r
      rw [hr] at h
      simp only at h
      by_cases h0 : srv ≠ 0
      · rw [if_pos h0] at h
        simp only [Option.some.injEq, Prod.mk.injEq] at h
        rw [← h.2]; exact ⟨rfl, rfl, rfl⟩
      · rw [if_neg h0] at h
        have hi := ih _ st1 rv h
        exact hi

theorem sum_codes (l : List Int) (h : ∀ c ∈ l, c = 0 ∨ c = 1) :
    0 ≤ l.sum ∧ l.sum ≤ l.length ∧ (l.sum = 0 ↔ ∀ c ∈ l, c = 0) := by
  induction l with
  | nil => simp
  | cons a rest ih =>
    obtain ⟨i1, i2, i3⟩ := ih fun c hc => h c (List.mem_cons_of_mem a hc)
    have ha := h a (List.mem_cons_self a rest)
    rw [List.sum_cons, List.length_cons]
    refine ⟨by omega, by push_cast; omega, ?_⟩
    constructor
    · intro hs c hc
      have hr : rest.sum = 0 := by omega
      have ha0 : a = 0 := by omega
      rcases List.mem_cons.mp hc with rfl | hc
      · exact ha0
      · exact i3.mp hr c hc
    · intro hall
      have ha0 : a = 0 := hall a (List.mem_cons_self a rest)
      have hr : rest.sum = 0 := i3.mpr fun c hc => hall c (List.mem_cons_of_mem a hc)
      omega

theorem param_codes_range (E : bb_env) (st : bb_state) :
    ∀ c ∈ param_codes E st, c = 0 ∨ c = 1 := by
  intro c hc
  obtain ⟨job, _, rfl⟩ := List.mem_map.mp hc
  exact (read_param_file_code E.ROW (E.param_files job.2.2) _ []).2

theorem status_zero_iff (E : bb_env) (st : bb_state) (c7 : Int)
    (h7 : c7 = 0 ∨ c7 = 1 ∨ c7 = -200) :
    (param_codes E st).sum + c7 = 0 ↔ (∀ c ∈ param_codes E st, c = 0) ∧ c7 = 0 := by
  obtain ⟨i1, i2, i3⟩ := sum_codes (param_codes E st) (param_codes_range E st)
  have hl : ((param_codes E st).length : Int) = 6 := by
    simp [param_codes, param_jobs]
  constructor
  · intro hs
    have h70 : c7 = 0 := by omega
    exact ⟨i3.mp (by omega), h70⟩
  · rintro ⟨hall, h70⟩
    have := i3.mpr hall
    omega

theorem bb_read_params_phase (E : bb_env) (st : bb_state) :
    (read_param_files E param_jobs 0 (st.logged msg_params)).1 = (param_codes E st).sum ∧
      level_code E ((read_param_files E param_jobs 0 (st.logged msg_params)).2.logged msg_level)
        = level_code E st := by
  obtain ⟨h1, h2, _, _⟩ := read_param_files_eq E param_jobs 0 (st.logged msg_params)
  refine ⟨?_, ?_⟩
  · rw [h1, Int.zero_add]; rfl
  · exact read_level_data_frame _ _ _ _ _ _ _

theorem bb_read_params_eq (S : sys_t) (E : bb_env) (st : bb_state)
    (hd : S.has_dirs = true) (ha : S.alloc_buf = true) (hg : S.getcwd_ok = true)
    (hc : S.chdir_ok = true) :
    ∃ st2 : bb_state, st2.log = st.log ++ [msg_params, msg_level] ∧
      st2.bb_parsed_maps = st.bb_parsed_maps ∧
      bb_read_params S E st =
        match read_level_data E.SIZE E.prs E.level_junk (E.level_files "PlyLevelTbl.prs")
            E.alloc_buf2 st2.char_stats with
        | none => none
        | some (c, cs) =>
          if S.chdir_back_ok = false then some (-1, { st2 with char_stats := cs })
          else if (param_codes E st).sum + c ≠ 0 then
            some ((param_codes E st).sum + c, { st2 with char_stats := cs })
          else if S.chdir_maps_ok = false then some (1, { st2 with char_stats := cs })
          else
            match read_bb_map_files E
                (bb_state.logged { st2 with char_stats := cs } msg_maps) with
            | none => none
            | some (rv, st4) =>
              if S.chdir_back2_ok = false then some (-1, st4) else some (rv, st4) := by
  obtain ⟨h1, _, h3, h4⟩ := read_param_files_eq E param_jobs 0 (st.logged msg_params)
  refine ⟨(read_param_files E param_jobs 0 (st.logged msg_params)).2.logged msg_level, ?_, h3, ?_⟩
  · show (read_param_files E param_jobs 0 (st.logged msg_params)).2.log ++ [msg_level] = _
    rw [h4]
    show (st.log ++ [msg_params]) ++ [msg_level] = _
    rw [List.append_assoc]; rfl
  · have hp := (bb_read_params_phase E st).1
    unfold bb_read_params
    rw [if_neg (by rw [hd]; exact Bool.noConfusion), if_neg (by rw [ha]; exact Bool.noConfusion),
      if_neg (by rw [hg]; exact Bool.noConfusion), if_neg (by rw [hc]; exact Bool.noConfusion)]
    simp only [hp]

theorem log_two_ne (l : List String) (a b c : String) : l ++ [a, b] ≠ l ++ [a, b, c] := by
  intro h
  have := congrArg List.length h
  simp at this

theorem log_zero_ne (l : List String) (a b c : String) : l ≠ l ++ [a, b, c] := by
  intro h
  have := congrArg List.length h
  simp at this

theorem bb_read_params_log (S : sys_t) (E : bb_env) (st st1 : bb_state) (rv : Int)
    (h : bb_read_params S E st = some (rv, st1)) :
    (st1.log = st.log ∨ st1.log = st.log ++ [msg_params, msg_level] ∨
        st1.log = st.log ++ [msg_params, msg_level, msg_maps]) ∧
      (st1.log = st.log ++ [msg_params, msg_level, msg_maps] ∨
          st1.bb_parsed_maps ≠ st.bb_parsed_maps →
        (∀ c ∈ param_codes E st, c = 0) ∧ level_code E st = some 0) := by
  have early : st1 = st →
      (st1.log = st.log ∨ st1.log = st.log ++ [msg_params, msg_level] ∨
        st1.log = st.log ++ [msg_params, msg_level, msg_maps]) ∧
      (st1.log = st.log ++ [msg_params, msg_level, msg_maps] ∨
          st1.bb_parsed_maps ≠ st.bb_parsed_maps →
        (∀ c ∈ param_codes E st, c = 0) ∧ level_code E st = some 0) := by
    intro e
    subst e
    refine ⟨Or.inl rfl, ?_⟩
    rintro (hl | hm)
    · exact absurd hl (log_zero_ne _ _ _ _)
    · exact absurd rfl hm
  by_cases hd : S.has_dirs = false
  · unfold bb_read_params at h
    rw [if_pos hd] at h
    simp only [Option.some.injEq, Prod.mk.injEq] at h
    exact early h.2.symm
  by_cases ha : S.alloc_buf = false
  · unfold bb_read_params at h
    rw [if_neg hd, if_pos ha] at h
    simp only [Option.some.injEq, Prod.mk.injEq] at h
    exact early h.2.symm
  by_cases hg : S.getcwd_ok = false
  · unfold bb_read_params at h
    rw [if_neg hd, if_neg ha, if_pos hg] at h
    simp only [Option.some.injEq, Prod.mk.injEq] at h
    exact early h.2.symm
  by_cases hc : S.chdir_ok = false
  · unfold bb_read_params at h
    rw [if_neg hd, if_neg ha, if_neg hg, if_pos hc] at h
    simp only [Option.some.injEq, Prod.mk.injEq] at h
    exact early h.2.symm
  obtain ⟨st2, hl, hm, he⟩ := bb_read_params_eq S E st (by simpa using hd) (by simpa using ha)
    (by simpa using hg) (by simpa using hc)
  rw [he] at h
  have hlev : level_code E st
      = (read_level_data E.SIZE E.prs E.level_junk (E.level_files "PlyLevelTbl.prs")
          E.alloc_buf2 st2.char_stats).map Prod.fst := read_level_data_frame _ _ _ _ _ _ _
  cases hr : read_level_data E.SIZE E.prs E.level_junk (E.level_files "PlyLevelTbl.prs")
      E.alloc_buf2 st2.char_stats with
  | none => rw [hr] at h; cases h
  | some r =>
    obtain ⟨c, cs⟩ := r
    rw [hr] at h hlev
    simp only at h
    have hrange := read_level_data_code _ _ _ _ _ _ _ _ hr
    have bail : st1 = { st2 with char_stats := cs } →
        (st1.log = st.log ∨ st1.log = st.log ++ [msg_params, msg_level] ∨
          st1.log = st.log ++ [msg_params, msg_level, msg_maps]) ∧
        (st1.log = st.log ++ [msg_params, msg_level, msg_maps] ∨
            st1.bb_parsed_maps ≠ st.bb_parsed_maps →
          (∀ c ∈ param_codes E st, c = 0) ∧ level_code E st = some 0) := by
      intro e
      have e1 : st1.log = st.log ++ [msg_params, msg_level] := by rw [e]; exact hl
      have e2 : st1.bb_parsed_maps = st.bb_parsed_maps := by rw [e]; exact hm
      refine ⟨Or.inr (Or.inl e1), ?_⟩
      rintro (hl3 | hm3)
      · rw [e1] at hl3; exact absurd hl3 (log_two_ne _ _ _ _)
      · exact absurd e2 hm3
    by_cases hb : S.chdir_back_ok = false
    · rw [if_pos hb] at h
      simp only [Option.some.injEq, Prod.mk.injEq] at h
      exact bail h.2.symm
    rw [if_neg hb] at h
    by_cases hs : (param_codes E st).sum + c ≠ 0
    · rw [if_pos hs] at h
      simp only [Option.some.injEq, Prod.mk.injEq] at h
      exact bail h.2.symm
    rw [if_neg hs] at h
    have hz := (status_zero_iff E st c hrange).mp (not_not.mp hs)
    have hall : (∀ c ∈ param_codes E st, c = 0) ∧ level_code E st = some 0 := by
      refine ⟨hz.1, ?_⟩
      rw [hlev, hz.2]; rfl
    by_cases hmd : S.chdir_maps_ok = false
    · rw [if_pos hmd] at h
      simp only [Option.some.injEq, Prod.mk.injEq] at h
      exact ⟨(bail h.2.symm).1, fun _ => hall⟩
    rw [if_neg hmd] at h
    refine ⟨Or.inr (Or.inr ?_), fun _ => hall⟩
    cases hf : read_bb_map_files E (bb_state.logged { st2 with char_stats := cs } msg_maps) with
    | none => rw [hf] at h; cases h
    | some r4 =>
      obtain ⟨rv4, st4⟩ := r4
      rw [hf] at h
      simp only at h
      have hfr := (read_bb_map_loop_frame E bb_map_jobs _ st4 rv4 hf).1
      have e4 : st4.log = st.log ++ [msg_params, msg_level, msg_maps] := by
        rw [hfr]
        show st2.log ++ [msg_maps] = _
        rw [hl, List.append_assoc]; rfl
      by_cases hb2 : S.chdir_back2_ok = false
      · rw [if_pos hb2] at h
        simp only [Option.some.injEq, Prod.mk.injEq] at h
        rw [← h.2]; exact e4
      · rw [if_neg hb2] at h
        simp only [Option.some.injEq, Prod.mk.injEq] at h
        rw [← h.2]; exact e4

theorem bb_read_params_bail (S : sys_t) (E : bb_env) (st : bb_state)
    (hd : S.has_dirs = true) (ha : S.alloc_buf = true) (hg : S.getcwd_ok = true)
    (hc : S.chdir_ok = true) (hb : S.chdir_back_ok = true) (c7 : Int)
    (h7 : level_code E st = some c7) (hs : (param_codes E st).sum + c7 ≠ 0) :
    ∃ st1, bb_read_params S E st = some ((param_codes E st).sum + c7, st1) ∧
      st1.log = st.log ++ [msg_params, msg_level] ∧
      st1.bb_parsed_maps = st.bb_parsed_maps := by
  obtain ⟨st2, hl, hm, he⟩ := bb_read_params_eq S E st hd ha hg hc
  have hlev : level_code E st
      = (read_level_data E.SIZE E.prs E.level_junk (E.level_files "PlyLevelTbl.prs")
          E.alloc_buf2 st2.char_stats).map Prod.fst := read_level_data_frame _ _ _ _ _ _ _
  cases hr : read_level_data E.SIZE E.prs E.level_junk (E.level_files "PlyLevelTbl.prs")
      E.alloc_buf2 st2.char_stats with
  | none => rw [hr, h7] at hlev; cases hlev
  | some r =>
    obtain ⟨c, cs⟩ := r
    rw [hr, h7] at hlev
    simp only [Option.map_some', Option.some.injEq] at hlev
    subst hlev
    refine ⟨{ st2 with char_stats := cs }, ?_, hl, hm⟩
    rw [he, hr]
    simp only
    rw [if_neg (by rw [hb]; exact Bool.noConfusion), if_pos hs]

theorem bb_read_params_enter (S : sys_t) (E : bb_env) (st st1 : bb_state) (rv : Int)
    (hd : S.has_dirs = true) (ha : S.alloc_buf = true) (hg : S.getcwd_ok = true)
    (hc : S.chdir_ok = true) (hb : S.chdir_back_ok = true) (hmd : S.chdir_maps_ok = true)
    (hall : ∀ c ∈ param_codes E st, c = 0) (h7 : level_code E st = some 0)
    (h : bb_read_params S E st = some (rv, st1)) :
    st1.log = st.log ++ [msg_params, msg_level, msg_maps] := by
  obtain ⟨st2, hl, hm, he⟩ := bb_read_params_eq S E st hd ha hg hc
  rw [he] at h
  have hlev : level_code E st
      = (read_level_data E.SIZE E.prs E.level_junk (E.level_files "PlyLevelTbl.prs")
          E.alloc_buf2 st2.char_stats).map Prod.fst := read_level_data_frame _ _ _ _ _ _ _
  cases hr : read_level_data E.SIZE E.prs E.level_junk (E.level_files "PlyLevelTbl.prs")
      E.alloc_buf2 st2.char_stats with
  | none => rw [hr] at h; cases h
  | some r =>
    obtain ⟨c, cs⟩ := r
    rw [hr, h7] at hlev
    simp only [Option.map_some', Option.some.injEq] at hlev
    subst hlev
    rw [hr] at h
    simp only at h
    have hs : ¬ (param_codes E st).sum + 0 ≠ 0 :=
      not_not.mpr ((status_zero_iff E st 0 (Or.inl rfl)).mpr ⟨hall, rfl⟩)
    rw [if_neg (by rw [hb]; exact Bool.noConfusion), if_neg hs,
      if_neg (by rw [hmd]; exact Bool.noConfusion)] at h
    cases hf : read_bb_map_files E (bb_state.logged { st2 with char_stats := cs } msg_maps) with
    | none => rw [hf] at h; cases h
    | some r4 =>
      obtain ⟨rv4, st4⟩ := r4
      rw [hf] at h
      simp only at h
      have hfr := (read_bb_map_loop_frame E bb_map_jobs _ st4 rv4 hf).1
      have e4 : st4.log = st.log ++ [msg_params, msg_level, msg_maps] := by
        rw [hfr]
        show st2.log ++ [msg_maps] = _
        rw [hl, List.append_assoc]; rfl
      by_cases hb2 : S.chdir_back2_ok = false
      · rw [if_pos hb2] at h
        simp only [Option.some.injEq, Prod.mk.injEq] at h
        rw [← h.2]; exact e4
      · rw [if_neg hb2] at h
        simp only [Option.some.injEq, Prod.mk.injEq] at h
        rw [← h.2]; exact e4

/-- Claim C30: in `bb_read_params`, each of the six return codes of
`read_param_file` is 0 or 1 and the return code of `read_level_data` is 0, 1
or -200, and their sum is zero if and only if all seven are zero.  When the
function reaches the test of that sum and the sum is not zero, it returns the
sum, having logged only the two messages of the parameter phase and left the
catalog `bb_parsed_maps` as it was.  Whenever the function returns, the
message of the map phase has been logged, or the catalog has changed, only if
all seven codes are zero; and when all seven are zero and the changes of
directory succeed, the map phase is entered. -/
theorem param_status_zero_iff (S : sys_t) (E : bb_env) (st : bb_state) :
    (∀ c ∈ param_codes E st, c = 0 ∨ c = 1) ∧
      (∀ c7, level_code E st = some c7 →
        (c7 = 0 ∨ c7 = 1 ∨ c7 = -200) ∧
          ((param_codes E st).sum + c7 = 0 ↔ (∀ c ∈ param_codes E st, c = 0) ∧ c7 = 0)) ∧
      (S.has_dirs = true → S.alloc_buf = true → S.getcwd_ok = true → S.chdir_ok = true →
        S.chdir_back_ok = true →
        ∀ c7, level_code E st = some c7 → (param_codes E st).sum + c7 ≠ 0 →
          ∃ st1, bb_read_params S E st = some ((param_codes E st).sum + c7, st1) ∧
            st1.log = st.log ++ [msg_params, msg_level] ∧
            st1.bb_parsed_maps = st.bb_parsed_maps) ∧
      (∀ rv st1, bb_read_params S E st = some (rv, st1) →
        (st1.log = st.log ++ [msg_params, msg_level, msg_maps] ∨
            st1.bb_parsed_maps ≠ st.bb_parsed_maps →
          (∀ c ∈ param_codes E st, c = 0) ∧ level_code E st = some 0) ∧
        (S.has_dirs = true → S.alloc_buf = true → S.getcwd_ok = true → S.chdir_ok = true →
          S.chdir_back_ok = true → S.chdir_maps_ok = true →
          (∀ c ∈ param_codes E st, c = 0) → level_code E st = some 0 →
          st1.log = st.log ++ [msg_params, msg_level, msg_maps])) := by
  refine ⟨param_codes_range E st, ?_, ?_, ?_⟩
  · intro c7 h7
    have hrange : c7 = 0 ∨ c7 = 1 ∨ c7 = -200 := by
      unfold level_code at h7
      cases hr : read_level_data E.SIZE E.prs E.level_junk (E.level_files "PlyLevelTbl.prs")
          E.alloc_buf2 st.char_stats with
      | none => rw [hr] at h7; cases h7
      | some r =>
        obtain ⟨c, cs⟩ := r
        rw [hr] at h7
        simp only [Option.map_some', Option.some.injEq] at h7
        subst h7
        exact read_level_data_code _ _ _ _ _ _ _ _ hr
    exact ⟨hrange, status_zero_iff E st c7 hrange⟩
  · intro hd ha hg hc hb c7 h7 hs
    exact bb_read_params_bail S E st hd ha hg hc hb c7 h7 hs
  · intro rv st1 h
    refine ⟨(bb_read_params_log S E st st1 rv h).2, ?_⟩
    intro hd ha hg hc hb hmd hall h7
    exact bb_read_params_enter S E st st1 rv hd ha hg hc hb hmd hall h7 h

/-- Claim C30 at a concrete input: with the file `BattleParamEntry_lab.dat`
missing and the six other loads successful, the seven codes are 0, 0, 0, 0,
1, 0 and 0, and `bb_read_params` returns their sum 1 after the two messages of
the parameter phase, with the catalog as it was; with that file present, all
seven codes are zero and the message of the map phase is logged. -/
theorem param_status_zero_iff_witness :
    param_codes demo_bb_env bb_state.init = [0, 0, 0, 0, 1, 0] ∧
      level_code demo_bb_env bb_state.init = some 0 ∧
      (∃ st1, bb_read_params demo_sys demo_bb_env bb_state.init = some (1, st1) ∧
        st1.log = [msg_params, msg_level] ∧
        st1.bb_parsed_maps = bb_state.init.bb_parsed_maps) ∧
      param_codes demo_bb_env_ok bb_state.init = [0, 0, 0, 0, 0, 0] ∧
      bb_read_params demo_sys demo_bb_env_ok bb_state.init = some (2, demo_bb_result) ∧
      demo_bb_result.log = [msg_params, msg_level, msg_maps] :=
  ⟨by set_option maxRecDepth 1000000 in decide, by decide,
    (param_status_zero_iff demo_sys demo_bb_env bb_state.init).2.2.1 rfl rfl rfl rfl rfl 0
      (by decide) (by set_option maxRecDepth 1000000 in decide),
    by set_option maxRecDepth 1000000 in decide,
    by set_option maxRecDepth 1000000 in rfl,
    ((param_status_zero_iff demo_sys demo_bb_env_ok bb_state.init).2.2.2 2 demo_bb_result
      (by set_option maxRecDepth 1000000 in rfl)).2 rfl rfl rfl rfl rfl rfl
      (by set_option maxRecDepth 1000000 in decide) (by decide)⟩

end mapdata
